import Mathlib

/-!
# vcs-to-ics: a shallow embedding of the converter

Go strings are byte sequences.  A byte is represented by its value as a natural
number (every byte of a real input is below 256), a string by the list of its
bytes.  The functions below follow `convert.go`, `writter.go`, `date.go`,
`repeat_rule.go` and `alarm.go`; the pieces of the Go standard library they call
(`strings`, `strconv`, `bufio`, `time`, `unicode`) are embedded next to their
first use, with the library behaviour they stand for spelled out.
-/

namespace VcsToIcs

/-! ## Bytes and strings -/

/-- A Go string: its bytes in order, each byte by its value. -/
abbrev GoString := List Nat

/-- The bytes of an ASCII literal. -/
def str (s : String) : GoString := s.toList.map Char.toNat

/-- The constant `newLine` of `writter.go`: ICS lines end in CR LF. -/
def newLine : GoString := [13, 10]

/-- Go `strings.HasPrefix`. -/
def startsWith (s pre : GoString) : Bool := pre.isPrefixOf s

/-- Go `strings.HasSuffix`. -/
def endsWith (s suf : GoString) : Bool := suf.isSuffixOf s

/-- Go `strings.Contains`, for a one-byte pattern. -/
def containsByte (s : GoString) (c : Nat) : Bool := s.contains c

/-- Go `strings.TrimRight(s, "\r\n")`: every trailing CR or LF byte is removed. -/
def trimRightCRLF (s : GoString) : GoString :=
  s.rdropWhile (fun c => c == 13 || c == 10)

/-- Go `strings.ReplaceAll` for a non-empty `old`, scanning left to right over
non-overlapping matches.  The counter is the number of bytes of the match that
was just replaced and that remain to be skipped. -/
def replaceAllAux (old new : GoString) : Nat → GoString → GoString
  | _, [] => []
  | 0, c :: rest =>
    if old.isPrefixOf (c :: rest) then new ++ replaceAllAux old new (old.length - 1) rest
    else c :: replaceAllAux old new 0 rest
  | k + 1, _ :: rest => replaceAllAux old new k rest

/-- Go `strings.ReplaceAll(s, old, new)` for a non-empty `old`. -/
def replaceAll (s old new : GoString) : GoString := replaceAllAux old new 0 s

/-- Go `strings.Index(s, ":")`-style search: the position of the first byte `c`. -/
def indexByte (s : GoString) (c : Nat) : Option Nat :=
  match s with
  | [] => none
  | x :: rest => if x = c then some 0 else (indexByte rest c).map (· + 1)

/-- Go `strings.Split(s, " ")` on the one-byte separator `sep`; the result is
never empty. -/
def splitOn (sep : Nat) : GoString → List GoString
  | [] => [[]]
  | c :: rest =>
    if c = sep then [] :: splitOn sep rest
    else
      match splitOn sep rest with
      | [] => [[c]]
      | p :: ps => (c :: p) :: ps

/-- ASCII upper-casing of one byte. -/
def upperByte (c : Nat) : Nat := if 97 ≤ c ∧ c ≤ 122 then c - 32 else c

/-- The test `strings.HasPrefix(strings.ToUpper(line), pat)` for an ASCII
pattern `pat` without lower-case letters.  `ToUpper` maps a string rune by
rune; an ASCII byte goes to its upper case, and among all other runes only
U+0131 (bytes C4 B1) and U+017F (bytes C5 BF) are mapped into ASCII, to `I`
and `S`.  Every other rune, and every byte that is not valid UTF-8, yields
non-ASCII bytes, which match no byte of the pattern. -/
def upperStartsWith : GoString → GoString → Bool
  | _, [] => true
  | [], _ :: _ => false
  | c :: s, p :: ps =>
    if c < 128 then upperByte c == p && upperStartsWith s ps
    else
      match s with
      | [] => false
      | d :: s2 =>
        if c = 196 ∧ d = 177 then p == 73 && upperStartsWith s2 ps
        else if c = 197 ∧ d = 191 then p == 83 && upperStartsWith s2 ps
        else false

/-- Go `strings.EqualFold(s, t)` for an ASCII `t` that contains neither `K` nor
`S` (the only ASCII letters whose case-folding orbit has a non-ASCII member):
equal lengths and bytes equal up to ASCII case.  A non-ASCII byte of `s` never
folds to a byte of such a `t`. -/
def equalFold : GoString → GoString → Bool
  | [], [] => true
  | a :: s, b :: t => (a == b || (a < 128 && b < 128 && upperByte a == upperByte b
      && 65 ≤ upperByte a && upperByte a ≤ 90)) && equalFold s t
  | _, _ => false

/-- Go `unicode.IsSpace(rune(c))` for a byte `c`: the Latin-1 white space
`\t \n \v \f \r`, space, U+0085 and U+00A0. -/
def isSpace (c : Nat) : Bool :=
  c == 9 || c == 10 || c == 11 || c == 12 || c == 13 || c == 32 || c == 133 || c == 160

/-! ## convert.go: quoted-printable decoding -/

/-- Function `isHexChar` of `convert.go`. -/
def isHexChar (c : Nat) : Bool :=
  (48 ≤ c && c ≤ 57) || (65 ≤ c && c ≤ 70) || (97 ≤ c && c ≤ 102)

/-- The value of one hexadecimal digit, as `encoding/hex` reads it. -/
def hexVal (c : Nat) : Nat :=
  if 48 ≤ c ∧ c ≤ 57 then c - 48
  else if 65 ≤ c ∧ c ≤ 70 then c - 55
  else c - 87

/-- Function `decodeQuotedPrintable` of `convert.go`.  The index loop is a recursion on
the bytes that remain from position `i`; `i+2 < len(input)` says that two more
bytes follow the `=`.  `hex.DecodeString` cannot fail on two hex digits, so
the error result of the Go function is never produced. -/
def decodeQuotedPrintable : GoString → GoString
  | [] => []
  | [c] => [c]
  | [c, d] => c :: decodeQuotedPrintable [d]
  | c :: a :: b :: rest =>
    if c = 61 then
      if isHexChar a && isHexChar b then
        (16 * hexVal a + hexVal b) :: decodeQuotedPrintable rest
      else if a = 13 ∧ b = 10 then decodeQuotedPrintable rest
      else c :: decodeQuotedPrintable (a :: b :: rest)
    else c :: decodeQuotedPrintable (a :: b :: rest)

/-- Function `Decode` of `convert.go`: the escaped CR LF `=0D=0A` becomes the two
characters backslash and `n`, then the quoted-printable escapes are decoded. -/
def Decode (input : GoString) : GoString :=
  decodeQuotedPrintable (replaceAll input (str "=0D=0A") [92, 110])

/-! ## strconv and fmt: decimal integers -/

/-- The byte is an ASCII decimal digit. -/
def isDigit (c : Nat) : Bool := 48 ≤ c && c ≤ 57

/-- Decimal digits of `n`, most significant first, below the digits already
produced; the first argument bounds the number of digits. -/
def decimalAux : Nat → Nat → GoString → GoString
  | 0, _, acc => acc
  | fuel + 1, n, acc =>
    if n < 10 then (48 + n) :: acc
    else decimalAux fuel (n / 10) ((48 + n % 10) :: acc)

/-- The decimal numeral of a natural number, without leading zeros. -/
def decimal (n : Nat) : GoString := decimalAux (n + 1) n []

/-- Go `strconv.Itoa`, and `fmt.Sprintf("%d", x)`: a minus sign for a negative
number, then the decimal numeral of the magnitude. -/
def Itoa (x : Int) : GoString :=
  if x < 0 then 45 :: decimal x.natAbs else decimal x.natAbs

/-- The number written by a string of decimal digits. -/
def digitsValue (s : GoString) : Nat := s.foldl (fun n c => 10 * n + (c - 48)) 0

/-- Go `strconv.Atoi` with a 64-bit `int`: an optional sign, then one or more
decimal digits, and the value must lie in `[-2^63, 2^63 - 1]`; `none` is the
error result (syntax or range). -/
def Atoi (s : GoString) : Option Int :=
  let neg : Bool := s.head? == some 45
  let body : GoString := if s.head? == some 45 || s.head? == some 43 then s.tail else s
  if body.isEmpty || !body.all isDigit then none
  else if neg then
    if digitsValue body ≤ 2 ^ 63 then some (-(digitsValue body : Int)) else none
  else
    if digitsValue body < 2 ^ 63 then some (digitsValue body : Int) else none

/-! ## The time package: civil UTC timestamps -/

/-- A Go `time.Time` in the UTC location, by its civil fields.  `time.Parse`
with a layout without zone yields UTC times whose fields are the parsed ones,
and `FormatDate` formats in UTC, so the fields are all the program observes. -/
structure Time where
  year : Int
  month : Nat
  day : Nat
  hour : Nat
  min : Nat
  sec : Nat
  nsec : Nat
deriving DecidableEq, Repr

/-- The zero `time.Time`: January 1, year 1, 00:00:00 UTC. -/
def Time.zero : Time := ⟨1, 1, 1, 0, 0, 0, 0⟩

/-- Go `Time.IsZero`. -/
def Time.IsZero (t : Time) : Bool := decide (t = Time.zero)

/-- Gregorian leap year. -/
def isLeap (year : Int) : Bool := year % 4 == 0 && (year % 100 != 0 || year % 400 == 0)

/-- Number of days of a month, `daysIn` of the time package. -/
def daysIn (month : Nat) (year : Int) : Nat :=
  if month = 2 then (if isLeap year then 29 else 28)
  else if month = 4 ∨ month = 6 ∨ month = 9 ∨ month = 11 then 30
  else 31

/-- Function `getnum` of the time package: a two-digit number, or a one-digit number
when the width is not fixed and the second byte is not a digit. -/
def getnum : GoString → Bool → Option (Nat × GoString)
  | [], _ => none
  | [a], fixed => if isDigit a && !fixed then some (a - 48, []) else none
  | a :: b :: rest, fixed =>
    if isDigit a then
      if isDigit b then some ((a - 48) * 10 + (b - 48), rest)
      else if fixed then none else some (a - 48, b :: rest)
    else none

/-- The four-digit year field (`stdLongYear`): four decimal digits. -/
def getYear : GoString → Option (Nat × GoString)
  | a :: b :: c :: d :: rest =>
    if isDigit a && isDigit b && isDigit c && isDigit d then
      some (digitsValue [a, b, c, d], rest)
    else none
  | _ => none

/-- A literal byte of the layout (`skip` of the time package). -/
def skipByte (c : Nat) : GoString → Option GoString
  | [] => none
  | x :: rest => if x = c then some rest else none

/-- Function `parseNanoseconds` on the digits that follow the separator: at most nine
digits count, scaled to nanoseconds. -/
def parseNanoseconds (digits : GoString) : Nat :=
  digitsValue (digits.take 9) * 10 ^ (9 - (digits.take 9).length)

/-- The seconds field may be followed by a fractional second (a period or a
comma and at least one digit) even though the layout has none: `time.Parse`
reads it into the nanoseconds. -/
def getFraction : GoString → Nat × GoString
  | c :: d :: rest =>
    if (c = 46 ∨ c = 44) ∧ isDigit d = true then
      (parseNanoseconds (d :: rest.takeWhile isDigit), rest.dropWhile isDigit)
    else (0, c :: d :: rest)
  | v => (0, v)

/-- Go `time.Parse` for the layouts `20060102T150405Z` (`withZ`) and
`20060102T150405`: year, month and day digits, the letter T, hour, minute and
second, an optional fractional second, the letter Z if the layout has it, and
nothing after.  Month, hour, minute and second are range-checked when read,
the day of the month at the end.  `none` is the error result. -/
def timeParse (withZ : Bool) (value : GoString) : Option Time :=
  match getYear value with
  | none => none
  | some (year, v1) =>
  match getnum v1 true with
  | none => none
  | some (month, v2) =>
  if month = 0 ∨ 12 < month then none else
  match getnum v2 true with
  | none => none
  | some (day, v3) =>
  match skipByte 84 v3 with
  | none => none
  | some v4 =>
  match getnum v4 false with
  | none => none
  | some (hour, v5) =>
  if 24 ≤ hour then none else
  match getnum v5 true with
  | none => none
  | some (min, v6) =>
  if 60 ≤ min then none else
  match getnum v6 true with
  | none => none
  | some (sec, v7) =>
  if 60 ≤ sec then none else
  match (if withZ then skipByte 90 (getFraction v7).2 else some (getFraction v7).2) with
  | none => none
  | some v8 =>
  if v8 ≠ [] then none
  else if day < 1 ∨ daysIn month year < day then none
  else some ⟨year, month, day, hour, min, sec, (getFraction v7).1⟩

/-- Function `appendInt` of the time package: a minus sign for a negative number, then
the decimal numeral padded with zeros to at least `width` digits. -/
def appendInt (x : Int) (width : Nat) : GoString :=
  (if x < 0 then [45] else []) ++
    List.replicate (width - (decimal x.natAbs).length) 48 ++ decimal x.natAbs

/-! ## date.go -/

/-- Function `FormatTimeForDayEvent` of `date.go`: layout `20060102`. -/
def FormatTimeForDayEvent (t : Time) : GoString :=
  appendInt t.year 4 ++ appendInt t.month 2 ++ appendInt t.day 2

/-- Function `FormatDate` of `date.go`: layout `20060102T150405Z` in UTC. -/
def FormatDate (t : Time) : GoString :=
  appendInt t.year 4 ++ appendInt t.month 2 ++ appendInt t.day 2 ++ [84] ++
    appendInt t.hour 2 ++ appendInt t.min 2 ++ appendInt t.sec 2 ++ [90]

/-- Function `ParseDate` of `date.go`: the UTC layout when the string ends in `Z`,
the local layout otherwise; `none` is the error result. -/
def ParseDate (date : GoString) : Option Time :=
  if endsWith date [90] then timeParse true date else timeParse false date

/-- Days from January 1 of year 1 to the given civil date (proleptic
Gregorian calendar). -/
def Time.absDays (t : Time) : Int :=
  365 * (t.year - 1) + (t.year - 1) / 4 - (t.year - 1) / 100 + (t.year - 1) / 400
    + (([0, 31, 59, 90, 120, 151, 181, 212, 243, 273, 304, 334].getD (t.month - 1) 0 : Nat) : Int)
    + (if 2 < t.month ∧ isLeap t.year = true then 1 else 0)
    + ((t.day : Int) - 1)

/-- Seconds from the zero time to `t`. -/
def Time.absSeconds (t : Time) : Int :=
  t.absDays * 86400 + (t.hour : Int) * 3600 + (t.min : Int) * 60 + (t.sec : Int)

/-- Go `t.Sub(u)`: the difference in nanoseconds as a `time.Duration`, which
saturates at the smallest and largest 64-bit values. -/
def Time.Sub (t u : Time) : Int :=
  let d : Int := (t.absSeconds - u.absSeconds) * 1000000000 + ((t.nsec : Int) - (u.nsec : Int))
  if d < -(2 ^ 63) then -(2 ^ 63) else if 2 ^ 63 - 1 < d then 2 ^ 63 - 1 else d

/-! ## repeat_rule.go -/

/-- Frequency of a repeat rule. -/
inductive Frequency where
  | Daily
  | Weekly
  | Monthly
  | Yearly
deriving DecidableEq, Repr

/-- Function `Frequency.String` of `repeat_rule.go`. -/
def Frequency.String : Frequency → GoString
  | .Daily => str "DAILY"
  | .Weekly => str "WEEKLY"
  | .Monthly => str "MONTHLY"
  | .Yearly => str "YEARLY"

/-- Type `RepeatRule` of `repeat_rule.go`; the zero `Until` and the zero
`Occurences` stand for an absent terminator. -/
structure RepeatRule where
  Frequency : Frequency
  Interval : Int
  Until : Time
  Occurences : Int
deriving DecidableEq, Repr

/-- Function `RepeatRule.ToICS` of `repeat_rule.go`. -/
def RepeatRule.ToICS (r : RepeatRule) : GoString :=
  let sb := str "RRULE:FREQ=" ++ r.Frequency.String
  let sb := if r.Interval > 0 then sb ++ (str ";INTERVAL=" ++ Itoa r.Interval) else sb
  let sb :=
    if r.Occurences > 0 then sb ++ (str ";COUNT=" ++ Itoa r.Occurences)
    else if !r.Until.IsZero then sb ++ (str ";UNTIL=" ++ FormatDate r.Until)
    else sb
  sb

/-- The frequency switch of `ParseRepeatRule`: the first matching prefix among
`D`, `W`, `MD`, `YM`, with the rest of the token as the interval text. -/
def parseFreq (part0 : GoString) : Option (Frequency × GoString) :=
  if startsWith part0 (str "D") then some (.Daily, part0.drop 1)
  else if startsWith part0 (str "W") then some (.Weekly, part0.drop 1)
  else if startsWith part0 (str "MD") then some (.Monthly, part0.drop 2)
  else if startsWith part0 (str "YM") then some (.Yearly, part0.drop 2)
  else none

/-- The terminator of `ParseRepeatRule`, read from the last token: the end
date (zero when absent) and the occurrence count (zero when absent). -/
def parseOccur (occur : GoString) (useEndDate : Bool) : Option (Time × Int) :=
  if startsWith occur (str "#") then
    match Atoi (occur.drop 1) with
    | none => none
    | some occurCnt => some (Time.zero, occurCnt)
  else if containsByte occur 84 && useEndDate then
    match ParseDate occur with
    | none => none
    | some occurDate => some (occurDate, 0)
  else some (Time.zero, 0)

/-- Function `ParseRepeatRule` of `repeat_rule.go`; `none` is the error result. -/
def ParseRepeatRule (rrule : GoString) (useEndDate : Bool) : Option RepeatRule :=
  let parts := splitOn 32 rrule
  if parts.length = 0 then none
  else
    let part0 := parts.headD []
    match parseOccur (parts.getLastD []) useEndDate with
    | none => none
    | some (occurDate, occurCnt) =>
      match parseFreq part0 with
      | none => none
      | some (freq, intervalStr) =>
        match Atoi intervalStr with
        | none => none
        | some interval =>
          if !occurDate.IsZero then some ⟨freq, interval, occurDate, 0⟩
          else if occurCnt > 0 then some ⟨freq, interval, Time.zero, occurCnt⟩
          else some ⟨freq, interval, Time.zero, 0⟩

/-! ## alarm.go -/

/-- Type `Alarm` of `alarm.go`: the difference in seconds, an `int64`. -/
structure Alarm where
  Difference : Int
deriving DecidableEq, Repr

/-- The integer nearest to `n / d`, the even one of two equally near. -/
def roundHalfEven (n d : Nat) : Nat :=
  if 2 * (n % d) < d then n / d
  else if d < 2 * (n % d) then n / d + 1
  else if n / d % 2 = 0 then n / d else n / d + 1

/-- The position of the highest set bit of `n` (zero for `n < 2`); the first
argument bounds the number of bits. -/
def highBit : Nat → Nat → Nat
  | 0, _ => 0
  | fuel + 1, n => if n < 2 then 0 else highBit fuel (n / 2) + 1

/-- The `float64` nearest to `p / q` for positive `p` and `q` below `2^2048`
(round to nearest, ties to even; the quotient lies in the normal range), as a
fraction: a 53-bit mantissa over, or times, a power of two. -/
def float64Nearest (p q : Nat) : Nat × Nat :=
  let e : Int :=
    if q * 2 ^ highBit 2048 p ≤ p * 2 ^ highBit 2048 q then
      (highBit 2048 p : Int) - (highBit 2048 q : Int)
    else (highBit 2048 p : Int) - (highBit 2048 q : Int) - 1
  let s : Int := 52 - e
  if 0 ≤ s then (roundHalfEven (p * 2 ^ s.toNat) q, 2 ^ s.toNat)
  else (roundHalfEven p (q * 2 ^ (-s).toNat) * 2 ^ (-s).toNat, 1)

/-- Go `int64(d.Seconds())` for a `time.Duration` of `d` nanoseconds:
`Seconds` is `float64(sec) + float64(nsec)/1e9` with `sec = d / 1e9` and
`nsec = d % 1e9` (both conversions are exact), and the conversion to `int64`
truncates toward zero.  With `nsec = 0` the sum is `float64(sec)` itself;
otherwise the quotient and then the sum are rounded to the nearest `float64`. -/
def secondsTruncated (d : Int) : Int :=
  let sec := Int.tdiv d 1000000000
  let nsec := Int.tmod d 1000000000
  if nsec = 0 then sec
  else
    let c := float64Nearest nsec.natAbs 1000000000
    let n : Int := sec * (c.2 : Int) + (if nsec < 0 then -(c.1 : Int) else (c.1 : Int))
    if n = 0 then 0
    else
      let x := float64Nearest n.natAbs c.2
      if n < 0 then -((x.1 / x.2 : Nat) : Int) else ((x.1 / x.2 : Nat) : Int)

/-- Function `NewAlarm` of `alarm.go`: `int64(alarmTime.Sub(start).Seconds())`. -/
def NewAlarm (start alarmTime : Time) : Alarm :=
  ⟨secondsTruncated (alarmTime.Sub start)⟩

/-- Two's-complement wrap of an integer to 64 bits (negating the smallest
`int64` gives it back). -/
def wrap64 (x : Int) : Int := (x + 2 ^ 63) % 2 ^ 64 - 2 ^ 63

/-- Function `Alarm.parseDuration` of `alarm.go`; `/` and `%` of Go truncate toward
zero. -/
def Alarm.parseDuration (a : Alarm) : GoString :=
  let seconds := a.Difference
  let sb := if seconds > 0 then str "P" else str "-P"
  let seconds := if seconds > 0 then seconds else wrap64 (-seconds)
  if Int.tmod seconds 604800 = 0 then
    sb ++ (Itoa (Int.tdiv seconds 604800) ++ str "W")
  else
    let days := Int.tdiv seconds 86400
    let seconds := Int.tmod seconds 86400
    let hours := Int.tdiv seconds 3600
    let seconds := Int.tmod seconds 3600
    let minutes := Int.tdiv seconds 60
    let seconds := Int.tmod seconds 60
    let sb := if days > 0 then sb ++ (Itoa days ++ str "D") else sb
    if hours > 0 ∨ minutes > 0 ∨ seconds > 0 then
      let sb := sb ++ str "T"
      let sb := if hours > 0 then sb ++ (Itoa hours ++ str "H") else sb
      let sb := if minutes > 0 then sb ++ (Itoa minutes ++ str "M") else sb
      let sb := if seconds > 0 then sb ++ (Itoa seconds ++ str "S") else sb
      sb
    else sb

/-- Function `Alarm.ToICS` of `alarm.go`: the VALARM block, its last line without a
line terminator. -/
def Alarm.ToICS (a : Alarm) (description : GoString) : GoString :=
  let sb := str "BEGIN:VALARM" ++ newLine
  let sb := sb ++ (str "ACTION:DISPLAY" ++ newLine)
  let sb := sb ++ (str "DESCRIPTION:" ++ description ++ newLine)
  let sb := sb ++ (str "TRIGGER:" ++ a.parseDuration ++ newLine)
  let sb := sb ++ str "END:VALARM"
  sb

/-! ## Errors, sinks and readers -/

/-- The Go `error` values the program produces or passes on.  A Go `error` is
an `Option Err`, with `none` for `nil`. -/
inductive Err where
  | eof
  | readFailure
  | writeFailure
  | closeFailure
  | writerClosed
  | noStartDate
  | unexpectedEOF
  | readingFile (e : Err)
  | addingEvent (e : Err)
deriving DecidableEq, Repr

/-- The output stream (`io.Writer`).  `written` collects the bytes handed to
`Write`, in order; `verdicts` lists, for the coming `Write` calls, whether the
call returns an error (once the list is used up every call succeeds); `closer`
is `some b` when the sink is an `io.Closer`, whose `Close` fails iff `b`. -/
structure Sink where
  written : GoString
  verdicts : List Bool
  closer : Option Bool
deriving DecidableEq, Repr

/-- One call of the sink's `Write`. -/
def Sink.Write (s : Sink) (p : GoString) : Sink × Option Err :=
  match s.verdicts with
  | [] => ({ s with written := s.written ++ p }, none)
  | v :: vs =>
    ({ s with written := s.written ++ p, verdicts := vs },
      if v then some Err.writeFailure else none)

/-- The sink's `Close`, when it has one. -/
def Sink.Close (s : Sink) : Option Err :=
  match s.closer with
  | some true => some Err.closeFailure
  | _ => none

/-- The input stream behind a `bufio.Reader`: the bytes not yet read, and
whether the stream ends with an I/O error (`broken`) or with `io.EOF`. -/
structure Reader where
  buf : GoString
  broken : Bool
deriving DecidableEq, Repr

/-- The error a read returns once the bytes are used up. -/
def Reader.endErr (r : Reader) : Err := if r.broken then Err.readFailure else Err.eof

/-- The bytes up to and including the first LF, or all of them. -/
def lineOf : GoString → GoString
  | [] => []
  | c :: rest => if c = 10 then [10] else c :: lineOf rest

/-- The bytes after the first LF. -/
def afterLine : GoString → GoString
  | [] => []
  | c :: rest => if c = 10 then rest else afterLine rest

/-- Go `reader.ReadString('\n')`: the bytes up to and including the first LF;
when there is none, all remaining bytes together with the end error. -/
def Reader.ReadString (r : Reader) : GoString × Option Err × Reader :=
  (lineOf r.buf, if r.buf.contains 10 then none else some r.endErr,
    { r with buf := afterLine r.buf })

/-! ## writter.go -/

/-- Type `ICSWriter` of `writter.go`. -/
structure ICSWriter where
  Email : GoString
  writer : Sink
  contents : GoString
  headerWritten : Bool
  closed : Bool
deriving DecidableEq, Repr

/-- Function `NewICSWriter` of `writter.go`. -/
def NewICSWriter (email : GoString) (writer : Sink) : ICSWriter :=
  ⟨email, writer, [], false, false⟩

/-- Function `ICSWriter.writeHeader` of `writter.go`. -/
def ICSWriter.writeHeader (w : ICSWriter) : ICSWriter × Option Err :=
  let header := str "BEGIN:VCALENDAR" ++ newLine
  let header :=
    if w.Email ≠ [] then header ++ (str "PRODID:" ++ w.Email ++ newLine)
    else header ++ (str "PRODID:" ++ newLine)
  let header := header ++ (str "VERSION:2.0" ++ newLine)
  match w.writer.Write header with
  | (sink, some e) => ({ w with writer := sink }, some e)
  | (sink, none) => ({ w with writer := sink, headerWritten := true }, none)

/-- Function `ICSWriter.Write` of `writter.go` (the byte count of the result is left
out). -/
def ICSWriter.Write (w : ICSWriter) (p : GoString) : ICSWriter × Option Err :=
  if w.closed then (w, some Err.writerClosed)
  else
    match (if !w.headerWritten then w.writeHeader else (w, none)) with
    | (w1, some e) => (w1, some e)
    | (w1, none) =>
      match w1.writer.Write p with
      | (sink, e) => ({ w1 with writer := sink }, e)

/-- Function `checkForStartTimeIsZero` of `writter.go`: only the hour and the minute of
the clock are looked at. -/
def checkForStartTimeIsZero (dtStart : GoString) : Bool :=
  if dtStart = [] then false
  else
    match ParseDate dtStart with
    | none => false
    | some dt => dt.hour == 0 && dt.min == 0

/-- Function `checkForSameStartAndEndTime` of `writter.go`. -/
def checkForSameStartAndEndTime (dtStart dtEnd : GoString) : Bool :=
  if dtStart = [] ∨ dtEnd = [] then false else decide (dtStart = dtEnd)

/-- The VEVENT branch of `AddEvent`: the text collected in `w.contents`, and
the error of the early return for a missing start date.  `now` is the value
of `time.Now()`. -/
def eventContents (email : GoString) (now : Time)
    (summary description location dtStart dtEnd rrule dtStamp alarm : GoString) :
    GoString × Option Err :=
  let c := str "BEGIN:VEVENT" ++ newLine
  let c := if email ≠ [] then c ++ (str "ORGANIZER:" ++ email ++ newLine) else c
  let c := if summary ≠ [] then c ++ (str "SUMMARY:" ++ summary ++ newLine) else c
  let c := if description ≠ [] then c ++ (str "DESCRIPTION:" ++ description ++ newLine) else c
  let c := if location ≠ [] then c ++ (str "LOCATION:" ++ location ++ newLine) else c
  let c :=
    if rrule ≠ [] then
      match ParseRepeatRule rrule false with
      | some repeatRule => c ++ (repeatRule.ToICS ++ newLine)
      | none => c
    else c
  if dtStart ≠ [] then
    let c := c ++ str "DTSTART"
    let c :=
      if checkForSameStartAndEndTime dtStart dtEnd then
        if checkForStartTimeIsZero dtStart then
          match ParseDate dtStart with
          | some start => c ++ (str ";VALUE=DATE:" ++ FormatTimeForDayEvent start ++ newLine)
          | none => c ++ (str ":" ++ dtStart ++ newLine)
        else c ++ (str ":" ++ dtStart ++ newLine)
      else
        let c := c ++ (str ":" ++ dtStart ++ newLine)
        if dtEnd ≠ [] then c ++ (str "DTEND:" ++ dtEnd ++ newLine) else c
    let c :=
      if dtStamp ≠ [] then c ++ (str "DTSTAMP:" ++ dtStamp ++ newLine)
      else c ++ (str "DTSTAMP:" ++ FormatDate now ++ newLine)
    let c :=
      if alarm ≠ [] then
        match ParseDate dtStart, ParseDate alarm with
        | some start, some alarmTime => c ++ ((NewAlarm start alarmTime).ToICS summary ++ newLine)
        | _, _ => c
      else c
    (c ++ (str "END:VEVENT" ++ newLine), none)
  else (c, some Err.noStartDate)

/-- The VTODO branch of `AddEvent`: the text collected in `w.contents`. -/
def todoContents (email : GoString) (now : Time)
    (summary dtStamp sequence due status : GoString) : GoString :=
  let c := str "BEGIN:VTODO" ++ newLine
  let c :=
    if dtStamp ≠ [] then c ++ (str "DTSTAMP:" ++ dtStamp ++ newLine)
    else c ++ (str "DTSTAMP:" ++ FormatDate now ++ newLine)
  let c :=
    if sequence ≠ [] then c ++ (str "SEQUENCE:" ++ sequence ++ newLine)
    else c ++ (str "SEQUENCE:0" ++ newLine)
  let c := if email ≠ [] then c ++ (str "ORGANIZER:" ++ email ++ newLine) else c
  let c := if due ≠ [] then c ++ (str "DUE:" ++ due ++ newLine) else c
  let c := if status ≠ [] then c ++ (str "STATUS:" ++ status ++ newLine) else c
  let c := if summary ≠ [] then c ++ (str "SUMMARY:" ++ summary ++ newLine) else c
  c ++ (str "END:VTODO" ++ newLine)

/-- Function `ICSWriter.AddEvent` of `writter.go`; `now` is the value `time.Now()`
returns during the call. -/
def ICSWriter.AddEvent (w : ICSWriter) (now : Time) (isEvent : Bool)
    (summary description location dtStart dtEnd rrule dtStamp sequence due status
      alarm : GoString) : ICSWriter × Option Err :=
  if w.closed then (w, some Err.writerClosed)
  else
    match (if !w.headerWritten then w.writeHeader else (w, none)) with
    | (w1, some e) => (w1, some e)
    | (w1, none) =>
      if isEvent then
        match eventContents w1.Email now summary description location dtStart dtEnd rrule
            dtStamp alarm with
        | (c, some e) => ({ w1 with contents := c }, some e)
        | (c, none) =>
          match w1.writer.Write c with
          | (sink, e) => ({ w1 with contents := c, writer := sink }, e)
      else
        match w1.writer.Write (todoContents w1.Email now summary dtStamp sequence due status) with
        | (sink, e) =>
          ({ w1 with contents := todoContents w1.Email now summary dtStamp sequence due status,
                     writer := sink }, e)

/-- Function `ICSWriter.Close` of `writter.go`. -/
def ICSWriter.Close (w : ICSWriter) : ICSWriter × Option Err :=
  if w.closed then (w, none)
  else
    match (if !w.headerWritten then w.writeHeader else (w, none)) with
    | (w1, some e) => (w1, some e)
    | (w1, none) =>
      match w1.writer.Write (str "END:VCALENDAR") with
      | (sink, err) =>
        ({ w1 with writer := sink, closed := true },
          match sink.Close with
          | some closeErr => if err = none then some closeErr else err
          | none => err)

/-! ## convert.go: reading fields and records -/

/-- The loop of `readPossibleMultiline`; the first argument bounds the number
of iterations, `sb` is the string builder.  `reader.Reset(reader)` does
nothing on a reader reset to itself.  A byte is read; a white-space byte is
dropped and the rest of its line appended, any other byte is unread. -/
def readPossibleMultilineLoop : Nat → GoString → Reader → Option (GoString × Option Err × Reader)
  | 0, _, _ => none
  | fuel + 1, sb, r =>
    match r.buf with
    | [] => if r.broken then some ([], some Err.readFailure, r) else some (sb, none, r)
    | c :: rest =>
      if isSpace c then
        match Reader.ReadString { r with buf := rest } with
        | (line, err, r2) =>
          if err = some Err.readFailure then some ([], err, r2)
          else readPossibleMultilineLoop fuel (sb ++ trimRightCRLF line) r2
      else some (sb, none, r)

/-- Function `readPossibleMultiline` of `convert.go`; `none` only if the iteration
bound were too small. -/
def readPossibleMultiline (fieldContent : GoString) (reader : Reader) :
    Option (GoString × Option Err × Reader) :=
  readPossibleMultilineLoop (reader.buf.length + 1) fieldContent reader

/-- The loop of `readEncryptedField`, then the decoding. -/
def readEncryptedFieldLoop : Nat → GoString → Reader → Option (GoString × Option Err × Reader)
  | 0, _, _ => none
  | fuel + 1, sb, r =>
    if endsWith sb [61] then
      match r.ReadString with
      | (_, some e, r2) =>
        if e = Err.eof then some ([], some Err.unexpectedEOF, r2) else some ([], some e, r2)
      | (line, none, r2) => readEncryptedFieldLoop fuel (sb.dropLast ++ trimRightCRLF line) r2
    else some (Decode sb, none, r)

/-- Function `readEncryptedField` of `convert.go`; `none` only if the iteration bound
were too small. -/
def readEncryptedField (fieldContent : GoString) (reader : Reader) :
    Option (GoString × Option Err × Reader) :=
  readEncryptedFieldLoop (reader.buf.length + 1) fieldContent reader

/-- The local variables of `Convert` that hold one event or todo. -/
structure Record where
  isEvent : Bool
  summary : GoString
  location : GoString
  description : GoString
  status : GoString
  due : GoString
  sequence : GoString
  dtstart : GoString
  dtend : GoString
  dtstamp : GoString
  rrule : GoString
  alarm : GoString
deriving DecidableEq, Repr

/-- A record with every field empty. -/
def Record.empty (isEvent : Bool) : Record :=
  ⟨isEvent, [], [], [], [], [], [], [], [], [], [], []⟩

/-- The text after the first colon of a line (`line[strings.Index(line, ":")+1:]`);
the whole line when it has no colon. -/
def afterColon (line : GoString) : GoString :=
  match indexByte line 58 with
  | none => line
  | some i => line.drop (i + 1)

/-- The alarm time of an `AALARM` line: the text between the first colon and
the first semicolon after it; `none` when one of them is missing, in which
case the variable `alarm` keeps its value. -/
def alarmValue (line : GoString) : Option GoString :=
  match indexByte line 58 with
  | none => none
  | some colonIdx =>
    match indexByte (line.drop (colonIdx + 1)) 59 with
    | none => none
    | some semicolonIdx => some ((line.drop (colonIdx + 1)).take semicolonIdx)

/-- What one step of the field dispatch leaves behind: `ret e` when `Convert`
returns the error `e`, otherwise the record, the variable `err` and the
reader. -/
inductive FieldResult where
  | ret (e : Err)
  | next (rec : Record) (err : Option Err) (reader : Reader)
deriving DecidableEq, Repr

/-- The outcome of a multi-line field reader, stored by `store`. -/
def fieldDone (res : Option (GoString × Option Err × Reader)) (store : GoString → Record) :
    Option FieldResult :=
  match res with
  | none => none
  | some (_, some e, _) => some (FieldResult.ret e)
  | some (v, none, r) => some (FieldResult.next (store v) none r)

/-- The field dispatch of `Convert` for one line of an event or todo; `err`
is the error of the `ReadString` that produced the line. -/
def processField (line : GoString) (err : Option Err) (rec : Record) (reader : Reader) :
    Option FieldResult :=
  if upperStartsWith line (str "SUMMARY:") then
    fieldDone (readPossibleMultiline (line.drop 8) reader) (fun v => { rec with summary := v })
  else if upperStartsWith line (str "SUMMARY;ENCODING=QUOTED-PRINTABLE") then
    fieldDone (readEncryptedField (afterColon line) reader) (fun v => { rec with summary := v })
  else if upperStartsWith line (str "LOCATION:") then
    fieldDone (readPossibleMultiline (line.drop 9) reader) (fun v => { rec with location := v })
  else if upperStartsWith line (str "LOCATION;ENCODING=QUOTED-PRINTABLE") then
    fieldDone (readEncryptedField (afterColon line) reader) (fun v => { rec with location := v })
  else if upperStartsWith line (str "DESCRIPTION:") then
    fieldDone (readPossibleMultiline (line.drop 12) reader)
      (fun v => { rec with description := v })
  else if upperStartsWith line (str "DESCRIPTION;ENCODING=QUOTED-PRINTABLE") then
    fieldDone (readEncryptedField (afterColon line) reader)
      (fun v => { rec with description := v })
  else if upperStartsWith line (str "DTSTART:") then
    some (FieldResult.next { rec with dtstart := line.drop 8 } err reader)
  else if upperStartsWith line (str "DTEND:") then
    some (FieldResult.next { rec with dtend := line.drop 6 } err reader)
  else if upperStartsWith line (str "DUE:") then
    some (FieldResult.next { rec with due := line.drop 4 } err reader)
  else if upperStartsWith line (str "STATUS:") then
    some (FieldResult.next { rec with status := line.drop 7 } err reader)
  else if upperStartsWith line (str "SEQUENCE:") then
    some (FieldResult.next { rec with sequence := line.drop 9 } err reader)
  else if upperStartsWith line (str "RRULE:") then
    some (FieldResult.next { rec with rrule := line.drop 6 } err reader)
  else if upperStartsWith line (str "AALARM:")
      || upperStartsWith line (str "AALARM;TYPE=X-EPOCSOUND:") then
    match alarmValue line with
    | some a => some (FieldResult.next { rec with alarm := a } err reader)
    | none => some (FieldResult.next rec err reader)
  else if upperStartsWith line (str "LAST-MODIFIED:") then
    some (FieldResult.next { rec with dtstamp := line.drop 14 } err reader)
  else some (FieldResult.next rec err reader)

/-- The inner loop of `Convert`, which collects the fields of one event or
todo up to `END:VEVENT`, `END:VTODO` or the end of the input.  The result is
the error `Convert` returns from inside the loop, or the collected record. -/
def readRecordLoop : Nat → Record → Reader → Option (Except Err (Record × Reader))
  | 0, _, _ => none
  | fuel + 1, rec, r =>
    match r.ReadString with
    | (line, err, r1) =>
      if err = some Err.readFailure then some (Except.error (Err.readingFile Err.readFailure))
      else if equalFold (trimRightCRLF line) (str "END:VEVENT")
          || equalFold (trimRightCRLF line) (str "END:VTODO") then
        some (Except.ok (rec, r1))
      else
        match processField (trimRightCRLF line) err rec r1 with
        | none => none
        | some (FieldResult.ret e) => some (Except.error e)
        | some (FieldResult.next rec2 err2 r2) =>
          if err2 = some Err.eof then some (Except.ok (rec2, r2))
          else readRecordLoop fuel rec2 r2

/-- Method `AddEvent` called with the fields of a record, as `Convert` does. -/
def ICSWriter.addRecord (w : ICSWriter) (now : Time) (rec : Record) : ICSWriter × Option Err :=
  w.AddEvent now rec.isEvent rec.summary rec.description rec.location rec.dtstart rec.dtend
    rec.rrule rec.dtstamp rec.sequence rec.due rec.status rec.alarm

/-- The outer loop of `Convert`.  `recs` are the records handed to `AddEvent`
so far, in order; the clock is read as `clock k` during the call for the
record number `k`.  The result is the error `Convert` returns, the writer and
the records. -/
def convertLoop (clock : Nat → Time) :
    Nat → ICSWriter → List Record → Reader → Option (Option Err × ICSWriter × List Record)
  | 0, _, _, _ => none
  | fuel + 1, w, recs, r =>
    match r.ReadString with
    | (line, err, r1) =>
      if err = some Err.readFailure then
        some (some (Err.readingFile Err.readFailure), w, recs)
      else if equalFold (trimRightCRLF line) (str "END:VCALENDAR") then some (none, w, recs)
      else if !equalFold (trimRightCRLF line) (str "BEGIN:VTODO")
          && !equalFold (trimRightCRLF line) (str "BEGIN:VEVENT") then
        if err = some Err.eof then some (none, w, recs) else convertLoop clock fuel w recs r1
      else
        match readRecordLoop (r1.buf.length + 1)
            (Record.empty (equalFold (trimRightCRLF line) (str "BEGIN:VEVENT"))) r1 with
        | none => none
        | some (Except.error e) => some (some e, w, recs)
        | some (Except.ok (rec, r2)) =>
          match w.addRecord (clock recs.length) rec with
          | (w2, some e) => some (some (Err.addingEvent e), w2, recs ++ [rec])
          | (w2, none) => convertLoop clock fuel w2 (recs ++ [rec]) r2

/-- What a run of `Convert` leaves behind: the error returned, the output
stream, and the records that were handed to `AddEvent`, in order. -/
structure ConvertResult where
  err : Option Err
  out : Sink
  records : List Record
deriving DecidableEq, Repr

/-- Function `Convert` of `convert.go`.  The deferred `writer.Close()` runs on every
return.  `none` only if the iteration bound were too small. -/
def Convert (input : Reader) (out : Sink) (email : GoString) (clock : Nat → Time) :
    Option ConvertResult :=
  match convertLoop clock (input.buf.length + 1) (NewICSWriter email out) [] input with
  | none => none
  | some (err, w, recs) => some ⟨err, w.Close.1.writer, recs⟩

/-! ## Vocabulary of the claims -/

/-- The calendar header for an organizer email (empty when none is set). -/
def calendarHeader (email : GoString) : GoString :=
  str "BEGIN:VCALENDAR\r\nPRODID:" ++ email ++ str "\r\nVERSION:2.0\r\n"

/-- The header bytes a call still has to send before anything else. -/
def headerIfMissing (w : ICSWriter) : GoString :=
  if w.headerWritten then [] else calendarHeader w.Email

/-- A line `tag value CRLF` that is present only for a non-empty value. -/
def optLine (tag : GoString) (v : GoString) : GoString :=
  if v = [] then [] else tag ++ v ++ str "\r\n"

/-- A sink none of whose coming writes fails. -/
def Sink.Reliable (s : Sink) : Prop := ∀ v ∈ s.verdicts, v = false

/-- A timestamp string `YYYYMMDDTHHMMSS` or `YYYYMMDDTHHMMSSZ`, by the values
of its fourteen decimal digits and the presence of the trailing `Z`. -/
structure Stamp where
  y1 : Nat
  y2 : Nat
  y3 : Nat
  y4 : Nat
  mo1 : Nat
  mo2 : Nat
  d1 : Nat
  d2 : Nat
  h1 : Nat
  h2 : Nat
  mi1 : Nat
  mi2 : Nat
  s1 : Nat
  s2 : Nat
  utc : Bool
deriving DecidableEq, Repr

/-- The year a stamp denotes. -/
def Stamp.year (t : Stamp) : Nat := 1000 * t.y1 + 100 * t.y2 + 10 * t.y3 + t.y4

/-- The month a stamp denotes. -/
def Stamp.month (t : Stamp) : Nat := 10 * t.mo1 + t.mo2

/-- The day of the month a stamp denotes. -/
def Stamp.day (t : Stamp) : Nat := 10 * t.d1 + t.d2

/-- The hour a stamp denotes. -/
def Stamp.hour (t : Stamp) : Nat := 10 * t.h1 + t.h2

/-- The minute a stamp denotes. -/
def Stamp.minute (t : Stamp) : Nat := 10 * t.mi1 + t.mi2

/-- The second a stamp denotes. -/
def Stamp.second (t : Stamp) : Nat := 10 * t.s1 + t.s2

/-- The stamp is made of decimal digits and denotes a valid calendar date and
time of day. -/
def Stamp.Valid (t : Stamp) : Prop :=
  (t.y1 < 10 ∧ t.y2 < 10 ∧ t.y3 < 10 ∧ t.y4 < 10)
  ∧ (t.mo1 < 10 ∧ t.mo2 < 10 ∧ t.d1 < 10 ∧ t.d2 < 10)
  ∧ (t.h1 < 10 ∧ t.h2 < 10 ∧ t.mi1 < 10 ∧ t.mi2 < 10 ∧ t.s1 < 10 ∧ t.s2 < 10)
  ∧ (1 ≤ t.month ∧ t.month ≤ 12)
  ∧ (1 ≤ t.day ∧ t.day ≤ daysIn t.month t.year)
  ∧ t.hour < 24 ∧ t.minute < 60 ∧ t.second < 60

/-- The eight date characters `YYYYMMDD` of a stamp. -/
def Stamp.dateText (t : Stamp) : GoString :=
  [48 + t.y1, 48 + t.y2, 48 + t.y3, 48 + t.y4, 48 + t.mo1, 48 + t.mo2, 48 + t.d1, 48 + t.d2]

/-- The timestamp string itself. -/
def Stamp.text (t : Stamp) : GoString :=
  t.dateText ++ [84, 48 + t.h1, 48 + t.h2, 48 + t.mi1, 48 + t.mi2, 48 + t.s1, 48 + t.s2]
    ++ (if t.utc then [90] else [])

/-- The instant a valid stamp denotes. -/
def Stamp.time (t : Stamp) : Time :=
  ⟨(t.year : Int), t.month, t.day, t.hour, t.minute, t.second, 0⟩

/-- The RRULE line of an event block: present when the rule is non-empty and
parses (the emitter parses with `useEndDate = false`). -/
def rruleLine (rrule : GoString) : GoString :=
  if rrule = [] then []
  else
    match ParseRepeatRule rrule false with
    | some r => r.ToICS ++ str "\r\n"
    | none => []

/-- The lines of an event block before its start line. -/
def eventHead (email summary description location rrule : GoString) : GoString :=
  str "BEGIN:VEVENT\r\n" ++ optLine (str "ORGANIZER:") email ++ optLine (str "SUMMARY:") summary
    ++ optLine (str "DESCRIPTION:") description ++ optLine (str "LOCATION:") location
    ++ rruleLine rrule

/-- The start and end lines of an event block with a non-empty start. -/
def startEndLines (dtStart dtEnd : GoString) : GoString :=
  if checkForSameStartAndEndTime dtStart dtEnd = true then
    if checkForStartTimeIsZero dtStart = true then
      match ParseDate dtStart with
      | some start => str "DTSTART;VALUE=DATE:" ++ FormatTimeForDayEvent start ++ str "\r\n"
      | none => str "DTSTART:" ++ dtStart ++ str "\r\n"
    else str "DTSTART:" ++ dtStart ++ str "\r\n"
  else str "DTSTART:" ++ dtStart ++ str "\r\n" ++ optLine (str "DTEND:") dtEnd

/-- The DTSTAMP line: the given stamp, or the current time when it is empty. -/
def stampLine (now : Time) (dtStamp : GoString) : GoString :=
  str "DTSTAMP:" ++ (if dtStamp = [] then FormatDate now else dtStamp) ++ str "\r\n"

/-- The VALARM block of an event: present when the alarm is non-empty and both
the start and the alarm time parse. -/
def alarmBlock (summary dtStart alarm : GoString) : GoString :=
  if alarm = [] then []
  else
    match ParseDate dtStart, ParseDate alarm with
    | some start, some alarmTime => (NewAlarm start alarmTime).ToICS summary ++ str "\r\n"
    | _, _ => []

/-- The lines of an event block after its start and end lines. -/
def eventTail (now : Time) (summary dtStart dtStamp alarm : GoString) : GoString :=
  stampLine now dtStamp ++ alarmBlock summary dtStart alarm ++ str "END:VEVENT\r\n"

/-- The block of a todo. -/
def todoBlock (email : GoString) (now : Time) (summary dtStamp sequence due status : GoString) :
    GoString :=
  str "BEGIN:VTODO\r\n" ++ stampLine now dtStamp
    ++ str "SEQUENCE:" ++ (if sequence = [] then str "0" else sequence) ++ str "\r\n"
    ++ optLine (str "ORGANIZER:") email ++ optLine (str "DUE:") due
    ++ optLine (str "STATUS:") status ++ optLine (str "SUMMARY:") summary ++ str "END:VTODO\r\n"

/-- The VCS prefix that selects a frequency: `D`, `W`, `MD`, `YM`. -/
def Frequency.vcsTag : Frequency → GoString
  | .Daily => str "D"
  | .Weekly => str "W"
  | .Monthly => str "MD"
  | .Yearly => str "YM"

/-- The ICS name the rendering is to give each frequency: `DAILY` for the
prefix `D`, `WEEKLY` for `W`, `MONTHLY` for `MD`, `YEARLY` for `YM`. -/
def Frequency.icsName : Frequency → GoString
  | .Daily => str "DAILY"
  | .Weekly => str "WEEKLY"
  | .Monthly => str "MONTHLY"
  | .Yearly => str "YEARLY"

/-- The text is an integer numeral: an optional sign and at least one decimal
digit. -/
def isIntegerText (s : GoString) : Bool :=
  match s with
  | 45 :: d => !d.isEmpty && d.all isDigit
  | 43 :: d => !d.isEmpty && d.all isDigit
  | d => !d.isEmpty && d.all isDigit

/-- The first space-separated token of a rule. -/
def firstToken (rrule : GoString) : GoString := rrule.takeWhile (fun c => c != 32)

/-- The hexadecimal digit for a value below sixteen, in upper or lower case. -/
def hexDigit (upper : Bool) (d : Nat) : Nat :=
  if d < 10 then 48 + d else if upper then 55 + d else 87 + d

/-- A segment of hex-escaped text: a literal byte, or the escape of a byte
with the case of each of its two hex digits. -/
inductive QPSegment where
  | literal (c : Nat)
  | escape (b : Nat) (upperHi upperLo : Bool)
deriving DecidableEq, Repr

/-- A literal segment is any byte but `=`; an escaped value is a byte. -/
def QPSegment.WellFormed : QPSegment → Prop
  | .literal c => c ≠ 61
  | .escape b _ _ => b < 256

/-- The encoded text of a segment. -/
def QPSegment.text : QPSegment → GoString
  | .literal c => [c]
  | .escape b upperHi upperLo => [61, hexDigit upperHi (b / 16), hexDigit upperLo (b % 16)]

/-- The byte a segment stands for. -/
def QPSegment.value : QPSegment → Nat
  | .literal c => c
  | .escape b _ _ => b

/-- A step of the field dispatch has a result, and when the loop goes on the
reader has not grown and the variable `err` is unchanged or `nil`. -/
def StepsWithin (r : Reader) (err : Option Err) (o : Option FieldResult) : Prop :=
  ∃ fr, o = some fr
    ∧ ∀ rec2 err2 r2, fr = FieldResult.next rec2 err2 r2 →
        r2.buf.length ≤ r.buf.length ∧ r2.broken = r.broken ∧ (err2 = err ∨ err2 = none)

/-- The block `AddEvent` sends for a record; `none` for an event without a
start date, for which nothing of the block is sent. -/
def recordBlock (email : GoString) (now : Time) (rec : Record) : Option GoString :=
  if rec.isEvent then
    if rec.dtstart = [] then none
    else
      some (eventHead email rec.summary rec.description rec.location rec.rrule
        ++ startEndLines rec.dtstart rec.dtend
        ++ eventTail now rec.summary rec.dtstart rec.dtstamp rec.alarm)
  else some (todoBlock email now rec.summary rec.dtstamp rec.sequence rec.due rec.status)

/-- The blocks of the records that were added successfully, in order; the
record at position `k` of the run is stamped with `clock k`. -/
def blocksFrom (email : GoString) (clock : Nat → Time) : Nat → List Record → GoString
  | _, [] => []
  | k, rec :: rest =>
    (recordBlock email (clock k) rec).getD [] ++ blocksFrom email clock (k + 1) rest

/-- Every event among the records has a start date (so each was added). -/
def AllStarted (recs : List Record) : Prop :=
  ∀ rec ∈ recs, rec.isEvent = true → rec.dtstart ≠ []

/-- The state of the writer inside `Convert`, over a reliable sink `out`: it is
open, and what it has sent is nothing before the first record, and the header
followed by the blocks of the records afterwards. -/
def WriterInv (email : GoString) (out : Sink) (clock : Nat → Time) (w : ICSWriter)
    (recs : List Record) : Prop :=
  w.closed = false ∧ w.Email = email ∧ w.writer.Reliable
  ∧ w.writer.written = out.written ++
      (if w.headerWritten then calendarHeader email ++ blocksFrom email clock 0 recs else [])
  ∧ (w.headerWritten = false → recs = [])

/-- A line terminator of the input: CR LF or a bare LF. -/
def lineEnd (crlf : Bool) : GoString := if crlf then [13, 10] else [10]

/-- The value holds no CR and no LF. -/
def SingleLine (s : GoString) : Prop := ∀ c ∈ s, c ≠ 13 ∧ c ≠ 10

/-- An input made of the given lines, each with its own terminator (`true`
for CR LF, `false` for LF). -/
def vcsLines : List (GoString × Bool) → GoString
  | [] => []
  | (l, crlf) :: rest => l ++ lineEnd crlf ++ vcsLines rest

/-- The sign prefix of a rendered duration, as the code chooses it: `P` for a
positive offset, `-P` otherwise. -/
def signPrefix (x : Int) : GoString := if 0 < x then str "P" else str "-P"

/-- The day and time part of a duration of `m` seconds: `<d>D` for a non-zero
number of days, then, if an hour, minute or second remains, `T` followed by
each non-zero of `<h>H`, `<mi>M`, `<s>S`. -/
def dayTimeText (m : Nat) : GoString :=
  (if 0 < m / 86400 then decimal (m / 86400) ++ str "D" else [])
    ++ (if 0 < m % 86400 / 3600 ∨ 0 < m % 3600 / 60 ∨ 0 < m % 60 then
          str "T"
            ++ (if 0 < m % 86400 / 3600 then decimal (m % 86400 / 3600) ++ str "H" else [])
            ++ (if 0 < m % 3600 / 60 then decimal (m % 3600 / 60) ++ str "M" else [])
            ++ (if 0 < m % 60 then decimal (m % 60) ++ str "S" else [])
        else [])

/-- The value assembled from a first-line value and its continuation lines:
every line but the last without its last byte (the trailing `=`), then the
last line. -/
def qpJoined : GoString → List GoString → GoString
  | l0, [] => l0
  | l0, l1 :: rest => l0.dropLast ++ qpJoined l1 rest

/-- Every line but the last ends with `=`. -/
def Continued : GoString → List GoString → Prop
  | _, [] => True
  | l0, l1 :: rest => endsWith l0 [61] = true ∧ Continued l1 rest

/-- The given lines, each followed by CR LF. -/
def crlfLines : List GoString → GoString
  | [] => []
  | l :: rest => l ++ [13, 10] ++ crlfLines rest

/-- A text made of lines without CR or LF inside, each ended by CR LF. -/
def CRLFText (t : GoString) : Prop :=
  ∃ lines : List GoString, (∀ l ∈ lines, SingleLine l) ∧ t = crlfLines lines

/-- Every CR is immediately followed by an LF and every LF immediately
preceded by a CR. -/
def noBareBreak : GoString → Bool
  | [] => true
  | [c] => c != 13 && c != 10
  | c :: d :: rest =>
    if c = 13 then d == 10 && noBareBreak rest else c != 10 && noBareBreak (d :: rest)

/-- The values of a record that are written as they stand hold no CR and no
LF (the repeat rule and the alarm are parsed and rendered anew). -/
def Record.Plain (rec : Record) : Prop :=
  SingleLine rec.summary ∧ SingleLine rec.location ∧ SingleLine rec.description
    ∧ SingleLine rec.status ∧ SingleLine rec.due ∧ SingleLine rec.sequence
    ∧ SingleLine rec.dtstart ∧ SingleLine rec.dtend ∧ SingleLine rec.dtstamp

/-- Somewhere in the text the byte `a` is immediately followed by the byte `b`. -/
def hasAdjacent (a b : Nat) : GoString → Bool
  | [] => false
  | x :: rest => (x == a && rest.head? == some b) || hasAdjacent a b rest

/-- The two spellings of the alarm tag the field dispatch accepts. -/
def alarmTag (epoc : Bool) : GoString :=
  if epoc then str "AALARM;TYPE=X-EPOCSOUND:" else str "AALARM:"

/-- A line before the first block that `Convert` passes over: no CR or LF
inside and none of the markers `END:VCALENDAR`, `BEGIN:VTODO`, `BEGIN:VEVENT`. -/
def skipLineOk (l : GoString) : Bool :=
  l.all (fun c => c != 13 && c != 10)
    && !equalFold l (str "END:VCALENDAR") && !equalFold l (str "BEGIN:VTODO")
    && !equalFold l (str "BEGIN:VEVENT")

/-- A field of a block as it stands in the input: its first line with the
terminator of that line (`true` for CR LF, `false` for LF), and the lines that
continue it, each with its terminator. -/
structure FieldLines where
  head : GoString
  crlf : Bool
  more : List (GoString × Bool)
deriving DecidableEq, Repr

/-- The bytes of a field: its lines, each with its terminator. -/
def FieldLines.text (g : FieldLines) : GoString :=
  g.head ++ lineEnd g.crlf ++ vcsLines g.more

/-- The bytes of a list of fields. -/
def blockText : List FieldLines → GoString
  | [] => []
  | g :: rest => g.text ++ blockText rest

/-- The record after the field dispatch of a field: `processField` run on its
first line in front of its continuation lines and a byte that is not white
space. -/
def FieldLines.store (g : FieldLines) (rec : Record) : Record :=
  match processField g.head none rec ⟨vcsLines g.more ++ [69], false⟩ with
  | some (FieldResult.next rec2 _ _) => rec2
  | _ => rec

/-- The record after the field dispatch of each of the fields in turn. -/
def foldGroups (rec : Record) (gs : List FieldLines) : Record :=
  gs.foldl (fun r g => g.store r) rec

/-- A line that continues a folded field: a first byte that is white space
other than CR and LF, then no CR and no LF. -/
def foldedLineOk (k : GoString) : Bool :=
  match k with
  | [] => false
  | c :: rest => isSpace c && c != 13 && c != 10 && rest.all (fun d => d != 13 && d != 10)

/-- The value of a folded field after its first line: the continuation lines
without their first bytes. -/
def foldedValue : List (GoString × Bool) → GoString
  | [] => []
  | (k, _) :: rest => k.drop 1 ++ foldedValue rest

/-- The lines that continue a quoted-printable value `v`: each is read because
the value so far ends with `=`, holds no CR and no LF, and replaces that `=`;
the value after the last line does not end with `=`. -/
def softLinesOk : GoString → List (GoString × Bool) → Bool
  | v, [] => !endsWith v [61]
  | v, (k, _) :: rest =>
    endsWith v [61] && k.all (fun d => d != 13 && d != 10) && softLinesOk (v.dropLast ++ k) rest

/-- The quoted-printable text assembled from a value and its continuation
lines. -/
def softJoined : GoString → List (GoString × Bool) → GoString
  | v, [] => v
  | v, (k, _) :: rest => softJoined (v.dropLast ++ k) rest

/-- A field of a block that the field loop reads as one step: the first line
holds no CR and no LF, begins with a byte that is not white space (so it
continues no field before it) and is not an end marker; after a plain
`SUMMARY:`, `LOCATION:` or `DESCRIPTION:` line come only folded lines, after a
quoted-printable one the lines its trailing `=` calls for, and after any
other line none. -/
def FieldLines.Ok (g : FieldLines) : Bool :=
  g.head.all (fun c => c != 13 && c != 10)
    && (match g.head with
        | [] => false
        | c :: _ => !isSpace c)
    && !equalFold g.head (str "END:VEVENT") && !equalFold g.head (str "END:VTODO")
    && (if upperStartsWith g.head (str "SUMMARY:") then g.more.all (fun p => foldedLineOk p.1)
        else if upperStartsWith g.head (str "SUMMARY;ENCODING=QUOTED-PRINTABLE") then
          softLinesOk (afterColon g.head) g.more
        else if upperStartsWith g.head (str "LOCATION:") then
          g.more.all (fun p => foldedLineOk p.1)
        else if upperStartsWith g.head (str "LOCATION;ENCODING=QUOTED-PRINTABLE") then
          softLinesOk (afterColon g.head) g.more
        else if upperStartsWith g.head (str "DESCRIPTION:") then
          g.more.all (fun p => foldedLineOk p.1)
        else if upperStartsWith g.head (str "DESCRIPTION;ENCODING=QUOTED-PRINTABLE") then
          softLinesOk (afterColon g.head) g.more
        else g.more.isEmpty)

/-- Every CR of the text is immediately followed by an LF. -/
def crBeforeLF : GoString → Bool
  | [] => true
  | [c] => c != 13
  | c :: d :: rest => (c != 13 || d == 10) && crBeforeLF (d :: rest)

/-- The line is one that the field dispatch reads as a quoted-printable
field: it starts, whatever the case of its letters, with one of the three
tags `SUMMARY;ENCODING=QUOTED-PRINTABLE`, `LOCATION;ENCODING=QUOTED-PRINTABLE`,
`DESCRIPTION;ENCODING=QUOTED-PRINTABLE`. -/
def qpTagged (l : GoString) : Bool :=
  upperStartsWith l (str "SUMMARY;ENCODING=QUOTED-PRINTABLE")
    || upperStartsWith l (str "LOCATION;ENCODING=QUOTED-PRINTABLE")
    || upperStartsWith l (str "DESCRIPTION;ENCODING=QUOTED-PRINTABLE")

/-- No quoted-printable tag stands directly after an LF of the text. -/
def noQPAfterLF : GoString → Bool
  | [] => true
  | c :: rest => (c != 10 || !qpTagged rest) && noQPAfterLF rest

/-- No line of the text starts with a quoted-printable tag: none stands at
the start of the text or directly after an LF. -/
def noQPLine (s : GoString) : Bool := !qpTagged s && noQPAfterLF s

/-- The values of a record that are written as they stand come from lines:
each holds no CR and no LF, except that the summary, the location and the
description may also be the decoding of a text without CR and LF. -/
def Record.FromLines (rec : Record) : Prop :=
  (SingleLine rec.summary ∨ ∃ v, SingleLine v ∧ rec.summary = Decode v)
    ∧ (SingleLine rec.location ∨ ∃ v, SingleLine v ∧ rec.location = Decode v)
    ∧ (SingleLine rec.description ∨ ∃ v, SingleLine v ∧ rec.description = Decode v)
    ∧ SingleLine rec.status ∧ SingleLine rec.due ∧ SingleLine rec.sequence
    ∧ SingleLine rec.dtstart ∧ SingleLine rec.dtend ∧ SingleLine rec.dtstamp

/-- In each of the values of a record that are written as they stand, every
CR is immediately followed by an LF and every LF immediately preceded by a
CR. -/
def Record.BreakFree (rec : Record) : Prop :=
  noBareBreak rec.summary = true ∧ noBareBreak rec.location = true
    ∧ noBareBreak rec.description = true ∧ noBareBreak rec.status = true
    ∧ noBareBreak rec.due = true ∧ noBareBreak rec.sequence = true
    ∧ noBareBreak rec.dtstart = true ∧ noBareBreak rec.dtend = true
    ∧ noBareBreak rec.dtstamp = true
/-! ## Writer lemmas -/

theorem calendarHeader_eq (email : GoString) :
    str "BEGIN:VCALENDAR" ++ newLine ++ (str "PRODID:" ++ email ++ newLine)
      ++ (str "VERSION:2.0" ++ newLine) = calendarHeader email := by
  have h1 : str "BEGIN:VCALENDAR\r\nPRODID:" = str "BEGIN:VCALENDAR" ++ newLine ++ str "PRODID:" := by
    decide
  have h2 : str "\r\nVERSION:2.0\r\n" = newLine ++ (str "VERSION:2.0" ++ newLine) := by decide
  simp only [calendarHeader, h1, h2, List.append_assoc]

theorem Sink.Write_written (s : Sink) (p : GoString) :
    (s.Write p).1.written = s.written ++ p := by
  unfold Sink.Write; cases s.verdicts <;> rfl

theorem Sink.Write_closer (s : Sink) (p : GoString) :
    (s.Write p).1.closer = s.closer := by
  unfold Sink.Write; cases s.verdicts <;> rfl

theorem Sink.Write_verdicts (s : Sink) (p : GoString) :
    (s.Write p).1.verdicts = s.verdicts.tail := by
  unfold Sink.Write; cases s.verdicts <;> rfl

theorem Sink.Write_err (s : Sink) (p : GoString) :
    (s.Write p).2 = none ∨ (s.Write p).2 = some Err.writeFailure := by
  unfold Sink.Write
  cases s.verdicts with
  | nil => simp
  | cons v vs => cases v <;> simp

theorem Sink.Write_reliable (s : Sink) (p : GoString) (h : s.Reliable) :
    (s.Write p).2 = none ∧ (s.Write p).1.Reliable := by
  unfold Sink.Write Sink.Reliable at *
  cases hv : s.verdicts with
  | nil => simp [hv]
  | cons v vs =>
    rw [hv] at h
    have := h v (by simp)
    subst this
    refine ⟨by simp, ?_⟩
    intro x hx
    exact h x (List.mem_cons_of_mem _ hx)

/-- The header text, in the shape `writeHeader` builds it. -/
theorem writeHeader_eq (w : ICSWriter) :
    w.writeHeader =
      (match w.writer.Write (calendarHeader w.Email) with
        | (sink, some e) => ({ w with writer := sink }, some e)
        | (sink, none) => ({ w with writer := sink, headerWritten := true }, none)) := by
  rw [← calendarHeader_eq]
  unfold ICSWriter.writeHeader
  by_cases he : w.Email = []
  · simp [he]
  · simp [he]

theorem writeHeader_spec (w : ICSWriter) :
    w.writeHeader.1.writer = (w.writer.Write (calendarHeader w.Email)).1
    ∧ w.writeHeader.2 = (w.writer.Write (calendarHeader w.Email)).2
    ∧ w.writeHeader.1.Email = w.Email ∧ w.writeHeader.1.closed = w.closed
    ∧ w.writeHeader.1.contents = w.contents
    ∧ w.writeHeader.1.headerWritten
        = (w.headerWritten || (w.writer.Write (calendarHeader w.Email)).2 == none) := by
  rw [writeHeader_eq]
  rcases h : w.writer.Write (calendarHeader w.Email) with ⟨sink, e⟩
  cases e <;> simp

/-- C3: on an open writer, `AddEvent` for an event with an empty start returns
an error (the missing-start-date error, or the sink's error when the header
still had to be written and that write failed), and the only bytes the call
hands to the sink are the calendar header when it had not been written
before: no byte of the VEVENT block is sent. -/
theorem C3_missing_start_date (w : ICSWriter) (now : Time)
    (summary description location dtEnd rrule dtStamp sequence due status alarm : GoString)
    (hopen : w.closed = false) :
    ((w.AddEvent now true summary description location [] dtEnd rrule dtStamp sequence due
        status alarm).2 = some Err.noStartDate
      ∨ (w.headerWritten = false ∧
          (w.AddEvent now true summary description location [] dtEnd rrule dtStamp sequence due
            status alarm).2 = some Err.writeFailure))
    ∧ (w.AddEvent now true summary description location [] dtEnd rrule dtStamp sequence due
        status alarm).1.writer.written
      = w.writer.written ++ (if w.headerWritten then [] else calendarHeader w.Email) := by
  unfold ICSWriter.AddEvent
  cases hh : w.headerWritten
  · obtain ⟨h1, h2, -⟩ := writeHeader_spec w
    have h3 := Sink.Write_written w.writer (calendarHeader w.Email)
    have h4 := Sink.Write_err w.writer (calendarHeader w.Email)
    rcases hwh : w.writeHeader with ⟨w1, e⟩
    rw [hwh] at h1 h2
    simp only at h1 h2
    rw [← h1] at h3
    rw [← h2] at h4
    rcases h4 with h4 | h4
    · subst h4
      simp [hopen, eventContents, h3]
    · subst h4
      simp [hopen, h3]
  · simp [hopen, eventContents]

theorem getnum_two (a b : Nat) (rest : GoString) (fixed : Bool) (ha : a < 10) (hb : b < 10) :
    getnum ((48 + a) :: (48 + b) :: rest) fixed = some (10 * a + b, rest) := by
  have h1 : isDigit (48 + a) = true := by simp [isDigit]; omega
  have h2 : isDigit (48 + b) = true := by simp [isDigit]; omega
  simp [getnum, h1, h2]; omega

theorem getYear_four (a b c d : Nat) (rest : GoString)
    (ha : a < 10) (hb : b < 10) (hc : c < 10) (hd : d < 10) :
    getYear ((48 + a) :: (48 + b) :: (48 + c) :: (48 + d) :: rest)
      = some (1000 * a + 100 * b + 10 * c + d, rest) := by
  have h1 : isDigit (48 + a) = true := by simp [isDigit]; omega
  have h2 : isDigit (48 + b) = true := by simp [isDigit]; omega
  have h3 : isDigit (48 + c) = true := by simp [isDigit]; omega
  have h4 : isDigit (48 + d) = true := by simp [isDigit]; omega
  simp [getYear, h1, h2, h3, h4, digitsValue]; omega

theorem timeParse_stamp (t : Stamp) (h : t.Valid) :
    timeParse t.utc t.text = some t.time := by
  obtain ⟨⟨a1, a2, a3, a4⟩, ⟨b1, b2, b3, b4⟩, ⟨c1, c2, c3, c4, c5, c6⟩, ⟨hm1, hm2⟩, ⟨hd1, hd2⟩,
    hh, hmi, hs⟩ := h
  unfold Stamp.month at hm1 hm2 hd2
  unfold Stamp.day at hd1 hd2
  unfold Stamp.year at hd2
  unfold Stamp.hour at hh
  unfold Stamp.minute at hmi
  unfold Stamp.second at hs
  have e1 : ¬ (10 * t.mo1 + t.mo2 = 0 ∨ 12 < 10 * t.mo1 + t.mo2) := by omega
  have e2 : ¬ (24 ≤ 10 * t.h1 + t.h2) := by omega
  have e3 : ¬ (60 ≤ 10 * t.mi1 + t.mi2) := by omega
  have e4 : ¬ (60 ≤ 10 * t.s1 + t.s2) := by omega
  have e5 : ¬ (10 * t.d1 + t.d2 < 1 ∨
      daysIn (10 * t.mo1 + t.mo2) ((1000 * t.y1 + 100 * t.y2 + 10 * t.y3 + t.y4 : Nat) : Int)
        < 10 * t.d1 + t.d2) := by omega
  cases hu : t.utc
  · simp only [Stamp.text, Stamp.dateText, hu, List.cons_append, List.nil_append, timeParse,
      getYear_four _ _ _ _ _ a1 a2 a3 a4, getnum_two _ _ _ _ b1 b2, getnum_two _ _ _ _ b3 b4,
      getnum_two _ _ _ _ c1 c2, getnum_two _ _ _ _ c3 c4, getnum_two _ _ _ _ c5 c6,
      skipByte, getFraction, e1, e2, e3, e4, e5, if_false, if_true, Stamp.time, Stamp.year,
      Stamp.month, Stamp.day, Stamp.hour, Stamp.minute, Stamp.second, List.append_nil,
      Bool.false_eq_true, ne_eq, not_true_eq_false]
  · simp only [Stamp.text, Stamp.dateText, hu, List.cons_append, List.nil_append, timeParse,
      getYear_four _ _ _ _ _ a1 a2 a3 a4, getnum_two _ _ _ _ b1 b2, getnum_two _ _ _ _ b3 b4,
      getnum_two _ _ _ _ c1 c2, getnum_two _ _ _ _ c3 c4, getnum_two _ _ _ _ c5 c6,
      skipByte, getFraction, e1, e2, e3, e4, e5, if_false, if_true, Stamp.time, Stamp.year,
      Stamp.month, Stamp.day, Stamp.hour, Stamp.minute, Stamp.second, List.append_nil,
      Bool.false_eq_true, ne_eq, not_true_eq_false]

theorem endsWith_append_singleton (l : GoString) (c d : Nat) :
    endsWith (l ++ [c]) [d] = decide (d = c) := by
  simp [endsWith, List.isSuffixOf, List.isPrefixOf]
  by_cases h : d = c <;> simp [h]

theorem ParseDate_stamp (t : Stamp) (h : t.Valid) : ParseDate t.text = some t.time := by
  have hp := timeParse_stamp t h
  obtain ⟨-, -, ⟨-, -, -, -, -, c6⟩, -⟩ := h
  unfold ParseDate
  cases hu : t.utc
  · have : endsWith t.text [90] = false := by
      have : t.text = (t.dateText ++ [84, 48 + t.h1, 48 + t.h2, 48 + t.mi1, 48 + t.mi2, 48 + t.s1])
          ++ [48 + t.s2] := by simp [Stamp.text, hu]
      rw [this, endsWith_append_singleton]
      simp; omega
    rw [this]; rw [hu] at hp; simpa using hp
  · have : endsWith t.text [90] = true := by
      have : t.text = (t.dateText ++ [84, 48 + t.h1, 48 + t.h2, 48 + t.mi1, 48 + t.mi2, 48 + t.s1,
          48 + t.s2]) ++ [90] := by simp [Stamp.text, hu]
      rw [this, endsWith_append_singleton]
      simp
    rw [this]; rw [hu] at hp; simpa using hp

/-! ## Decimal numerals -/

theorem decimalAux_eq (m : Nat) : ∀ (fuel : Nat) (acc : GoString), m < fuel →
    decimalAux fuel m acc = decimalAux (m + 1) m [] ++ acc := by
  induction m using Nat.strong_induction_on with
  | _ m ih =>
    intro fuel acc hf
    obtain ⟨f, rfl⟩ : ∃ f, fuel = f + 1 := ⟨fuel - 1, by omega⟩
    by_cases h : m < 10
    · simp [decimalAux, h]
    · have hlt : m / 10 < m := by omega
      have hm : ∃ k, m = k + 1 := ⟨m - 1, by omega⟩
      obtain ⟨k, rfl⟩ := hm
      have hL : decimalAux (f + 1) (k + 1) acc
          = decimalAux f ((k + 1) / 10) ((48 + (k + 1) % 10) :: acc) := by
        rw [decimalAux, if_neg h]
      have hR : decimalAux (k + 1 + 1) (k + 1) []
          = decimalAux (k + 1) ((k + 1) / 10) [48 + (k + 1) % 10] := by
        rw [decimalAux, if_neg h]
      rw [hL, hR, ih _ hlt f _ (by omega), ih _ hlt (k + 1) [48 + (k + 1) % 10] (by omega)]
      simp

theorem decimal_lt_ten (n : Nat) (h : n < 10) : decimal n = [48 + n] := by
  simp [decimal, decimalAux, h]

theorem decimal_ge_ten (n : Nat) (h : 10 ≤ n) :
    decimal n = decimal (n / 10) ++ [48 + n % 10] := by
  have hlt : n / 10 < n := by omega
  have h1 : ¬ n < 10 := by omega
  unfold decimal
  rw [decimalAux, if_neg h1, decimalAux_eq _ n _ hlt]

theorem appendInt_two (n : Nat) (h : n < 100) :
    appendInt (n : Int) 2 = [48 + n / 10, 48 + n % 10] := by
  have h0 : ¬ ((n : Int) < 0) := by omega
  unfold appendInt
  simp only [h0, if_false, Int.natAbs_ofNat, List.nil_append]
  by_cases h1 : n < 10
  · rw [decimal_lt_ten n h1]
    have : n / 10 = 0 := by omega
    have h2 : n % 10 = n := by omega
    simp [this, h2, List.replicate]
  · rw [decimal_ge_ten n (by omega), decimal_lt_ten (n / 10) (by omega)]
    simp

theorem appendInt_four (n : Nat) (h : n < 10000) :
    appendInt (n : Int) 4 = [48 + n / 1000, 48 + n / 100 % 10, 48 + n / 10 % 10, 48 + n % 10] := by
  have h0 : ¬ ((n : Int) < 0) := by omega
  unfold appendInt
  simp only [h0, if_false, Int.natAbs_ofNat, List.nil_append]
  by_cases h1 : n < 10
  · rw [decimal_lt_ten n h1]
    have e1 : n / 1000 = 0 := by omega
    have e2 : n / 100 % 10 = 0 := by omega
    have e3 : n / 10 % 10 = 0 := by omega
    have e4 : n % 10 = n := by omega
    simp [e1, e2, e3, e4, List.replicate]
  · by_cases h2 : n < 100
    · rw [decimal_ge_ten n (by omega), decimal_lt_ten (n / 10) (by omega)]
      have e1 : n / 1000 = 0 := by omega
      have e2 : n / 100 % 10 = 0 := by omega
      have e3 : n / 10 % 10 = n / 10 := by omega
      simp [e1, e2, e3, List.replicate]
    · by_cases h3 : n < 1000
      · rw [decimal_ge_ten n (by omega), decimal_ge_ten (n / 10) (by omega),
          decimal_lt_ten (n / 10 / 10) (by omega)]
        have e1 : n / 1000 = 0 := by omega
        have e2 : n / 100 % 10 = n / 10 / 10 := by omega
        simp [e1, e2, List.replicate]
      · rw [decimal_ge_ten n (by omega), decimal_ge_ten (n / 10) (by omega),
          decimal_ge_ten (n / 10 / 10) (by omega), decimal_lt_ten (n / 10 / 10 / 10) (by omega)]
        have e1 : n / 1000 = n / 10 / 10 / 10 := by omega
        have e2 : n / 100 % 10 = n / 10 / 10 % 10 := by omega
        simp [e1, e2]

theorem FormatDate_stamp (t : Stamp) (h : t.Valid) :
    FormatDate t.time = t.dateText ++ [84, 48 + t.h1, 48 + t.h2, 48 + t.mi1, 48 + t.mi2,
      48 + t.s1, 48 + t.s2, 90] := by
  obtain ⟨⟨a1, a2, a3, a4⟩, ⟨b1, b2, b3, b4⟩, ⟨c1, c2, c3, c4, c5, c6⟩, -⟩ := h
  unfold FormatDate Stamp.time
  simp only []
  rw [appendInt_four _ (by unfold Stamp.year; omega), appendInt_two _ (by unfold Stamp.month; omega),
    appendInt_two _ (by unfold Stamp.day; omega), appendInt_two _ (by unfold Stamp.hour; omega),
    appendInt_two _ (by unfold Stamp.minute; omega), appendInt_two _ (by unfold Stamp.second; omega)]
  unfold Stamp.year Stamp.month Stamp.day Stamp.hour Stamp.minute Stamp.second Stamp.dateText
  have f1 : (1000 * t.y1 + 100 * t.y2 + 10 * t.y3 + t.y4) / 1000 = t.y1 := by omega
  have f2 : (1000 * t.y1 + 100 * t.y2 + 10 * t.y3 + t.y4) / 100 % 10 = t.y2 := by omega
  have f3 : (1000 * t.y1 + 100 * t.y2 + 10 * t.y3 + t.y4) / 10 % 10 = t.y3 := by omega
  have f4 : (1000 * t.y1 + 100 * t.y2 + 10 * t.y3 + t.y4) % 10 = t.y4 := by omega
  have g1 : ∀ a b : Nat, a < 10 → b < 10 → (10 * a + b) / 10 = a := by intro a b _ _; omega
  have g2 : ∀ a b : Nat, a < 10 → b < 10 → (10 * a + b) % 10 = b := by intro a b _ _; omega
  simp only [f1, f2, f3, f4, g1 _ _ b1 b2, g2 _ _ b1 b2, g1 _ _ b3 b4, g2 _ _ b3 b4,
    g1 _ _ c1 c2, g2 _ _ c1 c2, g1 _ _ c3 c4, g2 _ _ c3 c4, g1 _ _ c5 c6, g2 _ _ c5 c6,
    List.cons_append, List.nil_append]

theorem FormatTimeForDayEvent_stamp (t : Stamp) (h : t.Valid) :
    FormatTimeForDayEvent t.time = t.dateText := by
  obtain ⟨⟨a1, a2, a3, a4⟩, ⟨b1, b2, b3, b4⟩, -⟩ := h
  unfold FormatTimeForDayEvent Stamp.time
  simp only []
  rw [appendInt_four _ (by unfold Stamp.year; omega), appendInt_two _ (by unfold Stamp.month; omega),
    appendInt_two _ (by unfold Stamp.day; omega)]
  unfold Stamp.year Stamp.month Stamp.day Stamp.dateText
  have f1 : (1000 * t.y1 + 100 * t.y2 + 10 * t.y3 + t.y4) / 1000 = t.y1 := by omega
  have f2 : (1000 * t.y1 + 100 * t.y2 + 10 * t.y3 + t.y4) / 100 % 10 = t.y2 := by omega
  have f3 : (1000 * t.y1 + 100 * t.y2 + 10 * t.y3 + t.y4) / 10 % 10 = t.y3 := by omega
  have f4 : (1000 * t.y1 + 100 * t.y2 + 10 * t.y3 + t.y4) % 10 = t.y4 := by omega
  have g1 : ∀ a b : Nat, a < 10 → b < 10 → (10 * a + b) / 10 = a := by intro a b _ _; omega
  have g2 : ∀ a b : Nat, a < 10 → b < 10 → (10 * a + b) % 10 = b := by intro a b _ _; omega
  simp only [f1, f2, f3, f4, g1 _ _ b1 b2, g2 _ _ b1 b2, g1 _ _ b3 b4, g2 _ _ b3 b4,
    List.cons_append, List.nil_append]

/-! ## The writer over a reliable sink -/

theorem ensureHeader_reliable (w : ICSWriter) (hrel : w.writer.Reliable) :
    ∃ w1, (if !w.headerWritten then w.writeHeader else (w, none)) = (w1, none)
      ∧ w1.Email = w.Email ∧ w1.closed = w.closed ∧ w1.headerWritten = true
      ∧ w1.writer.written = w.writer.written ++ headerIfMissing w
      ∧ w1.writer.Reliable ∧ w1.writer.closer = w.writer.closer := by
  unfold headerIfMissing
  cases hh : w.headerWritten
  · obtain ⟨h1, h2, h3, h4, -, h6⟩ := writeHeader_spec w
    obtain ⟨r1, r2⟩ := Sink.Write_reliable w.writer (calendarHeader w.Email) hrel
    rcases hwh : w.writeHeader with ⟨w1, e⟩
    rw [hwh] at h1 h2 h3 h4 h6
    simp only at h1 h2 h3 h4 h6
    rw [r1] at h2
    subst h2
    refine ⟨w1, by simp, h3, h4, ?_, ?_, ?_, ?_⟩
    · rw [h6, r1]; simp
    · rw [h1, Sink.Write_written]; simp
    · rw [h1]; exact r2
    · rw [h1, Sink.Write_closer]
  · exact ⟨w, by simp, rfl, rfl, hh, by simp, hrel, rfl⟩

/-- The text `AddEvent` builds for its arguments, with the error of the early
return. -/
theorem AddEvent_reliable (w : ICSWriter) (now : Time) (isEvent : Bool)
    (summary description location dtStart dtEnd rrule dtStamp sequence due status
      alarm : GoString)
    (hopen : w.closed = false) (hrel : w.writer.Reliable) :
    (w.AddEvent now isEvent summary description location dtStart dtEnd rrule dtStamp sequence
        due status alarm).2
      = (if isEvent then (eventContents w.Email now summary description location dtStart dtEnd
          rrule dtStamp alarm).2 else none)
    ∧ (w.AddEvent now isEvent summary description location dtStart dtEnd rrule dtStamp sequence
        due status alarm).1.writer.written
      = w.writer.written ++ headerIfMissing w ++
        (if isEvent then
          (if (eventContents w.Email now summary description location dtStart dtEnd
              rrule dtStamp alarm).2 = none then
            (eventContents w.Email now summary description location dtStart dtEnd
              rrule dtStamp alarm).1 else [])
         else todoContents w.Email now summary dtStamp sequence due status)
    ∧ (w.AddEvent now isEvent summary description location dtStart dtEnd rrule dtStamp sequence
        due status alarm).1.closed = false
    ∧ (w.AddEvent now isEvent summary description location dtStart dtEnd rrule dtStamp sequence
        due status alarm).1.headerWritten = true
    ∧ (w.AddEvent now isEvent summary description location dtStart dtEnd rrule dtStamp sequence
        due status alarm).1.Email = w.Email
    ∧ (w.AddEvent now isEvent summary description location dtStart dtEnd rrule dtStamp sequence
        due status alarm).1.writer.Reliable
    ∧ (w.AddEvent now isEvent summary description location dtStart dtEnd rrule dtStamp sequence
        due status alarm).1.writer.closer = w.writer.closer := by
  obtain ⟨w1, e1, e2, e3, e4, e5, e6, e7⟩ := ensureHeader_reliable w hrel
  unfold ICSWriter.AddEvent
  rw [e1]
  simp only [hopen, Bool.false_eq_true, if_false]
  cases isEvent
  · obtain ⟨r1, r2⟩ := Sink.Write_reliable w1.writer
      (todoContents w1.Email now summary dtStamp sequence due status) e6
    simp only [Bool.false_eq_true, if_false]
    rw [e2] at r1 r2 ⊢
    refine ⟨r1, ?_, ?_, e4, rfl, r2, ?_⟩
    · simp only [Sink.Write_written, e5]
    · simp only [e3, hopen]
    · simp only [Sink.Write_closer, e7]
  · simp only [if_true]
    rw [e2]
    rcases hc : eventContents w.Email now summary description location dtStart dtEnd rrule
      dtStamp alarm with ⟨c, e⟩
    cases e with
    | some e => simp [e3, e4, e5, e6, e7, hopen, e2]
    | none =>
      obtain ⟨r1, r2⟩ := Sink.Write_reliable w1.writer c e6
      simp only [if_true]
      refine ⟨r1, ?_, ?_, e4, trivial, r2, ?_⟩
      · simp only [Sink.Write_written, e5]
      · simp only [e3, hopen]
      · simp only [Sink.Write_closer, e7]

/-! ## The blocks `AddEvent` builds -/

theorem append_nil_ite (c : Prop) [Decidable c] (x y : GoString) :
    (if c then x else x ++ y) = x ++ (if c then [] else y) := by
  split <;> simp

theorem append_ite_ite (c : Prop) [Decidable c] (x y z : GoString) :
    (if c then x ++ y else x ++ z) = x ++ (if c then y else z) := by
  split <;> simp

theorem todoContents_eq (email : GoString) (now : Time)
    (summary dtStamp sequence due status : GoString) :
    todoContents email now summary dtStamp sequence due status
      = todoBlock email now summary dtStamp sequence due status := by
  have h1 : str "BEGIN:VTODO\r\n" = str "BEGIN:VTODO" ++ newLine := by decide
  have h2 : str "\r\n" = newLine := by decide
  have h3 : str "SEQUENCE:0" = str "SEQUENCE:" ++ str "0" := by decide
  have h4 : str "END:VTODO\r\n" = str "END:VTODO" ++ newLine := by decide
  unfold todoContents todoBlock stampLine optLine
  simp only [h1, h2, h3, h4, ne_eq, ite_not, append_nil_ite, append_ite_ite, List.append_assoc]
  by_cases a1 : dtStamp = [] <;> by_cases a2 : sequence = [] <;> simp [a1, a2]

theorem eventContents_eq (email : GoString) (now : Time)
    (summary description location dtStart dtEnd rrule dtStamp alarm : GoString)
    (hs : dtStart ≠ []) :
    eventContents email now summary description location dtStart dtEnd rrule dtStamp alarm
      = (eventHead email summary description location rrule ++ startEndLines dtStart dtEnd
          ++ eventTail now summary dtStart dtStamp alarm, none) := by
  have h1 : str "BEGIN:VEVENT\r\n" = str "BEGIN:VEVENT" ++ newLine := by decide
  have h2 : str "\r\n" = newLine := by decide
  have h3 : str "DTSTART;VALUE=DATE:" = str "DTSTART" ++ str ";VALUE=DATE:" := by decide
  have h4 : str "END:VEVENT\r\n" = str "END:VEVENT" ++ newLine := by decide
  have h5 : str "DTSTART:" = str "DTSTART" ++ str ":" := by decide
  unfold eventContents eventHead eventTail startEndLines stampLine optLine rruleLine alarmBlock
  simp only [h1, h2, h3, h4, h5, hs, ne_eq, not_false_eq_true, ite_not, if_true, append_nil_ite,
    append_ite_ite, List.append_assoc]
  congr 1
  generalize ParseDate dtStart = pd
  generalize ParseDate alarm = pa
  generalize ParseRepeatRule rrule false = pr
  generalize checkForSameStartAndEndTime dtStart dtEnd = b1
  generalize checkForStartTimeIsZero dtStart = b2
  by_cases a1 : dtStamp = [] <;> by_cases a2 : rrule = [] <;> by_cases a3 : alarm = []
    <;> cases b1 <;> cases b2 <;> cases pd <;> cases pa <;> cases pr
    <;> simp [a1, a2, a3]

theorem startEndLines_same (t : Stamp) (hv : t.Valid) :
    startEndLines t.text t.text
      = if t.hour = 0 ∧ t.minute = 0 then str "DTSTART;VALUE=DATE:" ++ t.dateText ++ str "\r\n"
        else str "DTSTART:" ++ t.text ++ str "\r\n" := by
  have hne : t.text ≠ [] := by simp [Stamp.text, Stamp.dateText]
  have hsame : checkForSameStartAndEndTime t.text t.text = true := by
    simp [checkForSameStartAndEndTime, hne]
  have hzero : checkForStartTimeIsZero t.text = decide (t.hour = 0 ∧ t.minute = 0) := by
    simp [checkForStartTimeIsZero, hne, ParseDate_stamp t hv, Stamp.time]
    by_cases h1 : t.hour = 0 <;> by_cases h2 : t.minute = 0 <;> simp [h1, h2]
  unfold startEndLines
  rw [hsame, hzero, ParseDate_stamp t hv]
  simp only [FormatTimeForDayEvent_stamp t hv, if_true]
  by_cases h : t.hour = 0 ∧ t.minute = 0 <;> simp [h]

/-- C4: for a valid timestamp string whose time of day is 00:00:00, `AddEvent`
with that string as both start and end builds an event block whose start and
end lines are the single line `DTSTART;VALUE=DATE:YYYYMMDD`, with neither a
`DTEND` line nor a verbatim `DTSTART:` line, and over a reliable sink sends
that block. -/
theorem C4_all_day_event (w : ICSWriter) (now : Time) (t : Stamp)
    (summary description location rrule dtStamp sequence due status alarm : GoString)
    (hopen : w.closed = false) (hrel : w.writer.Reliable) (hv : t.Valid)
    (hmid : t.hour = 0 ∧ t.minute = 0 ∧ t.second = 0) :
    startEndLines t.text t.text = str "DTSTART;VALUE=DATE:" ++ t.dateText ++ str "\r\n"
    ∧ (w.AddEvent now true summary description location t.text t.text rrule dtStamp sequence
        due status alarm).2 = none
    ∧ (w.AddEvent now true summary description location t.text t.text rrule dtStamp sequence
        due status alarm).1.writer.written
      = w.writer.written ++ headerIfMissing w
        ++ (eventHead w.Email summary description location rrule
          ++ (str "DTSTART;VALUE=DATE:" ++ t.dateText ++ str "\r\n")
          ++ eventTail now summary t.text dtStamp alarm) := by
  have hne : t.text ≠ [] := by simp [Stamp.text, Stamp.dateText]
  have hse : startEndLines t.text t.text
      = str "DTSTART;VALUE=DATE:" ++ t.dateText ++ str "\r\n" := by
    rw [startEndLines_same t hv, if_pos ⟨hmid.1, hmid.2.1⟩]
  obtain ⟨h1, h2, -⟩ := AddEvent_reliable w now true summary description location t.text t.text
    rrule dtStamp sequence due status alarm hopen hrel
  rw [eventContents_eq _ _ _ _ _ _ _ _ _ _ hne, hse] at h1 h2
  exact ⟨hse, by simpa using h1, by simpa using h2⟩

theorem C4_all_day_event_witness :
    startEndLines (str "20250101T000000") (str "20250101T000000")
      = str "DTSTART;VALUE=DATE:20250101\r\n"
    ∧ ((NewICSWriter (str "a@b.com") ⟨[], [], none⟩).AddEvent ⟨2025, 11, 4, 9, 30, 0, 0⟩ true
        (str "New Year") [] [] (str "20250101T000000") (str "20250101T000000") [] [] [] [] []
        []).1.writer.written
      = str "BEGIN:VCALENDAR\r\nPRODID:a@b.com\r\nVERSION:2.0\r\nBEGIN:VEVENT\r\nORGANIZER:a@b.com\r\nSUMMARY:New Year\r\nDTSTART;VALUE=DATE:20250101\r\nDTSTAMP:20251104T093000Z\r\nEND:VEVENT\r\n" := by
  have h := C4_all_day_event (NewICSWriter (str "a@b.com") ⟨[], [], none⟩)
    ⟨2025, 11, 4, 9, 30, 0, 0⟩ ⟨2, 0, 2, 5, 0, 1, 0, 1, 0, 0, 0, 0, 0, 0, false⟩
    (str "New Year") [] [] [] [] [] [] [] [] rfl (by intro v hv; cases hv)
    (by unfold Stamp.Valid; decide) (by decide)
  exact ⟨h.1, h.2.2⟩

/-- C5 (as amended): for a valid timestamp string whose hour or minute is not
zero, `AddEvent` with that string as both start and end builds an event block
whose start and end lines are the single verbatim line `DTSTART:<string>`,
with no `DTEND` line and not in the all-day form, and over a reliable sink
sends that block. -/
theorem C5_same_start_end_not_midnight (w : ICSWriter) (now : Time) (t : Stamp)
    (summary description location rrule dtStamp sequence due status alarm : GoString)
    (hopen : w.closed = false) (hrel : w.writer.Reliable) (hv : t.Valid)
    (hnz : t.hour ≠ 0 ∨ t.minute ≠ 0) :
    startEndLines t.text t.text = str "DTSTART:" ++ t.text ++ str "\r\n"
    ∧ (w.AddEvent now true summary description location t.text t.text rrule dtStamp sequence
        due status alarm).2 = none
    ∧ (w.AddEvent now true summary description location t.text t.text rrule dtStamp sequence
        due status alarm).1.writer.written
      = w.writer.written ++ headerIfMissing w
        ++ (eventHead w.Email summary description location rrule
          ++ (str "DTSTART:" ++ t.text ++ str "\r\n")
          ++ eventTail now summary t.text dtStamp alarm) := by
  have hne : t.text ≠ [] := by simp [Stamp.text, Stamp.dateText]
  have hse : startEndLines t.text t.text = str "DTSTART:" ++ t.text ++ str "\r\n" := by
    rw [startEndLines_same t hv, if_neg (by omega)]
  obtain ⟨h1, h2, -⟩ := AddEvent_reliable w now true summary description location t.text t.text
    rrule dtStamp sequence due status alarm hopen hrel
  rw [eventContents_eq _ _ _ _ _ _ _ _ _ _ hne, hse] at h1 h2
  exact ⟨hse, by simpa using h1, by simpa using h2⟩

theorem C5_same_start_end_not_midnight_witness :
    startEndLines (str "20250101T093000Z") (str "20250101T093000Z")
      = str "DTSTART:20250101T093000Z\r\n"
    ∧ ((NewICSWriter (str "a@b.com") ⟨[], [], none⟩).AddEvent ⟨2025, 11, 4, 9, 30, 0, 0⟩ true
        (str "Visit") [] [] (str "20250101T093000Z") (str "20250101T093000Z") [] [] [] [] []
        []).1.writer.written
      = str "BEGIN:VCALENDAR\r\nPRODID:a@b.com\r\nVERSION:2.0\r\nBEGIN:VEVENT\r\nORGANIZER:a@b.com\r\nSUMMARY:Visit\r\nDTSTART:20250101T093000Z\r\nDTSTAMP:20251104T093000Z\r\nEND:VEVENT\r\n" := by
  have h := C5_same_start_end_not_midnight (NewICSWriter (str "a@b.com") ⟨[], [], none⟩)
    ⟨2025, 11, 4, 9, 30, 0, 0⟩ ⟨2, 0, 2, 5, 0, 1, 0, 1, 0, 9, 3, 0, 0, 0, true⟩
    (str "Visit") [] [] [] [] [] [] [] [] rfl (by intro v hv; cases hv)
    (by unfold Stamp.Valid; decide) (by decide)
  exact ⟨h.1, h.2.2⟩

/-- C5 (counterexample to the claim as stated): the valid timestamp string
`20250101T000030` has a non-zero second, yet `AddEvent` with it as start and
end writes the all-day line `DTSTART;VALUE=DATE:20250101` and not the verbatim
`DTSTART:20250101T000030`. -/
theorem C5_counterexample :
    (⟨2, 0, 2, 5, 0, 1, 0, 1, 0, 0, 0, 0, 3, 0, false⟩ : Stamp).Valid
    ∧ (⟨2, 0, 2, 5, 0, 1, 0, 1, 0, 0, 0, 0, 3, 0, false⟩ : Stamp).second = 30
    ∧ (⟨2, 0, 2, 5, 0, 1, 0, 1, 0, 0, 0, 0, 3, 0, false⟩ : Stamp).text = str "20250101T000030"
    ∧ ((NewICSWriter [] ⟨[], [], none⟩).AddEvent ⟨2025, 11, 4, 9, 30, 0, 0⟩ true
        [] [] [] (str "20250101T000030") (str "20250101T000030") [] [] [] [] []
        []).1.writer.written
      = str "BEGIN:VCALENDAR\r\nPRODID:\r\nVERSION:2.0\r\nBEGIN:VEVENT\r\nDTSTART;VALUE=DATE:20250101\r\nDTSTAMP:20251104T093000Z\r\nEND:VEVENT\r\n" := by
  refine ⟨by unfold Stamp.Valid; decide, by decide, by decide, by decide⟩

/-- C6: for a task on an open writer the call never fails for a missing start
date, and over a reliable sink it succeeds and sends, after the header if it
was still missing, exactly the lines `BEGIN:VTODO`, `DTSTAMP` (the given stamp
or else the current time), `SEQUENCE` (the given one or else `0`), then
`ORGANIZER`, `DUE`, `STATUS` and `SUMMARY` for each non-empty value, and
`END:VTODO`, each ended by CR LF; description, location, start, end, rule and
alarm do not occur in it. -/
theorem C6_todo_block (w : ICSWriter) (now : Time)
    (summary description location dtStart dtEnd rrule dtStamp sequence due status
      alarm : GoString) (hopen : w.closed = false) :
    (w.AddEvent now false summary description location dtStart dtEnd rrule dtStamp sequence
        due status alarm).2 ≠ some Err.noStartDate
    ∧ (w.writer.Reliable →
        (w.AddEvent now false summary description location dtStart dtEnd rrule dtStamp sequence
          due status alarm).2 = none
        ∧ (w.AddEvent now false summary description location dtStart dtEnd rrule dtStamp
            sequence due status alarm).1.writer.written
          = w.writer.written ++ headerIfMissing w
            ++ (str "BEGIN:VTODO\r\n"
              ++ str "DTSTAMP:" ++ (if dtStamp = [] then FormatDate now else dtStamp) ++ str "\r\n"
              ++ str "SEQUENCE:" ++ (if sequence = [] then str "0" else sequence) ++ str "\r\n"
              ++ (if w.Email = [] then [] else str "ORGANIZER:" ++ w.Email ++ str "\r\n")
              ++ (if due = [] then [] else str "DUE:" ++ due ++ str "\r\n")
              ++ (if status = [] then [] else str "STATUS:" ++ status ++ str "\r\n")
              ++ (if summary = [] then [] else str "SUMMARY:" ++ summary ++ str "\r\n")
              ++ str "END:VTODO\r\n")) := by
  constructor
  · unfold ICSWriter.AddEvent
    simp only [hopen, Bool.false_eq_true, if_false]
    cases hh : w.headerWritten
    · obtain ⟨-, h2, -⟩ := writeHeader_spec w
      have h4 := Sink.Write_err w.writer (calendarHeader w.Email)
      rcases hwh : w.writeHeader with ⟨w1, e⟩
      rw [hwh] at h2
      simp only at h2
      rw [← h2] at h4
      rcases h4 with h4 | h4
      · subst h4
        simp only [Bool.not_false, if_true]
        rcases Sink.Write_err w1.writer
          (todoContents w1.Email now summary dtStamp sequence due status) with h | h
          <;> simp [h]
      · subst h4
        simp
    · simp only [Bool.not_true, Bool.false_eq_true, if_false]
      rcases Sink.Write_err w.writer
        (todoContents w.Email now summary dtStamp sequence due status) with h | h
        <;> simp [h]
  · intro hrel
    obtain ⟨h1, h2, -⟩ := AddEvent_reliable w now false summary description location dtStart
      dtEnd rrule dtStamp sequence due status alarm hopen hrel
    rw [todoContents_eq] at h2
    refine ⟨by simpa using h1, ?_⟩
    rw [h2]
    simp [todoBlock, stampLine, optLine]

theorem C6_todo_block_witness :
    ((NewICSWriter (str "a@b.com") ⟨[], [], none⟩).AddEvent ⟨2025, 11, 4, 9, 30, 0, 0⟩ false
        (str "Buy milk") (str "unused") (str "unused") [] [] (str "D1 #2") [] [] []
        (str "NEEDS ACTION") (str "20250101T000000;x")).1.writer.written
      = str "BEGIN:VCALENDAR\r\nPRODID:a@b.com\r\nVERSION:2.0\r\nBEGIN:VTODO\r\nDTSTAMP:20251104T093000Z\r\nSEQUENCE:0\r\nORGANIZER:a@b.com\r\nSTATUS:NEEDS ACTION\r\nSUMMARY:Buy milk\r\nEND:VTODO\r\n" :=
  ((C6_todo_block (NewICSWriter (str "a@b.com") ⟨[], [], none⟩) ⟨2025, 11, 4, 9, 30, 0, 0⟩
    (str "Buy milk") (str "unused") (str "unused") [] [] (str "D1 #2") [] [] []
    (str "NEEDS ACTION") (str "20250101T000000;x") rfl).2 (by intro v hv; cases hv)).2

/-- C7: every string `YYYYMMDDTHHMMSSZ` that denotes a valid calendar date and
time of day is parsed by `ParseDate`, and `FormatDate` of the result is the
string again. -/
theorem C7_format_parse_roundtrip (t : Stamp) (hv : t.Valid) (hz : t.utc = true) :
    ∃ tm, ParseDate t.text = some tm ∧ FormatDate tm = t.text := by
  refine ⟨t.time, ParseDate_stamp t hv, ?_⟩
  rw [FormatDate_stamp t hv]
  simp [Stamp.text, hz]

theorem C7_format_parse_roundtrip_witness :
    ∃ tm, ParseDate (str "20240229T235959Z") = some tm
      ∧ FormatDate tm = str "20240229T235959Z" :=
  C7_format_parse_roundtrip ⟨2, 0, 2, 4, 0, 2, 2, 9, 2, 3, 5, 9, 5, 9, true⟩
    (by unfold Stamp.Valid; decide) rfl

theorem C3_missing_start_date_witness :
    ((NewICSWriter (str "a@b.com") ⟨str "x", [], none⟩).AddEvent ⟨2025, 11, 4, 9, 30, 0, 0⟩ true
        (str "Test") [] [] [] (str "20250601T100000Z") [] [] [] [] [] []).2
      = some Err.noStartDate
    ∧ ((NewICSWriter (str "a@b.com") ⟨str "x", [], none⟩).AddEvent ⟨2025, 11, 4, 9, 30, 0, 0⟩
        true (str "Test") [] [] [] (str "20250601T100000Z") [] [] [] [] [] []).1.writer.written
      = str "xBEGIN:VCALENDAR\r\nPRODID:a@b.com\r\nVERSION:2.0\r\n" := by
  have h := C3_missing_start_date (NewICSWriter (str "a@b.com") ⟨str "x", [], none⟩)
    ⟨2025, 11, 4, 9, 30, 0, 0⟩ (str "Test") [] [] (str "20250601T100000Z") [] [] [] [] [] [] rfl
  exact ⟨by decide, h.2⟩

/-! ## Integers in decimal -/

theorem digitsValue_append_singleton (l : GoString) (c : Nat) :
    digitsValue (l ++ [c]) = 10 * digitsValue l + (c - 48) := by
  simp [digitsValue, List.foldl_append]

theorem decimal_spec (n : Nat) :
    decimal n ≠ [] ∧ (∀ c ∈ decimal n, isDigit c = true) ∧ digitsValue (decimal n) = n := by
  induction n using Nat.strong_induction_on with
  | _ n ih =>
    by_cases h : n < 10
    · rw [decimal_lt_ten n h]
      refine ⟨by simp, ?_, by simp [digitsValue]⟩
      intro c hc
      simp at hc
      subst hc
      simp [isDigit]; omega
    · obtain ⟨i1, i2, i3⟩ := ih (n / 10) (by omega)
      rw [decimal_ge_ten n (by omega)]
      refine ⟨by simp, ?_, ?_⟩
      · intro c hc
        rcases List.mem_append.1 hc with hc | hc
        · exact i2 c hc
        · simp at hc
          subst hc
          simp [isDigit]; omega
      · rw [digitsValue_append_singleton, i3]; omega

theorem Atoi_digits (s : GoString) (hne : s ≠ []) (hall : ∀ c ∈ s, isDigit c = true)
    (hv : digitsValue s < 2 ^ 63) : Atoi s = some (digitsValue s : Int) := by
  obtain ⟨c, rest, rfl⟩ : ∃ c rest, s = c :: rest := by
    cases s with
    | nil => exact absurd rfl hne
    | cons c rest => exact ⟨c, rest, rfl⟩
  have hc : isDigit c = true := hall c (by simp)
  have hc2 : 48 ≤ c ∧ c ≤ 57 := by simpa [isDigit] using hc
  have h45 : c ≠ 45 := by omega
  have h43 : c ≠ 43 := by omega
  have hall2 : (c :: rest).all isDigit = true := by
    rw [List.all_eq_true]; exact hall
  unfold Atoi
  simp only [List.head?_cons]
  have e1 : (some c == some 45) = false := by simp [h45]
  have e2 : (some c == some 43) = false := by simp [h43]
  simp only [e1, e2, Bool.or_false, Bool.false_eq_true, if_false, hall2, List.isEmpty_cons,
    Bool.not_true, hv, if_true]

theorem Atoi_decimal (n : Nat) (h : n < 2 ^ 63) : Atoi (decimal n) = some (n : Int) := by
  obtain ⟨h1, h2, h3⟩ := decimal_spec n
  have := Atoi_digits (decimal n) h1 h2 (by rw [h3]; exact h)
  rw [h3] at this
  exact this

theorem Atoi_not_integer (s : GoString) (h : isIntegerText s = false) : Atoi s = none := by
  have key : isIntegerText s
      = (!(if s.head? == some 45 || s.head? == some 43 then s.tail else s).isEmpty
          && (if s.head? == some 45 || s.head? == some 43 then s.tail else s).all isDigit) := by
    unfold isIntegerText
    split
    · simp
    · simp
    · rename_i h1 h2
      cases s with
      | nil => simp
      | cons c r =>
        have e1 : c ≠ 45 := fun hc => h1 r (by rw [hc])
        have e2 : c ≠ 43 := fun hc => h2 r (by rw [hc])
        simp [e1, e2]
  rw [key] at h
  unfold Atoi
  simp only []
  generalize (if s.head? == some 45 || s.head? == some 43 then s.tail else s) = body at h
  have : (body.isEmpty || !body.all isDigit) = true := by
    cases h1 : body.isEmpty <;> cases h2 : body.all isDigit <;> simp_all
  rw [if_pos this]

/-! ## Repeat rules -/

theorem splitOn_no_sep (sep : Nat) (a : GoString) (h : ∀ x ∈ a, x ≠ sep) :
    splitOn sep a = [a] := by
  induction a with
  | nil => rfl
  | cons c r ih =>
    have hc : c ≠ sep := h c (by simp)
    have hr := ih (fun x hx => h x (by simp [hx]))
    simp [splitOn, hc, hr]

theorem splitOn_append (sep : Nat) (a b : GoString) (h : ∀ x ∈ a, x ≠ sep) :
    splitOn sep (a ++ sep :: b) = a :: splitOn sep b := by
  induction a with
  | nil => simp [splitOn]
  | cons c r ih =>
    have hc : c ≠ sep := h c (by simp)
    have hr := ih (fun x hx => h x (by simp [hx]))
    simp [splitOn, hc, hr]

theorem splitOn_ne_nil (sep : Nat) (s : GoString) : splitOn sep s ≠ [] := by
  cases s with
  | nil => simp [splitOn]
  | cons c r =>
    by_cases hc : c = sep
    · simp [splitOn, hc]
    · cases hs : splitOn sep r <;> simp [splitOn, hc, hs]

theorem splitOn_head (sep : Nat) (s : GoString) :
    (splitOn sep s).headD [] = s.takeWhile (fun c => c != sep) := by
  induction s with
  | nil => rfl
  | cons c r ih =>
    by_cases hc : c = sep
    · simp [splitOn, hc]
    · cases hs : splitOn sep r with
      | nil => exact absurd hs (splitOn_ne_nil sep r)
      | cons p ps =>
        rw [hs] at ih
        simp only [List.headD_cons] at ih
        simp [splitOn, hc, hs, ih]

theorem digit_ne_space (l : GoString) (h : ∀ c ∈ l, isDigit c = true) : ∀ x ∈ l, x ≠ 32 := by
  intro x hx hx2
  have := h x hx
  subst hx2
  simp [isDigit] at this

theorem tagged_no_space (f : Frequency) (n : Nat) : ∀ x ∈ f.vcsTag ++ decimal n, x ≠ 32 := by
  intro x hx
  rcases List.mem_append.1 hx with h | h
  · clear hx
    cases f <;> revert x <;> decide
  · exact digit_ne_space _ (decimal_spec n).2.1 x h

theorem parseFreq_tagged (f : Frequency) (l : GoString) :
    parseFreq (f.vcsTag ++ l) = some (f, l) := by
  cases f <;> simp [parseFreq, Frequency.vcsTag, startsWith, str, List.isPrefixOf]

theorem Itoa_natCast (n : Nat) : Itoa (n : Int) = decimal n := by
  have h0 : ¬ ((n : Int) < 0) := by omega
  simp [Itoa, h0]

theorem splitOn_head_firstToken (rrule : GoString) :
    (splitOn 32 rrule).headD [] = firstToken rrule := splitOn_head 32 rrule

theorem ParseRepeatRule_bad_tag (rrule : GoString) (u : Bool)
    (h : parseFreq (firstToken rrule) = none) : ParseRepeatRule rrule u = none := by
  unfold ParseRepeatRule
  simp only [splitOn_head_firstToken, h]
  split
  · rfl
  · split <;> rfl

theorem ParseRepeatRule_bad_interval (rrule : GoString) (u : Bool) (f : Frequency)
    (rest : GoString) (h : parseFreq (firstToken rrule) = some (f, rest))
    (hi : Atoi rest = none) : ParseRepeatRule rrule u = none := by
  unfold ParseRepeatRule
  simp only [splitOn_head_firstToken, h, hi]
  split
  · rfl
  · split <;> rfl

theorem ParseRepeatRule_count (f : Frequency) (n c : Nat) (u : Bool)
    (hn : n < 2 ^ 63) (hc : c < 2 ^ 63) :
    ParseRepeatRule (f.vcsTag ++ decimal n ++ str " #" ++ decimal c) u
      = some (if 0 < c then ⟨f, n, Time.zero, c⟩ else ⟨f, n, Time.zero, 0⟩) := by
  have hs : f.vcsTag ++ decimal n ++ str " #" ++ decimal c
      = (f.vcsTag ++ decimal n) ++ 32 :: (35 :: decimal c) := by
    have : str " #" = [32, 35] := by decide
    simp [this]
  have hc2 : ∀ x ∈ (35 :: decimal c), x ≠ 32 := by
    intro x hx
    rcases List.mem_cons.1 hx with h | h
    · omega
    · exact digit_ne_space _ (decimal_spec c).2.1 x h
  have hocc : parseOccur (35 :: decimal c) u = some (Time.zero, (c : Int)) := by
    have : str "#" = [35] := by decide
    simp [parseOccur, startsWith, this, List.isPrefixOf, Atoi_decimal c hc]
  unfold ParseRepeatRule
  rw [hs, splitOn_append 32 _ _ (tagged_no_space f n), splitOn_no_sep 32 _ hc2]
  simp only [List.length_cons, List.length_nil, List.headD_cons, List.getLastD_cons,
    List.getLastD_nil, hocc, parseFreq_tagged, Atoi_decimal n hn]
  by_cases h0 : 0 < c
  · have : (c : Int) > 0 := by omega
    simp [h0, this, Time.IsZero]
  · have : ¬ (c : Int) > 0 := by omega
    simp [h0, this, Time.IsZero]

theorem ToICS_count (f : Frequency) (n c : Nat) (hn : 0 < n) (hc : 0 < c) :
    (⟨f, n, Time.zero, c⟩ : RepeatRule).ToICS
      = str "RRULE:FREQ=" ++ f.String ++ str ";INTERVAL=" ++ decimal n
        ++ str ";COUNT=" ++ decimal c := by
  have h1 : ((n : Int) > 0) := by omega
  have h2 : ((c : Int) > 0) := by omega
  simp [RepeatRule.ToICS, h1, h2, Itoa_natCast]

theorem ToICS_until (f : Frequency) (n : Nat) (tm : Time) (hn : 0 < n) (hz : tm ≠ Time.zero) :
    (⟨f, n, tm, 0⟩ : RepeatRule).ToICS
      = str "RRULE:FREQ=" ++ f.String ++ str ";INTERVAL=" ++ decimal n
        ++ str ";UNTIL=" ++ FormatDate tm := by
  have h1 : ((n : Int) > 0) := by omega
  simp [RepeatRule.ToICS, h1, Itoa_natCast, Time.IsZero, hz]

theorem stamp_no_space (t : Stamp) (hv : t.Valid) : ∀ x ∈ t.text, x ≠ 32 := by
  obtain ⟨⟨a1, a2, a3, a4⟩, ⟨b1, b2, b3, b4⟩, ⟨c1, c2, c3, c4, c5, c6⟩, -⟩ := hv
  intro x hx
  cases hu : t.utc <;>
    simp [Stamp.text, Stamp.dateText, hu] at hx <;>
    omega

theorem ParseRepeatRule_date (f : Frequency) (n : Nat) (t : Stamp) (u : Bool)
    (hn : n < 2 ^ 63) (hv : t.Valid) (hz : t.time ≠ Time.zero) :
    ParseRepeatRule (f.vcsTag ++ decimal n ++ str " " ++ t.text) u
      = some (if u = true then ⟨f, n, t.time, 0⟩ else ⟨f, n, Time.zero, 0⟩) := by
  obtain ⟨⟨a1, a2, a3, a4⟩, -⟩ := id hv
  have hs : f.vcsTag ++ decimal n ++ str " " ++ t.text
      = (f.vcsTag ++ decimal n) ++ 32 :: t.text := by
    have : str " " = [32] := by decide
    simp [this]
  have hsharp : startsWith t.text (str "#") = false := by
    have : str "#" = [35] := by decide
    have h35 : ¬ (35 = 48 + t.y1) := by omega
    simp [startsWith, this, Stamp.text, Stamp.dateText, List.isPrefixOf, h35]
  have hT : containsByte t.text 84 = true := by
    simp [containsByte, Stamp.text, Stamp.dateText]
  have hocc : parseOccur t.text u = some (if u = true then t.time else Time.zero, 0) := by
    cases u <;> simp [parseOccur, hsharp, hT, ParseDate_stamp t hv]
  unfold ParseRepeatRule
  rw [hs, splitOn_append 32 _ _ (tagged_no_space f n), splitOn_no_sep 32 _ (stamp_no_space t hv)]
  simp only [List.length_cons, List.length_nil, List.headD_cons, List.getLastD_cons,
    List.getLastD_nil, hocc, parseFreq_tagged, Atoi_decimal n hn]
  cases u
  · simp [Time.IsZero]
  · simp [Time.IsZero, hz]

/-- C8 (as amended, for integers that fit a 64-bit `int`): for each frequency
prefix `D`, `W`, `MD`, `YM`, positive `n` and `c` below `2^63` written in
decimal, and either value of `useEndDate`, `ParseRepeatRule` of
`<prefix><n> #<c>` succeeds with that frequency, interval `n`, count `c` and no
end date, and `ToICS` of the result is `RRULE:FREQ=<name>;INTERVAL=<n>;COUNT=<c>`
with the name `DAILY`, `WEEKLY`, `MONTHLY`, `YEARLY` of the prefix.
A rule whose first token starts with none of the four prefixes, or whose text
after the prefix is not an integer numeral, is rejected. -/
theorem C8_count_rule (f : Frequency) (n c : Nat) (useEndDate : Bool)
    (hn : 0 < n) (hn2 : n < 2 ^ 63) (hc : 0 < c) (hc2 : c < 2 ^ 63) :
    ParseRepeatRule (f.vcsTag ++ decimal n ++ str " #" ++ decimal c) useEndDate
      = some ⟨f, n, Time.zero, c⟩
    ∧ (⟨f, n, Time.zero, c⟩ : RepeatRule).ToICS
      = str "RRULE:FREQ=" ++ f.icsName ++ str ";INTERVAL=" ++ decimal n
        ++ str ";COUNT=" ++ decimal c
    ∧ (∀ r : RepeatRule,
        ParseRepeatRule (f.vcsTag ++ decimal n ++ str " #" ++ decimal c) useEndDate = some r →
        r.ToICS = str "RRULE:FREQ=" ++ f.icsName ++ str ";INTERVAL=" ++ decimal n
          ++ str ";COUNT=" ++ decimal c)
    ∧ (∀ (rrule : GoString) (u : Bool),
        (∀ g : Frequency, startsWith (firstToken rrule) g.vcsTag = false) →
        ParseRepeatRule rrule u = none)
    ∧ (∀ (rrule : GoString) (u : Bool) (g : Frequency) (rest : GoString),
        firstToken rrule = g.vcsTag ++ rest → isIntegerText rest = false →
        ParseRepeatRule rrule u = none) := by
  have hname : f.String = f.icsName := by cases f <;> rfl
  have hp : ParseRepeatRule (f.vcsTag ++ decimal n ++ str " #" ++ decimal c) useEndDate
      = some ⟨f, n, Time.zero, c⟩ := by
    rw [ParseRepeatRule_count f n c useEndDate hn2 hc2, if_pos hc]
  have ht := ToICS_count f n c hn hc
  rw [hname] at ht
  refine ⟨hp, ht, ?_, ?_, ?_⟩
  · intro r hr
    rw [hp] at hr
    cases hr
    exact ht
  · intro rrule u h
    apply ParseRepeatRule_bad_tag
    have h1 := h Frequency.Daily
    have h2 := h Frequency.Weekly
    have h3 := h Frequency.Monthly
    have h4 := h Frequency.Yearly
    simp only [Frequency.vcsTag] at h1 h2 h3 h4
    simp [parseFreq, h1, h2, h3, h4]
  · intro rrule u g rest h hi
    exact ParseRepeatRule_bad_interval rrule u g rest (by rw [h, parseFreq_tagged])
      (Atoi_not_integer rest hi)

theorem C8_count_rule_witness :
    (ParseRepeatRule (str "D1 #10") true = some ⟨Frequency.Daily, 1, Time.zero, 10⟩
      ∧ (⟨Frequency.Daily, 1, Time.zero, 10⟩ : RepeatRule).ToICS
        = str "RRULE:FREQ=DAILY;INTERVAL=1;COUNT=10")
    ∧ (ParseRepeatRule (str "W2 #3") false = some ⟨Frequency.Weekly, 2, Time.zero, 3⟩
      ∧ (⟨Frequency.Weekly, 2, Time.zero, 3⟩ : RepeatRule).ToICS
        = str "RRULE:FREQ=WEEKLY;INTERVAL=2;COUNT=3")
    ∧ (ParseRepeatRule (str "MD1 #5") true = some ⟨Frequency.Monthly, 1, Time.zero, 5⟩
      ∧ (⟨Frequency.Monthly, 1, Time.zero, 5⟩ : RepeatRule).ToICS
        = str "RRULE:FREQ=MONTHLY;INTERVAL=1;COUNT=5")
    ∧ (ParseRepeatRule (str "YM1 #2") false = some ⟨Frequency.Yearly, 1, Time.zero, 2⟩
      ∧ (⟨Frequency.Yearly, 1, Time.zero, 2⟩ : RepeatRule).ToICS
        = str "RRULE:FREQ=YEARLY;INTERVAL=1;COUNT=2") := by
  have h1 := C8_count_rule Frequency.Daily 1 10 true (by decide) (by decide) (by decide)
    (by decide)
  have h2 := C8_count_rule Frequency.Weekly 2 3 false (by decide) (by decide) (by decide)
    (by decide)
  have h3 := C8_count_rule Frequency.Monthly 1 5 true (by decide) (by decide) (by decide)
    (by decide)
  have h4 := C8_count_rule Frequency.Yearly 1 2 false (by decide) (by decide) (by decide)
    (by decide)
  exact ⟨⟨h1.1, h1.2.1⟩, ⟨h2.1, h2.2.1⟩, ⟨h3.1, h3.2.1⟩, ⟨h4.1, h4.2.1⟩⟩

/-- C8 (counterexample to the claim as stated): the positive integer `2^63`
written in decimal as the interval makes `ParseRepeatRule` fail, because it
does not fit the `int` that `strconv.Atoi` returns. -/
theorem C8_counterexample :
    Frequency.Daily.vcsTag ++ decimal 9223372036854775808 ++ str " #" ++ decimal 10
      = str "D9223372036854775808 #10"
    ∧ ParseRepeatRule (str "D9223372036854775808 #10") false = none
    ∧ ParseRepeatRule (str "D9223372036854775808 #10") true = none := by
  decide

/-- C9 (as amended, for integers that fit a 64-bit `int`): for each frequency
prefix, positive `n` below `2^63` and valid timestamp string `d` other than
the zero instant, `ParseRepeatRule` of `<prefix><n> <d>` with `useEndDate`
succeeds with interval `n`, end date `ParseDate d` and no count, and its
`ToICS` ends with `;UNTIL=` followed by `FormatDate` of that time; without
`useEndDate` the same string gives neither an end date nor a count. -/
theorem C9_until_rule (f : Frequency) (n : Nat) (t : Stamp)
    (hn : 0 < n) (hn2 : n < 2 ^ 63) (hv : t.Valid) (hz : t.time ≠ Time.zero) :
    ParseDate t.text = some t.time
    ∧ ParseRepeatRule (f.vcsTag ++ decimal n ++ str " " ++ t.text) true
      = some ⟨f, n, t.time, 0⟩
    ∧ (⟨f, n, t.time, 0⟩ : RepeatRule).ToICS
      = str "RRULE:FREQ=" ++ f.String ++ str ";INTERVAL=" ++ decimal n
        ++ str ";UNTIL=" ++ FormatDate t.time
    ∧ ParseRepeatRule (f.vcsTag ++ decimal n ++ str " " ++ t.text) false
      = some ⟨f, n, Time.zero, 0⟩ := by
  refine ⟨ParseDate_stamp t hv, ?_, ToICS_until f n t.time hn hz, ?_⟩
  · rw [ParseRepeatRule_date f n t true hn2 hv hz]; simp
  · rw [ParseRepeatRule_date f n t false hn2 hv hz]; simp

theorem C9_until_rule_witness :
    ParseRepeatRule (str "W2 20251231T000000Z") true
      = some ⟨Frequency.Weekly, 2, ⟨2025, 12, 31, 0, 0, 0, 0⟩, 0⟩
    ∧ (⟨Frequency.Weekly, 2, ⟨2025, 12, 31, 0, 0, 0, 0⟩, 0⟩ : RepeatRule).ToICS
      = str "RRULE:FREQ=WEEKLY;INTERVAL=2;UNTIL=20251231T000000Z"
    ∧ ParseRepeatRule (str "W2 20251231T000000Z") false
      = some ⟨Frequency.Weekly, 2, Time.zero, 0⟩ := by
  have h := C9_until_rule Frequency.Weekly 2 ⟨2, 0, 2, 5, 1, 2, 3, 1, 0, 0, 0, 0, 0, 0, true⟩
    (by decide) (by decide) (by unfold Stamp.Valid; decide) (by decide)
  exact ⟨h.2.1, h.2.2.1, h.2.2.2⟩

/-- C9 (counterexample to the claim as stated): with the positive integer
`2^63` as the interval, the rule with a valid end date is rejected. -/
theorem C9_counterexample :
    Frequency.Weekly.vcsTag ++ decimal 9223372036854775808 ++ str " "
        ++ (⟨2, 0, 2, 5, 1, 2, 3, 1, 0, 0, 0, 0, 0, 0, true⟩ : Stamp).text
      = str "W9223372036854775808 20251231T000000Z"
    ∧ ParseRepeatRule (str "W9223372036854775808 20251231T000000Z") true = none
    ∧ ParseRepeatRule (str "W9223372036854775808 20251231T000000Z") false = none := by
  decide

/-! ## Quoted-printable decoding -/

theorem replaceAllAux_no_match (old new : GoString) (s : GoString)
    (h : ¬ old <:+: s) : replaceAllAux old new 0 s = s := by
  induction s with
  | nil => simp [replaceAllAux]
  | cons c rest ih =>
    have h1 : old.isPrefixOf (c :: rest) = false := by
      cases hp : old.isPrefixOf (c :: rest)
      · rfl
      · exact absurd (List.IsPrefix.isInfix (List.isPrefixOf_iff_prefix.1 hp)) h
    have h2 : ¬ old <:+: rest := fun hi => h (hi.trans (List.suffix_cons c rest).isInfix)
    simp [replaceAllAux, h1, ih h2]

theorem decodeQuotedPrintable_literal (c : Nat) (l : GoString) (hc : c ≠ 61) :
    decodeQuotedPrintable (c :: l) = c :: decodeQuotedPrintable l := by
  match l with
  | [] => simp [decodeQuotedPrintable]
  | [d] => simp [decodeQuotedPrintable]
  | d :: e :: rest => simp [decodeQuotedPrintable, hc]

theorem hexDigit_spec (upper : Bool) (d : Nat) (h : d < 16) :
    isHexChar (hexDigit upper d) = true ∧ hexVal (hexDigit upper d) = d := by
  have : d = 0 ∨ d = 1 ∨ d = 2 ∨ d = 3 ∨ d = 4 ∨ d = 5 ∨ d = 6 ∨ d = 7 ∨ d = 8 ∨ d = 9
      ∨ d = 10 ∨ d = 11 ∨ d = 12 ∨ d = 13 ∨ d = 14 ∨ d = 15 := by omega
  rcases this with h | h | h | h | h | h | h | h | h | h | h | h | h | h | h | h <;>
    subst h <;> cases upper <;> decide

theorem decodeQuotedPrintable_escape (b : Nat) (u1 u2 : Bool) (l : GoString) (hb : b < 256) :
    decodeQuotedPrintable ((QPSegment.escape b u1 u2).text ++ l)
      = b :: decodeQuotedPrintable l := by
  obtain ⟨h1, h2⟩ := hexDigit_spec u1 (b / 16) (by omega)
  obtain ⟨h3, h4⟩ := hexDigit_spec u2 (b % 16) (by omega)
  simp only [QPSegment.text, List.cons_append, List.nil_append, decodeQuotedPrintable, h1, h3,
    h2, h4, Bool.and_self, if_true]
  congr 1
  omega

theorem decodeQuotedPrintable_segments (segs : List QPSegment)
    (hw : ∀ s ∈ segs, s.WellFormed) :
    decodeQuotedPrintable (segs.flatMap QPSegment.text) = segs.map QPSegment.value := by
  induction segs with
  | nil => simp [decodeQuotedPrintable]
  | cons s rest ih =>
    have hs := hw s (by simp)
    have hr := ih (fun x hx => hw x (by simp [hx]))
    cases s with
    | literal c =>
      simp only [List.flatMap_cons, QPSegment.text, List.cons_append, List.nil_append,
        List.map_cons, QPSegment.value]
      rw [decodeQuotedPrintable_literal c _ hs, hr]
    | escape b u1 u2 =>
      simp only [List.flatMap_cons, List.map_cons, QPSegment.value]
      rw [decodeQuotedPrintable_escape b u1 u2 _ hs, hr]

/-- C10: for a text made of segments, each a literal byte other than `=` or an
escape `=` with the two hex digits (in either case) of a byte, that does not
contain `=0D=0A`, `Decode` returns the bytes the segments stand for; this
includes a text whose last three characters are an escape. -/
theorem C10_decode_hex_escapes (segs : List QPSegment)
    (hw : ∀ s ∈ segs, s.WellFormed)
    (hno : ¬ str "=0D=0A" <:+: segs.flatMap QPSegment.text) :
    Decode (segs.flatMap QPSegment.text) = segs.map QPSegment.value := by
  unfold Decode replaceAll
  rw [replaceAllAux_no_match _ _ _ hno]
  exact decodeQuotedPrintable_segments segs hw

theorem C10_decode_hex_escapes_witness :
    Decode (str "Caf=C3=A9") = [67, 97, 102, 195, 169] :=
  C10_decode_hex_escapes
    [.literal 67, .literal 97, .literal 102, .escape 195 true true, .escape 169 true true]
    (by simp [QPSegment.WellFormed]) (by decide)

/-! ## Reading: every loop of `convert.go` terminates -/

theorem afterLine_length_le (s : GoString) : (afterLine s).length ≤ s.length := by
  induction s with
  | nil => simp [afterLine]
  | cons c rest ih =>
    by_cases h : c = 10
    · simp [afterLine, h]
    · simp [afterLine, h]; omega

theorem afterLine_length_lt (s : GoString) (h : s ≠ []) : (afterLine s).length < s.length := by
  cases s with
  | nil => exact absurd rfl h
  | cons c rest =>
    by_cases hc : c = 10
    · simp [afterLine, hc]
    · have := afterLine_length_le rest
      simp [afterLine, hc]; omega

theorem readPossibleMultilineLoop_total : ∀ (fuel : Nat) (sb : GoString) (r : Reader),
    r.buf.length < fuel →
    ∃ v e r2, readPossibleMultilineLoop fuel sb r = some (v, e, r2)
      ∧ r2.buf.length ≤ r.buf.length ∧ r2.broken = r.broken
      ∧ (e = none ∨ e = some Err.readFailure) := by
  intro fuel
  induction fuel with
  | zero => intro sb r h; omega
  | succ fuel ih =>
    intro sb r h
    obtain ⟨buf, broken⟩ := r
    cases buf with
    | nil =>
      cases broken
      · exact ⟨sb, none, _, by simp [readPossibleMultilineLoop], by simp, rfl, Or.inl rfl⟩
      · exact ⟨[], some Err.readFailure, _, by simp [readPossibleMultilineLoop], by simp, rfl,
          Or.inr rfl⟩
    | cons c rest =>
      by_cases hs : isSpace c = true
      · by_cases he : (if rest.contains 10 then none else some (Reader.endErr ⟨rest, broken⟩))
            = some Err.readFailure
        · simp only [readPossibleMultilineLoop, hs, if_true, Reader.ReadString, he]
          have := afterLine_length_le rest
          refine ⟨_, _, _, rfl, ?_, rfl, Or.inr rfl⟩
          simp; omega
        · simp only [readPossibleMultilineLoop, hs, if_true, Reader.ReadString, he, if_false]
          have h1 := afterLine_length_le rest
          simp only [List.length_cons] at h
          obtain ⟨v, e, r2, e1, e2, e3, e4⟩ := ih (sb ++ trimRightCRLF (lineOf rest))
            ⟨afterLine rest, broken⟩ (by simp; omega)
          refine ⟨v, e, r2, e1, ?_, e3, e4⟩
          simp at e2 ⊢; omega
      · exact ⟨sb, none, _, by simp [readPossibleMultilineLoop, hs], by simp, rfl, Or.inl rfl⟩

theorem readPossibleMultiline_total (fieldContent : GoString) (r : Reader) :
    ∃ v e r2, readPossibleMultiline fieldContent r = some (v, e, r2)
      ∧ r2.buf.length ≤ r.buf.length ∧ r2.broken = r.broken
      ∧ (e = none ∨ e = some Err.readFailure) :=
  readPossibleMultilineLoop_total _ fieldContent r (by omega)

theorem contains_ne_nil (s : GoString) (h : s.contains 10 = true) : s ≠ [] := by
  intro hs; subst hs; simp at h

theorem readEncryptedFieldLoop_total : ∀ (fuel : Nat) (sb : GoString) (r : Reader),
    r.buf.length < fuel →
    ∃ v e r2, readEncryptedFieldLoop fuel sb r = some (v, e, r2)
      ∧ r2.buf.length ≤ r.buf.length ∧ r2.broken = r.broken
      ∧ e ≠ some Err.eof := by
  intro fuel
  induction fuel with
  | zero => intro sb r h; omega
  | succ fuel ih =>
    intro sb r h
    obtain ⟨buf, broken⟩ := r
    by_cases hs : endsWith sb [61] = true
    · by_cases hc : buf.contains 10 = true
      · simp only [readEncryptedFieldLoop, hs, if_true, Reader.ReadString, hc]
        have h1 := afterLine_length_lt buf (contains_ne_nil buf hc)
        obtain ⟨v, e, r2, e1, e2, e3, e4⟩ := ih (sb.dropLast ++ trimRightCRLF (lineOf buf))
          ⟨afterLine buf, broken⟩ (by simp at h ⊢; omega)
        refine ⟨v, e, r2, e1, ?_, e3, e4⟩
        simp at e2 ⊢; omega
      · have h1 := afterLine_length_le buf
        cases broken
        · simp only [readEncryptedFieldLoop, hs, if_true, Reader.ReadString, hc,
            Bool.false_eq_true, if_false, Reader.endErr]
          exact ⟨_, _, _, rfl, by simpa using h1, rfl, by simp⟩
        · simp only [readEncryptedFieldLoop, hs, if_true, Reader.ReadString, hc,
            Bool.false_eq_true, if_false, Reader.endErr]
          exact ⟨_, _, _, rfl, by simpa using h1, rfl, by simp⟩
    · exact ⟨Decode sb, none, _, by simp [readEncryptedFieldLoop, hs], by simp, rfl, by simp⟩

theorem readEncryptedField_total (fieldContent : GoString) (r : Reader) :
    ∃ v e r2, readEncryptedField fieldContent r = some (v, e, r2)
      ∧ r2.buf.length ≤ r.buf.length ∧ r2.broken = r.broken
      ∧ e ≠ some Err.eof :=
  readEncryptedFieldLoop_total _ fieldContent r (by omega)

theorem fieldDone_total (res : Option (GoString × Option Err × Reader)) (store : GoString → Record)
    (r : Reader) (err : Option Err)
    (h : ∃ v e r2, res = some (v, e, r2) ∧ r2.buf.length ≤ r.buf.length ∧ r2.broken = r.broken) :
    StepsWithin r err (fieldDone res store) := by
  obtain ⟨v, e, r2, h1, h2, h3⟩ := h
  subst h1
  cases e with
  | some e => exact ⟨_, rfl, by intro a b c hc; cases hc⟩
  | none =>
    refine ⟨_, rfl, ?_⟩
    intro a b c hc
    cases hc
    exact ⟨h2, h3, Or.inr rfl⟩

theorem next_total (rec : Record) (err : Option Err) (r : Reader) :
    StepsWithin r err (some (FieldResult.next rec err r)) := by
  refine ⟨_, rfl, ?_⟩
  intro a b c hc
  cases hc
  exact ⟨le_refl _, rfl, Or.inl rfl⟩

theorem processField_total (line : GoString) (err : Option Err) (rec : Record) (r : Reader) :
    StepsWithin r err (processField line err rec r) := by
  have hp : ∀ fc, ∃ v e r2, readPossibleMultiline fc r = some (v, e, r2)
      ∧ r2.buf.length ≤ r.buf.length ∧ r2.broken = r.broken := by
    intro fc
    obtain ⟨v, e, r2, h1, h2, h3, -⟩ := readPossibleMultiline_total fc r
    exact ⟨v, e, r2, h1, h2, h3⟩
  have hq : ∀ fc, ∃ v e r2, readEncryptedField fc r = some (v, e, r2)
      ∧ r2.buf.length ≤ r.buf.length ∧ r2.broken = r.broken := by
    intro fc
    obtain ⟨v, e, r2, h1, h2, h3, -⟩ := readEncryptedField_total fc r
    exact ⟨v, e, r2, h1, h2, h3⟩
  unfold processField
  by_cases h0 : upperStartsWith line (str "SUMMARY:") = true
  · rw [if_pos h0]; exact fieldDone_total _ _ r err (hp _)
  rw [if_neg h0]
  by_cases h1 : upperStartsWith line (str "SUMMARY;ENCODING=QUOTED-PRINTABLE") = true
  · rw [if_pos h1]; exact fieldDone_total _ _ r err (hq _)
  rw [if_neg h1]
  by_cases h2 : upperStartsWith line (str "LOCATION:") = true
  · rw [if_pos h2]; exact fieldDone_total _ _ r err (hp _)
  rw [if_neg h2]
  by_cases h3 : upperStartsWith line (str "LOCATION;ENCODING=QUOTED-PRINTABLE") = true
  · rw [if_pos h3]; exact fieldDone_total _ _ r err (hq _)
  rw [if_neg h3]
  by_cases h4 : upperStartsWith line (str "DESCRIPTION:") = true
  · rw [if_pos h4]; exact fieldDone_total _ _ r err (hp _)
  rw [if_neg h4]
  by_cases h5 : upperStartsWith line (str "DESCRIPTION;ENCODING=QUOTED-PRINTABLE") = true
  · rw [if_pos h5]; exact fieldDone_total _ _ r err (hq _)
  rw [if_neg h5]
  by_cases h6 : upperStartsWith line (str "DTSTART:") = true
  · rw [if_pos h6]; exact next_total _ _ _
  rw [if_neg h6]
  by_cases h7 : upperStartsWith line (str "DTEND:") = true
  · rw [if_pos h7]; exact next_total _ _ _
  rw [if_neg h7]
  by_cases h8 : upperStartsWith line (str "DUE:") = true
  · rw [if_pos h8]; exact next_total _ _ _
  rw [if_neg h8]
  by_cases h9 : upperStartsWith line (str "STATUS:") = true
  · rw [if_pos h9]; exact next_total _ _ _
  rw [if_neg h9]
  by_cases h10 : upperStartsWith line (str "SEQUENCE:") = true
  · rw [if_pos h10]; exact next_total _ _ _
  rw [if_neg h10]
  by_cases h11 : upperStartsWith line (str "RRULE:") = true
  · rw [if_pos h11]; exact next_total _ _ _
  rw [if_neg h11]
  by_cases ha : (upperStartsWith line (str "AALARM:")
      || upperStartsWith line (str "AALARM;TYPE=X-EPOCSOUND:")) = true
  · rw [if_pos ha]
    cases alarmValue line
    · exact next_total _ _ _
    · exact next_total _ _ _
  rw [if_neg ha]
  by_cases hl : upperStartsWith line (str "LAST-MODIFIED:") = true
  · rw [if_pos hl]; exact next_total _ _ _
  rw [if_neg hl]
  exact next_total _ _ _

theorem processField_nil (err : Option Err) (rec : Record) (r : Reader) :
    processField [] err rec r = some (FieldResult.next rec err r) := by
  have h : ∀ p : String, p.toList ≠ [] → upperStartsWith [] (str p) = false := by
    intro p hp
    unfold str
    cases hl : p.toList with
    | nil => exact absurd hl hp
    | cons c cs => simp [upperStartsWith]
  unfold processField
  simp only [h _ (by decide : ("SUMMARY:" : String).toList ≠ []),
    h _ (by decide : ("SUMMARY;ENCODING=QUOTED-PRINTABLE" : String).toList ≠ []),
    h _ (by decide : ("LOCATION:" : String).toList ≠ []),
    h _ (by decide : ("LOCATION;ENCODING=QUOTED-PRINTABLE" : String).toList ≠ []),
    h _ (by decide : ("DESCRIPTION:" : String).toList ≠ []),
    h _ (by decide : ("DESCRIPTION;ENCODING=QUOTED-PRINTABLE" : String).toList ≠ []),
    h _ (by decide : ("DTSTART:" : String).toList ≠ []),
    h _ (by decide : ("DTEND:" : String).toList ≠ []),
    h _ (by decide : ("DUE:" : String).toList ≠ []),
    h _ (by decide : ("STATUS:" : String).toList ≠ []),
    h _ (by decide : ("SEQUENCE:" : String).toList ≠ []),
    h _ (by decide : ("RRULE:" : String).toList ≠ []),
    h _ (by decide : ("AALARM:" : String).toList ≠ []),
    h _ (by decide : ("AALARM;TYPE=X-EPOCSOUND:" : String).toList ≠ []),
    h _ (by decide : ("LAST-MODIFIED:" : String).toList ≠ []),
    Bool.false_eq_true, if_false, Bool.or_self]

theorem trimRightCRLF_nil : trimRightCRLF [] = [] := by
  simp [trimRightCRLF, List.rdropWhile]

theorem lineOf_nil : lineOf [] = [] := rfl

theorem readRecordLoop_total : ∀ (fuel : Nat) (rec : Record) (r : Reader),
    r.buf.length < fuel →
    ∃ res, readRecordLoop fuel rec r = some res
      ∧ ∀ rec2 r2, res = Except.ok (rec2, r2) →
          r2.buf.length ≤ r.buf.length ∧ r2.broken = r.broken := by
  intro fuel
  induction fuel with
  | zero => intro rec r h; omega
  | succ fuel ih =>
    intro rec r h
    obtain ⟨buf, broken⟩ := r
    have hle := afterLine_length_le buf
    simp only [readRecordLoop, Reader.ReadString]
    by_cases he : (if buf.contains 10 = true then none
        else some (Reader.endErr ⟨buf, broken⟩)) = some Err.readFailure
    · rw [if_pos he]
      exact ⟨_, rfl, by intro a b hc; cases hc⟩
    rw [if_neg he]
    by_cases hend : (equalFold (trimRightCRLF (lineOf buf)) (str "END:VEVENT")
        || equalFold (trimRightCRLF (lineOf buf)) (str "END:VTODO")) = true
    · rw [if_pos hend]
      refine ⟨_, rfl, ?_⟩
      intro a b hc
      cases hc
      exact ⟨by simpa using hle, rfl⟩
    rw [if_neg hend]
    obtain ⟨fr, hfr, hprop⟩ := processField_total (trimRightCRLF (lineOf buf))
      (if buf.contains 10 = true then none else some (Reader.endErr ⟨buf, broken⟩)) rec
      ⟨afterLine buf, broken⟩
    rw [hfr]
    cases fr with
    | ret e => exact ⟨_, rfl, by intro a b hc; cases hc⟩
    | next rec2 err2 r2 =>
      obtain ⟨p1, p2, p3⟩ := hprop rec2 err2 r2 rfl
      simp only at p1 p2
      by_cases h2 : err2 = some Err.eof
      · simp only [h2, if_true]
        refine ⟨_, rfl, ?_⟩
        intro a b hc
        cases hc
        exact ⟨by omega, p2⟩
      · simp only [h2, if_false]
        have hbuf : buf ≠ [] := by
          intro hb
          subst hb
          have hfr2 := processField_nil (if ([] : GoString).contains 10 = true then none
            else some (Reader.endErr ⟨[], broken⟩)) rec ⟨afterLine [], broken⟩
          rw [lineOf_nil, trimRightCRLF_nil, hfr2] at hfr
          cases hfr
          cases broken
          · exact h2 (by simp [Reader.endErr])
          · exact he (by simp [Reader.endErr])
        have hlt := afterLine_length_lt buf hbuf
        have h' : buf.length < fuel + 1 := h
        obtain ⟨res, hres, hp⟩ := ih rec2 r2 (by omega)
        refine ⟨res, hres, ?_⟩
        intro a b hc
        obtain ⟨q1, q2⟩ := hp a b hc
        exact ⟨by omega, by rw [q2, p2]⟩

/-! ## The document `Convert` writes -/

theorem eventContents_no_start (email : GoString) (now : Time)
    (summary description location dtEnd rrule dtStamp alarm : GoString) :
    (eventContents email now summary description location [] dtEnd rrule dtStamp alarm).2
      = some Err.noStartDate := by
  simp [eventContents]

theorem addRecord_reliable (w : ICSWriter) (now : Time) (rec : Record)
    (hopen : w.closed = false) (hrel : w.writer.Reliable) :
    (w.addRecord now rec).2
      = (if (recordBlock w.Email now rec).isSome then none else some Err.noStartDate)
    ∧ (w.addRecord now rec).1.writer.written
      = w.writer.written ++ headerIfMissing w ++ (recordBlock w.Email now rec).getD []
    ∧ (w.addRecord now rec).1.closed = false
    ∧ (w.addRecord now rec).1.headerWritten = true
    ∧ (w.addRecord now rec).1.Email = w.Email
    ∧ (w.addRecord now rec).1.writer.Reliable := by
  obtain ⟨h1, h2, h3, h4, h5, h6, -⟩ := AddEvent_reliable w now rec.isEvent rec.summary
    rec.description rec.location rec.dtstart rec.dtend rec.rrule rec.dtstamp rec.sequence rec.due
    rec.status rec.alarm hopen hrel
  unfold ICSWriter.addRecord
  refine ⟨?_, ?_, h3, h4, h5, h6⟩
  · rw [h1]
    unfold recordBlock
    cases hi : rec.isEvent
    · simp
    · by_cases hs : rec.dtstart = []
      · simp [hs, eventContents_no_start]
      · simp [hs, eventContents_eq _ _ _ _ _ _ _ _ _ _ hs]
  · rw [h2]
    unfold recordBlock
    cases hi : rec.isEvent
    · simp [todoContents_eq]
    · by_cases hs : rec.dtstart = []
      · simp [hs, eventContents_no_start]
      · simp [hs, eventContents_eq _ _ _ _ _ _ _ _ _ _ hs]

theorem blocksFrom_append (email : GoString) (clock : Nat → Time) (recs : List Record)
    (rec : Record) : ∀ k, blocksFrom email clock k (recs ++ [rec])
      = blocksFrom email clock k recs
        ++ (recordBlock email (clock (k + recs.length)) rec).getD [] := by
  induction recs with
  | nil => intro k; simp [blocksFrom]
  | cons r rest ih =>
    intro k
    have : k + 1 + rest.length = k + (rest.length + 1) := by omega
    have ih2 := ih (k + 1)
    rw [this] at ih2
    show (recordBlock email (clock k) r).getD [] ++ blocksFrom email clock (k + 1) (rest ++ [rec])
      = _
    rw [ih2]
    simp [blocksFrom]

theorem Close_reliable (w : ICSWriter) (hopen : w.closed = false) (hrel : w.writer.Reliable) :
    w.Close.1.writer.written
      = w.writer.written ++ headerIfMissing w ++ str "END:VCALENDAR" := by
  obtain ⟨w1, e1, e2, e3, e4, e5, e6, e7⟩ := ensureHeader_reliable w hrel
  unfold ICSWriter.Close
  rw [e1]
  simp only [hopen, Bool.false_eq_true, if_false, Sink.Write_written, e5]

theorem WriterInv_addRecord (email : GoString) (out : Sink) (clock : Nat → Time)
    (w : ICSWriter) (recs : List Record) (rec : Record) (hinv : WriterInv email out clock w recs) :
    WriterInv email out clock (w.addRecord (clock recs.length) rec).1 (recs ++ [rec])
    ∧ ((w.addRecord (clock recs.length) rec).2 = none →
        (rec.isEvent = true → rec.dtstart ≠ [])) := by
  obtain ⟨i1, i2, i3, i4, i5⟩ := hinv
  obtain ⟨h1, h2, h3, h4, h5, h6⟩ := addRecord_reliable w (clock recs.length) rec i1 i3
  refine ⟨⟨h3, by rw [h5, i2], h6, ?_, by rw [h4]; intro h; cases h⟩, ?_⟩
  · rw [h2, h4, i4, i2]
    simp only [if_true, blocksFrom_append, Nat.zero_add]
    unfold headerIfMissing
    cases hh : w.headerWritten
    · have := i5 hh
      subst this
      simp [blocksFrom, i2]
    · simp
  · rw [h1]
    unfold recordBlock
    intro hn hi hs
    simp [hi, hs] at hn

theorem AllStarted_dropLast (recs : List Record) (h : AllStarted recs) :
    AllStarted recs.dropLast :=
  fun x hx => h x (List.mem_of_mem_dropLast hx)

theorem convertLoop_total (email : GoString) (out : Sink) (clock : Nat → Time) :
    ∀ (fuel : Nat) (w : ICSWriter) (recs : List Record) (r : Reader),
    r.buf.length < fuel → WriterInv email out clock w recs → AllStarted recs →
    ∃ err w2 recs2, convertLoop clock fuel w recs r = some (err, w2, recs2)
      ∧ WriterInv email out clock w2 recs2 ∧ AllStarted recs2.dropLast
      ∧ (err = none → AllStarted recs2) := by
  intro fuel
  induction fuel with
  | zero => intro w recs r h; omega
  | succ fuel ih =>
    intro w recs r h hinv hall
    obtain ⟨buf, broken⟩ := r
    have h' : buf.length < fuel + 1 := h
    have hle := afterLine_length_le buf
    simp only [convertLoop, Reader.ReadString]
    by_cases he : (if buf.contains 10 = true then none
        else some (Reader.endErr ⟨buf, broken⟩)) = some Err.readFailure
    · rw [if_pos he]
      exact ⟨_, _, _, rfl, hinv, AllStarted_dropLast _ hall, by intro hc; cases hc⟩
    rw [if_neg he]
    by_cases hend : equalFold (trimRightCRLF (lineOf buf)) (str "END:VCALENDAR") = true
    · rw [if_pos hend]
      exact ⟨_, _, _, rfl, hinv, AllStarted_dropLast _ hall, fun _ => hall⟩
    rw [if_neg hend]
    by_cases hskip : (!equalFold (trimRightCRLF (lineOf buf)) (str "BEGIN:VTODO")
        && !equalFold (trimRightCRLF (lineOf buf)) (str "BEGIN:VEVENT")) = true
    · rw [if_pos hskip]
      by_cases heof : (if buf.contains 10 = true then none
          else some (Reader.endErr ⟨buf, broken⟩)) = some Err.eof
      · rw [if_pos heof]
        exact ⟨_, _, _, rfl, hinv, AllStarted_dropLast _ hall, fun _ => hall⟩
      · rw [if_neg heof]
        have hbuf : buf ≠ [] := by
          intro hb
          subst hb
          cases broken
          · exact heof (by simp [Reader.endErr])
          · exact he (by simp [Reader.endErr])
        have hlt := afterLine_length_lt buf hbuf
        exact ih w recs ⟨afterLine buf, broken⟩ (by simp; omega) hinv hall
    · rw [if_neg hskip]
      have hbuf : buf ≠ [] := by
        intro hb
        subst hb
        apply hskip
        rw [lineOf_nil, trimRightCRLF_nil]
        decide
      have hlt := afterLine_length_lt buf hbuf
      obtain ⟨res, hres, hp⟩ := readRecordLoop_total ((afterLine buf).length + 1)
        (Record.empty (equalFold (trimRightCRLF (lineOf buf)) (str "BEGIN:VEVENT")))
        ⟨afterLine buf, broken⟩ (by simp)
      rw [hres]
      cases res with
      | error e => exact ⟨_, _, _, rfl, hinv, AllStarted_dropLast _ hall, by intro hc; cases hc⟩
      | ok p =>
        obtain ⟨rec, r2⟩ := p
        obtain ⟨q1, q2⟩ := hp rec r2 rfl
        obtain ⟨a1, a2⟩ := WriterInv_addRecord email out clock w recs rec hinv
        simp only
        rcases hadd : w.addRecord (clock recs.length) rec with ⟨w2, e⟩
        rw [hadd] at a1 a2
        cases e with
        | some e => exact ⟨_, _, _, rfl, a1, by simpa using hall, by intro hc; cases hc⟩
        | none =>
          have hall2 : AllStarted (recs ++ [rec]) := by
            intro x hx
            rcases List.mem_append.1 hx with hx | hx
            · exact hall x hx
            · simp at hx
              subst hx
              exact a2 rfl
          simp only at q1
          exact ih w2 (recs ++ [rec]) r2 (by omega) a1 hall2

/-- C2: over a sink whose writes succeed, `Convert` returns for every input
stream and every email, with or without an error, and the bytes it has sent
are the calendar header, then the blocks of the records that were added
successfully, in input order, then `END:VCALENDAR` without a line terminator.
Every record but possibly the last was added successfully, all of them when
no error is returned, and for an input without records the output is the
header followed by `END:VCALENDAR`. -/
theorem C2_document_shape (input : Reader) (out : Sink) (email : GoString)
    (clock : Nat → Time) (hrel : out.Reliable) :
    ∃ res, Convert input out email clock = some res
      ∧ res.out.written = out.written ++ calendarHeader email
          ++ blocksFrom email clock 0 res.records ++ str "END:VCALENDAR"
      ∧ AllStarted res.records.dropLast
      ∧ (res.err = none → AllStarted res.records)
      ∧ (res.records = [] →
          res.out.written = out.written ++ calendarHeader email ++ str "END:VCALENDAR") := by
  have hinv : WriterInv email out clock (NewICSWriter email out) [] :=
    ⟨rfl, rfl, hrel, by simp [NewICSWriter], fun _ => rfl⟩
  obtain ⟨err, w2, recs2, h1, ⟨i1, i2, i3, i4, i5⟩, h3, h4⟩ :=
    convertLoop_total email out clock (input.buf.length + 1) (NewICSWriter email out) [] input
      (by omega) hinv (by intro x hx; cases hx)
  have hw : w2.Close.1.writer.written = out.written ++ calendarHeader email
      ++ blocksFrom email clock 0 recs2 ++ str "END:VCALENDAR" := by
    rw [Close_reliable w2 i1 i3, i4]
    unfold headerIfMissing
    cases hh : w2.headerWritten
    · have := i5 hh
      subst this
      simp [blocksFrom, i2]
    · simp
  refine ⟨⟨err, w2.Close.1.writer, recs2⟩, ?_, hw, h3, h4, ?_⟩
  · unfold Convert
    rw [h1]
  · intro hr
    simp only at hr
    rw [hw, hr]
    simp [blocksFrom]

theorem C2_document_shape_witness :
    (∃ res, Convert ⟨str "BEGIN:VCALENDAR\nBEGIN:VTODO\nSUMMARY:Buy milk\nEND:VTODO\nBEGIN:VEVENT\nSUMMARY:No start\nEND:VEVENT\nBEGIN:VTODO\nEND:VTODO\n", false⟩
        ⟨[], [], none⟩ (str "a@b.com") (fun _ => ⟨2025, 11, 4, 9, 30, 0, 0⟩) = some res
      ∧ res.out.written = ([] : GoString) ++ calendarHeader (str "a@b.com")
          ++ blocksFrom (str "a@b.com") (fun _ => ⟨2025, 11, 4, 9, 30, 0, 0⟩) 0 res.records
          ++ str "END:VCALENDAR"
      ∧ AllStarted res.records.dropLast
      ∧ (res.err = none → AllStarted res.records)
      ∧ (res.records = [] →
          res.out.written = ([] : GoString) ++ calendarHeader (str "a@b.com")
            ++ str "END:VCALENDAR"))
    ∧ (Convert ⟨str "BEGIN:VCALENDAR\nBEGIN:VTODO\nSUMMARY:Buy milk\nEND:VTODO\nBEGIN:VEVENT\nSUMMARY:No start\nEND:VEVENT\nBEGIN:VTODO\nEND:VTODO\n", false⟩
        ⟨[], [], none⟩ (str "a@b.com") (fun _ => ⟨2025, 11, 4, 9, 30, 0, 0⟩)).map
          (fun res => (res.err, res.out.written))
      = some (some (Err.addingEvent Err.noStartDate),
          str "BEGIN:VCALENDAR\r\nPRODID:a@b.com\r\nVERSION:2.0\r\nBEGIN:VTODO\r\nDTSTAMP:20251104T093000Z\r\nSEQUENCE:0\r\nORGANIZER:a@b.com\r\nSUMMARY:Buy milk\r\nEND:VTODO\r\nEND:VCALENDAR")
    ∧ (Convert ⟨[], true⟩ ⟨[], [], none⟩ [] (fun _ => ⟨2025, 11, 4, 9, 30, 0, 0⟩)).map
          (fun res => (res.err, res.out.written))
      = some (some (Err.readingFile Err.readFailure),
          str "BEGIN:VCALENDAR\r\nPRODID:\r\nVERSION:2.0\r\nEND:VCALENDAR") :=
  ⟨C2_document_shape _ _ _ _ (by intro v hv; cases hv), by decide, by decide⟩

/-! ## Reading one terminated line -/

theorem lineOf_line (l rest : GoString) (t : Bool) (h : SingleLine l) :
    lineOf (l ++ lineEnd t ++ rest) = l ++ lineEnd t := by
  induction l with
  | nil => cases t <;> simp [lineOf, lineEnd]
  | cons c r ih =>
    have hc : c ≠ 10 := (h c (by simp)).2
    have := ih (fun x hx => h x (by simp [hx]))
    have e : (c :: r) ++ lineEnd t ++ rest = c :: (r ++ lineEnd t ++ rest) := by simp
    rw [e, lineOf, if_neg hc, this]
    simp

theorem afterLine_line (l rest : GoString) (t : Bool) (h : SingleLine l) :
    afterLine (l ++ lineEnd t ++ rest) = rest := by
  induction l with
  | nil => cases t <;> simp [afterLine, lineEnd]
  | cons c r ih =>
    have hc : c ≠ 10 := (h c (by simp)).2
    have := ih (fun x hx => h x (by simp [hx]))
    have e : (c :: r) ++ lineEnd t ++ rest = c :: (r ++ lineEnd t ++ rest) := by simp
    rw [e, afterLine, if_neg hc, this]

theorem contains_line (l rest : GoString) (t : Bool) :
    (l ++ lineEnd t ++ rest).contains 10 = true := by
  cases t <;> simp [lineEnd]

theorem trimRightCRLF_single (l : GoString) (h : SingleLine l) : trimRightCRLF l = l := by
  unfold trimRightCRLF
  rw [List.rdropWhile_eq_self_iff]
  intro hl
  have := h (l.getLast hl) (List.getLast_mem hl)
  simp [this.1, this.2]

theorem trimRightCRLF_line (l : GoString) (t : Bool) (h : SingleLine l) :
    trimRightCRLF (l ++ lineEnd t) = l := by
  have h1 : trimRightCRLF (l ++ [10]) = trimRightCRLF l := by
    unfold trimRightCRLF
    rw [List.rdropWhile_concat]
    simp
  have h2 : trimRightCRLF (l ++ [13]) = trimRightCRLF l := by
    unfold trimRightCRLF
    rw [List.rdropWhile_concat]
    simp
  cases t
  · simp only [lineEnd, Bool.false_eq_true, if_false]
    rw [h1, trimRightCRLF_single l h]
  · simp only [lineEnd, if_true]
    have : l ++ [13, 10] = (l ++ [13]) ++ [10] := by simp
    rw [this]
    unfold trimRightCRLF
    rw [List.rdropWhile_concat]
    simp only [beq_self_eq_true, Bool.or_true, if_true]
    exact h2.trans (trimRightCRLF_single l h)

theorem ReadString_line (l rest : GoString) (t br : Bool) (h : SingleLine l) :
    Reader.ReadString ⟨l ++ lineEnd t ++ rest, br⟩ = (l ++ lineEnd t, none, ⟨rest, br⟩) := by
  simp only [Reader.ReadString, lineOf_line l rest t h, afterLine_line l rest t h,
    contains_line, if_true]

/-! ## The field dispatch on the lines of a minimal event -/

theorem upperStartsWith_nil (s : GoString) : upperStartsWith s [] = true := by
  cases s <;> simp [upperStartsWith]

theorem upperStartsWith_cons (c : Nat) (s : GoString) (p : Nat) (ps : GoString) (hc : c < 128) :
    upperStartsWith (c :: s) (p :: ps) = (upperByte c == p && upperStartsWith s ps) := by
  rw [upperStartsWith.eq_def]
  simp [hc]

theorem upperStartsWith_summary_line (v : GoString) :
    upperStartsWith (str "SUMMARY:" ++ v) (str "SUMMARY:") = true := by
  have e0 : str "SUMMARY:" = [83, 85, 77, 77, 65, 82, 89, 58] := by decide
  have e1 : str "SUMMARY:" = [83, 85, 77, 77, 65, 82, 89, 58] := by decide
  simp [e0, e1, upperStartsWith_cons, upperStartsWith_nil, upperByte]

theorem upperStartsWith_dtstart_line (v : GoString) :
    upperStartsWith (str "DTSTART:" ++ v) (str "SUMMARY:") = false
    ∧ upperStartsWith (str "DTSTART:" ++ v) (str "SUMMARY;ENCODING=QUOTED-PRINTABLE") = false
    ∧ upperStartsWith (str "DTSTART:" ++ v) (str "LOCATION:") = false
    ∧ upperStartsWith (str "DTSTART:" ++ v) (str "LOCATION;ENCODING=QUOTED-PRINTABLE") = false
    ∧ upperStartsWith (str "DTSTART:" ++ v) (str "DESCRIPTION:") = false
    ∧ upperStartsWith (str "DTSTART:" ++ v) (str "DESCRIPTION;ENCODING=QUOTED-PRINTABLE") = false
    ∧ upperStartsWith (str "DTSTART:" ++ v) (str "DTSTART:") = true := by
  have e0 : str "DTSTART:" = [68, 84, 83, 84, 65, 82, 84, 58] := by decide
  have e1 : str "SUMMARY:" = [83, 85, 77, 77, 65, 82, 89, 58] := by decide
  have e2 : str "SUMMARY;ENCODING=QUOTED-PRINTABLE" = [83, 85, 77, 77, 65, 82, 89, 59, 69, 78, 67, 79, 68, 73, 78, 71, 61, 81, 85, 79, 84, 69, 68, 45, 80, 82, 73, 78, 84, 65, 66, 76, 69] := by decide
  have e3 : str "LOCATION:" = [76, 79, 67, 65, 84, 73, 79, 78, 58] := by decide
  have e4 : str "LOCATION;ENCODING=QUOTED-PRINTABLE" = [76, 79, 67, 65, 84, 73, 79, 78, 59, 69, 78, 67, 79, 68, 73, 78, 71, 61, 81, 85, 79, 84, 69, 68, 45, 80, 82, 73, 78, 84, 65, 66, 76, 69] := by decide
  have e5 : str "DESCRIPTION:" = [68, 69, 83, 67, 82, 73, 80, 84, 73, 79, 78, 58] := by decide
  have e6 : str "DESCRIPTION;ENCODING=QUOTED-PRINTABLE" = [68, 69, 83, 67, 82, 73, 80, 84, 73, 79, 78, 59, 69, 78, 67, 79, 68, 73, 78, 71, 61, 81, 85, 79, 84, 69, 68, 45, 80, 82, 73, 78, 84, 65, 66, 76, 69] := by decide
  have e7 : str "DTSTART:" = [68, 84, 83, 84, 65, 82, 84, 58] := by decide
  simp [e0, e1, e2, e3, e4, e5, e6, e7, upperStartsWith_cons, upperStartsWith_nil, upperByte]

theorem upperStartsWith_dtend_line (v : GoString) :
    upperStartsWith (str "DTEND:" ++ v) (str "SUMMARY:") = false
    ∧ upperStartsWith (str "DTEND:" ++ v) (str "SUMMARY;ENCODING=QUOTED-PRINTABLE") = false
    ∧ upperStartsWith (str "DTEND:" ++ v) (str "LOCATION:") = false
    ∧ upperStartsWith (str "DTEND:" ++ v) (str "LOCATION;ENCODING=QUOTED-PRINTABLE") = false
    ∧ upperStartsWith (str "DTEND:" ++ v) (str "DESCRIPTION:") = false
    ∧ upperStartsWith (str "DTEND:" ++ v) (str "DESCRIPTION;ENCODING=QUOTED-PRINTABLE") = false
    ∧ upperStartsWith (str "DTEND:" ++ v) (str "DTSTART:") = false
    ∧ upperStartsWith (str "DTEND:" ++ v) (str "DTEND:") = true := by
  have e0 : str "DTEND:" = [68, 84, 69, 78, 68, 58] := by decide
  have e1 : str "SUMMARY:" = [83, 85, 77, 77, 65, 82, 89, 58] := by decide
  have e2 : str "SUMMARY;ENCODING=QUOTED-PRINTABLE" = [83, 85, 77, 77, 65, 82, 89, 59, 69, 78, 67, 79, 68, 73, 78, 71, 61, 81, 85, 79, 84, 69, 68, 45, 80, 82, 73, 78, 84, 65, 66, 76, 69] := by decide
  have e3 : str "LOCATION:" = [76, 79, 67, 65, 84, 73, 79, 78, 58] := by decide
  have e4 : str "LOCATION;ENCODING=QUOTED-PRINTABLE" = [76, 79, 67, 65, 84, 73, 79, 78, 59, 69, 78, 67, 79, 68, 73, 78, 71, 61, 81, 85, 79, 84, 69, 68, 45, 80, 82, 73, 78, 84, 65, 66, 76, 69] := by decide
  have e5 : str "DESCRIPTION:" = [68, 69, 83, 67, 82, 73, 80, 84, 73, 79, 78, 58] := by decide
  have e6 : str "DESCRIPTION;ENCODING=QUOTED-PRINTABLE" = [68, 69, 83, 67, 82, 73, 80, 84, 73, 79, 78, 59, 69, 78, 67, 79, 68, 73, 78, 71, 61, 81, 85, 79, 84, 69, 68, 45, 80, 82, 73, 78, 84, 65, 66, 76, 69] := by decide
  have e7 : str "DTSTART:" = [68, 84, 83, 84, 65, 82, 84, 58] := by decide
  have e8 : str "DTEND:" = [68, 84, 69, 78, 68, 58] := by decide
  simp [e0, e1, e2, e3, e4, e5, e6, e7, e8, upperStartsWith_cons, upperStartsWith_nil, upperByte]


theorem processField_summary_line (S : GoString) (rec : Record) (c : Nat) (x : GoString)
    (br : Bool) (hc : isSpace c = false) :
    processField (str "SUMMARY:" ++ S) none rec ⟨c :: x, br⟩
      = some (FieldResult.next { rec with summary := S } none ⟨c :: x, br⟩) := by
  have h := upperStartsWith_summary_line S
  have hd : (str "SUMMARY:" ++ S).drop 8 = S := by
    have e0 : str "SUMMARY:" = [83, 85, 77, 77, 65, 82, 89, 58] := by decide
    simp [e0]
  unfold processField
  rw [if_pos h, hd]
  simp [readPossibleMultiline, readPossibleMultilineLoop, hc, fieldDone]

theorem processField_dtstart_line (a : GoString) (err : Option Err) (rec : Record)
    (r : Reader) :
    processField (str "DTSTART:" ++ a) err rec r
      = some (FieldResult.next { rec with dtstart := a } err r) := by
  obtain ⟨h1, h2, h3, h4, h5, h6, h7⟩ := upperStartsWith_dtstart_line a
  have hd : (str "DTSTART:" ++ a).drop 8 = a := by
    have e0 : str "DTSTART:" = [68, 84, 83, 84, 65, 82, 84, 58] := by decide
    simp [e0]
  unfold processField
  simp only [h1, h2, h3, h4, h5, h6, h7, Bool.false_eq_true, if_false, if_true, hd]

theorem processField_dtend_line (b : GoString) (err : Option Err) (rec : Record)
    (r : Reader) :
    processField (str "DTEND:" ++ b) err rec r
      = some (FieldResult.next { rec with dtend := b } err r) := by
  obtain ⟨h1, h2, h3, h4, h5, h6, h7, h8⟩ := upperStartsWith_dtend_line b
  have hd : (str "DTEND:" ++ b).drop 6 = b := by
    have e0 : str "DTEND:" = [68, 84, 69, 78, 68, 58] := by decide
    simp [e0]
  unfold processField
  simp only [h1, h2, h3, h4, h5, h6, h7, h8, Bool.false_eq_true, if_false, if_true, hd]

theorem readRecordLoop_step (fuel : Nat) (rec : Record) (l rest : GoString) (t br : Bool)
    (hl : SingleLine l)
    (h1 : equalFold l (str "END:VEVENT") = false) (h2 : equalFold l (str "END:VTODO") = false) :
    readRecordLoop (fuel + 1) rec ⟨l ++ lineEnd t ++ rest, br⟩
      = (match processField l none rec ⟨rest, br⟩ with
        | none => none
        | some (FieldResult.ret e) => some (Except.error e)
        | some (FieldResult.next rec2 err2 r2) =>
          if err2 = some Err.eof then some (Except.ok (rec2, r2))
          else readRecordLoop fuel rec2 r2) := by
  rw [readRecordLoop, ReadString_line l rest t br hl]
  simp only [trimRightCRLF_line l t hl, h1, h2, Bool.or_self, Bool.false_eq_true, if_false]
  cases processField l none rec ⟨rest, br⟩ with
  | none => rfl
  | some fr => cases fr <;> simp

theorem readRecordLoop_end (fuel : Nat) (rec : Record) (rest : GoString) (t br : Bool) :
    readRecordLoop (fuel + 1) rec ⟨str "END:VEVENT" ++ lineEnd t ++ rest, br⟩
      = some (Except.ok (rec, ⟨rest, br⟩)) := by
  have hl : SingleLine (str "END:VEVENT") := by unfold SingleLine; decide
  have h1 : equalFold (str "END:VEVENT") (str "END:VEVENT") = true := by decide
  rw [readRecordLoop, ReadString_line _ rest t br hl]
  simp only [trimRightCRLF_line _ t hl, h1, Bool.true_or, if_true]
  simp

theorem SingleLine_tag (tag v : GoString) (ht : SingleLine tag) (hv : SingleLine v) :
    SingleLine (tag ++ v) := by
  intro c hc
  rcases List.mem_append.1 hc with h | h
  · exact ht c h
  · exact hv c h

theorem processField_summary_line_of (S : GoString) (rec : Record) (buf : GoString) (c : Nat)
    (x : GoString) (br : Bool) (hb : buf = c :: x) (hc : isSpace c = false) :
    processField (str "SUMMARY:" ++ S) none rec ⟨buf, br⟩
      = some (FieldResult.next { rec with summary := S } none ⟨buf, br⟩) := by
  subst hb
  exact processField_summary_line S rec c x br hc

theorem minimal_event_lines_fold (S a b : GoString) :
    equalFold (str "SUMMARY:" ++ S) (str "END:VEVENT") = false
    ∧ equalFold (str "SUMMARY:" ++ S) (str "END:VTODO") = false
    ∧ equalFold (str "DTSTART:" ++ a) (str "END:VEVENT") = false
    ∧ equalFold (str "DTSTART:" ++ a) (str "END:VTODO") = false
    ∧ equalFold (str "DTEND:" ++ b) (str "END:VEVENT") = false
    ∧ equalFold (str "DTEND:" ++ b) (str "END:VTODO") = false := by
  have e1 : str "SUMMARY:" = [83, 85, 77, 77, 65, 82, 89, 58] := by decide
  have e2 : str "DTSTART:" = [68, 84, 83, 84, 65, 82, 84, 58] := by decide
  have e3 : str "DTEND:" = [68, 84, 69, 78, 68, 58] := by decide
  have e4 : str "END:VEVENT" = [69, 78, 68, 58, 86, 69, 86, 69, 78, 84] := by decide
  have e5 : str "END:VTODO" = [69, 78, 68, 58, 86, 84, 79, 68, 79] := by decide
  simp [e1, e2, e3, e4, e5, equalFold, upperByte]

theorem readRecordLoop_minimal (n : Nat) (S a b rest : GoString) (t3 t4 t5 t6 br : Bool)
    (hS : SingleLine S) (ha : SingleLine a) (hb : SingleLine b) :
    readRecordLoop (n + 4) (Record.empty true)
        ⟨(str "SUMMARY:" ++ S) ++ lineEnd t3 ++ ((str "DTSTART:" ++ a) ++ lineEnd t4
          ++ ((str "DTEND:" ++ b) ++ lineEnd t5 ++ (str "END:VEVENT" ++ lineEnd t6 ++ rest))), br⟩
      = some (Except.ok (⟨true, S, [], [], [], [], [], a, b, [], [], []⟩, ⟨rest, br⟩)) := by
  obtain ⟨f1, f2, f3, f4, f5, f6⟩ := minimal_event_lines_fold S a b
  have s1 : SingleLine (str "SUMMARY:" ++ S) :=
    SingleLine_tag _ _ (by unfold SingleLine; decide) hS
  have s2 : SingleLine (str "DTSTART:" ++ a) :=
    SingleLine_tag _ _ (by unfold SingleLine; decide) ha
  have s3 : SingleLine (str "DTEND:" ++ b) :=
    SingleLine_tag _ _ (by unfold SingleLine; decide) hb
  have hhead : ∀ R : GoString, (str "DTSTART:" ++ a) ++ lineEnd t4 ++ R
      = 68 :: (str "TSTART:" ++ a ++ lineEnd t4 ++ R) := by
    intro R
    have e2 : str "DTSTART:" = 68 :: str "TSTART:" := by decide
    simp [e2]
  rw [readRecordLoop_step (n + 3) _ _ _ t3 br s1 f1 f2,
    processField_summary_line_of S _ _ 68 _ br (hhead _) (by decide)]
  simp only [reduceCtorEq, if_false]
  rw [readRecordLoop_step (n + 2) _ _ _ t4 br s2 f3 f4, processField_dtstart_line]
  simp only [reduceCtorEq, if_false]
  rw [readRecordLoop_step (n + 1) _ _ _ t5 br s3 f5 f6, processField_dtend_line]
  simp only [reduceCtorEq, if_false]
  rw [readRecordLoop_end]
  rfl

theorem convertLoop_skip_line (clock : Nat → Time) (fuel : Nat) (w : ICSWriter)
    (recs : List Record) (l rest : GoString) (t br : Bool) (hl : SingleLine l)
    (h1 : equalFold l (str "END:VCALENDAR") = false)
    (h2 : equalFold l (str "BEGIN:VTODO") = false)
    (h3 : equalFold l (str "BEGIN:VEVENT") = false) :
    convertLoop clock (fuel + 1) w recs ⟨l ++ lineEnd t ++ rest, br⟩
      = convertLoop clock fuel w recs ⟨rest, br⟩ := by
  rw [convertLoop, ReadString_line l rest t br hl]
  simp [trimRightCRLF_line l t hl, h1, h2, h3]

theorem convertLoop_end_line (clock : Nat → Time) (fuel : Nat) (w : ICSWriter)
    (recs : List Record) (rest : GoString) (t br : Bool) :
    convertLoop clock (fuel + 1) w recs ⟨str "END:VCALENDAR" ++ lineEnd t ++ rest, br⟩
      = some (none, w, recs) := by
  have hl : SingleLine (str "END:VCALENDAR") := by unfold SingleLine; decide
  have h1 : equalFold (str "END:VCALENDAR") (str "END:VCALENDAR") = true := by decide
  rw [convertLoop, ReadString_line _ rest t br hl]
  simp [trimRightCRLF_line _ t hl, h1]

theorem convertLoop_event_line (clock : Nat → Time) (fuel : Nat) (w : ICSWriter)
    (recs : List Record) (rest : GoString) (t br : Bool) (rec : Record) (r2 : Reader)
    (hr : readRecordLoop (rest.length + 1) (Record.empty true) ⟨rest, br⟩
      = some (Except.ok (rec, r2))) :
    convertLoop clock (fuel + 1) w recs ⟨str "BEGIN:VEVENT" ++ lineEnd t ++ rest, br⟩
      = (match w.addRecord (clock recs.length) rec with
        | (w2, some e) => some (some (Err.addingEvent e), w2, recs ++ [rec])
        | (w2, none) => convertLoop clock fuel w2 (recs ++ [rec]) r2) := by
  have hl : SingleLine (str "BEGIN:VEVENT") := by unfold SingleLine; decide
  have h1 : equalFold (str "BEGIN:VEVENT") (str "END:VCALENDAR") = false := by decide
  have h2 : equalFold (str "BEGIN:VEVENT") (str "BEGIN:VTODO") = false := by decide
  have h3 : equalFold (str "BEGIN:VEVENT") (str "BEGIN:VEVENT") = true := by decide
  rw [convertLoop, ReadString_line _ rest t br hl]
  simp only [trimRightCRLF_line _ t hl, h1, h2, h3, reduceCtorEq, if_false, Bool.false_eq_true,
    Bool.not_false, Bool.not_true, Bool.and_false, hr]

/-- C1: for a non-empty organizer email, a non-empty single-line summary and
two distinct non-empty single-line values, `Convert` on the seven-line input
with any mix of LF and CR LF terminators, over a sink whose writes succeed,
returns no error, hands exactly one record to `AddEvent`, and writes exactly
the header, one VEVENT block with ORGANIZER, SUMMARY, DTSTART, DTEND and the
DTSTAMP of the current time, and `END:VCALENDAR` without a line terminator. -/
theorem C1_minimal_event (e S a b : GoString) (t1 t2 t3 t4 t5 t6 t7 br : Bool) (out : Sink)
    (clock : Nat → Time)
    (he : e ≠ []) (hS : S ≠ []) (hS1 : SingleLine S) (ha : a ≠ []) (ha1 : SingleLine a)
    (hb : b ≠ []) (hb1 : SingleLine b) (hab : a ≠ b) (hrel : out.Reliable) :
    ∃ res, Convert ⟨vcsLines [(str "BEGIN:VCALENDAR", t1), (str "BEGIN:VEVENT", t2),
          (str "SUMMARY:" ++ S, t3), (str "DTSTART:" ++ a, t4), (str "DTEND:" ++ b, t5),
          (str "END:VEVENT", t6), (str "END:VCALENDAR", t7)], br⟩ out e clock = some res
      ∧ res.err = none
      ∧ res.records = [⟨true, S, [], [], [], [], [], a, b, [], [], []⟩]
      ∧ res.out.written = out.written ++ str "BEGIN:VCALENDAR\r\nPRODID:" ++ e
          ++ str "\r\nVERSION:2.0\r\nBEGIN:VEVENT\r\nORGANIZER:" ++ e
          ++ str "\r\nSUMMARY:" ++ S ++ str "\r\nDTSTART:" ++ a ++ str "\r\nDTEND:" ++ b
          ++ str "\r\nDTSTAMP:" ++ FormatDate (clock 0)
          ++ str "\r\nEND:VEVENT\r\nEND:VCALENDAR" := by
  have hbuf : vcsLines [(str "BEGIN:VCALENDAR", t1), (str "BEGIN:VEVENT", t2),
          (str "SUMMARY:" ++ S, t3), (str "DTSTART:" ++ a, t4), (str "DTEND:" ++ b, t5),
          (str "END:VEVENT", t6), (str "END:VCALENDAR", t7)]
      = str "BEGIN:VCALENDAR" ++ lineEnd t1 ++ (str "BEGIN:VEVENT" ++ lineEnd t2
        ++ ((str "SUMMARY:" ++ S) ++ lineEnd t3 ++ ((str "DTSTART:" ++ a) ++ lineEnd t4
          ++ ((str "DTEND:" ++ b) ++ lineEnd t5 ++ (str "END:VEVENT" ++ lineEnd t6
            ++ (str "END:VCALENDAR" ++ lineEnd t7 ++ [])))))) := rfl
  rw [hbuf]
  generalize hR : (str "SUMMARY:" ++ S) ++ lineEnd t3 ++ ((str "DTSTART:" ++ a) ++ lineEnd t4
          ++ ((str "DTEND:" ++ b) ++ lineEnd t5 ++ (str "END:VEVENT" ++ lineEnd t6
            ++ (str "END:VCALENDAR" ++ lineEnd t7 ++ [])))) = R
  have hRlen : ∃ m, R.length + 1 = m + 4 := by
    refine ⟨R.length - 3, ?_⟩
    have : 8 ≤ R.length := by
      rw [← hR]
      have e1 : (str "SUMMARY:").length = 8 := by decide
      simp only [List.length_append, e1]
      omega
    omega
  obtain ⟨m, hm⟩ := hRlen
  have hrec : readRecordLoop (R.length + 1) (Record.empty true) ⟨R, br⟩
      = some (Except.ok (⟨true, S, [], [], [], [], [], a, b, [], [], []⟩,
          ⟨str "END:VCALENDAR" ++ lineEnd t7 ++ [], br⟩)) := by
    rw [hm, ← hR]
    exact readRecordLoop_minimal m S a b _ t3 t4 t5 t6 br hS1 ha1 hb1
  have hlen : ∃ n, (str "BEGIN:VCALENDAR" ++ lineEnd t1
      ++ (str "BEGIN:VEVENT" ++ lineEnd t2 ++ R)).length + 1 = n + 3 := by
    refine ⟨(str "BEGIN:VCALENDAR" ++ lineEnd t1
      ++ (str "BEGIN:VEVENT" ++ lineEnd t2 ++ R)).length - 2, ?_⟩
    have e1 : (str "BEGIN:VCALENDAR").length = 15 := by decide
    simp only [List.length_append, e1]
    omega
  obtain ⟨n, hn⟩ := hlen
  obtain ⟨a1, a2, a3, a4, a5, a6⟩ := addRecord_reliable (NewICSWriter e out) (clock 0)
    ⟨true, S, [], [], [], [], [], a, b, [], [], []⟩ rfl hrel
  have hblock : recordBlock e (clock 0) ⟨true, S, [], [], [], [], [], a, b, [], [], []⟩
      = some (str "BEGIN:VEVENT\r\nORGANIZER:" ++ e
          ++ str "\r\nSUMMARY:" ++ S ++ str "\r\nDTSTART:" ++ a ++ str "\r\nDTEND:" ++ b
          ++ str "\r\nDTSTAMP:" ++ FormatDate (clock 0) ++ str "\r\nEND:VEVENT\r\n") := by
    have q1 : str "BEGIN:VEVENT\r\nORGANIZER:" = str "BEGIN:VEVENT\r\n" ++ str "ORGANIZER:" := by
      decide
    have q2 : str "\r\nSUMMARY:" = str "\r\n" ++ str "SUMMARY:" := by decide
    have q3 : str "\r\nDTSTART:" = str "\r\n" ++ str "DTSTART:" := by decide
    have q4 : str "\r\nDTEND:" = str "\r\n" ++ str "DTEND:" := by decide
    have q5 : str "\r\nDTSTAMP:" = str "\r\n" ++ str "DTSTAMP:" := by decide
    have q6 : str "\r\nEND:VEVENT\r\n" = str "\r\n" ++ str "END:VEVENT\r\n" := by decide
    simp [recordBlock, ha, eventHead, optLine, he, hS, rruleLine, startEndLines,
      checkForSameStartAndEndTime, hb, hab, eventTail, stampLine, alarmBlock, q1, q2, q3, q4, q5,
      q6]
  unfold Convert
  rw [hn]
  rw [convertLoop_skip_line clock (n + 2) _ _ _ _ t1 br (by unfold SingleLine; decide)
    (by decide) (by decide) (by decide)]
  rw [convertLoop_event_line clock (n + 1) _ _ R t2 br _ _ hrec]
  rcases hadd : (NewICSWriter e out).addRecord (clock ([] : List Record).length)
    ⟨true, S, [], [], [], [], [], a, b, [], [], []⟩ with ⟨w2, err⟩
  have hadd' : (NewICSWriter e out).addRecord (clock 0)
      ⟨true, S, [], [], [], [], [], a, b, [], [], []⟩ = (w2, err) := hadd
  rw [hadd'] at a1 a2 a3 a4 a5 a6
  simp only [NewICSWriter, hblock, Option.isSome_some, if_true, Option.getD_some] at a1 a2 a5
  subst a1
  simp only at a3 a4 a6
  simp only
  rw [convertLoop_end_line]
  refine ⟨_, rfl, rfl, rfl, ?_⟩
  simp only
  rw [Close_reliable w2 a3 a6, a2]
  have q7 : str "\r\nVERSION:2.0\r\nBEGIN:VEVENT\r\nORGANIZER:"
      = str "\r\nVERSION:2.0\r\n" ++ str "BEGIN:VEVENT\r\nORGANIZER:" := by decide
  have q8 : str "\r\nEND:VEVENT\r\nEND:VCALENDAR"
      = str "\r\nEND:VEVENT\r\n" ++ str "END:VCALENDAR" := by decide
  simp [headerIfMissing, a4, calendarHeader, q7, q8]

theorem C1_minimal_event_witness :
    ∃ res, Convert ⟨str "BEGIN:VCALENDAR\r\nBEGIN:VEVENT\nSUMMARY:Test\r\nDTSTART:20250601T090000Z\nDTEND:20250601T100000Z\r\nEND:VEVENT\nEND:VCALENDAR\r\n", false⟩
        ⟨[], [], none⟩ (str "a@b.com") (fun _ => ⟨2025, 11, 4, 9, 30, 0, 0⟩) = some res
      ∧ res.err = none
      ∧ res.records = [⟨true, str "Test", [], [], [], [], [], str "20250601T090000Z",
          str "20250601T100000Z", [], [], []⟩]
      ∧ res.out.written = str "BEGIN:VCALENDAR\r\nPRODID:a@b.com\r\nVERSION:2.0\r\nBEGIN:VEVENT\r\nORGANIZER:a@b.com\r\nSUMMARY:Test\r\nDTSTART:20250601T090000Z\r\nDTEND:20250601T100000Z\r\nDTSTAMP:20251104T093000Z\r\nEND:VEVENT\r\nEND:VCALENDAR" :=
  C1_minimal_event (str "a@b.com") (str "Test") (str "20250601T090000Z")
    (str "20250601T100000Z") true false true false true false true false ⟨[], [], none⟩
    (fun _ => ⟨2025, 11, 4, 9, 30, 0, 0⟩) (by decide) (by decide)
    (by unfold SingleLine; decide) (by decide) (by unfold SingleLine; decide) (by decide)
    (by unfold SingleLine; decide) (by decide) (by intro v hv; cases hv)

/-! ## The two special cases of `Decode` -/

theorem replaceAllAux_skip (old new : GoString) (k : Nat) (a b : GoString) (h : a.length = k) :
    replaceAllAux old new k (a ++ b) = replaceAllAux old new 0 b := by
  induction a generalizing k with
  | nil => simp at h; subst h; rfl
  | cons c r ih =>
    cases k with
    | zero => simp at h
    | succ k =>
      simp only [List.cons_append, replaceAllAux]
      exact ih k (by simpa using h)

theorem replaceAllAux_plain (new s rest : GoString) (h : ∀ c ∈ s, c ≠ 61) :
    replaceAllAux (str "=0D=0A") new 0 (s ++ rest)
      = s ++ replaceAllAux (str "=0D=0A") new 0 rest := by
  have e : str "=0D=0A" = [61, 48, 68, 61, 48, 65] := by decide
  induction s with
  | nil => rfl
  | cons c r ih =>
    have hc : c ≠ 61 := h c (by simp)
    have hc2 : ¬ (61 = c) := fun x => hc x.symm
    have := ih (fun x hx => h x (by simp [hx]))
    simp only [List.cons_append, replaceAllAux]
    rw [e] at this ⊢
    simp [List.isPrefixOf, hc2, this]

theorem replaceAllAux_plain_nil (new s : GoString) (h : ∀ c ∈ s, c ≠ 61) :
    replaceAllAux (str "=0D=0A") new 0 s = s := by
  have := replaceAllAux_plain new s [] h
  simpa [replaceAllAux] using this

theorem decodeQuotedPrintable_plain (s rest : GoString) (h : ∀ c ∈ s, c ≠ 61) :
    decodeQuotedPrintable (s ++ rest) = s ++ decodeQuotedPrintable rest := by
  induction s with
  | nil => rfl
  | cons c r ih =>
    rw [List.cons_append, decodeQuotedPrintable_literal c _ (h c (by simp)),
      ih (fun x hx => h x (by simp [hx]))]
    rfl

theorem decodeQuotedPrintable_plain_nil (s : GoString) (h : ∀ c ∈ s, c ≠ 61) :
    decodeQuotedPrintable s = s := by
  have := decodeQuotedPrintable_plain s [] h
  simpa [decodeQuotedPrintable] using this

/-- C11: for strings `s` and `t` without `=`, `Decode` of `s`, the escape
`=0D=0A` and `t` is `s`, the two characters backslash and `n`, and `t`; the
result has exactly the CR and LF bytes of `s` and `t`. -/
theorem C11_escaped_crlf (s t : GoString) (hs : ∀ c ∈ s, c ≠ 61) (ht : ∀ c ∈ t, c ≠ 61) :
    Decode (s ++ str "=0D=0A" ++ t) = s ++ [92, 110] ++ t
    ∧ (Decode (s ++ str "=0D=0A" ++ t)).count 13 = s.count 13 + t.count 13
    ∧ (Decode (s ++ str "=0D=0A" ++ t)).count 10 = s.count 10 + t.count 10 := by
  have key : Decode (s ++ str "=0D=0A" ++ t) = s ++ [92, 110] ++ t := by
    have e : str "=0D=0A" = [61, 48, 68, 61, 48, 65] := by decide
    unfold Decode replaceAll
    rw [List.append_assoc, replaceAllAux_plain _ s _ hs]
    have h1 : replaceAllAux (str "=0D=0A") [92, 110] 0 (str "=0D=0A" ++ t) = [92, 110] ++ t := by
      have h2 := replaceAllAux_plain_nil [92, 110] t ht
      rw [e] at h2 ⊢
      simp only [List.cons_append, List.nil_append, replaceAllAux]
      simp [List.isPrefixOf, h2]
    rw [h1]
    have h3 : ∀ c ∈ s ++ ([92, 110] ++ t), c ≠ 61 := by
      intro c hc
      simp only [List.mem_append, List.mem_cons, List.mem_singleton] at hc
      rcases hc with hc | (hc | hc | hc) | hc
      · exact hs c hc
      · omega
      · omega
      · simp at hc
      · exact ht c hc
    rw [decodeQuotedPrintable_plain_nil _ h3]
    simp
  rw [key]
  refine ⟨rfl, ?_, ?_⟩ <;> simp [List.count_append]

theorem C11_escaped_crlf_witness :
    Decode (str "Line one=0D=0ALine two") = str "Line one\\nLine two" :=
  (C11_escaped_crlf (str "Line one") (str "Line two") (by decide) (by decide)).1

/-- C12: for strings `s` and `t` without `=` (`t` possibly empty), `Decode` of
`s`, the soft line break `=` CR LF and `t` is `s` followed by `t`. -/
theorem C12_soft_line_break (s t : GoString) (hs : ∀ c ∈ s, c ≠ 61) (ht : ∀ c ∈ t, c ≠ 61) :
    Decode (s ++ [61, 13, 10] ++ t) = s ++ t := by
  have e : str "=0D=0A" = [61, 48, 68, 61, 48, 65] := by decide
  have h3 : ∀ c ∈ 13 :: 10 :: t, c ≠ 61 := by
    intro c hc
    simp only [List.mem_cons] at hc
    rcases hc with hc | hc | hc
    · omega
    · omega
    · exact ht c hc
  unfold Decode replaceAll
  rw [List.append_assoc, replaceAllAux_plain _ s _ hs]
  have h1 : replaceAllAux (str "=0D=0A") [92, 110] 0 ([61, 13, 10] ++ t) = [61, 13, 10] ++ t := by
    have h2 := replaceAllAux_plain_nil [92, 110] t ht
    rw [e] at h2 ⊢
    simp only [List.cons_append, List.nil_append, replaceAllAux]
    simp [List.isPrefixOf, h2]
  rw [h1, decodeQuotedPrintable_plain s _ hs]
  have h4 : decodeQuotedPrintable ([61, 13, 10] ++ t) = decodeQuotedPrintable t := by
    simp [decodeQuotedPrintable, isHexChar]
  rw [h4, decodeQuotedPrintable_plain_nil t ht]

theorem C12_soft_line_break_witness :
    Decode (str "Hello=\r\n World") = str "Hello World"
    ∧ Decode (str "Hello=\r\n") = str "Hello" :=
  ⟨C12_soft_line_break (str "Hello") (str " World") (by decide) (by decide),
   C12_soft_line_break (str "Hello") [] (by decide) (by decide)⟩

/-! ## The closed writer -/

theorem closed_calls (w : ICSWriter) (now : Time) (p : GoString) (isEvent : Bool)
    (summary description location dtStart dtEnd rrule dtStamp sequence due status
      alarm : GoString) (hc : w.closed = true) :
    w.Write p = (w, some Err.writerClosed)
    ∧ w.AddEvent now isEvent summary description location dtStart dtEnd rrule dtStamp sequence
        due status alarm = (w, some Err.writerClosed)
    ∧ w.Close = (w, none) := by
  simp [ICSWriter.Write, ICSWriter.AddEvent, ICSWriter.Close, hc]

theorem Close_closes (w : ICSWriter) (hopen : w.closed = false)
    (hhdr : w.headerWritten = true ∨ (w.writer.Write (calendarHeader w.Email)).2 = none) :
    w.Close.1.closed = true
    ∧ w.Close.1.writer.written
      = w.writer.written ++ (if w.headerWritten then [] else calendarHeader w.Email)
        ++ str "END:VCALENDAR" := by
  unfold ICSWriter.Close
  simp only [hopen, Bool.false_eq_true, if_false]
  cases hh : w.headerWritten
  · have h0 : (w.writer.Write (calendarHeader w.Email)).2 = none := by
      rcases hhdr with h | h
      · rw [hh] at h; cases h
      · exact h
    obtain ⟨h1, h2, -⟩ := writeHeader_spec w
    rw [h0] at h2
    rcases hwh : w.writeHeader with ⟨w1, e⟩
    rw [hwh] at h1 h2
    simp only at h1 h2
    subst h2
    simp [Sink.Write_written, h1]
  · simp [Sink.Write_written]

/-- C20: once `Close` has got past the header and handed the footer to the
sink, the writer is closed; from then on `Write` and `AddEvent` (for an event
or a task, with any arguments) return the writer-closed error and a further
`Close` returns no error, each leaving the writer and its sink as they were,
so no byte follows `END:VCALENDAR`.  The same holds for every closed writer,
hence after any number of such calls. -/
theorem C20_closed_writer (w : ICSWriter) (now : Time) (p : GoString) (isEvent : Bool)
    (summary description location dtStart dtEnd rrule dtStamp sequence due status
      alarm : GoString) (hopen : w.closed = false)
    (hhdr : w.headerWritten = true ∨ (w.writer.Write (calendarHeader w.Email)).2 = none) :
    w.Close.1.closed = true
    ∧ w.Close.1.writer.written
      = w.writer.written ++ (if w.headerWritten then [] else calendarHeader w.Email)
        ++ str "END:VCALENDAR"
    ∧ w.Close.1.Write p = (w.Close.1, some Err.writerClosed)
    ∧ w.Close.1.AddEvent now isEvent summary description location dtStart dtEnd rrule dtStamp
        sequence due status alarm = (w.Close.1, some Err.writerClosed)
    ∧ w.Close.1.Close = (w.Close.1, none)
    ∧ (∀ w2 : ICSWriter, w2.closed = true →
        w2.Write p = (w2, some Err.writerClosed)
        ∧ w2.AddEvent now isEvent summary description location dtStart dtEnd rrule dtStamp
            sequence due status alarm = (w2, some Err.writerClosed)
        ∧ w2.Close = (w2, none)) := by
  obtain ⟨h1, h2⟩ := Close_closes w hopen hhdr
  obtain ⟨h3, h4, h5⟩ := closed_calls w.Close.1 now p isEvent summary description location
    dtStart dtEnd rrule dtStamp sequence due status alarm h1
  exact ⟨h1, h2, h3, h4, h5, fun w2 hc => closed_calls w2 now p isEvent summary description
    location dtStart dtEnd rrule dtStamp sequence due status alarm hc⟩

theorem C20_closed_writer_witness :
    (NewICSWriter (str "a@b.com") ⟨[], [], none⟩).Close.1.writer.written
      = str "BEGIN:VCALENDAR\r\nPRODID:a@b.com\r\nVERSION:2.0\r\nEND:VCALENDAR"
    ∧ ((NewICSWriter (str "a@b.com") ⟨[], [], none⟩).Close.1.AddEvent
        ⟨2025, 11, 4, 9, 30, 0, 0⟩ true (str "Late") [] [] (str "20250601T090000Z") [] [] [] []
        [] [] []).2 = some Err.writerClosed
    ∧ ((NewICSWriter (str "a@b.com") ⟨[], [], none⟩).Close.1.AddEvent
        ⟨2025, 11, 4, 9, 30, 0, 0⟩ true (str "Late") [] [] (str "20250601T090000Z") [] [] [] []
        [] [] []).1.writer.written
      = str "BEGIN:VCALENDAR\r\nPRODID:a@b.com\r\nVERSION:2.0\r\nEND:VCALENDAR" := by
  have h := C20_closed_writer (NewICSWriter (str "a@b.com") ⟨[], [], none⟩)
    ⟨2025, 11, 4, 9, 30, 0, 0⟩ (str "x") true (str "Late") [] [] (str "20250601T090000Z") [] []
    [] [] [] [] [] rfl (Or.inr rfl)
  refine ⟨h.2.1, ?_, ?_⟩
  · rw [h.2.2.2.1]
  · rw [h.2.2.2.1]; exact h.2.1

/-! ## Alarm durations -/

theorem tdiv_week (m : Nat) : Int.tdiv (m : Int) 604800 = ((m / 604800 : Nat) : Int) := rfl
theorem tmod_week (m : Nat) : Int.tmod (m : Int) 604800 = ((m % 604800 : Nat) : Int) := rfl
theorem tdiv_day (m : Nat) : Int.tdiv (m : Int) 86400 = ((m / 86400 : Nat) : Int) := rfl
theorem tmod_day (m : Nat) : Int.tmod (m : Int) 86400 = ((m % 86400 : Nat) : Int) := rfl
theorem tdiv_hour (m : Nat) : Int.tdiv (m : Int) 3600 = ((m / 3600 : Nat) : Int) := rfl
theorem tmod_hour (m : Nat) : Int.tmod (m : Int) 3600 = ((m % 3600 : Nat) : Int) := rfl
theorem tdiv_minute (m : Nat) : Int.tdiv (m : Int) 60 = ((m / 60 : Nat) : Int) := rfl
theorem tmod_minute (m : Nat) : Int.tmod (m : Int) 60 = ((m % 60 : Nat) : Int) := rfl

theorem parseDuration_sign (x : Int) :
    signPrefix x <+: (Alarm.mk x).parseDuration := by
  unfold Alarm.parseDuration signPrefix
  simp only [gt_iff_lt]
  generalize (if 0 < x then x else wrap64 (-x)) = y
  generalize (if 0 < x then str "P" else str "-P") = sb
  repeat' split
  all_goals simp [List.append_assoc]

theorem parseDuration_magnitude (x : Int) (h1 : -(2 : Int) ^ 63 < x) (h2 : x < 2 ^ 63) :
    (Alarm.mk x).parseDuration = signPrefix x ++
      (if x.natAbs % 604800 = 0 then decimal (x.natAbs / 604800) ++ str "W"
       else dayTimeText x.natAbs) := by
  have hsec : (if x > 0 then x else wrap64 (-x)) = (x.natAbs : Int) := by
    unfold wrap64
    split <;> omega
  have c1 : ∀ k : Nat, ((k : Int) > 0) = (0 < k) := by
    intro k; simp
  have c2 : ∀ k : Nat, ((k : Int) = 0) = (k = 0) := by
    intro k; simp
  have e1 : x.natAbs % 86400 % 3600 = x.natAbs % 3600 := by omega
  have e2 : x.natAbs % 3600 % 60 = x.natAbs % 60 := by omega
  unfold Alarm.parseDuration signPrefix dayTimeText
  simp only [hsec, tdiv_week, tmod_week, tdiv_day, tmod_day, tdiv_hour, tmod_hour, tdiv_minute,
    tmod_minute, Itoa_natCast, c1, c2, e1, e2, gt_iff_lt]
  by_cases hw : x.natAbs % 604800 = 0
  · simp only [hw, if_true]
  · simp only [hw, if_false]
    by_cases hd : 0 < x.natAbs / 86400 <;>
      by_cases hh : 0 < x.natAbs % 86400 / 3600 <;>
      by_cases hm : 0 < x.natAbs % 3600 / 60 <;>
      by_cases hs : 0 < x.natAbs % 60 <;>
      simp [hd, hh, hm, hs]

/-- C13: for every `n ≥ 0` whose week multiple `n * 604800` is an `int64`
offset, the duration rendered for `n * 604800` seconds and for
`-(n * 604800)` seconds is the sign prefix followed by exactly the decimal
digits of `n` and the letter `W`, with no day or time component. -/
theorem C13_whole_weeks (n : Nat) (h : n * 604800 < 2 ^ 63) :
    (Alarm.mk ((n : Int) * 604800)).parseDuration
      = (if 0 < n then str "P" else str "-P") ++ decimal n ++ str "W"
    ∧ (Alarm.mk (-((n : Int) * 604800))).parseDuration = str "-P" ++ decimal n ++ str "W"
    ∧ (∀ c ∈ decimal n, isDigit c = true) := by
  have hr : ((n : Int) * 604800) < 2 ^ 63 := by
    have : ((n * 604800 : Nat) : Int) < ((2 ^ 63 : Nat) : Int) := by exact_mod_cast h
    simpa using this
  have hn : ((n : Int) * 604800).natAbs = n * 604800 := by
    have : ((n : Int) * 604800) = ((n * 604800 : Nat) : Int) := by simp
    rw [this, Int.natAbs_ofNat]
  have hn2 : (-((n : Int) * 604800)).natAbs = n * 604800 := by
    rw [Int.natAbs_neg, hn]
  have m1 : n * 604800 % 604800 = 0 := by omega
  have m2 : n * 604800 / 604800 = n := by omega
  refine ⟨?_, ?_, (decimal_spec n).2.1⟩
  · rw [parseDuration_magnitude _ (by omega) hr, hn]
    simp only [m1, m2, if_true, signPrefix]
    by_cases h0 : 0 < n
    · have : (0 : Int) < (n : Int) * 604800 := by omega
      simp [h0, this]
    · have : ¬ (0 : Int) < (n : Int) * 604800 := by omega
      simp [h0, this]
  · rw [parseDuration_magnitude _ (by omega) (by omega), hn2]
    have : ¬ (0 : Int) < -((n : Int) * 604800) := by omega
    simp only [m1, m2, if_true, signPrefix, this, if_false, List.append_assoc]

theorem C13_whole_weeks_witness :
    (Alarm.mk 1209600).parseDuration = str "P2W"
    ∧ (Alarm.mk (-1209600)).parseDuration = str "-P2W" := by
  have h := C13_whole_weeks 2 (by decide)
  exact ⟨h.1, h.2.1⟩

/-- C14 (as amended): the rendered duration starts with `P`, and not with a
minus sign, for every offset above zero, and with `-P` for every offset that
is zero or below. -/
theorem C14_sign_of_offset (x : Int) :
    (0 < x → str "P" <+: (Alarm.mk x).parseDuration
        ∧ (Alarm.mk x).parseDuration.head? = some 80)
    ∧ (x ≤ 0 → str "-P" <+: (Alarm.mk x).parseDuration
        ∧ (Alarm.mk x).parseDuration.head? = some 45) := by
  have h := parseDuration_sign x
  obtain ⟨r, hr⟩ := h
  constructor
  · intro hx
    have e : signPrefix x = [80] := by simp [signPrefix, hx]; decide
    rw [e] at hr
    have e2 : str "P" = [80] := by decide
    rw [← hr, e2]
    exact ⟨⟨r, rfl⟩, rfl⟩
  · intro hx
    have hx2 : ¬ 0 < x := by omega
    have e : signPrefix x = [45, 80] := by simp [signPrefix, hx2]; decide
    rw [e] at hr
    have e2 : str "-P" = [45, 80] := by decide
    rw [← hr, e2]
    exact ⟨⟨r, rfl⟩, rfl⟩

/-- C14 (counterexample to the claim as stated): the zero offset is rendered
as `-P0W`, with a minus sign. -/
theorem C14_counterexample :
    (Alarm.mk 0).parseDuration = str "-P0W"
    ∧ (Alarm.mk 0).parseDuration.head? = some 45 := by
  decide

/-- C15: for an offset `x` with `|x| < 2^63` whose magnitude `m` is not a
multiple of 604800, the text after the sign prefix is `<d>D` for non-zero
days, then, if an hour, minute or second remains, `T` and each non-zero of
`<h>H`, `<mi>M`, `<s>S`, with `d = m / 86400`, `h = m % 86400 / 3600`,
`mi = m % 3600 / 60`, `s = m % 60`; these add up to `m` with `h < 24`,
`mi < 60`, `s < 60`, and the rendering is never the bare prefix. -/
theorem C15_day_time_components (x : Int) (h1 : -(2 : Int) ^ 63 < x) (h2 : x < 2 ^ 63)
    (hw : x.natAbs % 604800 ≠ 0) :
    (Alarm.mk x).parseDuration = signPrefix x
      ++ ((if 0 < x.natAbs / 86400 then decimal (x.natAbs / 86400) ++ str "D" else [])
        ++ (if 0 < x.natAbs % 86400 / 3600 ∨ 0 < x.natAbs % 3600 / 60 ∨ 0 < x.natAbs % 60 then
              str "T"
                ++ (if 0 < x.natAbs % 86400 / 3600 then
                      decimal (x.natAbs % 86400 / 3600) ++ str "H" else [])
                ++ (if 0 < x.natAbs % 3600 / 60 then
                      decimal (x.natAbs % 3600 / 60) ++ str "M" else [])
                ++ (if 0 < x.natAbs % 60 then decimal (x.natAbs % 60) ++ str "S" else [])
            else []))
    ∧ x.natAbs / 86400 * 86400 + x.natAbs % 86400 / 3600 * 3600 + x.natAbs % 3600 / 60 * 60
        + x.natAbs % 60 = x.natAbs
    ∧ x.natAbs % 86400 / 3600 < 24 ∧ x.natAbs % 3600 / 60 < 60 ∧ x.natAbs % 60 < 60
    ∧ (Alarm.mk x).parseDuration ≠ signPrefix x := by
  have hmain := parseDuration_magnitude x h1 h2
  rw [if_neg hw] at hmain
  refine ⟨by rw [hmain]; rfl, by omega, by omega, by omega, by omega, ?_⟩
  rw [hmain]
  intro hc
  have hnil : dayTimeText x.natAbs = [] := by
    have := congrArg List.length hc
    simp only [List.length_append] at this
    exact List.length_eq_zero.1 (by omega)
  unfold dayTimeText at hnil
  have e1 : str "D" = [68] := by decide
  have e2 : str "T" = [84] := by decide
  by_cases hd : 0 < x.natAbs / 86400
  · simp [hd, e1] at hnil
  · by_cases ht : 0 < x.natAbs % 86400 / 3600 ∨ 0 < x.natAbs % 3600 / 60 ∨ 0 < x.natAbs % 60
    · simp only [ht, if_true, e2] at hnil
      simp at hnil
    · omega

theorem C15_day_time_components_witness :
    (Alarm.mk (-90061)).parseDuration = str "-P1DT1H1M1S"
    ∧ (Alarm.mk 900).parseDuration = str "PT15M" := by
  have h := C15_day_time_components (-90061) (by decide) (by decide) (by decide)
  exact ⟨h.1.trans (by decide), by decide⟩

/-! ## Continuation lines -/

/-- C17 (the code at the failing input): after `SUMMARY:foo` a blank line
ended by a bare LF is taken for a continuation, its LF is the byte read, and
the whole next line `DTSTART:...`, which begins with a non-white-space
character, is appended to the summary; the event is then left without a start
date and `Convert` fails. -/
theorem C17_blank_line_merges_next_line :
    readPossibleMultiline (str "foo")
        ⟨str "\nDTSTART:20250601T090000Z\nEND:VEVENT\n", false⟩
      = some (str "fooDTSTART:20250601T090000Z", none, ⟨str "END:VEVENT\n", false⟩)
    ∧ (Convert ⟨str "BEGIN:VEVENT\nSUMMARY:foo\n\nDTSTART:20250601T090000Z\nEND:VEVENT\n", false⟩
        ⟨[], [], none⟩ [] (fun _ => ⟨2025, 11, 4, 9, 30, 0, 0⟩)).map
          (fun res => (res.err, res.records, res.out.written))
      = some (some (Err.addingEvent Err.noStartDate),
          [⟨true, str "fooDTSTART:20250601T090000Z", [], [], [], [], [], [], [], [], [], []⟩],
          str "BEGIN:VCALENDAR\r\nPRODID:\r\nVERSION:2.0\r\nEND:VCALENDAR") := by
  decide

theorem endsWith_ne_nil (l : GoString) (c : Nat) (h : endsWith l [c] = true) : l ≠ [] := by
  intro hl
  subst hl
  simp [endsWith, List.isSuffixOf] at h

theorem endsWith_append (a l : GoString) (c : Nat) (h : l ≠ []) :
    endsWith (a ++ l) [c] = endsWith l [c] := by
  obtain ⟨l', x, rfl⟩ : ∃ l' x, l = l' ++ [x] := by
    refine ⟨l.dropLast, l.getLast h, ?_⟩
    exact (List.dropLast_append_getLast h).symm
  rw [← List.append_assoc, endsWith_append_singleton, endsWith_append_singleton]

theorem qpJoined_append (a : GoString) : ∀ (cs : List GoString) (l1 : GoString),
    Continued l1 cs → qpJoined (a ++ l1) cs = a ++ qpJoined l1 cs
      ∧ Continued (a ++ l1) cs := by
  intro cs
  cases cs with
  | nil => intro l1 _; exact ⟨rfl, trivial⟩
  | cons l2 rest =>
    intro l1 h
    obtain ⟨h1, h2⟩ := h
    have hne := endsWith_ne_nil l1 61 h1
    refine ⟨?_, ?_, h2⟩
    · show (a ++ l1).dropLast ++ qpJoined l2 rest = a ++ (l1.dropLast ++ qpJoined l2 rest)
      rw [List.dropLast_append_of_ne_nil _ hne, List.append_assoc]
    · rw [endsWith_append a l1 61 hne]; exact h1

theorem vcsLines_cons_append (l : GoString) (t : Bool) (cs : List (GoString × Bool))
    (rest : GoString) :
    vcsLines ((l, t) :: cs) ++ rest = l ++ lineEnd t ++ (vcsLines cs ++ rest) := by
  simp [vcsLines, List.append_assoc]

theorem vcsLines_length (cs : List (GoString × Bool)) : cs.length ≤ (vcsLines cs).length := by
  induction cs with
  | nil => simp [vcsLines]
  | cons p cs ih =>
    obtain ⟨l, t⟩ := p
    have : 1 ≤ (lineEnd t).length := by cases t <;> simp [lineEnd]
    simp only [vcsLines, List.length_append, List.length_cons]
    omega

theorem readEncryptedFieldLoop_lines (rest : GoString) (br : Bool) :
    ∀ (cs : List (GoString × Bool)) (l0 : GoString) (fuel : Nat),
    cs.length < fuel → Continued l0 (cs.map Prod.fst) → (∀ p ∈ cs, SingleLine p.1) →
    endsWith (qpJoined l0 (cs.map Prod.fst)) [61] = false →
    readEncryptedFieldLoop fuel l0 ⟨vcsLines cs ++ rest, br⟩
      = some (Decode (qpJoined l0 (cs.map Prod.fst)), none, ⟨rest, br⟩) := by
  intro cs
  induction cs with
  | nil =>
    intro l0 fuel hf _ _ hend
    obtain ⟨f, rfl⟩ : ∃ f, fuel = f + 1 := ⟨fuel - 1, by omega⟩
    simp only [List.map_nil, qpJoined] at hend ⊢
    simp [readEncryptedFieldLoop, hend, vcsLines]
  | cons p cs ih =>
    intro l0 fuel hf hc hs hend
    obtain ⟨l1, t1⟩ := p
    obtain ⟨f, rfl⟩ : ∃ f, fuel = f + 1 := ⟨fuel - 1, by omega⟩
    obtain ⟨h1, h2⟩ := hc
    have hl1 : SingleLine l1 := hs (l1, t1) (by simp)
    obtain ⟨j1, j2⟩ := qpJoined_append l0.dropLast (cs.map Prod.fst) l1 h2
    rw [vcsLines_cons_append, readEncryptedFieldLoop, if_pos h1, ReadString_line l1 _ t1 br hl1]
    simp only [trimRightCRLF_line l1 t1 hl1]
    have hend2 : endsWith (qpJoined (l0.dropLast ++ l1) (cs.map Prod.fst)) [61] = false := by
      rw [j1]; exact hend
    rw [ih (l0.dropLast ++ l1) f (by simpa using hf) j2 (fun q hq => hs q (by simp [hq])) hend2,
      j1]
    rfl

theorem ReadString_unterminated (tail : GoString) (br : Bool) (h : ∀ c ∈ tail, c ≠ 10) :
    Reader.ReadString ⟨tail, br⟩ = (tail, some (Reader.endErr ⟨tail, br⟩), ⟨[], br⟩) := by
  have h1 : lineOf tail = tail := by
    induction tail with
    | nil => rfl
    | cons c r ih =>
      have hc : c ≠ 10 := h c (by simp)
      rw [lineOf, if_neg hc, ih (fun d hd => h d (by simp [hd]))]
  have h2 : ∀ t : GoString, (∀ c ∈ t, c ≠ 10) → afterLine t = [] := by
    intro t
    induction t with
    | nil => intro _; rfl
    | cons c r ih =>
      intro ht
      have hc : c ≠ 10 := ht c (by simp)
      rw [afterLine, if_neg hc, ih (fun d hd => ht d (by simp [hd]))]
  have h3 : tail.contains 10 = false := by
    cases hb : tail.contains 10 with
    | false => rfl
    | true =>
      have hm : 10 ∈ tail := by simpa using hb
      exact absurd rfl (h 10 hm)
  simp only [Reader.ReadString, h1, h2 tail h, h3]
  rfl

theorem readEncryptedFieldLoop_unterminated (tail : GoString) (ht : ∀ c ∈ tail, c ≠ 10) :
    ∀ (cs : List (GoString × Bool)) (l0 : GoString) (fuel : Nat),
    cs.length < fuel → Continued l0 (cs.map Prod.fst) → (∀ p ∈ cs, SingleLine p.1) →
    endsWith (qpJoined l0 (cs.map Prod.fst)) [61] = true →
    readEncryptedFieldLoop fuel l0 ⟨vcsLines cs ++ tail, false⟩
      = some ([], some Err.unexpectedEOF, ⟨[], false⟩) := by
  intro cs
  induction cs with
  | nil =>
    intro l0 fuel hf _ _ hend
    obtain ⟨f, rfl⟩ : ∃ f, fuel = f + 1 := ⟨fuel - 1, by omega⟩
    simp only [List.map_nil, qpJoined] at hend
    have e : vcsLines [] ++ tail = tail := rfl
    rw [e, readEncryptedFieldLoop, if_pos hend, ReadString_unterminated tail false ht]
    simp [Reader.endErr]
  | cons p cs ih =>
    intro l0 fuel hf hc hs hend
    obtain ⟨l1, t1⟩ := p
    obtain ⟨f, rfl⟩ : ∃ f, fuel = f + 1 := ⟨fuel - 1, by omega⟩
    obtain ⟨h1, h2⟩ := hc
    have hl1 : SingleLine l1 := hs (l1, t1) (by simp)
    obtain ⟨j1, j2⟩ := qpJoined_append l0.dropLast (cs.map Prod.fst) l1 h2
    rw [vcsLines_cons_append, readEncryptedFieldLoop, if_pos h1, ReadString_line l1 _ t1 false hl1]
    simp only [trimRightCRLF_line l1 t1 hl1]
    have hend2 : endsWith (qpJoined (l0.dropLast ++ l1) (cs.map Prod.fst)) [61] = true := by
      rw [j1]; exact hend
    exact ih (l0.dropLast ++ l1) f (by simpa using hf) j2 (fun q hq => hs q (by simp [hq])) hend2

/-- C18 (amended): the first-line value `l0` is followed in the stream by the
lines `cs`, each ended by LF or CR LF; every line but the last ends with `=`.
If the joined value (every line but the last without its `=`) does not end with
`=`, `readEncryptedField` returns its decoding without an error and leaves
exactly what follows those lines.  If the joined value still ends with `=` and
what follows holds no LF, it returns the error of an unexpected end of input. -/
theorem C18_quoted_printable_continuation (l0 : GoString) (cs : List (GoString × Bool))
    (rest : GoString) (br : Bool)
    (hc : Continued l0 (cs.map Prod.fst)) (hs : ∀ p ∈ cs, SingleLine p.1) :
    (endsWith (qpJoined l0 (cs.map Prod.fst)) [61] = false →
      readEncryptedField l0 ⟨vcsLines cs ++ rest, br⟩
        = some (Decode (qpJoined l0 (cs.map Prod.fst)), none, ⟨rest, br⟩))
    ∧ (endsWith (qpJoined l0 (cs.map Prod.fst)) [61] = true → (∀ c ∈ rest, c ≠ 10) →
      readEncryptedField l0 ⟨vcsLines cs ++ rest, false⟩
        = some ([], some Err.unexpectedEOF, ⟨[], false⟩)) := by
  have hlen : cs.length < (vcsLines cs ++ rest).length + 1 := by
    have := vcsLines_length cs
    simp only [List.length_append]
    omega
  constructor
  · intro hend
    exact readEncryptedFieldLoop_lines rest br cs l0 _ hlen hc hs hend
  · intro hend ht
    exact readEncryptedFieldLoop_unterminated rest ht cs l0 _ hlen hc hs hend

theorem C18_quoted_printable_continuation_witness :
    (readEncryptedField (str "caf=3D=") ⟨str "e=\r\n=41\nEND:VEVENT\n", true⟩
        = some (str "caf=eA", none, ⟨str "END:VEVENT\n", true⟩))
    ∧ (readEncryptedField (str "caf=") ⟨str "e=\r\n", false⟩
        = some ([], some Err.unexpectedEOF, ⟨[], false⟩)) := by
  have hc : Continued (str "caf=3D=") ([(str "e=", true), (str "=41", false)].map Prod.fst) := by
    refine ⟨by decide, by decide, trivial⟩
  have hs : ∀ p ∈ [(str "e=", true), (str "=41", false)], SingleLine p.1 := by
    simp [SingleLine, str]
  have hc2 : Continued (str "caf=") ([(str "e=", true)].map Prod.fst) := ⟨by decide, trivial⟩
  have hs2 : ∀ p ∈ [(str "e=", true)], SingleLine p.1 := by
    simp [SingleLine, str]
  exact ⟨(C18_quoted_printable_continuation (str "caf=3D=") _ (str "END:VEVENT\n") true hc hs).1
      (by decide),
    (C18_quoted_printable_continuation (str "caf=") _ [] false hc2 hs2).2 (by decide)
      (by simp)⟩

/-- C18 (counterexamples): with first-line value `a==` and the stream
`\nx\n`, the one following line is empty and does not end with `=`, yet the
accumulated value `a=` does, so a second line is consumed and `ax` returned
instead of the decoding of `a=` with `x\n` left unread; and with first-line
value `caf=` and a last line `e` ended by the end of the stream, an error is
returned instead of `cafe`. -/
theorem C18_counterexample :
    Continued (str "a==") [[]] ∧ endsWith ([] : GoString) [61] = false
    ∧ readEncryptedField (str "a==") ⟨str "\nx\n", false⟩ = some (str "ax", none, ⟨[], false⟩)
    ∧ readEncryptedField (str "a==") ⟨str "\nx\n", false⟩
        ≠ some (Decode (qpJoined (str "a==") [[]]), none, ⟨str "x\n", false⟩)
    ∧ Continued (str "caf=") [str "e"] ∧ endsWith (str "e") [61] = false
    ∧ readEncryptedField (str "caf=") ⟨str "e", false⟩
        = some ([], some Err.unexpectedEOF, ⟨[], false⟩)
    ∧ Decode (qpJoined (str "caf=") [str "e"]) = str "cafe" := by
  refine ⟨⟨by decide, trivial⟩, by decide, by decide, by decide, ⟨by decide, trivial⟩,
    by decide, by decide, by decide⟩

/-! ## The alarm line and the VALARM block -/

theorem upperStartsWith_alarm_line (v : GoString) :
    upperStartsWith (65 :: v) (str "SUMMARY:") = false
    ∧ upperStartsWith (65 :: v) (str "SUMMARY;ENCODING=QUOTED-PRINTABLE") = false
    ∧ upperStartsWith (65 :: v) (str "LOCATION:") = false
    ∧ upperStartsWith (65 :: v) (str "LOCATION;ENCODING=QUOTED-PRINTABLE") = false
    ∧ upperStartsWith (65 :: v) (str "DESCRIPTION:") = false
    ∧ upperStartsWith (65 :: v) (str "DESCRIPTION;ENCODING=QUOTED-PRINTABLE") = false
    ∧ upperStartsWith (65 :: v) (str "DTSTART:") = false
    ∧ upperStartsWith (65 :: v) (str "DTEND:") = false
    ∧ upperStartsWith (65 :: v) (str "DUE:") = false
    ∧ upperStartsWith (65 :: v) (str "STATUS:") = false
    ∧ upperStartsWith (65 :: v) (str "SEQUENCE:") = false
    ∧ upperStartsWith (65 :: v) (str "RRULE:") = false := by
  have e0 : str "SUMMARY:" = [83, 85, 77, 77, 65, 82, 89, 58] := by decide
  have e1 : str "SUMMARY;ENCODING=QUOTED-PRINTABLE" = [83, 85, 77, 77, 65, 82, 89, 59, 69, 78, 67, 79, 68, 73, 78, 71, 61, 81, 85, 79, 84, 69, 68, 45, 80, 82, 73, 78, 84, 65, 66, 76, 69] := by decide
  have e2 : str "LOCATION:" = [76, 79, 67, 65, 84, 73, 79, 78, 58] := by decide
  have e3 : str "LOCATION;ENCODING=QUOTED-PRINTABLE" = [76, 79, 67, 65, 84, 73, 79, 78, 59, 69, 78, 67, 79, 68, 73, 78, 71, 61, 81, 85, 79, 84, 69, 68, 45, 80, 82, 73, 78, 84, 65, 66, 76, 69] := by decide
  have e4 : str "DESCRIPTION:" = [68, 69, 83, 67, 82, 73, 80, 84, 73, 79, 78, 58] := by decide
  have e5 : str "DESCRIPTION;ENCODING=QUOTED-PRINTABLE" = [68, 69, 83, 67, 82, 73, 80, 84, 73, 79, 78, 59, 69, 78, 67, 79, 68, 73, 78, 71, 61, 81, 85, 79, 84, 69, 68, 45, 80, 82, 73, 78, 84, 65, 66, 76, 69] := by decide
  have e6 : str "DTSTART:" = [68, 84, 83, 84, 65, 82, 84, 58] := by decide
  have e7 : str "DTEND:" = [68, 84, 69, 78, 68, 58] := by decide
  have e8 : str "DUE:" = [68, 85, 69, 58] := by decide
  have e9 : str "STATUS:" = [83, 84, 65, 84, 85, 83, 58] := by decide
  have e10 : str "SEQUENCE:" = [83, 69, 81, 85, 69, 78, 67, 69, 58] := by decide
  have e11 : str "RRULE:" = [82, 82, 85, 76, 69, 58] := by decide
  simp [e0, e1, e2, e3, e4, e5, e6, e7, e8, e9, e10, e11, upperStartsWith_cons, upperStartsWith_nil, upperByte]

theorem indexByte_append_of_not_mem (x rest : GoString) (c : Nat) (h : ∀ d ∈ x, d ≠ c) :
    indexByte (x ++ c :: rest) c = some x.length := by
  induction x with
  | nil => simp [indexByte]
  | cons d x ih =>
    have hd : d ≠ c := h d (by simp)
    have e : (d :: x) ++ c :: rest = d :: (x ++ c :: rest) := rfl
    rw [e, indexByte, if_neg hd, ih (fun y hy => h y (by simp [hy]))]
    rfl

theorem alarmValue_tagged (tag x rest : GoString) (ht : ∀ d ∈ tag, d ≠ 58)
    (hx : ∀ d ∈ x, d ≠ 59) :
    alarmValue (tag ++ 58 :: (x ++ 59 :: rest)) = some x := by
  unfold alarmValue
  rw [indexByte_append_of_not_mem tag _ 58 ht]
  have e : (tag ++ 58 :: (x ++ 59 :: rest)).drop (tag.length + 1) = x ++ 59 :: rest := by
    have : tag ++ 58 :: (x ++ 59 :: rest) = (tag ++ [58]) ++ (x ++ 59 :: rest) := by simp
    rw [this]
    exact List.drop_left' (by simp)
  simp only [e, indexByte_append_of_not_mem x rest 59 hx]
  simp

theorem processField_alarm_line (x rest : GoString) (err : Option Err) (rec : Record)
    (r : Reader) (hx : ∀ d ∈ x, d ≠ 59) :
    processField (str "AALARM:" ++ x ++ str ";" ++ rest) err rec r
        = some (FieldResult.next { rec with alarm := x } err r)
    ∧ processField (str "AALARM;TYPE=X-EPOCSOUND:" ++ x ++ str ";" ++ rest) err rec r
        = some (FieldResult.next { rec with alarm := x } err r) := by
  have a1 : str "AALARM:" ++ x ++ str ";" ++ rest
      = 65 :: ([65, 76, 65, 82, 77] ++ 58 :: (x ++ 59 :: rest)) := by
    have : str "AALARM:" = [65, 65, 76, 65, 82, 77, 58] := by decide
    have s : str ";" = [59] := by decide
    simp [this, s]
  have a2 : str "AALARM;TYPE=X-EPOCSOUND:" ++ x ++ str ";" ++ rest
      = 65 :: ([65, 76, 65, 82, 77, 59, 84, 89, 80, 69, 61, 88, 45, 69, 80, 79, 67, 83, 79, 85, 78,
          68] ++ 58 :: (x ++ 59 :: rest)) := by
    have : str "AALARM;TYPE=X-EPOCSOUND:" = [65, 65, 76, 65, 82, 77, 59, 84, 89, 80, 69, 61, 88,
      45, 69, 80, 79, 67, 83, 79, 85, 78, 68, 58] := by decide
    have s : str ";" = [59] := by decide
    simp [this, s]
  have v1 : alarmValue (65 :: ([65, 76, 65, 82, 77] ++ 58 :: (x ++ 59 :: rest))) = some x :=
    alarmValue_tagged [65, 65, 76, 65, 82, 77] x rest (by decide) hx
  have v2 : alarmValue (65 :: ([65, 76, 65, 82, 77, 59, 84, 89, 80, 69, 61, 88, 45, 69, 80, 79,
      67, 83, 79, 85, 78, 68] ++ 58 :: (x ++ 59 :: rest))) = some x :=
    alarmValue_tagged [65, 65, 76, 65, 82, 77, 59, 84, 89, 80, 69, 61, 88, 45, 69, 80, 79,
      67, 83, 79, 85, 78, 68] x rest (by decide) hx
  have p1 : upperStartsWith (65 :: ([65, 76, 65, 82, 77] ++ 58 :: (x ++ 59 :: rest)))
      (str "AALARM:") = true := by
    have : str "AALARM:" = [65, 65, 76, 65, 82, 77, 58] := by decide
    simp [this, upperStartsWith_cons, upperStartsWith_nil, upperByte]
  have p2 : upperStartsWith (65 :: ([65, 76, 65, 82, 77, 59, 84, 89, 80, 69, 61, 88, 45, 69, 80,
      79, 67, 83, 79, 85, 78, 68] ++ 58 :: (x ++ 59 :: rest)))
      (str "AALARM;TYPE=X-EPOCSOUND:") = true := by
    have : str "AALARM;TYPE=X-EPOCSOUND:" = [65, 65, 76, 65, 82, 77, 59, 84, 89, 80, 69, 61, 88,
      45, 69, 80, 79, 67, 83, 79, 85, 78, 68, 58] := by decide
    simp [this, upperStartsWith_cons, upperStartsWith_nil, upperByte]
  constructor
  · obtain ⟨h1, h2, h3, h4, h5, h6, h7, h8, h9, h10, h11, h12⟩ :=
      upperStartsWith_alarm_line ([65, 76, 65, 82, 77] ++ 58 :: (x ++ 59 :: rest))
    rw [a1]
    unfold processField
    simp only [h1, h2, h3, h4, h5, h6, h7, h8, h9, h10, h11, h12, p1, v1, Bool.false_eq_true,
      if_false, if_true, Bool.true_or]
  · obtain ⟨h1, h2, h3, h4, h5, h6, h7, h8, h9, h10, h11, h12⟩ :=
      upperStartsWith_alarm_line ([65, 76, 65, 82, 77, 59, 84, 89, 80, 69, 61, 88, 45, 69, 80,
        79, 67, 83, 79, 85, 78, 68] ++ 58 :: (x ++ 59 :: rest))
    rw [a2]
    unfold processField
    simp only [h1, h2, h3, h4, h5, h6, h7, h8, h9, h10, h11, h12, p2, v2, Bool.false_eq_true,
      if_false, if_true, Bool.or_true]

theorem NewAlarm_stamp (s a : Stamp)
    (h1 : -9223372036 ≤ a.time.absSeconds - s.time.absSeconds)
    (h2 : a.time.absSeconds - s.time.absSeconds ≤ 9223372036) :
    NewAlarm s.time a.time = ⟨a.time.absSeconds - s.time.absSeconds⟩ := by
  unfold NewAlarm Time.Sub
  have hn : ((a.time.nsec : Int) - (s.time.nsec : Int)) = 0 := by simp [Stamp.time]
  simp only [hn, add_zero]
  generalize a.time.absSeconds - s.time.absSeconds = d at h1 h2
  have c1 : ¬ (d * 1000000000 < -(2 ^ 63)) := by norm_num; omega
  have c2 : ¬ (2 ^ 63 - 1 < d * 1000000000) := by norm_num; omega
  rw [if_neg c1, if_neg c2]
  unfold secondsTruncated
  simp only [Int.mul_tmod_left, if_true, Int.mul_tdiv_cancel _ (show (1000000000 : Int) ≠ 0 by norm_num)]

theorem alarmBlock_stamps (summary : GoString) (s a : Stamp) (hs : s.Valid) (ha : a.Valid)
    (h1 : -9223372036 ≤ a.time.absSeconds - s.time.absSeconds)
    (h2 : a.time.absSeconds - s.time.absSeconds ≤ 9223372036) :
    alarmBlock summary s.text a.text
      = str "BEGIN:VALARM\r\n" ++ str "ACTION:DISPLAY\r\n"
        ++ (str "DESCRIPTION:" ++ summary ++ str "\r\n")
        ++ (str "TRIGGER:"
          ++ (Alarm.mk (a.time.absSeconds - s.time.absSeconds)).parseDuration ++ str "\r\n")
        ++ str "END:VALARM\r\n" := by
  have hne : a.text ≠ [] := by simp [Stamp.text, Stamp.dateText]
  have e1 : str "BEGIN:VALARM\r\n" = str "BEGIN:VALARM" ++ newLine := by decide
  have e2 : str "ACTION:DISPLAY\r\n" = str "ACTION:DISPLAY" ++ newLine := by decide
  have e3 : str "\r\n" = newLine := by decide
  have e4 : str "END:VALARM\r\n" = str "END:VALARM" ++ newLine := by decide
  unfold alarmBlock
  rw [if_neg hne, ParseDate_stamp s hs, ParseDate_stamp a ha]
  simp only [NewAlarm_stamp s a h1 h2, Alarm.ToICS, e1, e2, e3, e4, List.append_assoc]

theorem alarmBlock_unparsed (summary dtStart alarm : GoString)
    (h : ParseDate dtStart = none ∨ ParseDate alarm = none) :
    alarmBlock summary dtStart alarm = [] := by
  unfold alarmBlock
  split
  · rfl
  · rcases h with h | h
    · rw [h]
    · rw [h]; cases ParseDate dtStart <;> rfl

/-! ## The line structure of the output -/

theorem SingleLine_nil : SingleLine [] := by
  intro c hc; cases hc

theorem SingleLine_append_iff (a b : GoString) :
    SingleLine (a ++ b) ↔ SingleLine a ∧ SingleLine b := by
  unfold SingleLine
  constructor
  · intro h
    exact ⟨fun c hc => h c (List.mem_append.2 (Or.inl hc)),
      fun c hc => h c (List.mem_append.2 (Or.inr hc))⟩
  · rintro ⟨h1, h2⟩ c hc
    rcases List.mem_append.1 hc with h | h
    · exact h1 c h
    · exact h2 c h

theorem SingleLine_cons_iff (c : Nat) (a : GoString) :
    SingleLine (c :: a) ↔ (c ≠ 13 ∧ c ≠ 10) ∧ SingleLine a := by
  unfold SingleLine
  simp

theorem SingleLine_digits (l : GoString) (h : ∀ c ∈ l, isDigit c = true) : SingleLine l := by
  intro c hc
  have := h c hc
  simp [isDigit] at this
  omega

theorem SingleLine_decimal (n : Nat) : SingleLine (decimal n) :=
  SingleLine_digits _ (decimal_spec n).2.1

theorem SingleLine_Itoa (x : Int) : SingleLine (Itoa x) := by
  unfold Itoa
  split
  · rw [SingleLine_cons_iff]
    exact ⟨by decide, SingleLine_decimal _⟩
  · exact SingleLine_decimal _

theorem SingleLine_appendInt (x : Int) (w : Nat) : SingleLine (appendInt x w) := by
  unfold appendInt
  rw [SingleLine_append_iff, SingleLine_append_iff]
  refine ⟨⟨?_, ?_⟩, SingleLine_decimal _⟩
  · split
    · unfold SingleLine; decide
    · exact SingleLine_nil
  · intro c hc
    have := List.eq_of_mem_replicate hc
    omega

theorem SingleLine_FormatDate (t : Time) : SingleLine (FormatDate t) := by
  unfold FormatDate
  simp only [SingleLine_append_iff, SingleLine_appendInt, true_and, and_true]
  constructor <;> (unfold SingleLine; decide)

theorem SingleLine_FormatTimeForDayEvent (t : Time) : SingleLine (FormatTimeForDayEvent t) := by
  unfold FormatTimeForDayEvent
  simp only [SingleLine_append_iff, SingleLine_appendInt, true_and, and_true]

theorem SingleLine_str_cases :
    SingleLine (str "P") ∧ SingleLine (str "-P") ∧ SingleLine (str "W") ∧ SingleLine (str "D")
    ∧ SingleLine (str "T") ∧ SingleLine (str "H") ∧ SingleLine (str "M") ∧ SingleLine (str "S")
    ∧ SingleLine (str "RRULE:FREQ=") ∧ SingleLine (str ";INTERVAL=")
    ∧ SingleLine (str ";COUNT=") ∧ SingleLine (str ";UNTIL=") := by
  unfold SingleLine
  decide

theorem SingleLine_ToICS (r : RepeatRule) : SingleLine r.ToICS := by
  obtain ⟨-, -, -, -, -, -, -, -, s1, s2, s3, s4⟩ := SingleLine_str_cases
  have hf : SingleLine r.Frequency.String := by
    cases r.Frequency <;> (unfold SingleLine Frequency.String; decide)
  unfold RepeatRule.ToICS
  simp only
  repeat' split
  all_goals simp only [SingleLine_append_iff, s1, s2, s3, s4, hf, SingleLine_Itoa,
    SingleLine_FormatDate, and_self]

theorem SingleLine_parseDuration (a : Alarm) : SingleLine a.parseDuration := by
  obtain ⟨s1, s2, s3, s4, s5, s6, s7, s8, -⟩ := SingleLine_str_cases
  unfold Alarm.parseDuration
  simp only
  repeat' split
  all_goals simp only [SingleLine_append_iff, s1, s2, s3, s4, s5, s6, s7, s8, SingleLine_Itoa,
    and_self]

theorem crlfLines_append (a b : List GoString) :
    crlfLines (a ++ b) = crlfLines a ++ crlfLines b := by
  induction a with
  | nil => rfl
  | cons l a ih => simp [crlfLines, ih]

theorem CRLFText_nil : CRLFText [] := ⟨[], by simp, rfl⟩

theorem CRLFText_append (a b : GoString) (ha : CRLFText a) (hb : CRLFText b) :
    CRLFText (a ++ b) := by
  obtain ⟨la, h1, rfl⟩ := ha
  obtain ⟨lb, h2, rfl⟩ := hb
  refine ⟨la ++ lb, ?_, (crlfLines_append la lb).symm⟩
  intro l hl
  rcases List.mem_append.1 hl with h | h
  · exact h1 l h
  · exact h2 l h

theorem CRLFText_line (l : GoString) (h : SingleLine l) : CRLFText (l ++ str "\r\n") :=
  ⟨[l], by simpa using h, by
    have : str "\r\n" = [13, 10] := by decide
    simp [crlfLines, this]⟩

theorem CRLFText_optLine (tag v : GoString) (ht : SingleLine tag) (hv : SingleLine v) :
    CRLFText (optLine tag v) := by
  unfold optLine
  split
  · exact CRLFText_nil
  · exact CRLFText_line _ ((SingleLine_append_iff _ _).2 ⟨ht, hv⟩)

theorem CRLFText_const :
    CRLFText (str "BEGIN:VEVENT\r\n") ∧ CRLFText (str "END:VEVENT\r\n")
    ∧ CRLFText (str "BEGIN:VTODO\r\n") ∧ CRLFText (str "END:VTODO\r\n")
    ∧ CRLFText (str "BEGIN:VALARM\r\n") ∧ CRLFText (str "ACTION:DISPLAY\r\n")
    ∧ CRLFText (str "END:VALARM\r\n") := by
  refine ⟨?_, ?_, ?_, ?_, ?_, ?_, ?_⟩
  · exact CRLFText_line (str "BEGIN:VEVENT") (by unfold SingleLine; decide)
  · exact CRLFText_line (str "END:VEVENT") (by unfold SingleLine; decide)
  · exact CRLFText_line (str "BEGIN:VTODO") (by unfold SingleLine; decide)
  · exact CRLFText_line (str "END:VTODO") (by unfold SingleLine; decide)
  · exact CRLFText_line (str "BEGIN:VALARM") (by unfold SingleLine; decide)
  · exact CRLFText_line (str "ACTION:DISPLAY") (by unfold SingleLine; decide)
  · exact CRLFText_line (str "END:VALARM") (by unfold SingleLine; decide)

theorem CRLFText_calendarHeader (email : GoString) (he : SingleLine email) :
    CRLFText (calendarHeader email) := by
  have e : calendarHeader email = str "BEGIN:VCALENDAR" ++ str "\r\n"
      ++ ((str "PRODID:" ++ email) ++ str "\r\n") ++ (str "VERSION:2.0" ++ str "\r\n") := by
    have h1 : str "BEGIN:VCALENDAR\r\nPRODID:"
        = str "BEGIN:VCALENDAR" ++ str "\r\n" ++ str "PRODID:" := by decide
    have h2 : str "\r\nVERSION:2.0\r\n" = str "\r\n" ++ (str "VERSION:2.0" ++ str "\r\n") := by
      decide
    unfold calendarHeader
    rw [h1, h2]
    simp only [List.append_assoc]
  rw [e]
  refine CRLFText_append _ _ (CRLFText_append _ _ ?_ ?_) ?_
  · exact CRLFText_line _ (by unfold SingleLine; decide)
  · exact CRLFText_line _ ((SingleLine_append_iff _ _).2 ⟨by unfold SingleLine; decide, he⟩)
  · exact CRLFText_line _ (by unfold SingleLine; decide)

theorem CRLFText_rruleLine (rrule : GoString) : CRLFText (rruleLine rrule) := by
  unfold rruleLine
  split
  · exact CRLFText_nil
  · split
    · exact CRLFText_line _ (SingleLine_ToICS _)
    · exact CRLFText_nil

theorem CRLFText_eventHead (email summary description location rrule : GoString)
    (h1 : SingleLine email) (h2 : SingleLine summary) (h3 : SingleLine description)
    (h4 : SingleLine location) :
    CRLFText (eventHead email summary description location rrule) := by
  unfold eventHead
  refine CRLFText_append _ _ (CRLFText_append _ _ (CRLFText_append _ _ (CRLFText_append _ _
    (CRLFText_append _ _ CRLFText_const.1 ?_) ?_) ?_) ?_) (CRLFText_rruleLine rrule)
  · exact CRLFText_optLine _ _ (by unfold SingleLine; decide) h1
  · exact CRLFText_optLine _ _ (by unfold SingleLine; decide) h2
  · exact CRLFText_optLine _ _ (by unfold SingleLine; decide) h3
  · exact CRLFText_optLine _ _ (by unfold SingleLine; decide) h4

theorem CRLFText_startEndLines (dtStart dtEnd : GoString)
    (h1 : SingleLine dtStart) (h2 : SingleLine dtEnd) :
    CRLFText (startEndLines dtStart dtEnd) := by
  have hs : SingleLine (str "DTSTART:") := by unfold SingleLine; decide
  have hv : SingleLine (str "DTSTART;VALUE=DATE:") := by unfold SingleLine; decide
  have he : SingleLine (str "DTEND:") := by unfold SingleLine; decide
  have plain : CRLFText (str "DTSTART:" ++ dtStart ++ str "\r\n") :=
    CRLFText_line _ ((SingleLine_append_iff _ _).2 ⟨hs, h1⟩)
  unfold startEndLines
  split
  · split
    · split
      · exact CRLFText_line _
          ((SingleLine_append_iff _ _).2 ⟨hv, SingleLine_FormatTimeForDayEvent _⟩)
      · exact plain
    · exact plain
  · exact CRLFText_append _ _ plain (CRLFText_optLine _ _ he h2)

theorem CRLFText_stampLine (now : Time) (dtStamp : GoString) (h : SingleLine dtStamp) :
    CRLFText (stampLine now dtStamp) := by
  have hs : SingleLine (str "DTSTAMP:") := by unfold SingleLine; decide
  unfold stampLine
  refine CRLFText_line _ ((SingleLine_append_iff _ _).2 ⟨hs, ?_⟩)
  split
  · exact SingleLine_FormatDate now
  · exact h

theorem CRLFText_ToICS (a : Alarm) (summary : GoString) (h : SingleLine summary) :
    CRLFText (a.ToICS summary ++ str "\r\n") := by
  have e : a.ToICS summary ++ str "\r\n"
      = str "BEGIN:VALARM\r\n" ++ str "ACTION:DISPLAY\r\n"
        ++ ((str "DESCRIPTION:" ++ summary) ++ str "\r\n")
        ++ ((str "TRIGGER:" ++ a.parseDuration) ++ str "\r\n") ++ str "END:VALARM\r\n" := by
    have e1 : str "BEGIN:VALARM\r\n" = str "BEGIN:VALARM" ++ newLine := by decide
    have e2 : str "ACTION:DISPLAY\r\n" = str "ACTION:DISPLAY" ++ newLine := by decide
    have e3 : str "\r\n" = newLine := by decide
    have e4 : str "END:VALARM\r\n" = str "END:VALARM" ++ newLine := by decide
    simp only [Alarm.ToICS, e1, e2, e3, e4, List.append_assoc]
  obtain ⟨-, -, -, -, c5, c6, c7⟩ := CRLFText_const
  rw [e]
  refine CRLFText_append _ _ (CRLFText_append _ _ (CRLFText_append _ _
    (CRLFText_append _ _ c5 c6) ?_) ?_) c7
  · exact CRLFText_line _ ((SingleLine_append_iff _ _).2 ⟨by unfold SingleLine; decide, h⟩)
  · exact CRLFText_line _
      ((SingleLine_append_iff _ _).2 ⟨by unfold SingleLine; decide, SingleLine_parseDuration a⟩)

theorem CRLFText_alarmBlock (summary dtStart alarm : GoString) (h : SingleLine summary) :
    CRLFText (alarmBlock summary dtStart alarm) := by
  unfold alarmBlock
  split
  · exact CRLFText_nil
  · split
    · exact CRLFText_ToICS _ summary h
    · exact CRLFText_nil

theorem CRLFText_todoBlock (email : GoString) (now : Time)
    (summary dtStamp sequence due status : GoString)
    (h0 : SingleLine email) (h1 : SingleLine summary) (h2 : SingleLine dtStamp)
    (h3 : SingleLine sequence) (h4 : SingleLine due) (h5 : SingleLine status) :
    CRLFText (todoBlock email now summary dtStamp sequence due status) := by
  have e : todoBlock email now summary dtStamp sequence due status
      = str "BEGIN:VTODO\r\n" ++ stampLine now dtStamp
        ++ ((str "SEQUENCE:" ++ (if sequence = [] then str "0" else sequence)) ++ str "\r\n")
        ++ optLine (str "ORGANIZER:") email ++ optLine (str "DUE:") due
        ++ optLine (str "STATUS:") status ++ optLine (str "SUMMARY:") summary
        ++ str "END:VTODO\r\n" := by
    simp only [todoBlock, List.append_assoc]
  obtain ⟨-, -, c3, c4, -⟩ := CRLFText_const
  rw [e]
  refine CRLFText_append _ _ (CRLFText_append _ _ (CRLFText_append _ _ (CRLFText_append _ _
    (CRLFText_append _ _ (CRLFText_append _ _ (CRLFText_append _ _ c3
      (CRLFText_stampLine now dtStamp h2)) ?_) ?_) ?_) ?_) ?_) c4
  · refine CRLFText_line _ ((SingleLine_append_iff _ _).2 ⟨by unfold SingleLine; decide, ?_⟩)
    split
    · unfold SingleLine; decide
    · exact h3
  · exact CRLFText_optLine _ _ (by unfold SingleLine; decide) h0
  · exact CRLFText_optLine _ _ (by unfold SingleLine; decide) h4
  · exact CRLFText_optLine _ _ (by unfold SingleLine; decide) h5
  · exact CRLFText_optLine _ _ (by unfold SingleLine; decide) h1

theorem CRLFText_recordBlock (email : GoString) (now : Time) (rec : Record)
    (he : SingleLine email) (hp : rec.Plain) :
    CRLFText ((recordBlock email now rec).getD []) := by
  obtain ⟨p1, p2, p3, p4, p5, p6, p7, p8, p9⟩ := hp
  unfold recordBlock
  split
  · split
    · exact CRLFText_nil
    · simp only [Option.getD_some]
      refine CRLFText_append _ _ (CRLFText_append _ _
        (CRLFText_eventHead _ _ _ _ _ he p1 p3 p2) (CRLFText_startEndLines _ _ p7 p8)) ?_
      unfold eventTail
      exact CRLFText_append _ _ (CRLFText_append _ _ (CRLFText_stampLine _ _ p9)
        (CRLFText_alarmBlock _ _ _ p1)) CRLFText_const.2.1
  · simp only [Option.getD_some]
    exact CRLFText_todoBlock _ _ _ _ _ _ _ he p1 p9 p6 p5 p4

theorem CRLFText_blocksFrom (email : GoString) (clock : Nat → Time) (he : SingleLine email) :
    ∀ (recs : List Record) (k : Nat), (∀ rec ∈ recs, rec.Plain) →
      CRLFText (blocksFrom email clock k recs) := by
  intro recs
  induction recs with
  | nil => intro k _; exact CRLFText_nil
  | cons rec rest ih =>
    intro k h
    unfold blocksFrom
    exact CRLFText_append _ _ (CRLFText_recordBlock email _ rec he (h rec (by simp)))
      (ih (k + 1) (fun r hr => h r (by simp [hr])))

theorem noBareBreak_line (tail : GoString) : ∀ l : GoString, SingleLine l →
    noBareBreak (l ++ [13, 10] ++ tail) = noBareBreak tail := by
  intro l
  induction l with
  | nil =>
    intro _
    show noBareBreak (13 :: 10 :: tail) = noBareBreak tail
    simp [noBareBreak]
  | cons c r ih =>
    intro h
    obtain ⟨⟨h13, h10⟩, hr⟩ := (SingleLine_cons_iff c r).1 h
    have hrec := ih hr
    cases r with
    | nil =>
      show noBareBreak (c :: 13 :: 10 :: tail) = noBareBreak tail
      rw [noBareBreak, if_neg h13]
      have : noBareBreak (13 :: 10 :: tail) = noBareBreak tail := by simp [noBareBreak]
      rw [this]
      simp [h10]
    | cons d r2 =>
      show noBareBreak (c :: d :: (r2 ++ [13, 10] ++ tail)) = noBareBreak tail
      rw [noBareBreak, if_neg h13]
      have : d :: (r2 ++ [13, 10] ++ tail) = (d :: r2) ++ [13, 10] ++ tail := rfl
      rw [this, hrec]
      simp [h10]

theorem noBareBreak_crlfLines (tail : GoString) : ∀ lines : List GoString,
    (∀ l ∈ lines, SingleLine l) → noBareBreak (crlfLines lines ++ tail) = noBareBreak tail := by
  intro lines
  induction lines with
  | nil => intro _; rfl
  | cons l rest ih =>
    intro h
    have e : crlfLines (l :: rest) ++ tail = l ++ [13, 10] ++ (crlfLines rest ++ tail) := by
      simp [crlfLines, List.append_assoc]
    rw [e, noBareBreak_line _ l (h l (by simp)), ih (fun x hx => h x (by simp [hx]))]

theorem Convert_written (input : Reader) (out : Sink) (email : GoString)
    (clock : Nat → Time) (hrel : out.Reliable) :
    ∃ res, Convert input out email clock = some res
      ∧ res.out.written = out.written ++ calendarHeader email
          ++ blocksFrom email clock 0 res.records ++ str "END:VCALENDAR" := by
  have hinv : WriterInv email out clock (NewICSWriter email out) [] :=
    ⟨rfl, rfl, hrel, by simp [NewICSWriter], fun _ => rfl⟩
  obtain ⟨err, w2, recs2, h1, ⟨i1, i2, i3, i4, i5⟩, -, -⟩ :=
    convertLoop_total email out clock (input.buf.length + 1) (NewICSWriter email out) [] input
      (by omega) hinv (by intro x hx; cases hx)
  have hw : w2.Close.1.writer.written = out.written ++ calendarHeader email
      ++ blocksFrom email clock 0 recs2 ++ str "END:VCALENDAR" := by
    rw [Close_reliable w2 i1 i3, i4]
    unfold headerIfMissing
    cases hh : w2.headerWritten
    · have := i5 hh
      subst this
      simp [blocksFrom, i2]
    · simp
  refine ⟨⟨err, w2.Close.1.writer, recs2⟩, ?_, hw⟩
  unfold Convert
  rw [h1]

theorem C14_sign_of_offset_witness :
    (Alarm.mk 900).parseDuration.head? = some 80
    ∧ (Alarm.mk (-900)).parseDuration.head? = some 45 :=
  ⟨((C14_sign_of_offset 900).1 (by decide)).2, ((C14_sign_of_offset (-900)).2 (by decide)).2⟩

/-! ## The repeat rule of an event -/

theorem infix_hasAdjacent (a b : Nat) (p l : GoString) (h : (a :: b :: p) <:+: l) :
    hasAdjacent a b l = true := by
  obtain ⟨s, t, rfl⟩ := h
  induction s with
  | nil => simp [hasAdjacent]
  | cons x s ih =>
    have e : x :: s ++ a :: b :: p ++ t = x :: (s ++ a :: b :: p ++ t) := rfl
    rw [e, hasAdjacent, ih]
    simp

theorem hasAdjacent_skip (a b : Nat) (t : GoString) : ∀ s : GoString, (∀ x ∈ s, x ≠ a) →
    hasAdjacent a b (s ++ t) = hasAdjacent a b t := by
  intro s
  induction s with
  | nil => intro _; rfl
  | cons x s ih =>
    intro h
    have hx : x ≠ a := h x (by simp)
    have e : x :: s ++ t = x :: (s ++ t) := rfl
    rw [e, hasAdjacent, ih (fun y hy => h y (by simp [hy]))]
    simp [hx]

theorem hasAdjacent_none (a b : Nat) (s : GoString) (h : ∀ x ∈ s, x ≠ a) :
    hasAdjacent a b s = false := by
  have := hasAdjacent_skip a b [] s h
  simpa [hasAdjacent] using this

theorem hasAdjacent_other (a b c : Nat) (t : GoString) (h : c ≠ b) :
    hasAdjacent a b (a :: c :: t) = hasAdjacent a b (c :: t) := by
  rw [hasAdjacent]
  simp [h]

theorem Itoa_no_semicolon (x : Int) : ∀ c ∈ Itoa x, c ≠ 59 := by
  have hd : ∀ n : Nat, ∀ c ∈ decimal n, c ≠ 59 := by
    intro n c hc
    have := (decimal_spec n).2.1 c hc
    simp [isDigit] at this
    omega
  intro c hc
  unfold Itoa at hc
  split at hc
  · rcases List.mem_cons.1 hc with h | h
    · omega
    · exact hd _ c h
  · exact hd _ c hc

theorem ParseRepeatRule_no_end_date (rrule : GoString) (r : RepeatRule)
    (h : ParseRepeatRule rrule false = some r) : r.Until = Time.zero := by
  have ho : ∀ occur tm cnt, parseOccur occur false = some (tm, cnt) → tm = Time.zero := by
    intro occur tm cnt h
    unfold parseOccur at h
    split at h
    · split at h
      · cases h
      · cases h; rfl
    · simp only [Bool.and_false, Bool.false_eq_true, if_false] at h
      cases h; rfl
  unfold ParseRepeatRule at h
  simp only at h
  split at h
  · cases h
  · split at h
    · cases h
    · rename_i tm cnt hocc
      have hz := ho _ _ _ hocc
      subst hz
      split at h
      · cases h
      · split at h
        · cases h
        · simp only [Time.IsZero, decide_True, Bool.not_true, Bool.false_eq_true, if_false] at h
          split at h <;> (cases h; rfl)

theorem ToICS_no_end_date (r : RepeatRule) (hz : r.Until = Time.zero) :
    r.ToICS = str "RRULE:FREQ=" ++ r.Frequency.String
      ++ (if r.Interval > 0 then str ";INTERVAL=" ++ Itoa r.Interval else [])
      ++ (if r.Occurences > 0 then str ";COUNT=" ++ Itoa r.Occurences else []) := by
  unfold RepeatRule.ToICS
  simp only [hz, Time.IsZero, decide_True, Bool.not_true, Bool.false_eq_true, if_false]
  by_cases hi : r.Interval > 0 <;> by_cases hc : r.Occurences > 0 <;> simp [hi, hc]

theorem ToICS_no_until (r : RepeatRule) (hz : r.Until = Time.zero) :
    hasAdjacent 59 85 (r.ToICS ++ str "\r\n") = false := by
  have hA : ∀ c ∈ str "RRULE:FREQ=" ++ r.Frequency.String, c ≠ 59 := by
    cases r.Frequency <;> (unfold Frequency.String; decide)
  have n1 : ∀ x ∈ str "NTERVAL=", x ≠ 59 := by decide
  have n2 : ∀ x ∈ str "OUNT=", x ≠ 59 := by decide
  have n3 : ∀ x ∈ str "\r\n", x ≠ 59 := by decide
  have hI : ∀ x ∈ 73 :: (str "NTERVAL=" ++ Itoa r.Interval), x ≠ 59 := by
    intro x hx
    rcases List.mem_cons.1 hx with h | h
    · omega
    · rcases List.mem_append.1 h with h | h
      · exact n1 x h
      · exact Itoa_no_semicolon _ x h
  have hC : ∀ x ∈ 67 :: (str "OUNT=" ++ Itoa r.Occurences ++ str "\r\n"), x ≠ 59 := by
    intro x hx
    rcases List.mem_cons.1 hx with h | h
    · omega
    · rcases List.mem_append.1 h with h | h
      · rcases List.mem_append.1 h with h | h
        · exact n2 x h
        · exact Itoa_no_semicolon _ x h
      · exact n3 x h
  have eI : ∀ v : GoString, str ";INTERVAL=" ++ v = 59 :: 73 :: (str "NTERVAL=" ++ v) := by
    intro v; rfl
  have eC : ∀ v : GoString, str ";COUNT=" ++ v = 59 :: 67 :: (str "OUNT=" ++ v) := by
    intro v; rfl
  have tailC : hasAdjacent 59 85 (59 :: 67 :: (str "OUNT=" ++ Itoa r.Occurences ++ str "\r\n"))
      = false := by
    rw [hasAdjacent_other 59 85 67 _ (by decide), hasAdjacent_none 59 85 _ hC]
  have tailE : hasAdjacent 59 85 (str "\r\n") = false := by decide
  rw [ToICS_no_end_date r hz]
  by_cases hi : r.Interval > 0 <;> by_cases hc : r.Occurences > 0
  · have e : str "RRULE:FREQ=" ++ r.Frequency.String
          ++ (if r.Interval > 0 then str ";INTERVAL=" ++ Itoa r.Interval else [])
          ++ (if r.Occurences > 0 then str ";COUNT=" ++ Itoa r.Occurences else [])
          ++ str "\r\n"
        = (str "RRULE:FREQ=" ++ r.Frequency.String) ++ 59 :: ((73 :: (str "NTERVAL="
          ++ Itoa r.Interval))
          ++ 59 :: 67 :: (str "OUNT=" ++ Itoa r.Occurences ++ str "\r\n")) := by
      simp only [hi, hc, if_true, List.append_assoc, eI, eC, List.cons_append]
    rw [e, hasAdjacent_skip 59 85 _ _ hA]
    have e2 : 59 :: ((73 :: (str "NTERVAL=" ++ Itoa r.Interval))
          ++ 59 :: 67 :: (str "OUNT=" ++ Itoa r.Occurences ++ str "\r\n"))
        = 59 :: 73 :: ((str "NTERVAL=" ++ Itoa r.Interval)
          ++ 59 :: 67 :: (str "OUNT=" ++ Itoa r.Occurences ++ str "\r\n")) := rfl
    rw [e2, hasAdjacent_other 59 85 73 _ (by decide)]
    have e3 : 73 :: ((str "NTERVAL=" ++ Itoa r.Interval)
          ++ 59 :: 67 :: (str "OUNT=" ++ Itoa r.Occurences ++ str "\r\n"))
        = (73 :: (str "NTERVAL=" ++ Itoa r.Interval))
          ++ 59 :: 67 :: (str "OUNT=" ++ Itoa r.Occurences ++ str "\r\n") := rfl
    rw [e3, hasAdjacent_skip 59 85 _ _ hI, tailC]
  · have e : str "RRULE:FREQ=" ++ r.Frequency.String
          ++ (if r.Interval > 0 then str ";INTERVAL=" ++ Itoa r.Interval else [])
          ++ (if r.Occurences > 0 then str ";COUNT=" ++ Itoa r.Occurences else [])
          ++ str "\r\n"
        = (str "RRULE:FREQ=" ++ r.Frequency.String) ++ 59 :: 73 :: ((str "NTERVAL="
          ++ Itoa r.Interval) ++ str "\r\n") := by
      simp only [hi, hc, if_true, if_false, List.append_assoc, eI, List.cons_append,
        List.nil_append]
    rw [e, hasAdjacent_skip 59 85 _ _ hA, hasAdjacent_other 59 85 73 _ (by decide)]
    have e3 : 73 :: ((str "NTERVAL=" ++ Itoa r.Interval) ++ str "\r\n")
        = (73 :: (str "NTERVAL=" ++ Itoa r.Interval)) ++ str "\r\n" := rfl
    rw [e3, hasAdjacent_skip 59 85 _ _ hI, tailE]
  · have e : str "RRULE:FREQ=" ++ r.Frequency.String
          ++ (if r.Interval > 0 then str ";INTERVAL=" ++ Itoa r.Interval else [])
          ++ (if r.Occurences > 0 then str ";COUNT=" ++ Itoa r.Occurences else [])
          ++ str "\r\n"
        = (str "RRULE:FREQ=" ++ r.Frequency.String)
          ++ 59 :: 67 :: (str "OUNT=" ++ Itoa r.Occurences ++ str "\r\n") := by
      simp only [hi, hc, if_true, if_false, List.append_assoc, eC, List.cons_append,
        List.nil_append]
    rw [e, hasAdjacent_skip 59 85 _ _ hA, tailC]
  · have e : str "RRULE:FREQ=" ++ r.Frequency.String
          ++ (if r.Interval > 0 then str ";INTERVAL=" ++ Itoa r.Interval else [])
          ++ (if r.Occurences > 0 then str ";COUNT=" ++ Itoa r.Occurences else [])
          ++ str "\r\n"
        = (str "RRULE:FREQ=" ++ r.Frequency.String) ++ str "\r\n" := by
      simp only [hi, hc, if_false, List.append_assoc, List.nil_append]
    rw [e, hasAdjacent_skip 59 85 _ _ hA, tailE]

theorem rruleLine_no_until (rrule : GoString) : ¬ (str ";UNTIL=" <:+: rruleLine rrule) := by
  intro h
  have e : str ";UNTIL=" = 59 :: 85 :: str "NTIL=" := by decide
  rw [e] at h
  have h1 := infix_hasAdjacent 59 85 _ _ h
  have h2 : hasAdjacent 59 85 (rruleLine rrule) = false := by
    unfold rruleLine
    split
    · rfl
    · split
      · rename_i r hr
        exact ToICS_no_until r (ParseRepeatRule_no_end_date rrule r hr)
      · rfl
  rw [h2] at h1
  cases h1

theorem ParseRepeatRule_date_ignored (f : Frequency) (n : Nat) (t : Stamp)
    (hn : n < 2 ^ 63) (hv : t.Valid) :
    ParseRepeatRule (f.vcsTag ++ decimal n ++ str " " ++ t.text) false
      = some ⟨f, n, Time.zero, 0⟩ := by
  obtain ⟨⟨a1, a2, a3, a4⟩, -⟩ := id hv
  have hs : f.vcsTag ++ decimal n ++ str " " ++ t.text
      = (f.vcsTag ++ decimal n) ++ 32 :: t.text := by
    have : str " " = [32] := by decide
    simp [this]
  have hsharp : startsWith t.text (str "#") = false := by
    have : str "#" = [35] := by decide
    have h35 : ¬ (35 = 48 + t.y1) := by omega
    simp [startsWith, this, Stamp.text, Stamp.dateText, List.isPrefixOf, h35]
  have hocc : parseOccur t.text false = some (Time.zero, 0) := by
    simp [parseOccur, hsharp]
  unfold ParseRepeatRule
  rw [hs, splitOn_append 32 _ _ (tagged_no_space f n), splitOn_no_sep 32 _ (stamp_no_space t hv)]
  simp only [List.length_cons, List.length_nil, List.headD_cons, List.getLastD_cons,
    List.getLastD_nil, hocc, parseFreq_tagged, Atoi_decimal n hn]
  simp [Time.IsZero]

theorem eventHead_rruleLine (email summary description location rrule : GoString) :
    eventHead email summary description location rrule
      = eventHead email summary description location [] ++ rruleLine rrule := by
  simp [eventHead, rruleLine]

theorem eventContents_unparsed_rule (email : GoString) (now : Time)
    (summary description location dtStart dtEnd rrule dtStamp alarm : GoString)
    (h : ParseRepeatRule rrule false = none) :
    eventContents email now summary description location dtStart dtEnd rrule dtStamp alarm
      = eventContents email now summary description location dtStart dtEnd [] dtStamp alarm := by
  unfold eventContents
  simp only [h, ne_eq, not_true_eq_false, if_false, ite_self]

/-- C21: over a reliable sink `AddEvent` sends, for an event with a start, the
block whose RRULE part is the line of the rule parsed with
`useEndDate = false`; that line never contains `;UNTIL=`, the parsed rule
having no end date.  A rule `<prefix><n> <d>` with `1 ≤ n < 2^63` and a valid
timestamp string `d` is written as `RRULE:FREQ=<name>;INTERVAL=<n>` and
nothing more, and for a rule that does not parse there is no RRULE line and
`AddEvent` does exactly what it does for an empty rule. -/
theorem C21_no_end_date (w : ICSWriter) (now : Time)
    (summary description location dtStart dtEnd rrule dtStamp sequence due status
      alarm : GoString) (f : Frequency) (n : Nat) (t : Stamp)
    (hopen : w.closed = false) (hrel : w.writer.Reliable) (hstart : dtStart ≠ [])
    (hn : 0 < n) (hn2 : n < 2 ^ 63) (hv : t.Valid) :
    (w.AddEvent now true summary description location dtStart dtEnd rrule dtStamp sequence
        due status alarm).1.writer.written
      = w.writer.written ++ headerIfMissing w
        ++ (eventHead w.Email summary description location [] ++ rruleLine rrule
          ++ startEndLines dtStart dtEnd ++ eventTail now summary dtStart dtStamp alarm)
    ∧ ¬ (str ";UNTIL=" <:+: rruleLine rrule)
    ∧ (∀ r, ParseRepeatRule rrule false = some r → r.Until = Time.zero)
    ∧ ParseRepeatRule (f.vcsTag ++ decimal n ++ str " " ++ t.text) false
        = some ⟨f, n, Time.zero, 0⟩
    ∧ rruleLine (f.vcsTag ++ decimal n ++ str " " ++ t.text)
        = str "RRULE:FREQ=" ++ f.String ++ str ";INTERVAL=" ++ decimal n ++ str "\r\n"
    ∧ (ParseRepeatRule rrule false = none →
        rruleLine rrule = []
        ∧ w.AddEvent now true summary description location dtStart dtEnd rrule dtStamp sequence
            due status alarm
          = w.AddEvent now true summary description location dtStart dtEnd [] dtStamp sequence
            due status alarm) := by
  refine ⟨?_, rruleLine_no_until rrule, fun r hr => ParseRepeatRule_no_end_date rrule r hr,
    ParseRepeatRule_date_ignored f n t hn2 hv, ?_, ?_⟩
  · obtain ⟨-, e2, -⟩ := AddEvent_reliable w now true summary description location dtStart dtEnd
      rrule dtStamp sequence due status alarm hopen hrel
    rw [eventContents_eq _ _ _ _ _ _ _ _ _ _ hstart] at e2
    simp only [if_true] at e2
    rw [e2, eventHead_rruleLine]
  · have hne : f.vcsTag ++ decimal n ++ str " " ++ t.text ≠ [] := by
      cases f <;> simp [Frequency.vcsTag, str]
    have hi : ((n : Int) > 0) := by omega
    unfold rruleLine
    rw [if_neg hne, ParseRepeatRule_date_ignored f n t hn2 hv]
    simp [RepeatRule.ToICS, hi, Itoa_natCast, Time.IsZero]
  · intro hnone
    constructor
    · unfold rruleLine
      split
      · rfl
      · rw [hnone]
    · unfold ICSWriter.AddEvent
      simp only [eventContents_unparsed_rule _ _ _ _ _ _ _ _ _ _ hnone]

set_option maxRecDepth 100000 in
theorem C21_no_end_date_witness :
    ((NewICSWriter [] ⟨[], [], none⟩).AddEvent ⟨2025, 11, 4, 9, 30, 0, 0⟩ true (str "Standup")
        [] [] (str "20250601T090000Z") [] (str "D1 20251231T000000Z") (str "20250101T000000Z")
        [] [] [] []).1.writer.written
      = str "BEGIN:VCALENDAR\r\nPRODID:\r\nVERSION:2.0\r\nBEGIN:VEVENT\r\nSUMMARY:Standup\r\nRRULE:FREQ=DAILY;INTERVAL=1\r\nDTSTART:20250601T090000Z\r\nDTSTAMP:20250101T000000Z\r\nEND:VEVENT\r\n"
    ∧ rruleLine (str "D1 20251231T000000Z") = str "RRULE:FREQ=DAILY;INTERVAL=1\r\n"
    ∧ (Convert ⟨str "BEGIN:VEVENT\nSUMMARY:Standup\nDTSTART:20250601T090000Z\nRRULE:D1 20251231T000000Z\nLAST-MODIFIED:20250101T000000Z\nEND:VEVENT\n", false⟩
        ⟨[], [], none⟩ [] (fun _ => ⟨2025, 11, 4, 9, 30, 0, 0⟩)).map
          (fun res => (res.err, res.out.written))
      = some (none, str "BEGIN:VCALENDAR\r\nPRODID:\r\nVERSION:2.0\r\nBEGIN:VEVENT\r\nSUMMARY:Standup\r\nRRULE:FREQ=DAILY;INTERVAL=1\r\nDTSTART:20250601T090000Z\r\nDTSTAMP:20250101T000000Z\r\nEND:VEVENT\r\nEND:VCALENDAR")
    ∧ ((NewICSWriter [] ⟨[], [], none⟩).AddEvent ⟨2025, 11, 4, 9, 30, 0, 0⟩ true (str "Standup")
        [] [] (str "20250601T090000Z") [] (str "every day") (str "20250101T000000Z")
        [] [] [] []).1.writer.written
      = str "BEGIN:VCALENDAR\r\nPRODID:\r\nVERSION:2.0\r\nBEGIN:VEVENT\r\nSUMMARY:Standup\r\nDTSTART:20250601T090000Z\r\nDTSTAMP:20250101T000000Z\r\nEND:VEVENT\r\n" := by
  have hv : (⟨2, 0, 2, 5, 1, 2, 3, 1, 0, 0, 0, 0, 0, 0, true⟩ : Stamp).Valid := by
    unfold Stamp.Valid; decide
  have h := C21_no_end_date (NewICSWriter [] ⟨[], [], none⟩) ⟨2025, 11, 4, 9, 30, 0, 0⟩
    (str "Standup") [] [] (str "20250601T090000Z") [] (str "D1 20251231T000000Z")
    (str "20250101T000000Z") [] [] [] [] Frequency.Daily 1
    ⟨2, 0, 2, 5, 1, 2, 3, 1, 0, 0, 0, 0, 0, 0, true⟩ rfl
    (by simp [Sink.Reliable, NewICSWriter]) (by decide) (by decide) (by decide) hv
  have h2 := C21_no_end_date (NewICSWriter [] ⟨[], [], none⟩) ⟨2025, 11, 4, 9, 30, 0, 0⟩
    (str "Standup") [] [] (str "20250601T090000Z") [] (str "every day")
    (str "20250101T000000Z") [] [] [] [] Frequency.Daily 1
    ⟨2, 0, 2, 5, 1, 2, 3, 1, 0, 0, 0, 0, 0, 0, true⟩ rfl
    (by simp [Sink.Reliable, NewICSWriter]) (by decide) (by decide) (by decide) hv
  refine ⟨h.1.trans (by decide), h.2.2.2.2.1.trans (by decide), by decide, ?_⟩
  rw [(h2.2.2.2.2.2 (by decide)).2]
  decide

/-! ## An alarm line without a semicolon -/

theorem readRecordLoop_fuel : ∀ (f1 f2 : Nat) (rec : Record) (r : Reader),
    r.buf.length < f1 → r.buf.length < f2 →
    readRecordLoop f1 rec r = readRecordLoop f2 rec r := by
  intro f1
  induction f1 with
  | zero => intro f2 rec r h; omega
  | succ f1 ih =>
    intro f2 rec r h1 h2
    obtain ⟨g2, rfl⟩ : ∃ g, f2 = g + 1 := ⟨f2 - 1, by omega⟩
    obtain ⟨buf, broken⟩ := r
    simp only [readRecordLoop, Reader.ReadString]
    by_cases he : (if buf.contains 10 = true then none
        else some (Reader.endErr ⟨buf, broken⟩)) = some Err.readFailure
    · rw [if_pos he, if_pos he]
    rw [if_neg he, if_neg he]
    by_cases hend : (equalFold (trimRightCRLF (lineOf buf)) (str "END:VEVENT")
        || equalFold (trimRightCRLF (lineOf buf)) (str "END:VTODO")) = true
    · rw [if_pos hend, if_pos hend]
    rw [if_neg hend, if_neg hend]
    obtain ⟨fr, hfr, hprop⟩ := processField_total (trimRightCRLF (lineOf buf))
      (if buf.contains 10 = true then none else some (Reader.endErr ⟨buf, broken⟩)) rec
      ⟨afterLine buf, broken⟩
    rw [hfr]
    cases fr with
    | ret e => rfl
    | next rec2 err2 r2 =>
      obtain ⟨p1, p2, p3⟩ := hprop rec2 err2 r2 rfl
      simp only at p1 p2
      by_cases h3 : err2 = some Err.eof
      · simp only [h3, if_true]
      · simp only [h3, if_false]
        have hbuf : buf ≠ [] := by
          intro hb
          subst hb
          have hfr2 := processField_nil (if ([] : GoString).contains 10 = true then none
            else some (Reader.endErr ⟨[], broken⟩)) rec ⟨afterLine [], broken⟩
          rw [lineOf_nil, trimRightCRLF_nil, hfr2] at hfr
          cases hfr
          cases broken
          · exact h3 (by simp [Reader.endErr])
          · exact he (by simp [Reader.endErr])
        have hlt := afterLine_length_lt buf hbuf
        have h1' : buf.length < f1 + 1 := h1
        have h2' : buf.length < g2 + 1 := h2
        exact ih g2 rec2 r2 (by omega) (by omega)

theorem convertLoop_fuel (clock : Nat → Time) : ∀ (f1 f2 : Nat) (w : ICSWriter)
    (recs : List Record) (r : Reader),
    r.buf.length < f1 → r.buf.length < f2 →
    convertLoop clock f1 w recs r = convertLoop clock f2 w recs r := by
  intro f1
  induction f1 with
  | zero => intro f2 w recs r h; omega
  | succ f1 ih =>
    intro f2 w recs r h1 h2
    obtain ⟨g2, rfl⟩ : ∃ g, f2 = g + 1 := ⟨f2 - 1, by omega⟩
    obtain ⟨buf, broken⟩ := r
    have h1' : buf.length < f1 + 1 := h1
    have h2' : buf.length < g2 + 1 := h2
    simp only [convertLoop, Reader.ReadString]
    by_cases he : (if buf.contains 10 = true then none
        else some (Reader.endErr ⟨buf, broken⟩)) = some Err.readFailure
    · rw [if_pos he, if_pos he]
    rw [if_neg he, if_neg he]
    by_cases hend : equalFold (trimRightCRLF (lineOf buf)) (str "END:VCALENDAR") = true
    · rw [if_pos hend, if_pos hend]
    rw [if_neg hend, if_neg hend]
    by_cases hskip : (!equalFold (trimRightCRLF (lineOf buf)) (str "BEGIN:VTODO")
        && !equalFold (trimRightCRLF (lineOf buf)) (str "BEGIN:VEVENT")) = true
    · rw [if_pos hskip, if_pos hskip]
      by_cases heof : (if buf.contains 10 = true then none
          else some (Reader.endErr ⟨buf, broken⟩)) = some Err.eof
      · rw [if_pos heof, if_pos heof]
      · rw [if_neg heof, if_neg heof]
        have hbuf : buf ≠ [] := by
          intro hb
          subst hb
          cases broken
          · exact heof (by simp [Reader.endErr])
          · exact he (by simp [Reader.endErr])
        have hlt := afterLine_length_lt buf hbuf
        exact ih g2 w recs ⟨afterLine buf, broken⟩ (by simp; omega) (by simp; omega)
    · rw [if_neg hskip, if_neg hskip]
      have hbuf : buf ≠ [] := by
        intro hb
        subst hb
        apply hskip
        rw [lineOf_nil, trimRightCRLF_nil]
        decide
      have hlt := afterLine_length_lt buf hbuf
      obtain ⟨res, hres, hp⟩ := readRecordLoop_total ((afterLine buf).length + 1)
        (Record.empty (equalFold (trimRightCRLF (lineOf buf)) (str "BEGIN:VEVENT")))
        ⟨afterLine buf, broken⟩ (by simp)
      rw [hres]
      cases res with
      | error e => rfl
      | ok p =>
        obtain ⟨rec, r2⟩ := p
        obtain ⟨q1, q2⟩ := hp rec r2 rfl
        simp only at q1 ⊢
        rcases hadd : w.addRecord (clock recs.length) rec with ⟨w2, e⟩
        cases e with
        | some e => rfl
        | none => exact ih g2 w2 (recs ++ [rec]) r2 (by omega) (by omega)

theorem indexByte_none (c : Nat) : ∀ x : GoString, (∀ d ∈ x, d ≠ c) → indexByte x c = none := by
  intro x
  induction x with
  | nil => intro _; rfl
  | cons d x ih =>
    intro h
    have hd : d ≠ c := h d (by simp)
    rw [indexByte, if_neg hd, ih (fun y hy => h y (by simp [hy]))]
    rfl

theorem alarmValue_no_semicolon (tag x : GoString) (ht : ∀ d ∈ tag, d ≠ 58)
    (hx : ∀ d ∈ x, d ≠ 59) : alarmValue (tag ++ 58 :: x) = none := by
  unfold alarmValue
  rw [indexByte_append_of_not_mem tag _ 58 ht]
  have e : (tag ++ 58 :: x).drop (tag.length + 1) = x := by
    have : tag ++ 58 :: x = (tag ++ [58]) ++ x := by simp
    rw [this]
    exact List.drop_left' (by simp)
  simp only [e, indexByte_none 59 x hx]

theorem alarmTag_cases (epoc : Bool) (x : GoString) :
    ∃ tag : GoString, alarmTag epoc ++ x = 65 :: (tag ++ 58 :: x) ∧ (∀ d ∈ 65 :: tag, d ≠ 58)
      ∧ (upperStartsWith (65 :: (tag ++ 58 :: x)) (str "AALARM:")
          || upperStartsWith (65 :: (tag ++ 58 :: x)) (str "AALARM;TYPE=X-EPOCSOUND:")) = true := by
  have t1 : str "AALARM:" = [65, 65, 76, 65, 82, 77, 58] := by decide
  have t2 : str "AALARM;TYPE=X-EPOCSOUND:" = [65, 65, 76, 65, 82, 77, 59, 84, 89, 80, 69, 61, 88,
    45, 69, 80, 79, 67, 83, 79, 85, 78, 68, 58] := by decide
  cases epoc
  · refine ⟨[65, 76, 65, 82, 77], ?_, by decide, ?_⟩
    · simp [alarmTag, t1]
    · simp [t1, upperStartsWith_cons, upperStartsWith_nil, upperByte]
  · refine ⟨[65, 76, 65, 82, 77, 59, 84, 89, 80, 69, 61, 88, 45, 69, 80, 79, 67, 83, 79, 85, 78,
      68], ?_, by decide, ?_⟩
    · simp [alarmTag, t2]
    · simp [t1, t2, upperStartsWith_cons, upperStartsWith_nil, upperByte]

theorem processField_alarm_unset (epoc : Bool) (x : GoString) (err : Option Err) (rec : Record)
    (r : Reader) (hx : ∀ d ∈ x, d ≠ 59) :
    processField (alarmTag epoc ++ x) err rec r = some (FieldResult.next rec err r) := by
  obtain ⟨tag, e, ht, hp⟩ := alarmTag_cases epoc x
  obtain ⟨h1, h2, h3, h4, h5, h6, h7, h8, h9, h10, h11, h12⟩ :=
    upperStartsWith_alarm_line (tag ++ 58 :: x)
  have hv : alarmValue (65 :: (tag ++ 58 :: x)) = none :=
    alarmValue_no_semicolon (65 :: tag) x ht hx
  rw [e]
  unfold processField
  simp only [h1, h2, h3, h4, h5, h6, h7, h8, h9, h10, h11, h12, hp, hv, Bool.false_eq_true,
    if_false, if_true]

theorem alarm_line_fold (epoc : Bool) (x : GoString) :
    equalFold (alarmTag epoc ++ x) (str "END:VEVENT") = false
    ∧ equalFold (alarmTag epoc ++ x) (str "END:VTODO") = false := by
  obtain ⟨tag, e, -, -⟩ := alarmTag_cases epoc x
  have e4 : str "END:VEVENT" = [69, 78, 68, 58, 86, 69, 86, 69, 78, 84] := by decide
  have e5 : str "END:VTODO" = [69, 78, 68, 58, 86, 84, 79, 68, 79] := by decide
  rw [e, e4, e5]
  simp [equalFold, upperByte]

theorem SingleLine_alarmTag (epoc : Bool) : SingleLine (alarmTag epoc) := by
  cases epoc <;> (unfold SingleLine alarmTag; decide)

theorem readRecordLoop_alarm_unset (fuel : Nat) (epoc : Bool) (x rest : GoString) (t br : Bool)
    (rec : Record) (hl : SingleLine x) (hx : ∀ d ∈ x, d ≠ 59) :
    readRecordLoop (fuel + 1) rec ⟨alarmTag epoc ++ x ++ lineEnd t ++ rest, br⟩
      = readRecordLoop fuel rec ⟨rest, br⟩ := by
  obtain ⟨f1, f2⟩ := alarm_line_fold epoc x
  rw [readRecordLoop_step fuel rec _ rest t br (SingleLine_tag _ _ (SingleLine_alarmTag epoc) hl)
    f1 f2, processField_alarm_unset epoc x none rec _ hx]
  simp

theorem convertLoop_event_block (clock : Nat → Time) (fuel : Nat) (w : ICSWriter)
    (recs : List Record) (rest : GoString) (t br : Bool) :
    convertLoop clock (fuel + 1) w recs ⟨str "BEGIN:VEVENT" ++ lineEnd t ++ rest, br⟩
      = (match readRecordLoop (rest.length + 1) (Record.empty true) ⟨rest, br⟩ with
        | none => none
        | some (Except.error e) => some (some e, w, recs)
        | some (Except.ok (rec, r2)) =>
          match w.addRecord (clock recs.length) rec with
          | (w2, some e) => some (some (Err.addingEvent e), w2, recs ++ [rec])
          | (w2, none) => convertLoop clock fuel w2 (recs ++ [rec]) r2) := by
  have hl : SingleLine (str "BEGIN:VEVENT") := by unfold SingleLine; decide
  have h1 : equalFold (str "BEGIN:VEVENT") (str "END:VCALENDAR") = false := by decide
  have h2 : equalFold (str "BEGIN:VEVENT") (str "BEGIN:VTODO") = false := by decide
  have h3 : equalFold (str "BEGIN:VEVENT") (str "BEGIN:VEVENT") = true := by decide
  rw [convertLoop, ReadString_line _ rest t br hl]
  simp only [trimRightCRLF_line _ t hl, h1, h2, h3, reduceCtorEq, if_false, Bool.false_eq_true,
    Bool.not_false, Bool.not_true, Bool.and_false]
  try rfl

/-! ## Blocks made of fields with their continuation lines -/

theorem SingleLine_of_all (l : GoString) (h : l.all (fun c => c != 13 && c != 10) = true) :
    SingleLine l := by
  intro c hc
  have := (List.all_eq_true.1 h) c hc
  simpa using this

theorem skipLineOk_spec (l : GoString) (h : skipLineOk l = true) :
    SingleLine l ∧ equalFold l (str "END:VCALENDAR") = false
      ∧ equalFold l (str "BEGIN:VTODO") = false ∧ equalFold l (str "BEGIN:VEVENT") = false := by
  unfold skipLineOk at h
  simp only [Bool.and_eq_true, Bool.not_eq_true'] at h
  obtain ⟨⟨⟨h1, h2⟩, h3⟩, h4⟩ := h
  exact ⟨SingleLine_of_all l h1, h2, h3, h4⟩

theorem foldedLineOk_spec (k : GoString) (h : foldedLineOk k = true) :
    ∃ c x, k = c :: x ∧ isSpace c = true ∧ SingleLine x := by
  cases k with
  | nil => simp [foldedLineOk] at h
  | cons c x =>
    simp only [foldedLineOk, Bool.and_eq_true] at h
    exact ⟨c, x, rfl, h.1.1.1, SingleLine_of_all x h.2⟩

theorem readPossibleMultilineLoop_folded (c : Nat) (y : GoString) (br : Bool)
    (hc : isSpace c = false) : ∀ (ks : List (GoString × Bool)) (v : GoString) (fuel : Nat),
    (∀ p ∈ ks, foldedLineOk p.1 = true) → ks.length < fuel →
    readPossibleMultilineLoop fuel v ⟨vcsLines ks ++ c :: y, br⟩
      = some (v ++ foldedValue ks, none, ⟨c :: y, br⟩) := by
  intro ks
  induction ks with
  | nil =>
    intro v fuel _ hf
    obtain ⟨g, rfl⟩ : ∃ g, fuel = g + 1 := ⟨fuel - 1, by simp at hf; omega⟩
    simp [readPossibleMultilineLoop, vcsLines, foldedValue, hc]
  | cons p ks ih =>
    intro v fuel hk hf
    obtain ⟨k, t⟩ := p
    obtain ⟨c1, x, rfl, h1, h2⟩ := foldedLineOk_spec k (hk (k, t) (by simp))
    obtain ⟨g, rfl⟩ : ∃ g, fuel = g + 1 := ⟨fuel - 1, by simp at hf; omega⟩
    have e : vcsLines ((c1 :: x, t) :: ks) ++ c :: y
        = c1 :: (x ++ lineEnd t ++ (vcsLines ks ++ c :: y)) := by
      simp [vcsLines, List.append_assoc]
    rw [e, readPossibleMultilineLoop]
    simp only [h1, if_true, ReadString_line x _ t br h2, reduceCtorEq, if_false,
      trimRightCRLF_line x t h2]
    rw [ih (v ++ x) g (fun q hq => hk q (by simp [hq])) (by simp at hf; omega)]
    simp [foldedValue, List.append_assoc]

theorem readPossibleMultiline_folded (c : Nat) (y : GoString) (br : Bool)
    (ks : List (GoString × Bool)) (v : GoString) (hk : ks.all (fun p => foldedLineOk p.1) = true)
    (hc : isSpace c = false) :
    readPossibleMultiline v ⟨vcsLines ks ++ c :: y, br⟩
      = some (v ++ foldedValue ks, none, ⟨c :: y, br⟩) := by
  unfold readPossibleMultiline
  apply readPossibleMultilineLoop_folded c y br hc ks v _
    (fun p hp => (List.all_eq_true.1 hk) p hp)
  have := vcsLines_length ks
  simp only [List.length_append]
  omega

theorem readEncryptedFieldLoop_soft (tail : GoString) (br : Bool) :
    ∀ (ks : List (GoString × Bool)) (v : GoString) (fuel : Nat),
    softLinesOk v ks = true → ks.length < fuel →
    readEncryptedFieldLoop fuel v ⟨vcsLines ks ++ tail, br⟩
      = some (Decode (softJoined v ks), none, ⟨tail, br⟩) := by
  intro ks
  induction ks with
  | nil =>
    intro v fuel hk hf
    obtain ⟨g, rfl⟩ : ∃ g, fuel = g + 1 := ⟨fuel - 1, by simp at hf; omega⟩
    have hv : endsWith v [61] = false := by simpa [softLinesOk] using hk
    simp [readEncryptedFieldLoop, vcsLines, softJoined, hv]
  | cons p ks ih =>
    intro v fuel hk hf
    obtain ⟨k, t⟩ := p
    simp only [softLinesOk, Bool.and_eq_true] at hk
    obtain ⟨⟨h1, h2⟩, h3⟩ := hk
    have hl := SingleLine_of_all k h2
    obtain ⟨g, rfl⟩ : ∃ g, fuel = g + 1 := ⟨fuel - 1, by simp at hf; omega⟩
    have e : vcsLines ((k, t) :: ks) ++ tail = k ++ lineEnd t ++ (vcsLines ks ++ tail) := by
      simp [vcsLines, List.append_assoc]
    rw [e, readEncryptedFieldLoop]
    simp only [h1, if_true, ReadString_line k _ t br hl, trimRightCRLF_line k t hl]
    rw [ih (v.dropLast ++ k) g h3 (by simp at hf; omega)]
    rfl

theorem readEncryptedField_soft (tail : GoString) (br : Bool) (ks : List (GoString × Bool))
    (v : GoString) (hk : softLinesOk v ks = true) :
    readEncryptedField v ⟨vcsLines ks ++ tail, br⟩
      = some (Decode (softJoined v ks), none, ⟨tail, br⟩) := by
  unfold readEncryptedField
  apply readEncryptedFieldLoop_soft tail br ks v _ hk
  have := vcsLines_length ks
  simp only [List.length_append]
  omega

theorem fieldDone_next (res : Option (GoString × Option Err × Reader)) (store : GoString → Record)
    (rec2 : Record) (err2 : Option Err) (r2 : Reader)
    (h : fieldDone res store = some (FieldResult.next rec2 err2 r2)) :
    ∃ v, res = some (v, none, r2) ∧ rec2 = store v := by
  unfold fieldDone at h
  split at h
  · cases h
  · cases h
  · cases h
    exact ⟨_, rfl, rfl⟩

theorem FieldLines.Ok_spec (g : FieldLines) (h : g.Ok = true) :
    SingleLine g.head ∧ (∃ c x, g.head = c :: x ∧ isSpace c = false)
      ∧ equalFold g.head (str "END:VEVENT") = false ∧ equalFold g.head (str "END:VTODO") = false := by
  unfold FieldLines.Ok at h
  simp only [Bool.and_eq_true, Bool.not_eq_true'] at h
  obtain ⟨⟨⟨⟨h1, h2⟩, h3⟩, h4⟩, -⟩ := h
  refine ⟨SingleLine_of_all _ h1, ?_, h3, h4⟩
  cases hh : g.head with
  | nil => rw [hh] at h2; simp at h2
  | cons c x => rw [hh] at h2; exact ⟨c, x, rfl, by simpa using h2⟩

theorem processField_group (g : FieldLines) (rec : Record) (c : Nat) (y : GoString) (br : Bool)
    (hok : g.Ok = true) (hc : isSpace c = false) :
    processField g.head none rec ⟨vcsLines g.more ++ c :: y, br⟩
      = some (FieldResult.next (g.store rec) none ⟨c :: y, br⟩) := by
  have hk : (if upperStartsWith g.head (str "SUMMARY:") then
        g.more.all (fun p => foldedLineOk p.1)
      else if upperStartsWith g.head (str "SUMMARY;ENCODING=QUOTED-PRINTABLE") then
        softLinesOk (afterColon g.head) g.more
      else if upperStartsWith g.head (str "LOCATION:") then
        g.more.all (fun p => foldedLineOk p.1)
      else if upperStartsWith g.head (str "LOCATION;ENCODING=QUOTED-PRINTABLE") then
        softLinesOk (afterColon g.head) g.more
      else if upperStartsWith g.head (str "DESCRIPTION:") then
        g.more.all (fun p => foldedLineOk p.1)
      else if upperStartsWith g.head (str "DESCRIPTION;ENCODING=QUOTED-PRINTABLE") then
        softLinesOk (afterColon g.head) g.more
      else g.more.isEmpty) = true := by
    unfold FieldLines.Ok at hok
    simp only [Bool.and_eq_true] at hok
    exact hok.2
  have h69 : isSpace 69 = false := by decide
  unfold FieldLines.store processField
  by_cases h0 : upperStartsWith g.head (str "SUMMARY:") = true
  · simp only [if_pos h0] at hk ⊢
    rw [readPossibleMultiline_folded c y br g.more _ hk hc,
      readPossibleMultiline_folded 69 [] false g.more _ hk h69]
    rfl
  simp only [if_neg h0] at hk ⊢
  by_cases h1 : upperStartsWith g.head (str "SUMMARY;ENCODING=QUOTED-PRINTABLE") = true
  · simp only [if_pos h1] at hk ⊢
    rw [readEncryptedField_soft (c :: y) br g.more _ hk,
      readEncryptedField_soft [69] false g.more _ hk]
    rfl
  simp only [if_neg h1] at hk ⊢
  by_cases h2 : upperStartsWith g.head (str "LOCATION:") = true
  · simp only [if_pos h2] at hk ⊢
    rw [readPossibleMultiline_folded c y br g.more _ hk hc,
      readPossibleMultiline_folded 69 [] false g.more _ hk h69]
    rfl
  simp only [if_neg h2] at hk ⊢
  by_cases h3 : upperStartsWith g.head (str "LOCATION;ENCODING=QUOTED-PRINTABLE") = true
  · simp only [if_pos h3] at hk ⊢
    rw [readEncryptedField_soft (c :: y) br g.more _ hk,
      readEncryptedField_soft [69] false g.more _ hk]
    rfl
  simp only [if_neg h3] at hk ⊢
  by_cases h4 : upperStartsWith g.head (str "DESCRIPTION:") = true
  · simp only [if_pos h4] at hk ⊢
    rw [readPossibleMultiline_folded c y br g.more _ hk hc,
      readPossibleMultiline_folded 69 [] false g.more _ hk h69]
    rfl
  simp only [if_neg h4] at hk ⊢
  by_cases h5 : upperStartsWith g.head (str "DESCRIPTION;ENCODING=QUOTED-PRINTABLE") = true
  · simp only [if_pos h5] at hk ⊢
    rw [readEncryptedField_soft (c :: y) br g.more _ hk,
      readEncryptedField_soft [69] false g.more _ hk]
    rfl
  simp only [if_neg h5] at hk ⊢
  have hm : g.more = [] := by simpa using hk
  simp only [hm, vcsLines, List.nil_append]
  by_cases h6 : upperStartsWith g.head (str "DTSTART:") = true
  · simp only [if_pos h6]
  simp only [if_neg h6]
  by_cases h7 : upperStartsWith g.head (str "DTEND:") = true
  · simp only [if_pos h7]
  simp only [if_neg h7]
  by_cases h8 : upperStartsWith g.head (str "DUE:") = true
  · simp only [if_pos h8]
  simp only [if_neg h8]
  by_cases h9 : upperStartsWith g.head (str "STATUS:") = true
  · simp only [if_pos h9]
  simp only [if_neg h9]
  by_cases h10 : upperStartsWith g.head (str "SEQUENCE:") = true
  · simp only [if_pos h10]
  simp only [if_neg h10]
  by_cases h11 : upperStartsWith g.head (str "RRULE:") = true
  · simp only [if_pos h11]
  simp only [if_neg h11]
  by_cases h12 : (upperStartsWith g.head (str "AALARM:")
      || upperStartsWith g.head (str "AALARM;TYPE=X-EPOCSOUND:")) = true
  · simp only [if_pos h12]
    cases alarmValue g.head <;> rfl
  simp only [if_neg h12]
  by_cases h13 : upperStartsWith g.head (str "LAST-MODIFIED:") = true
  · simp only [if_pos h13]
  simp only [if_neg h13]

theorem processField_keeps (line : GoString) (err : Option Err) (rec : Record) (r : Reader)
    (rec2 : Record) (err2 : Option Err) (r2 : Reader)
    (h : processField line err rec r = some (FieldResult.next rec2 err2 r2)) :
    rec2.isEvent = rec.isEvent
    ∧ (upperStartsWith line (str "DTSTART:") = false → rec2.dtstart = rec.dtstart)
    ∧ ((upperStartsWith line (str "AALARM:")
          || upperStartsWith line (str "AALARM;TYPE=X-EPOCSOUND:")) = false
        ∨ alarmValue line = none → rec2.alarm = rec.alarm) := by
  unfold processField at h
  by_cases h0 : upperStartsWith line (str "SUMMARY:") = true
  · simp only [if_pos h0] at h
    obtain ⟨v, -, rfl⟩ := fieldDone_next _ _ _ _ _ h
    exact ⟨rfl, fun _ => rfl, fun _ => rfl⟩
  simp only [if_neg h0] at h
  by_cases h1 : upperStartsWith line (str "SUMMARY;ENCODING=QUOTED-PRINTABLE") = true
  · simp only [if_pos h1] at h
    obtain ⟨v, -, rfl⟩ := fieldDone_next _ _ _ _ _ h
    exact ⟨rfl, fun _ => rfl, fun _ => rfl⟩
  simp only [if_neg h1] at h
  by_cases h2 : upperStartsWith line (str "LOCATION:") = true
  · simp only [if_pos h2] at h
    obtain ⟨v, -, rfl⟩ := fieldDone_next _ _ _ _ _ h
    exact ⟨rfl, fun _ => rfl, fun _ => rfl⟩
  simp only [if_neg h2] at h
  by_cases h3 : upperStartsWith line (str "LOCATION;ENCODING=QUOTED-PRINTABLE") = true
  · simp only [if_pos h3] at h
    obtain ⟨v, -, rfl⟩ := fieldDone_next _ _ _ _ _ h
    exact ⟨rfl, fun _ => rfl, fun _ => rfl⟩
  simp only [if_neg h3] at h
  by_cases h4 : upperStartsWith line (str "DESCRIPTION:") = true
  · simp only [if_pos h4] at h
    obtain ⟨v, -, rfl⟩ := fieldDone_next _ _ _ _ _ h
    exact ⟨rfl, fun _ => rfl, fun _ => rfl⟩
  simp only [if_neg h4] at h
  by_cases h5 : upperStartsWith line (str "DESCRIPTION;ENCODING=QUOTED-PRINTABLE") = true
  · simp only [if_pos h5] at h
    obtain ⟨v, -, rfl⟩ := fieldDone_next _ _ _ _ _ h
    exact ⟨rfl, fun _ => rfl, fun _ => rfl⟩
  simp only [if_neg h5] at h
  by_cases h6 : upperStartsWith line (str "DTSTART:") = true
  · simp only [if_pos h6] at h
    cases h
    refine ⟨rfl, ?_, fun _ => rfl⟩
    intro hh
    rw [hh] at h6
    cases h6
  simp only [if_neg h6] at h
  by_cases h7 : upperStartsWith line (str "DTEND:") = true
  · simp only [if_pos h7] at h
    cases h
    exact ⟨rfl, fun _ => rfl, fun _ => rfl⟩
  simp only [if_neg h7] at h
  by_cases h8 : upperStartsWith line (str "DUE:") = true
  · simp only [if_pos h8] at h
    cases h
    exact ⟨rfl, fun _ => rfl, fun _ => rfl⟩
  simp only [if_neg h8] at h
  by_cases h9 : upperStartsWith line (str "STATUS:") = true
  · simp only [if_pos h9] at h
    cases h
    exact ⟨rfl, fun _ => rfl, fun _ => rfl⟩
  simp only [if_neg h9] at h
  by_cases h10 : upperStartsWith line (str "SEQUENCE:") = true
  · simp only [if_pos h10] at h
    cases h
    exact ⟨rfl, fun _ => rfl, fun _ => rfl⟩
  simp only [if_neg h10] at h
  by_cases h11 : upperStartsWith line (str "RRULE:") = true
  · simp only [if_pos h11] at h
    cases h
    exact ⟨rfl, fun _ => rfl, fun _ => rfl⟩
  simp only [if_neg h11] at h
  by_cases h12 : (upperStartsWith line (str "AALARM:")
      || upperStartsWith line (str "AALARM;TYPE=X-EPOCSOUND:")) = true
  · simp only [if_pos h12] at h
    cases ha : alarmValue line with
    | none =>
      rw [ha] at h
      cases h
      exact ⟨rfl, fun _ => rfl, fun _ => rfl⟩
    | some a =>
      rw [ha] at h
      cases h
      refine ⟨rfl, fun _ => rfl, ?_⟩
      intro hh
      rcases hh with hh | hh
      · rw [hh] at h12
        cases h12
      · cases hh
  simp only [if_neg h12] at h
  by_cases h13 : upperStartsWith line (str "LAST-MODIFIED:") = true
  · simp only [if_pos h13] at h
    cases h
    exact ⟨rfl, fun _ => rfl, fun _ => rfl⟩
  simp only [if_neg h13] at h
  cases h
  exact ⟨rfl, fun _ => rfl, fun _ => rfl⟩

theorem store_keeps (g : FieldLines) (rec : Record) :
    (g.store rec).isEvent = rec.isEvent
    ∧ (upperStartsWith g.head (str "DTSTART:") = false → (g.store rec).dtstart = rec.dtstart)
    ∧ ((upperStartsWith g.head (str "AALARM:")
          || upperStartsWith g.head (str "AALARM;TYPE=X-EPOCSOUND:")) = false
        ∨ alarmValue g.head = none → (g.store rec).alarm = rec.alarm) := by
  unfold FieldLines.store
  cases h : processField g.head none rec ⟨vcsLines g.more ++ [69], false⟩ with
  | none => exact ⟨rfl, fun _ => rfl, fun _ => rfl⟩
  | some fr =>
    cases fr with
    | ret e => exact ⟨rfl, fun _ => rfl, fun _ => rfl⟩
    | next rec2 err2 r2 => exact processField_keeps _ _ _ _ _ _ _ h

theorem store_dtstart_line (v : GoString) (t : Bool) (rec : Record) :
    (⟨str "DTSTART:" ++ v, t, []⟩ : FieldLines).store rec = { rec with dtstart := v } := by
  unfold FieldLines.store
  rw [processField_dtstart_line]

theorem alarmTag_line (epoc : Bool) (x rest : GoString) :
    alarmTag epoc ++ x ++ str ";" ++ rest
      = (if epoc then str "AALARM;TYPE=X-EPOCSOUND:" ++ x ++ str ";" ++ rest
         else str "AALARM:" ++ x ++ str ";" ++ rest) := by
  cases epoc <;> rfl

theorem store_alarm_line (epoc : Bool) (x rest : GoString) (t : Bool) (rec : Record)
    (hx : ∀ d ∈ x, d ≠ 59) :
    (⟨alarmTag epoc ++ x ++ str ";" ++ rest, t, []⟩ : FieldLines).store rec
      = { rec with alarm := x } := by
  obtain ⟨p1, p2⟩ := processField_alarm_line x rest none rec ⟨vcsLines [] ++ [69], false⟩ hx
  unfold FieldLines.store
  simp only
  rw [alarmTag_line]
  cases epoc
  · simp only [Bool.false_eq_true, if_false, p1]
  · simp only [if_true, p2]

theorem blockText_head (gs : List FieldLines) (c : Nat) (y : GoString)
    (hf : ∀ g ∈ gs, g.Ok = true) (hc : isSpace c = false) :
    ∃ c2 y2, blockText gs ++ c :: y = c2 :: y2 ∧ isSpace c2 = false := by
  cases gs with
  | nil => exact ⟨c, y, rfl, hc⟩
  | cons g gs =>
    obtain ⟨-, ⟨c2, x2, e, h2⟩, -⟩ := g.Ok_spec (hf g (by simp))
    exact ⟨c2, x2 ++ lineEnd g.crlf ++ vcsLines g.more ++ blockText gs ++ c :: y,
      by simp [blockText, FieldLines.text, e], h2⟩

theorem readRecordLoop_groups_tail (c : Nat) (y : GoString) (br : Bool)
    (hc : isSpace c = false) :
    ∀ (gs : List FieldLines) (rec : Record) (f : Nat),
    (∀ g ∈ gs, g.Ok = true) →
    readRecordLoop (f + gs.length) rec ⟨blockText gs ++ c :: y, br⟩
      = readRecordLoop f (foldGroups rec gs) ⟨c :: y, br⟩ := by
  intro gs
  induction gs with
  | nil => intro rec f _; rfl
  | cons g gs ih =>
    intro rec f hf
    obtain ⟨s1, -, s4, s5⟩ := g.Ok_spec (hf g (by simp))
    have hf2 : ∀ q ∈ gs, q.Ok = true := fun q hq => hf q (by simp [hq])
    obtain ⟨c2, y2, e2, h2⟩ := blockText_head gs c y hf2 hc
    have e : blockText (g :: gs) ++ c :: y
        = g.head ++ lineEnd g.crlf ++ (vcsLines g.more ++ (blockText gs ++ c :: y)) := by
      simp [blockText, FieldLines.text, List.append_assoc]
    have ef : f + (g :: gs).length = (f + gs.length) + 1 := by simp; omega
    rw [e, ef, readRecordLoop_step (f + gs.length) rec g.head _ g.crlf br s1 s4 s5, e2,
      processField_group g rec c2 y2 br (hf g (by simp)) h2]
    simp only [reduceCtorEq, if_false]
    rw [← e2, ih (g.store rec) f hf2]
    rfl

theorem readRecordLoop_groups (rest : GoString) (te br : Bool) (gs : List FieldLines)
    (rec : Record) (fuel : Nat) (hfuel : gs.length < fuel)
    (hf : ∀ g ∈ gs, g.Ok = true) :
    readRecordLoop fuel rec ⟨blockText gs ++ (str "END:VEVENT" ++ lineEnd te ++ rest), br⟩
      = some (Except.ok (foldGroups rec gs, ⟨rest, br⟩)) := by
  obtain ⟨g, rfl⟩ : ∃ g, fuel = (g + 1) + gs.length := ⟨fuel - gs.length - 1, by omega⟩
  have e : str "END:VEVENT" ++ lineEnd te ++ rest
      = 69 :: (str "ND:VEVENT" ++ lineEnd te ++ rest) := rfl
  rw [e, readRecordLoop_groups_tail 69 _ br (by decide) gs rec (g + 1) hf, ← e,
    readRecordLoop_end]

theorem blockText_length (gs : List FieldLines) : gs.length ≤ (blockText gs).length := by
  induction gs with
  | nil => simp
  | cons g gs ih =>
    have : 1 ≤ (lineEnd g.crlf).length := by cases g.crlf <;> simp [lineEnd]
    simp only [blockText, FieldLines.text, List.length_append, List.length_cons]
    omega

theorem foldGroups_append (rec : Record) (a b : List FieldLines) :
    foldGroups rec (a ++ b) = foldGroups (foldGroups rec a) b := by
  simp [foldGroups]

theorem foldGroups_keeps_dtstart (b : List FieldLines) : ∀ rec : Record,
    (∀ g ∈ b, upperStartsWith g.head (str "DTSTART:") = false) →
    (foldGroups rec b).dtstart = rec.dtstart := by
  induction b with
  | nil => intro rec _; rfl
  | cons g b ih =>
    intro rec h
    show (foldGroups (g.store rec) b).dtstart = rec.dtstart
    rw [ih (g.store rec) (fun x hx => h x (by simp [hx])), (store_keeps g rec).2.1 (h g (by simp))]

theorem foldGroups_keeps_alarm (b : List FieldLines) : ∀ rec : Record,
    (∀ g ∈ b, (upperStartsWith g.head (str "AALARM:")
      || upperStartsWith g.head (str "AALARM;TYPE=X-EPOCSOUND:")) = false
      ∨ alarmValue g.head = none) →
    (foldGroups rec b).alarm = rec.alarm := by
  induction b with
  | nil => intro rec _; rfl
  | cons g b ih =>
    intro rec h
    show (foldGroups (g.store rec) b).alarm = rec.alarm
    rw [ih (g.store rec) (fun x hx => h x (by simp [hx])), (store_keeps g rec).2.2 (h g (by simp))]

theorem foldGroups_isEvent (b : List FieldLines) : ∀ rec : Record,
    (foldGroups rec b).isEvent = rec.isEvent := by
  induction b with
  | nil => intro rec; rfl
  | cons g b ih =>
    intro rec
    show (foldGroups (g.store rec) b).isEvent = rec.isEvent
    rw [ih (g.store rec), (store_keeps g rec).1]

/-! ## An alarm line without a semicolon, in its block -/

theorem alarm_line_head (epoc : Bool) (x tail : GoString) :
    ∃ c y, alarmTag epoc ++ x ++ tail = c :: y ∧ isSpace c = false := by
  obtain ⟨tag, e, -, -⟩ := alarmTag_cases epoc x
  exact ⟨65, (tag ++ 58 :: x) ++ tail, by rw [e]; rfl, by decide⟩

theorem convertLoop_alarm_unset (clock : Nat → Time) (f1 f2 : Nat) (w : ICSWriter)
    (recs : List Record) (pre x rest : GoString) (epoc t1 t2 br : Bool) (k : Nat) (rec1 : Record)
    (hl : SingleLine x) (hx : ∀ d ∈ x, d ≠ 59)
    (hpre : ∀ (tail : GoString) (f : Nat), (∃ c y, tail = c :: y ∧ isSpace c = false) →
      readRecordLoop (f + k) (Record.empty true) ⟨pre ++ tail, br⟩
        = readRecordLoop f rec1 ⟨tail, br⟩)
    (hrest : (∃ c y, rest = c :: y ∧ isSpace c = false)
      ∨ (∀ f : Nat, readRecordLoop (f + k) (Record.empty true) ⟨pre ++ rest, br⟩
          = readRecordLoop f rec1 ⟨rest, br⟩))
    (h1 : (str "BEGIN:VEVENT" ++ lineEnd t1
      ++ (pre ++ (alarmTag epoc ++ x ++ lineEnd t2 ++ rest))).length < f1)
    (h2 : (str "BEGIN:VEVENT" ++ lineEnd t1 ++ (pre ++ rest)).length < f2) :
    convertLoop clock f1 w recs
        ⟨str "BEGIN:VEVENT" ++ lineEnd t1 ++ (pre ++ (alarmTag epoc ++ x ++ lineEnd t2 ++ rest)), br⟩
      = convertLoop clock f2 w recs ⟨str "BEGIN:VEVENT" ++ lineEnd t1 ++ (pre ++ rest), br⟩ := by
  obtain ⟨a, rfl⟩ : ∃ a, f1 = a + 1 := ⟨f1 - 1, by omega⟩
  obtain ⟨b, rfl⟩ : ∃ b, f2 = b + 1 := ⟨f2 - 1, by omega⟩
  simp only [List.length_append] at h1 h2
  have hle : 1 ≤ (lineEnd t2).length := by cases t2 <;> simp [lineEnd]
  have hb : (str "BEGIN:VEVENT").length = 12 := by decide
  have hrest2 : ∀ f : Nat, readRecordLoop (f + k) (Record.empty true) ⟨pre ++ rest, br⟩
      = readRecordLoop f rec1 ⟨rest, br⟩ := by
    rcases hrest with h | h
    · exact fun f => hpre rest f h
    · exact h
  have hline : ∃ c y, alarmTag epoc ++ x ++ lineEnd t2 ++ rest = c :: y ∧ isSpace c = false := by
    have := alarm_line_head epoc x (lineEnd t2 ++ rest)
    simpa [List.append_assoc] using this
  have r1 : readRecordLoop ((pre ++ (alarmTag epoc ++ x ++ lineEnd t2 ++ rest)).length + 1)
      (Record.empty true) ⟨pre ++ (alarmTag epoc ++ x ++ lineEnd t2 ++ rest), br⟩
      = readRecordLoop (rest.length + 1) rec1 ⟨rest, br⟩ := by
    rw [readRecordLoop_fuel _
      (((pre ++ (alarmTag epoc ++ x ++ lineEnd t2 ++ rest)).length + 1) + k) _ _
      (by simp) (by simp; omega), hpre _ _ hline,
      readRecordLoop_alarm_unset _ epoc x rest t2 br rec1 hl hx]
    exact readRecordLoop_fuel _ _ _ _ (by simp only [List.length_append]; omega) (by simp)
  have r2 : readRecordLoop ((pre ++ rest).length + 1) (Record.empty true) ⟨pre ++ rest, br⟩
      = readRecordLoop (rest.length + 1) rec1 ⟨rest, br⟩ := by
    rw [readRecordLoop_fuel _ (((pre ++ rest).length + 1) + k) _ _ (by simp) (by simp; omega),
      hrest2]
    exact readRecordLoop_fuel _ _ _ _ (by simp only [List.length_append]; omega) (by simp)
  rw [convertLoop_event_block, convertLoop_event_block, r1, r2]
  obtain ⟨res, hres, hp⟩ := readRecordLoop_total (rest.length + 1) rec1 ⟨rest, br⟩ (by simp)
  rw [hres]
  cases res with
  | error e => rfl
  | ok p =>
    obtain ⟨rec, r3⟩ := p
    obtain ⟨q1, -⟩ := hp rec r3 rfl
    simp only at q1 ⊢
    rcases hadd : w.addRecord (clock recs.length) rec with ⟨w2, e⟩
    cases e with
    | some e => rfl
    | none => exact convertLoop_fuel clock a b w2 (recs ++ [rec]) r3 (by omega) (by omega)

/-- C22 (amended): an alarm line `AALARM:x` or `AALARM;TYPE=X-EPOCSOUND:x`
whose text `x` after the colon has no semicolon leaves the record, and so the
alarm, as it was, and the field loop goes on with what follows the line.  Let
the lines `pre` of the event block before it be read as `k` steps in front of
any text that begins with a byte other than white space, and let the text
`rest` after the alarm line begin with such a byte, or `pre` be read the same
way in front of `rest`: then `Convert` on the input with the alarm line equals
`Convert` on the input without it, and so does the rest of the run from any
state of the outer loop.  In particular this holds when the lines before the
alarm line are fields that the loop reads one by one, each with its folded or
quoted-printable continuation lines, and the text after the alarm line begins
with a byte that is not white space.  An event with an unset alarm has a block
without a VALARM part. -/
theorem C22_alarm_without_semicolon (epoc : Bool) (x pre rest : GoString) (t1 t2 br : Bool)
    (k : Nat) (rec1 : Record) (out : Sink) (email : GoString) (clock : Nat → Time)
    (hl : SingleLine x) (hx : ∀ d ∈ x, d ≠ 59)
    (hpre : ∀ (tail : GoString) (f : Nat), (∃ c y, tail = c :: y ∧ isSpace c = false) →
      readRecordLoop (f + k) (Record.empty true) ⟨pre ++ tail, br⟩
        = readRecordLoop f rec1 ⟨tail, br⟩)
    (hrest : (∃ c y, rest = c :: y ∧ isSpace c = false)
      ∨ (∀ f : Nat, readRecordLoop (f + k) (Record.empty true) ⟨pre ++ rest, br⟩
          = readRecordLoop f rec1 ⟨rest, br⟩)) :
    (∀ (err : Option Err) (rec : Record) (reader : Reader),
      processField (alarmTag epoc ++ x) err rec reader = some (FieldResult.next rec err reader))
    ∧ (∀ (fuel : Nat) (rec : Record) (after : GoString),
      readRecordLoop (fuel + 1) rec ⟨alarmTag epoc ++ x ++ lineEnd t2 ++ after, br⟩
        = readRecordLoop fuel rec ⟨after, br⟩)
    ∧ Convert ⟨str "BEGIN:VEVENT" ++ lineEnd t1
          ++ (pre ++ (alarmTag epoc ++ x ++ lineEnd t2 ++ rest)), br⟩ out email clock
        = Convert ⟨str "BEGIN:VEVENT" ++ lineEnd t1 ++ (pre ++ rest), br⟩ out email clock
    ∧ (∀ (w : ICSWriter) (recs : List Record) (m n : Nat),
      convertLoop clock ((str "BEGIN:VEVENT" ++ lineEnd t1
          ++ (pre ++ (alarmTag epoc ++ x ++ lineEnd t2 ++ rest))).length + 1 + m) w recs
          ⟨str "BEGIN:VEVENT" ++ lineEnd t1
            ++ (pre ++ (alarmTag epoc ++ x ++ lineEnd t2 ++ rest)), br⟩
        = convertLoop clock ((str "BEGIN:VEVENT" ++ lineEnd t1 ++ (pre ++ rest)).length + 1 + n)
          w recs ⟨str "BEGIN:VEVENT" ++ lineEnd t1 ++ (pre ++ rest), br⟩)
    ∧ (∀ (gs : List FieldLines) (after : GoString), (∀ g ∈ gs, g.Ok = true) →
      (∃ c y, after = c :: y ∧ isSpace c = false) →
      Convert ⟨str "BEGIN:VEVENT" ++ lineEnd t1
          ++ (blockText gs ++ (alarmTag epoc ++ x ++ lineEnd t2 ++ after)), br⟩ out email clock
        = Convert ⟨str "BEGIN:VEVENT" ++ lineEnd t1 ++ (blockText gs ++ after), br⟩ out email
            clock)
    ∧ (∀ (now : Time) (summary description location dtStart dtEnd rrule dtStamp : GoString),
      dtStart ≠ [] →
      eventContents email now summary description location dtStart dtEnd rrule dtStamp []
        = (eventHead email summary description location rrule ++ startEndLines dtStart dtEnd
            ++ stampLine now dtStamp ++ str "END:VEVENT\r\n", none)) := by
  refine ⟨?_, ?_, ?_, ?_, ?_, ?_⟩
  · intro err rec reader
    exact processField_alarm_unset epoc x err rec reader hx
  · intro fuel rec after
    exact readRecordLoop_alarm_unset fuel epoc x after t2 br rec hl hx
  · unfold Convert
    simp only
    rw [convertLoop_alarm_unset clock _ ((str "BEGIN:VEVENT" ++ lineEnd t1
      ++ (pre ++ rest)).length + 1) (NewICSWriter email out) [] pre x rest epoc t1 t2 br k rec1
      hl hx hpre hrest (by omega) (by omega)]
  · intro w recs m n
    exact convertLoop_alarm_unset clock _ _ w recs pre x rest epoc t1 t2 br k rec1 hl hx hpre
      hrest (by omega) (by omega)
  · intro gs after hg hafter
    have hp : ∀ (tail : GoString) (f : Nat), (∃ c y, tail = c :: y ∧ isSpace c = false) →
        readRecordLoop (f + gs.length) (Record.empty true) ⟨blockText gs ++ tail, br⟩
          = readRecordLoop f (foldGroups (Record.empty true) gs) ⟨tail, br⟩ := by
      intro tail f ht
      obtain ⟨c, y, rfl, hc⟩ := ht
      exact readRecordLoop_groups_tail c y br hc gs (Record.empty true) f hg
    unfold Convert
    simp only
    rw [convertLoop_alarm_unset clock _ ((str "BEGIN:VEVENT" ++ lineEnd t1
      ++ (blockText gs ++ after)).length + 1) (NewICSWriter email out) [] (blockText gs) x after
      epoc t1 t2 br gs.length (foldGroups (Record.empty true) gs) hl hx hp (Or.inl hafter)
      (by omega) (by omega)]
  · intro now summary description location dtStart dtEnd rrule dtStamp hs
    rw [eventContents_eq _ _ _ _ _ _ _ _ _ _ hs]
    simp [eventTail, alarmBlock]

set_option maxRecDepth 100000 in
theorem C22_alarm_without_semicolon_witness :
    Convert ⟨str "BEGIN:VEVENT\nSUMMARY:foo\nAALARM:20250601T084500Z\nDTSTART:20250601T090000Z\nEND:VEVENT\n",
        false⟩ ⟨[], [], none⟩ [] (fun _ => ⟨2025, 11, 4, 9, 30, 0, 0⟩)
      = Convert ⟨str "BEGIN:VEVENT\nSUMMARY:foo\nDTSTART:20250601T090000Z\nEND:VEVENT\n", false⟩
        ⟨[], [], none⟩ [] (fun _ => ⟨2025, 11, 4, 9, 30, 0, 0⟩)
    ∧ (Convert ⟨str "BEGIN:VEVENT\nSUMMARY:foo\nDTSTART:20250601T090000Z\nEND:VEVENT\n", false⟩
        ⟨[], [], none⟩ [] (fun _ => ⟨2025, 11, 4, 9, 30, 0, 0⟩)).map
          (fun res => (res.err, res.out.written))
      = some (none, str "BEGIN:VCALENDAR\r\nPRODID:\r\nVERSION:2.0\r\nBEGIN:VEVENT\r\nSUMMARY:foo\r\nDTSTART:20250601T090000Z\r\nDTSTAMP:20251104T093000Z\r\nEND:VEVENT\r\nEND:VCALENDAR")
    ∧ Convert ⟨str "BEGIN:VEVENT\nDTSTART:20250601T090000Z\nAALARM;TYPE=X-EPOCSOUND:20250601T084500Z\n bar\nEND:VEVENT\n",
        false⟩ ⟨[], [], none⟩ [] (fun _ => ⟨2025, 11, 4, 9, 30, 0, 0⟩)
      = Convert ⟨str "BEGIN:VEVENT\nDTSTART:20250601T090000Z\n bar\nEND:VEVENT\n", false⟩
        ⟨[], [], none⟩ [] (fun _ => ⟨2025, 11, 4, 9, 30, 0, 0⟩)
    ∧ Convert ⟨str "BEGIN:VEVENT\r\nSUMMARY:foo\r\n bar\r\nDESCRIPTION;ENCODING=QUOTED-PRINTABLE:a=\r\nb\r\nAALARM:20250601T084500Z\r\nDTSTART:20250601T090000Z\r\nEND:VEVENT\r\n",
        false⟩ ⟨[], [], none⟩ [] (fun _ => ⟨2025, 11, 4, 9, 30, 0, 0⟩)
      = Convert ⟨str "BEGIN:VEVENT\r\nSUMMARY:foo\r\n bar\r\nDESCRIPTION;ENCODING=QUOTED-PRINTABLE:a=\r\nb\r\nDTSTART:20250601T090000Z\r\nEND:VEVENT\r\n",
        false⟩ ⟨[], [], none⟩ [] (fun _ => ⟨2025, 11, 4, 9, 30, 0, 0⟩) := by
  have hl : SingleLine (str "20250601T084500Z") := by unfold SingleLine; decide
  have hx : ∀ d ∈ str "20250601T084500Z", d ≠ 59 := by decide
  have hpre : ∀ (tail : GoString) (f : Nat), (∃ c y, tail = c :: y ∧ isSpace c = false) →
      readRecordLoop (f + 1) (Record.empty true)
          ⟨blockText [⟨str "SUMMARY:foo", false, []⟩] ++ tail, false⟩
        = readRecordLoop f (foldGroups (Record.empty true) [⟨str "SUMMARY:foo", false, []⟩])
          ⟨tail, false⟩ := by
    intro tail f ht
    obtain ⟨c, y, rfl, hc⟩ := ht
    exact readRecordLoop_groups_tail c y false hc [⟨str "SUMMARY:foo", false, []⟩]
      (Record.empty true) f (by decide)
  have h := (C22_alarm_without_semicolon false (str "20250601T084500Z")
    (blockText [⟨str "SUMMARY:foo", false, []⟩]) (str "DTSTART:20250601T090000Z\nEND:VEVENT\n")
    false false false 1 (foldGroups (Record.empty true) [⟨str "SUMMARY:foo", false, []⟩])
    ⟨[], [], none⟩ [] (fun _ => ⟨2025, 11, 4, 9, 30, 0, 0⟩) hl hx hpre
    (Or.inl ⟨68, str "TSTART:20250601T090000Z\nEND:VEVENT\n", by decide, by decide⟩)).2.2.1
  have e1 : str "BEGIN:VEVENT" ++ lineEnd false
      ++ (blockText [⟨str "SUMMARY:foo", false, []⟩]
        ++ (alarmTag false ++ str "20250601T084500Z" ++ lineEnd false
          ++ str "DTSTART:20250601T090000Z\nEND:VEVENT\n"))
      = str "BEGIN:VEVENT\nSUMMARY:foo\nAALARM:20250601T084500Z\nDTSTART:20250601T090000Z\nEND:VEVENT\n" := by
    decide
  have e2 : str "BEGIN:VEVENT" ++ lineEnd false
      ++ (blockText [⟨str "SUMMARY:foo", false, []⟩]
        ++ str "DTSTART:20250601T090000Z\nEND:VEVENT\n")
      = str "BEGIN:VEVENT\nSUMMARY:foo\nDTSTART:20250601T090000Z\nEND:VEVENT\n" := by
    decide
  rw [e1, e2] at h
  have hpre2 : ∀ (tail : GoString) (f : Nat),
      readRecordLoop (f + 1) (Record.empty true)
          ⟨(str "DTSTART:" ++ str "20250601T090000Z" ++ lineEnd false) ++ tail, false⟩
        = readRecordLoop f { Record.empty true with dtstart := str "20250601T090000Z" }
          ⟨tail, false⟩ := by
    intro tail f
    have sl : SingleLine (str "DTSTART:" ++ str "20250601T090000Z") := by
      unfold SingleLine; decide
    rw [readRecordLoop_step f _ (str "DTSTART:" ++ str "20250601T090000Z") tail false false sl
      (by decide) (by decide), processField_dtstart_line]
    simp
  have g := (C22_alarm_without_semicolon true (str "20250601T084500Z")
    (str "DTSTART:" ++ str "20250601T090000Z" ++ lineEnd false) (str " bar\nEND:VEVENT\n")
    false false false 1 { Record.empty true with dtstart := str "20250601T090000Z" }
    ⟨[], [], none⟩ [] (fun _ => ⟨2025, 11, 4, 9, 30, 0, 0⟩) hl hx
    (fun tail f _ => hpre2 tail f) (Or.inr (fun f => hpre2 _ f))).2.2.1
  have e3 : str "BEGIN:VEVENT" ++ lineEnd false
      ++ ((str "DTSTART:" ++ str "20250601T090000Z" ++ lineEnd false)
        ++ (alarmTag true ++ str "20250601T084500Z" ++ lineEnd false ++ str " bar\nEND:VEVENT\n"))
      = str "BEGIN:VEVENT\nDTSTART:20250601T090000Z\nAALARM;TYPE=X-EPOCSOUND:20250601T084500Z\n bar\nEND:VEVENT\n" := by
    decide
  have e4 : str "BEGIN:VEVENT" ++ lineEnd false
      ++ ((str "DTSTART:" ++ str "20250601T090000Z" ++ lineEnd false) ++ str " bar\nEND:VEVENT\n")
      = str "BEGIN:VEVENT\nDTSTART:20250601T090000Z\n bar\nEND:VEVENT\n" := by
    decide
  rw [e3, e4] at g
  have k := (C22_alarm_without_semicolon false (str "20250601T084500Z")
    (blockText [⟨str "SUMMARY:foo", false, []⟩]) (str "DTSTART:20250601T090000Z\nEND:VEVENT\n")
    true true false 1 (foldGroups (Record.empty true) [⟨str "SUMMARY:foo", false, []⟩])
    ⟨[], [], none⟩ [] (fun _ => ⟨2025, 11, 4, 9, 30, 0, 0⟩) hl hx hpre
    (Or.inl ⟨68, str "TSTART:20250601T090000Z\nEND:VEVENT\n", by decide, by decide⟩)).2.2.2.2.1
    [⟨str "SUMMARY:foo", true, [(str " bar", true)]⟩,
      ⟨str "DESCRIPTION;ENCODING=QUOTED-PRINTABLE:a=", true, [(str "b", true)]⟩]
    (str "DTSTART:20250601T090000Z\r\nEND:VEVENT\r\n") (by decide)
    ⟨68, str "TSTART:20250601T090000Z\r\nEND:VEVENT\r\n", by decide, by decide⟩
  have e5 : str "BEGIN:VEVENT" ++ lineEnd true
      ++ (blockText [⟨str "SUMMARY:foo", true, [(str " bar", true)]⟩,
          ⟨str "DESCRIPTION;ENCODING=QUOTED-PRINTABLE:a=", true, [(str "b", true)]⟩]
        ++ (alarmTag false ++ str "20250601T084500Z" ++ lineEnd true
          ++ str "DTSTART:20250601T090000Z\r\nEND:VEVENT\r\n"))
      = str "BEGIN:VEVENT\r\nSUMMARY:foo\r\n bar\r\nDESCRIPTION;ENCODING=QUOTED-PRINTABLE:a=\r\nb\r\nAALARM:20250601T084500Z\r\nDTSTART:20250601T090000Z\r\nEND:VEVENT\r\n" := by
    decide
  have e6 : str "BEGIN:VEVENT" ++ lineEnd true
      ++ (blockText [⟨str "SUMMARY:foo", true, [(str " bar", true)]⟩,
          ⟨str "DESCRIPTION;ENCODING=QUOTED-PRINTABLE:a=", true, [(str "b", true)]⟩]
        ++ str "DTSTART:20250601T090000Z\r\nEND:VEVENT\r\n")
      = str "BEGIN:VEVENT\r\nSUMMARY:foo\r\n bar\r\nDESCRIPTION;ENCODING=QUOTED-PRINTABLE:a=\r\nb\r\nDTSTART:20250601T090000Z\r\nEND:VEVENT\r\n" := by
    decide
  rw [e5, e6] at k
  exact ⟨h, by decide, g, k⟩

set_option maxRecDepth 100000 in
/-- C22 (counterexample): after `SUMMARY:foo` the alarm line without a
semicolon stands between the summary and a line ` bar` that begins with a
space; with the alarm line the summary written is `foo`, without it the line
` bar` continues the summary and `foobar` is written. -/
theorem C22_counterexample :
    (Convert ⟨str "BEGIN:VEVENT\nSUMMARY:foo\nAALARM:20250601T084500Z\n bar\nDTSTART:20250601T090000Z\nLAST-MODIFIED:20250101T000000Z\nEND:VEVENT\n", false⟩
        ⟨[], [], none⟩ [] (fun _ => ⟨2025, 11, 4, 9, 30, 0, 0⟩)).map
          (fun res => (res.err, res.out.written))
      = some (none, str "BEGIN:VCALENDAR\r\nPRODID:\r\nVERSION:2.0\r\nBEGIN:VEVENT\r\nSUMMARY:foo\r\nDTSTART:20250601T090000Z\r\nDTSTAMP:20250101T000000Z\r\nEND:VEVENT\r\nEND:VCALENDAR")
    ∧ (Convert ⟨str "BEGIN:VEVENT\nSUMMARY:foo\n bar\nDTSTART:20250601T090000Z\nLAST-MODIFIED:20250101T000000Z\nEND:VEVENT\n", false⟩
        ⟨[], [], none⟩ [] (fun _ => ⟨2025, 11, 4, 9, 30, 0, 0⟩)).map
          (fun res => (res.err, res.out.written))
      = some (none, str "BEGIN:VCALENDAR\r\nPRODID:\r\nVERSION:2.0\r\nBEGIN:VEVENT\r\nSUMMARY:foobar\r\nDTSTART:20250601T090000Z\r\nDTSTAMP:20250101T000000Z\r\nEND:VEVENT\r\nEND:VCALENDAR") := by
  refine ⟨by decide, by decide⟩

/-! ## An event block with a start and an alarm, through `Convert` -/

theorem convertLoop_skip_lines (clock : Nat → Time) (w : ICSWriter) (recs : List Record)
    (E : GoString) (br : Bool) : ∀ (hdr : List (GoString × Bool)) (fuel : Nat),
    (∀ p ∈ hdr, skipLineOk p.1 = true) → (vcsLines hdr ++ E).length < fuel →
    convertLoop clock fuel w recs ⟨vcsLines hdr ++ E, br⟩
      = convertLoop clock (E.length + 1) w recs ⟨E, br⟩ := by
  intro hdr
  induction hdr with
  | nil =>
    intro fuel _ hf
    exact convertLoop_fuel clock _ _ w recs ⟨E, br⟩ hf (by simp)
  | cons p hdr ih =>
    intro fuel hh hf
    obtain ⟨l, t⟩ := p
    obtain ⟨s1, s2, s3, s4⟩ := skipLineOk_spec l (hh (l, t) (by simp))
    obtain ⟨g, rfl⟩ : ∃ g, fuel = g + 1 := ⟨fuel - 1, by omega⟩
    have e : vcsLines ((l, t) :: hdr) ++ E = l ++ lineEnd t ++ (vcsLines hdr ++ E) := by
      simp [vcsLines, List.append_assoc]
    have hle : 1 ≤ (lineEnd t).length := by cases t <;> simp [lineEnd]
    rw [e] at hf ⊢
    rw [convertLoop_skip_line clock g w recs l _ t br s1 s2 s3 s4]
    apply ih g (fun q hq => hh q (by simp [hq]))
    simp only [List.length_append] at hf ⊢
    omega

theorem convertLoop_records_extend (clock : Nat → Time) : ∀ (fuel : Nat) (w : ICSWriter)
    (recs : List Record) (r : Reader) (err : Option Err) (w2 : ICSWriter) (recs2 : List Record),
    convertLoop clock fuel w recs r = some (err, w2, recs2) → ∃ more, recs2 = recs ++ more := by
  intro fuel
  induction fuel with
  | zero => intro w recs r err w2 recs2 h; simp [convertLoop] at h
  | succ fuel ih =>
    intro w recs r err w2 recs2 h
    simp only [convertLoop] at h
    split at h
    · cases h; exact ⟨[], by simp⟩
    · split at h
      · cases h; exact ⟨[], by simp⟩
      · split at h
        · split at h
          · cases h; exact ⟨[], by simp⟩
          · exact ih _ _ _ _ _ _ h
        · split at h
          · cases h
          · cases h; exact ⟨[], by simp⟩
          · split at h
            · cases h; exact ⟨[_], rfl⟩
            · obtain ⟨more, hm⟩ := ih _ _ _ _ _ _ h
              exact ⟨_, by rw [hm, List.append_assoc]⟩

theorem foldGroups_start (F1 F2 : List FieldLines) (sv : GoString) (ts : Bool)
    (rec : Record)
    (hs2 : ∀ g ∈ F2, upperStartsWith g.head (str "DTSTART:") = false) :
    (foldGroups rec (F1 ++ ⟨str "DTSTART:" ++ sv, ts, []⟩ :: F2)).dtstart = sv := by
  rw [foldGroups_append]
  show (foldGroups ((⟨str "DTSTART:" ++ sv, ts, []⟩ : FieldLines).store _) F2).dtstart = sv
  rw [foldGroups_keeps_dtstart F2 _ hs2, store_dtstart_line]

theorem foldGroups_alarm (G1 G2 : List FieldLines) (epoc : Bool) (av rest : GoString)
    (ta : Bool) (rec : Record) (hav : ∀ d ∈ av, d ≠ 59)
    (ha2 : ∀ g ∈ G2, (upperStartsWith g.head (str "AALARM:")
      || upperStartsWith g.head (str "AALARM;TYPE=X-EPOCSOUND:")) = false
      ∨ alarmValue g.head = none) :
    (foldGroups rec (G1 ++ ⟨alarmTag epoc ++ av ++ str ";" ++ rest, ta, []⟩ :: G2)).alarm
      = av := by
  rw [foldGroups_append]
  show (foldGroups ((⟨alarmTag epoc ++ av ++ str ";" ++ rest, ta, []⟩ : FieldLines).store _)
    G2).alarm = av
  rw [foldGroups_keeps_alarm G2 _ ha2, store_alarm_line epoc av rest ta _ hav]

theorem readRecordLoop_block (fields : List FieldLines) (te br : Bool) (rest : GoString)
    (hf : ∀ g ∈ fields, g.Ok = true) :
    readRecordLoop ((blockText fields ++ (str "END:VEVENT" ++ lineEnd te ++ rest)).length + 1)
        (Record.empty true) ⟨blockText fields ++ (str "END:VEVENT" ++ lineEnd te ++ rest), br⟩
      = some (Except.ok (foldGroups (Record.empty true) fields, ⟨rest, br⟩)) :=
  readRecordLoop_groups rest te br fields (Record.empty true) _
    (by have := blockText_length fields; simp only [List.length_append]; omega) hf

theorem Convert_event_block (out : Sink) (email : GoString) (clock : Nat → Time)
    (hdr : List (GoString × Bool)) (fields : List FieldLines) (tb te br : Bool)
    (rest : GoString)
    (hrel : out.Reliable) (hh : ∀ p ∈ hdr, skipLineOk p.1 = true)
    (hf : ∀ g ∈ fields, g.Ok = true) :
    ∃ res more, Convert ⟨vcsLines hdr ++ (str "BEGIN:VEVENT" ++ lineEnd tb
          ++ (blockText fields ++ (str "END:VEVENT" ++ lineEnd te ++ rest))), br⟩ out email clock
        = some res
      ∧ res.records = foldGroups (Record.empty true) fields :: more
      ∧ res.out.written = out.written ++ calendarHeader email
          ++ ((recordBlock email (clock 0) (foldGroups (Record.empty true) fields)).getD []
              ++ blocksFrom email clock 1 more)
          ++ str "END:VCALENDAR" := by
  obtain ⟨res, hres, hw⟩ := Convert_written ⟨vcsLines hdr ++ (str "BEGIN:VEVENT" ++ lineEnd tb
    ++ (blockText fields ++ (str "END:VEVENT" ++ lineEnd te ++ rest))), br⟩ out email clock hrel
  have hrec : ∃ more, res.records = foldGroups (Record.empty true) fields :: more := by
    unfold Convert at hres
    simp only at hres
    rw [convertLoop_skip_lines clock _ _ _ br hdr _ hh (by simp)] at hres
    rw [convertLoop_event_line clock _ _ [] _ tb br _ _
      (readRecordLoop_block fields te br rest hf)] at hres
    rcases hadd : (NewICSWriter email out).addRecord (clock ([] : List Record).length)
      (foldGroups (Record.empty true) fields) with ⟨w2, e⟩
    rw [hadd] at hres
    cases e with
    | some e =>
      simp only at hres
      cases hres
      exact ⟨[], rfl⟩
    | none =>
      simp only at hres
      rcases hc : convertLoop clock
        (str "BEGIN:VEVENT" ++ lineEnd tb
          ++ (blockText fields ++ (str "END:VEVENT" ++ lineEnd te ++ rest))).length w2
        ([] ++ [foldGroups (Record.empty true) fields]) ⟨rest, br⟩ with _ | ⟨err, w3, recs3⟩
      · rw [hc] at hres; cases hres
      · rw [hc] at hres
        cases hres
        obtain ⟨more, hm⟩ := convertLoop_records_extend clock _ _ _ _ _ _ _ hc
        exact ⟨more, by rw [hm]; rfl⟩
  obtain ⟨more, hm⟩ := hrec
  refine ⟨res, more, hres, hm, ?_⟩
  rw [hw, hm]
  simp [blocksFrom, List.append_assoc]

/-- C16 (amended): the event block is made of fields that the loop reads one
by one (each a first line that does not begin with white space, with its
folded or quoted-printable continuation lines), among them `DTSTART:` with
the non-empty text `sv`, no start line after it, and an alarm line
`AALARM:av;...` or `AALARM;TYPE=X-EPOCSOUND:av;...` with `av` free of
semicolons, no alarm line with a semicolon after it.  The record of the block has the start
`sv` and exactly the alarm `av`.  Wherever the block stands in the input, the
outer loop with an open writer over a reliable sink hands this record to
`AddEvent`, which sends the event block with the VALARM part between the
DTSTAMP line and `END:VEVENT`, and goes on after the block.  If `sv` and `av`
are valid timestamp strings at most 9223372036 seconds apart, the VALARM part
is the lines `BEGIN:VALARM`, `ACTION:DISPLAY`, `DESCRIPTION:` with the summary,
`TRIGGER:` with `parseDuration` of alarm minus start in seconds, `END:VALARM`,
each ended by CR LF, and the trigger begins with `-P` when the alarm is before
the start; if `sv` or `av` does not parse, the VALARM part is empty.  When
only lines that `Convert` passes over stand before the block, `Convert`
returns and the output is the header, this block, the later blocks and the
footer. -/
theorem C16_alarm_block (out : Sink) (email : GoString) (clock : Nat → Time)
    (hdr : List (GoString × Bool)) (fields F1 F2 G1 G2 : List FieldLines)
    (sv av info rest : GoString) (epoc ts ta tb te br : Bool)
    (hrel : out.Reliable) (hh : ∀ p ∈ hdr, skipLineOk p.1 = true)
    (hf : ∀ g ∈ fields, g.Ok = true)
    (hs : fields = F1 ++ ⟨str "DTSTART:" ++ sv, ts, []⟩ :: F2)
    (hs2 : ∀ g ∈ F2, upperStartsWith g.head (str "DTSTART:") = false)
    (ha : fields = G1 ++ ⟨alarmTag epoc ++ av ++ str ";" ++ info, ta, []⟩ :: G2)
    (ha2 : ∀ g ∈ G2, (upperStartsWith g.head (str "AALARM:")
      || upperStartsWith g.head (str "AALARM;TYPE=X-EPOCSOUND:")) = false
      ∨ alarmValue g.head = none)
    (hsv : sv ≠ []) (hav : ∀ d ∈ av, d ≠ 59) :
    ∃ rec : Record,
      rec = foldGroups (Record.empty true) fields
      ∧ rec.isEvent = true ∧ rec.dtstart = sv ∧ rec.alarm = av
      ∧ (∀ (w : ICSWriter) (recs : List Record) (fuel : Nat),
          w.closed = false → w.writer.Reliable →
          convertLoop clock (fuel + 1) w recs
              ⟨str "BEGIN:VEVENT" ++ lineEnd tb
                ++ (blockText fields ++ (str "END:VEVENT" ++ lineEnd te ++ rest)), br⟩
            = convertLoop clock fuel (w.addRecord (clock recs.length) rec).1 (recs ++ [rec])
                ⟨rest, br⟩
          ∧ (w.addRecord (clock recs.length) rec).1.writer.written
            = w.writer.written ++ headerIfMissing w
              ++ (eventHead w.Email rec.summary rec.description rec.location rec.rrule
                ++ startEndLines sv rec.dtend ++ stampLine (clock recs.length) rec.dtstamp
                ++ alarmBlock rec.summary sv av ++ str "END:VEVENT\r\n"))
      ∧ (∀ s a : Stamp, s.Valid → a.Valid → sv = s.text → av = a.text →
          -9223372036 ≤ a.time.absSeconds - s.time.absSeconds →
          a.time.absSeconds - s.time.absSeconds ≤ 9223372036 →
          alarmBlock rec.summary sv av
            = str "BEGIN:VALARM\r\n" ++ str "ACTION:DISPLAY\r\n"
              ++ (str "DESCRIPTION:" ++ rec.summary ++ str "\r\n")
              ++ (str "TRIGGER:"
                ++ (Alarm.mk (a.time.absSeconds - s.time.absSeconds)).parseDuration
                ++ str "\r\n")
              ++ str "END:VALARM\r\n"
          ∧ (a.time.absSeconds < s.time.absSeconds →
              str "-P" <+: (Alarm.mk (a.time.absSeconds - s.time.absSeconds)).parseDuration))
      ∧ (ParseDate sv = none ∨ ParseDate av = none → alarmBlock rec.summary sv av = [])
      ∧ ∃ res more,
          Convert ⟨vcsLines hdr ++ (str "BEGIN:VEVENT" ++ lineEnd tb
              ++ (blockText fields ++ (str "END:VEVENT" ++ lineEnd te ++ rest))), br⟩ out email
              clock = some res
          ∧ res.records = rec :: more
          ∧ (∀ s a : Stamp, s.Valid → a.Valid → sv = s.text → av = a.text →
              -9223372036 ≤ a.time.absSeconds - s.time.absSeconds →
              a.time.absSeconds - s.time.absSeconds ≤ 9223372036 →
              res.out.written = out.written ++ calendarHeader email
                  ++ (eventHead email rec.summary rec.description rec.location rec.rrule
                    ++ startEndLines sv rec.dtend ++ stampLine (clock 0) rec.dtstamp
                    ++ (str "BEGIN:VALARM\r\n" ++ str "ACTION:DISPLAY\r\n"
                      ++ (str "DESCRIPTION:" ++ rec.summary ++ str "\r\n")
                      ++ (str "TRIGGER:"
                        ++ (Alarm.mk (a.time.absSeconds - s.time.absSeconds)).parseDuration
                        ++ str "\r\n")
                      ++ str "END:VALARM\r\n")
                    ++ str "END:VEVENT\r\n")
                  ++ blocksFrom email clock 1 more ++ str "END:VCALENDAR")
          ∧ (ParseDate sv = none ∨ ParseDate av = none →
              res.out.written = out.written ++ calendarHeader email
                  ++ (eventHead email rec.summary rec.description rec.location rec.rrule
                    ++ startEndLines sv rec.dtend ++ stampLine (clock 0) rec.dtstamp
                    ++ str "END:VEVENT\r\n")
                  ++ blocksFrom email clock 1 more ++ str "END:VCALENDAR") := by
  obtain ⟨res, more, hres, hrecs, hw⟩ :=
    Convert_event_block out email clock hdr fields tb te br rest hrel hh hf
  have hstart : (foldGroups (Record.empty true) fields).dtstart = sv := by
    rw [hs]
    exact foldGroups_start F1 F2 sv ts _ hs2
  have halarm : (foldGroups (Record.empty true) fields).alarm = av := by
    rw [ha]
    exact foldGroups_alarm G1 G2 epoc av info ta _ hav ha2
  have hev : (foldGroups (Record.empty true) fields).isEvent = true := by
    rw [foldGroups_isEvent]
    rfl
  have hblock : ∀ (em : GoString) (now : Time),
      (recordBlock em now (foldGroups (Record.empty true) fields)).getD []
      = eventHead em (foldGroups (Record.empty true) fields).summary
          (foldGroups (Record.empty true) fields).description
          (foldGroups (Record.empty true) fields).location
          (foldGroups (Record.empty true) fields).rrule
        ++ startEndLines sv (foldGroups (Record.empty true) fields).dtend
        ++ stampLine now (foldGroups (Record.empty true) fields).dtstamp
        ++ alarmBlock (foldGroups (Record.empty true) fields).summary sv av
        ++ str "END:VEVENT\r\n" := by
    intro em now
    unfold recordBlock
    rw [hev, hstart, halarm]
    simp [hsv, eventTail]
  have hsome : ∀ (em : GoString) (now : Time),
      (recordBlock em now (foldGroups (Record.empty true) fields)).isSome = true := by
    intro em now
    unfold recordBlock
    rw [hev, hstart]
    simp [hsv]
  rw [hblock] at hw
  have hstamps : ∀ s a : Stamp, s.Valid → a.Valid → sv = s.text → av = a.text →
      -9223372036 ≤ a.time.absSeconds - s.time.absSeconds →
      a.time.absSeconds - s.time.absSeconds ≤ 9223372036 →
      alarmBlock (foldGroups (Record.empty true) fields).summary sv av
        = str "BEGIN:VALARM\r\n" ++ str "ACTION:DISPLAY\r\n"
          ++ (str "DESCRIPTION:" ++ (foldGroups (Record.empty true) fields).summary
            ++ str "\r\n")
          ++ (str "TRIGGER:"
            ++ (Alarm.mk (a.time.absSeconds - s.time.absSeconds)).parseDuration
            ++ str "\r\n")
          ++ str "END:VALARM\r\n" := by
    intro s a hsV haV es ea h1 h2
    rw [es, ea, alarmBlock_stamps _ s a hsV haV h1 h2]
  refine ⟨_, rfl, hev, hstart, halarm, ?_, ?_, ?_, res, more, hres, hrecs, ?_, ?_⟩
  · intro w recs fuel hopen hwrel
    obtain ⟨a1, a2, -⟩ := addRecord_reliable w (clock recs.length)
      (foldGroups (Record.empty true) fields) hopen hwrel
    rw [hsome, if_pos rfl] at a1
    rw [hblock] at a2
    refine ⟨?_, a2⟩
    rw [convertLoop_event_line clock fuel w recs _ tb br _ _
      (readRecordLoop_block fields te br rest hf)]
    rcases hadd : w.addRecord (clock recs.length) (foldGroups (Record.empty true) fields)
      with ⟨w2, e⟩
    rw [hadd] at a1
    simp only at a1
    subst a1
    rfl
  · intro s a hsV haV es ea h1 h2
    refine ⟨hstamps s a hsV haV es ea h1 h2, ?_⟩
    intro hlt
    have hp := parseDuration_sign (a.time.absSeconds - s.time.absSeconds)
    have hneg : ¬ (0 < a.time.absSeconds - s.time.absSeconds) := by omega
    rw [signPrefix, if_neg hneg] at hp
    exact hp
  · intro hp
    exact alarmBlock_unparsed _ sv av hp
  · intro s a hsV haV es ea h1 h2
    rw [hw, hstamps s a hsV haV es ea h1 h2]
    simp only [List.append_assoc]
  · intro hp
    rw [hw, alarmBlock_unparsed _ sv av hp]
    simp only [List.append_assoc, List.append_nil, List.nil_append]

set_option maxRecDepth 100000 in
theorem C16_alarm_block_witness :
    (∃ res more, Convert ⟨str "BEGIN:VCALENDAR\r\nVERSION:1.0\r\nBEGIN:VEVENT\r\nSUMMARY:Dentist\r\n  visit\r\nDTSTART:20250601T090000Z\r\nAALARM;TYPE=X-EPOCSOUND:20250601T084500Z;;0;z:\\alarm.mid\r\nLAST-MODIFIED:20250101T000000Z\r\nEND:VEVENT\r\nEND:VCALENDAR\r\n", false⟩
          ⟨[], [], none⟩ [] (fun _ => ⟨2025, 11, 4, 9, 30, 0, 0⟩) = some res
      ∧ res.records = ⟨true, str "Dentist visit", [], [], [], [], [], str "20250601T090000Z", [],
          str "20250101T000000Z", [], str "20250601T084500Z"⟩ :: more
      ∧ res.out.written = str "BEGIN:VCALENDAR\r\nPRODID:\r\nVERSION:2.0\r\nBEGIN:VEVENT\r\nSUMMARY:Dentist visit\r\nDTSTART:20250601T090000Z\r\nDTSTAMP:20250101T000000Z\r\nBEGIN:VALARM\r\nACTION:DISPLAY\r\nDESCRIPTION:Dentist visit\r\nTRIGGER:-PT15M\r\nEND:VALARM\r\nEND:VEVENT\r\n"
          ++ blocksFrom [] (fun _ => ⟨2025, 11, 4, 9, 30, 0, 0⟩) 1 more ++ str "END:VCALENDAR")
    ∧ (Convert ⟨str "BEGIN:VCALENDAR\r\nVERSION:1.0\r\nBEGIN:VEVENT\r\nSUMMARY:Dentist\r\n  visit\r\nDTSTART:20250601T090000Z\r\nAALARM;TYPE=X-EPOCSOUND:20250601T084500Z;;0;z:\\alarm.mid\r\nLAST-MODIFIED:20250101T000000Z\r\nEND:VEVENT\r\nEND:VCALENDAR\r\n", false⟩
          ⟨[], [], none⟩ [] (fun _ => ⟨2025, 11, 4, 9, 30, 0, 0⟩)).map
          (fun res => (res.err, res.out.written))
      = some (none, str "BEGIN:VCALENDAR\r\nPRODID:\r\nVERSION:2.0\r\nBEGIN:VEVENT\r\nSUMMARY:Dentist visit\r\nDTSTART:20250601T090000Z\r\nDTSTAMP:20250101T000000Z\r\nBEGIN:VALARM\r\nACTION:DISPLAY\r\nDESCRIPTION:Dentist visit\r\nTRIGGER:-PT15M\r\nEND:VALARM\r\nEND:VEVENT\r\nEND:VCALENDAR") := by
  have hsV : (⟨2, 0, 2, 5, 0, 6, 0, 1, 0, 9, 0, 0, 0, 0, true⟩ : Stamp).Valid := by
    unfold Stamp.Valid; decide
  have haV : (⟨2, 0, 2, 5, 0, 6, 0, 1, 0, 8, 4, 5, 0, 0, true⟩ : Stamp).Valid := by
    unfold Stamp.Valid; decide
  obtain ⟨rec, hrec, -, -, -, -, -, -, res, more, hres, hrecs, hvalid, -⟩ :=
    C16_alarm_block ⟨[], [], none⟩ [] (fun _ => ⟨2025, 11, 4, 9, 30, 0, 0⟩)
      [(str "BEGIN:VCALENDAR", true), (str "VERSION:1.0", true)]
      [⟨str "SUMMARY:Dentist", true, [(str "  visit", true)]⟩,
        ⟨str "DTSTART:" ++ str "20250601T090000Z", true, []⟩,
        ⟨alarmTag true ++ str "20250601T084500Z" ++ str ";" ++ str ";0;z:\\alarm.mid", true, []⟩,
        ⟨str "LAST-MODIFIED:20250101T000000Z", true, []⟩]
      [⟨str "SUMMARY:Dentist", true, [(str "  visit", true)]⟩]
      [⟨alarmTag true ++ str "20250601T084500Z" ++ str ";" ++ str ";0;z:\\alarm.mid", true, []⟩,
        ⟨str "LAST-MODIFIED:20250101T000000Z", true, []⟩]
      [⟨str "SUMMARY:Dentist", true, [(str "  visit", true)]⟩,
        ⟨str "DTSTART:" ++ str "20250601T090000Z", true, []⟩]
      [⟨str "LAST-MODIFIED:20250101T000000Z", true, []⟩]
      (str "20250601T090000Z") (str "20250601T084500Z") (str ";0;z:\\alarm.mid")
      (str "END:VCALENDAR\r\n") true true true true true false
      (by intro v hv; cases hv) (by decide) (by decide) rfl (by decide) rfl (by decide)
      (by decide) (by decide)
  have hw := hvalid ⟨2, 0, 2, 5, 0, 6, 0, 1, 0, 9, 0, 0, 0, 0, true⟩
    ⟨2, 0, 2, 5, 0, 6, 0, 1, 0, 8, 4, 5, 0, 0, true⟩ hsV haV (by decide) (by decide)
    (by decide) (by decide)
  have hR : rec = ⟨true, str "Dentist visit", [], [], [], [], [], str "20250601T090000Z", [],
      str "20250101T000000Z", [], str "20250601T084500Z"⟩ := by
    rw [hrec]; decide
  subst hR
  refine ⟨⟨res, more, ?_, hrecs, ?_⟩, by decide⟩
  · rw [← hres]
    decide
  · rw [hw]
    congr 1

set_option maxRecDepth 100000 in
/-- C16 (counterexamples), each a run of `Convert` on a block with the line
`DTSTART:s` and an alarm line.  For the valid strings `19000101T000000Z` and
`22000101T000000Z` the alarm is 9467107200 seconds after the start, whose
rendering is `P109573D`, but the duration saturates and the trigger written is
`P106751DT23H47M16S`.  For an empty start, which does not parse, the record is
not written: `Convert` fails with the error of a missing start date.  When a
second `DTSTART` line follows the first, the trigger is counted from the
second: with the starts 09:00 and then 10:00 and the alarm at 08:45 it is
`-PT1H15M`, not `-PT15M`.  After `SUMMARY:Dentist` and an empty line the start
line is read as a continuation of the summary, and `Convert` fails with the
error of a missing start date.  And after a quoted-printable summary that ends
with `=` the alarm line is read as its continuation: the block is written
without a VALARM part. -/
theorem C16_counterexample :
    ParseDate (str "19000101T000000Z") = some ⟨1900, 1, 1, 0, 0, 0, 0⟩
    ∧ ParseDate (str "22000101T000000Z") = some ⟨2200, 1, 1, 0, 0, 0, 0⟩
    ∧ (⟨2200, 1, 1, 0, 0, 0, 0⟩ : Time).absSeconds - (⟨1900, 1, 1, 0, 0, 0, 0⟩ : Time).absSeconds
        = 9467107200
    ∧ (Alarm.mk 9467107200).parseDuration = str "P109573D"
    ∧ (Convert ⟨str "BEGIN:VEVENT\nSUMMARY:Dentist\nDTSTART:19000101T000000Z\nAALARM:22000101T000000Z;;0;\nLAST-MODIFIED:20250101T000000Z\nEND:VEVENT\n", false⟩
        ⟨[], [], none⟩ [] (fun _ => ⟨2025, 11, 4, 9, 30, 0, 0⟩)).map
          (fun res => (res.err, res.out.written))
      = some (none,
          str "BEGIN:VCALENDAR\r\nPRODID:\r\nVERSION:2.0\r\nBEGIN:VEVENT\r\nSUMMARY:Dentist\r\nDTSTART:19000101T000000Z\r\nDTSTAMP:20250101T000000Z\r\nBEGIN:VALARM\r\nACTION:DISPLAY\r\nDESCRIPTION:Dentist\r\nTRIGGER:P106751DT23H47M16S\r\nEND:VALARM\r\nEND:VEVENT\r\nEND:VCALENDAR")
    ∧ ParseDate [] = none
    ∧ (Convert ⟨str "BEGIN:VEVENT\nDTSTART:\nAALARM:20250601T084500Z;;0;\nEND:VEVENT\n", false⟩
        ⟨[], [], none⟩ [] (fun _ => ⟨2025, 11, 4, 9, 30, 0, 0⟩)).map
          (fun res => (res.err, res.out.written))
      = some (some (Err.addingEvent Err.noStartDate),
          str "BEGIN:VCALENDAR\r\nPRODID:\r\nVERSION:2.0\r\nEND:VCALENDAR")
    ∧ (Convert ⟨str "BEGIN:VEVENT\nSUMMARY:Dentist\nDTSTART:20250601T090000Z\nAALARM:20250601T084500Z;;0;\nDTSTART:20250601T100000Z\nLAST-MODIFIED:20250101T000000Z\nEND:VEVENT\n", false⟩
        ⟨[], [], none⟩ [] (fun _ => ⟨2025, 11, 4, 9, 30, 0, 0⟩)).map
          (fun res => (res.err, res.out.written))
      = some (none,
          str "BEGIN:VCALENDAR\r\nPRODID:\r\nVERSION:2.0\r\nBEGIN:VEVENT\r\nSUMMARY:Dentist\r\nDTSTART:20250601T100000Z\r\nDTSTAMP:20250101T000000Z\r\nBEGIN:VALARM\r\nACTION:DISPLAY\r\nDESCRIPTION:Dentist\r\nTRIGGER:-PT1H15M\r\nEND:VALARM\r\nEND:VEVENT\r\nEND:VCALENDAR")
    ∧ (Convert ⟨str "BEGIN:VEVENT\nSUMMARY:Dentist\n\nDTSTART:20250601T090000Z\nAALARM:20250601T084500Z;;0;\nEND:VEVENT\n", false⟩
        ⟨[], [], none⟩ [] (fun _ => ⟨2025, 11, 4, 9, 30, 0, 0⟩)).map
          (fun res => (res.err, res.records.map (fun rec => (rec.summary, rec.dtstart)),
            res.out.written))
      = some (some (Err.addingEvent Err.noStartDate),
          [(str "DentistDTSTART:20250601T090000Z", [])],
          str "BEGIN:VCALENDAR\r\nPRODID:\r\nVERSION:2.0\r\nEND:VCALENDAR")
    ∧ (Convert ⟨str "BEGIN:VEVENT\nDTSTART:20250601T090000Z\nSUMMARY;ENCODING=QUOTED-PRINTABLE:Dentist=\nAALARM:20250601T084500Z;;0;\nLAST-MODIFIED:20250101T000000Z\nEND:VEVENT\n", false⟩
        ⟨[], [], none⟩ [] (fun _ => ⟨2025, 11, 4, 9, 30, 0, 0⟩)).map
          (fun res => (res.err, res.out.written))
      = some (none,
          str "BEGIN:VCALENDAR\r\nPRODID:\r\nVERSION:2.0\r\nBEGIN:VEVENT\r\nSUMMARY:DentistAALARM:20250601T084500Z;;0;\r\nDTSTART:20250601T090000Z\r\nDTSTAMP:20250101T000000Z\r\nEND:VEVENT\r\nEND:VCALENDAR") := by
  refine ⟨by decide, by decide, by decide, by decide, by decide, by decide, by decide, by decide,
    by decide, by decide⟩

/-! ## Line breaks: from the input to the values of a record -/

theorem crBeforeLF_tail (c : Nat) (rest : GoString) (h : crBeforeLF (c :: rest) = true) :
    crBeforeLF rest = true := by
  cases rest with
  | nil => rfl
  | cons d r =>
    simp only [crBeforeLF, Bool.and_eq_true] at h
    exact h.2

theorem crBeforeLF_split : ∀ buf : GoString, crBeforeLF buf = true →
    SingleLine buf ∨ ∃ l t rest, SingleLine l ∧ buf = l ++ lineEnd t ++ rest
      ∧ crBeforeLF rest = true := by
  intro buf
  induction buf with
  | nil => intro _; exact Or.inl SingleLine_nil
  | cons c b ih =>
    intro h
    have hb := crBeforeLF_tail c b h
    by_cases h10 : c = 10
    · subst h10
      exact Or.inr ⟨[], false, b, SingleLine_nil, by simp [lineEnd], hb⟩
    by_cases h13 : c = 13
    · subst h13
      cases b with
      | nil => simp [crBeforeLF] at h
      | cons d r =>
        simp only [crBeforeLF, Bool.and_eq_true] at h
        have hd : d = 10 := by simpa using h.1
        subst hd
        exact Or.inr ⟨[], true, r, SingleLine_nil, by simp [lineEnd], crBeforeLF_tail _ _ hb⟩
    rcases ih hb with hs | ⟨l, t, rest, hl, e, hr⟩
    · exact Or.inl ((SingleLine_cons_iff c b).2 ⟨⟨h13, h10⟩, hs⟩)
    · exact Or.inr ⟨c :: l, t, rest, (SingleLine_cons_iff c l).2 ⟨⟨h13, h10⟩, hl⟩,
        by rw [e]; simp, hr⟩

theorem lineOf_single (buf : GoString) (h : SingleLine buf) :
    lineOf buf = buf ∧ afterLine buf = [] := by
  have := ReadString_unterminated buf false (fun c hc => (h c hc).2)
  simp only [Reader.ReadString] at this
  injection this with h1 h2
  injection h2 with h2 h3
  injection h3 with h3
  exact ⟨h1, h3⟩

theorem crBeforeLF_line (buf : GoString) (h : crBeforeLF buf = true) :
    SingleLine (trimRightCRLF (lineOf buf)) ∧ crBeforeLF (afterLine buf) = true := by
  rcases crBeforeLF_split buf h with hs | ⟨l, t, rest, hl, e, hr⟩
  · obtain ⟨e1, e2⟩ := lineOf_single buf hs
    rw [e1, e2, trimRightCRLF_single buf hs]
    exact ⟨hs, rfl⟩
  · rw [e, lineOf_line l rest t hl, afterLine_line l rest t hl, trimRightCRLF_line l t hl]
    exact ⟨hl, hr⟩

theorem upperStartsWith_append : ∀ (pat a x : GoString), upperStartsWith a pat = true →
    upperStartsWith (a ++ x) pat = true := by
  intro pat
  induction pat with
  | nil => intro a x _; exact upperStartsWith_nil _
  | cons p ps ih =>
    intro a x h
    cases a with
    | nil => simp [upperStartsWith] at h
    | cons c s =>
      by_cases hc : c < 128
      · rw [upperStartsWith_cons _ _ _ _ hc, Bool.and_eq_true] at h
        rw [List.cons_append, upperStartsWith_cons _ _ _ _ hc, Bool.and_eq_true]
        exact ⟨h.1, ih s x h.2⟩
      · cases s with
        | nil =>
          rw [upperStartsWith.eq_def] at h
          simp [hc] at h
        | cons d s2 =>
          have e : ∀ y : GoString, upperStartsWith (c :: d :: y) (p :: ps)
              = (if c = 196 ∧ d = 177 then p == 73 && upperStartsWith y ps
                 else if c = 197 ∧ d = 191 then p == 83 && upperStartsWith y ps
                 else false) := by
            intro y
            rw [upperStartsWith.eq_def]
            simp only [hc, if_false]
          rw [e] at h
          rw [List.cons_append, List.cons_append, e]
          by_cases h1 : c = 196 ∧ d = 177
          · rw [if_pos h1, Bool.and_eq_true] at h ⊢
            exact ⟨h.1, ih s2 x h.2⟩
          · rw [if_neg h1] at h ⊢
            by_cases h2 : c = 197 ∧ d = 191
            · rw [if_pos h2, Bool.and_eq_true] at h ⊢
              exact ⟨h.1, ih s2 x h.2⟩
            · rw [if_neg h2] at h
              cases h

theorem lineOf_initial (buf : GoString) : lineOf buf <+: buf := by
  induction buf with
  | nil => exact List.prefix_refl _
  | cons c rest ih =>
    by_cases h : c = 10
    · simp [lineOf, h]
    · simp only [lineOf, h, if_false]
      exact (List.prefix_cons_inj c).2 ih

theorem qpTagged_line (buf : GoString) (h : qpTagged buf = false) :
    qpTagged (trimRightCRLF (lineOf buf)) = false := by
  have hp : trimRightCRLF (lineOf buf) <+: buf :=
    (List.rdropWhile_prefix _ _).trans (lineOf_initial buf)
  obtain ⟨x, e⟩ := hp
  cases hq : qpTagged (trimRightCRLF (lineOf buf)) with
  | false => rfl
  | true =>
    have : qpTagged buf = true := by
      unfold qpTagged at hq ⊢
      simp only [Bool.or_eq_true] at hq ⊢
      rw [← e]
      rcases hq with (hq | hq) | hq
      · exact Or.inl (Or.inl (upperStartsWith_append _ _ x hq))
      · exact Or.inl (Or.inr (upperStartsWith_append _ _ x hq))
      · exact Or.inr (upperStartsWith_append _ _ x hq)
    rw [this] at h
    cases h

theorem noQPAfterLF_tail (c : Nat) (rest : GoString) (h : noQPAfterLF (c :: rest) = true) :
    noQPAfterLF rest = true := by
  simp only [noQPAfterLF, Bool.and_eq_true] at h
  exact h.2

theorem noQPAfterLF_afterLine : ∀ buf : GoString, noQPAfterLF buf = true →
    noQPLine (afterLine buf) = true := by
  intro buf
  induction buf with
  | nil => intro _; decide
  | cons c rest ih =>
    intro h
    have hr := noQPAfterLF_tail c rest h
    by_cases hc : c = 10
    · subst hc
      simp only [noQPAfterLF, Bool.and_eq_true] at h
      simp only [afterLine, if_true, noQPLine, Bool.and_eq_true]
      exact ⟨by simpa using h.1, hr⟩
    · simp only [afterLine, hc, if_false]
      exact ih hr

theorem noQPLine_spec (buf : GoString) (h : noQPLine buf = true) :
    qpTagged buf = false ∧ noQPAfterLF buf = true := by
  unfold noQPLine at h
  simp only [Bool.and_eq_true, Bool.not_eq_true'] at h
  exact h

theorem SingleLine_drop (l : GoString) (k : Nat) (h : SingleLine l) : SingleLine (l.drop k) :=
  fun c hc => h c (List.mem_of_mem_drop hc)

theorem SingleLine_dropLast (l : GoString) (h : SingleLine l) : SingleLine l.dropLast :=
  fun c hc => h c (List.mem_of_mem_dropLast hc)

theorem SingleLine_afterColon (l : GoString) (h : SingleLine l) : SingleLine (afterColon l) := by
  unfold afterColon
  split
  · exact h
  · exact SingleLine_drop l _ h

theorem readPossibleMultilineLoop_breaks : ∀ (fuel : Nat) (sb : GoString) (r : Reader)
    (v : GoString) (r2 : Reader),
    readPossibleMultilineLoop fuel sb r = some (v, none, r2) →
    (crBeforeLF r.buf = true → SingleLine sb → SingleLine v ∧ crBeforeLF r2.buf = true)
    ∧ (noQPLine r.buf = true → noQPLine r2.buf = true) := by
  intro fuel
  induction fuel with
  | zero => intro sb r v r2 h; cases h
  | succ fuel ih =>
    intro sb r v r2 h
    obtain ⟨buf, broken⟩ := r
    cases buf with
    | nil =>
      cases broken
      · simp only [readPossibleMultilineLoop, Bool.false_eq_true, if_false] at h
        cases h
        exact ⟨fun h1 h2 => ⟨h2, h1⟩, fun h1 => h1⟩
      · simp only [readPossibleMultilineLoop, if_true] at h
        cases h
    | cons c rest =>
      by_cases hs : isSpace c = true
      · simp only [readPossibleMultilineLoop, hs, if_true, Reader.ReadString] at h
        by_cases he : (if rest.contains 10 then none else some (Reader.endErr ⟨rest, broken⟩))
            = some Err.readFailure
        · rw [if_pos he] at h
          rw [he] at h
          cases h
        · rw [if_neg he] at h
          obtain ⟨i1, i2⟩ := ih _ _ v r2 h
          refine ⟨?_, ?_⟩
          · intro h1 h2
            have hr := crBeforeLF_tail c rest h1
            obtain ⟨l1, l2⟩ := crBeforeLF_line rest hr
            exact i1 l2 ((SingleLine_append_iff _ _).2 ⟨h2, l1⟩)
          · intro h1
            exact i2 (noQPAfterLF_afterLine rest
              (noQPAfterLF_tail c rest (noQPLine_spec _ h1).2))
      · simp only [readPossibleMultilineLoop, hs, Bool.false_eq_true, if_false] at h
        cases h
        exact ⟨fun h1 h2 => ⟨h2, h1⟩, fun h1 => h1⟩

theorem readEncryptedFieldLoop_breaks : ∀ (fuel : Nat) (sb : GoString) (r : Reader)
    (v : GoString) (r2 : Reader),
    readEncryptedFieldLoop fuel sb r = some (v, none, r2) →
    (crBeforeLF r.buf = true → SingleLine sb →
      (∃ u, SingleLine u ∧ v = Decode u) ∧ crBeforeLF r2.buf = true)
    ∧ (noQPLine r.buf = true → noQPLine r2.buf = true) := by
  intro fuel
  induction fuel with
  | zero => intro sb r v r2 h; cases h
  | succ fuel ih =>
    intro sb r v r2 h
    obtain ⟨buf, broken⟩ := r
    by_cases hs : endsWith sb [61] = true
    · simp only [readEncryptedFieldLoop, hs, if_true, Reader.ReadString] at h
      by_cases hc : buf.contains 10 = true
      · simp only [hc, if_true] at h
        obtain ⟨i1, i2⟩ := ih _ _ v r2 h
        refine ⟨?_, ?_⟩
        · intro h1 h2
          obtain ⟨l1, l2⟩ := crBeforeLF_line buf h1
          exact i1 l2 ((SingleLine_append_iff _ _).2 ⟨SingleLine_dropLast sb h2, l1⟩)
        · intro h1
          exact i2 (noQPAfterLF_afterLine buf (noQPLine_spec _ h1).2)
      · simp only [hc, Bool.false_eq_true, if_false] at h
        split at h <;> cases h
    · simp only [readEncryptedFieldLoop, hs, Bool.false_eq_true, if_false] at h
      cases h
      exact ⟨fun h1 h2 => ⟨⟨sb, h2, rfl⟩, h1⟩, fun h1 => h1⟩

theorem qpTagged_of (line : GoString)
    (h : upperStartsWith line (str "SUMMARY;ENCODING=QUOTED-PRINTABLE") = true
      ∨ upperStartsWith line (str "LOCATION;ENCODING=QUOTED-PRINTABLE") = true
      ∨ upperStartsWith line (str "DESCRIPTION;ENCODING=QUOTED-PRINTABLE") = true) :
    qpTagged line = true := by
  unfold qpTagged
  simp only [Bool.or_eq_true]
  rcases h with h | h | h
  · exact Or.inl (Or.inl h)
  · exact Or.inl (Or.inr h)
  · exact Or.inr h

theorem processField_breaks (line : GoString) (err : Option Err) (rec : Record) (r : Reader)
    (rec2 : Record) (err2 : Option Err) (r2 : Reader)
    (h : processField line err rec r = some (FieldResult.next rec2 err2 r2)) :
    (crBeforeLF r.buf = true → SingleLine line →
      crBeforeLF r2.buf = true ∧ (rec.FromLines → rec2.FromLines)
        ∧ (qpTagged line = false → rec.Plain → rec2.Plain))
    ∧ (noQPLine r.buf = true → noQPLine r2.buf = true) := by
  unfold processField at h
  by_cases h0 : upperStartsWith line (str "SUMMARY:") = true
  · simp only [if_pos h0] at h
    obtain ⟨v, hv, rfl⟩ := fieldDone_next _ _ _ _ _ h
    obtain ⟨i1, i2⟩ := readPossibleMultilineLoop_breaks _ _ _ _ _ hv
    refine ⟨?_, i2⟩
    intro hb hl
    obtain ⟨j1, j2⟩ := i1 hb (SingleLine_drop line _ hl)
    refine ⟨j2, ?_, ?_⟩
    · rintro ⟨f1, f2, f3, f4, f5, f6, f7, f8, f9⟩
      exact ⟨Or.inl j1, f2, f3, f4, f5, f6, f7, f8, f9⟩
    · rintro - ⟨f1, f2, f3, f4, f5, f6, f7, f8, f9⟩
      exact ⟨j1, f2, f3, f4, f5, f6, f7, f8, f9⟩
  simp only [if_neg h0] at h
  by_cases h1 : upperStartsWith line (str "SUMMARY;ENCODING=QUOTED-PRINTABLE") = true
  · simp only [if_pos h1] at h
    obtain ⟨v, hv, rfl⟩ := fieldDone_next _ _ _ _ _ h
    obtain ⟨i1, i2⟩ := readEncryptedFieldLoop_breaks _ _ _ _ _ hv
    refine ⟨?_, i2⟩
    intro hb hl
    obtain ⟨⟨u, ju, rfl⟩, j2⟩ := i1 hb (SingleLine_afterColon line hl)
    refine ⟨j2, ?_, ?_⟩
    · rintro ⟨f1, f2, f3, f4, f5, f6, f7, f8, f9⟩
      exact ⟨Or.inr ⟨u, ju, rfl⟩, f2, f3, f4, f5, f6, f7, f8, f9⟩
    · intro hq
      rw [qpTagged_of line (Or.inl h1)] at hq
      cases hq
  simp only [if_neg h1] at h
  by_cases h2 : upperStartsWith line (str "LOCATION:") = true
  · simp only [if_pos h2] at h
    obtain ⟨v, hv, rfl⟩ := fieldDone_next _ _ _ _ _ h
    obtain ⟨i1, i2⟩ := readPossibleMultilineLoop_breaks _ _ _ _ _ hv
    refine ⟨?_, i2⟩
    intro hb hl
    obtain ⟨j1, j2⟩ := i1 hb (SingleLine_drop line _ hl)
    refine ⟨j2, ?_, ?_⟩
    · rintro ⟨f1, f2, f3, f4, f5, f6, f7, f8, f9⟩
      exact ⟨f1, Or.inl j1, f3, f4, f5, f6, f7, f8, f9⟩
    · rintro - ⟨f1, f2, f3, f4, f5, f6, f7, f8, f9⟩
      exact ⟨f1, j1, f3, f4, f5, f6, f7, f8, f9⟩
  simp only [if_neg h2] at h
  by_cases h3 : upperStartsWith line (str "LOCATION;ENCODING=QUOTED-PRINTABLE") = true
  · simp only [if_pos h3] at h
    obtain ⟨v, hv, rfl⟩ := fieldDone_next _ _ _ _ _ h
    obtain ⟨i1, i2⟩ := readEncryptedFieldLoop_breaks _ _ _ _ _ hv
    refine ⟨?_, i2⟩
    intro hb hl
    obtain ⟨⟨u, ju, rfl⟩, j2⟩ := i1 hb (SingleLine_afterColon line hl)
    refine ⟨j2, ?_, ?_⟩
    · rintro ⟨f1, f2, f3, f4, f5, f6, f7, f8, f9⟩
      exact ⟨f1, Or.inr ⟨u, ju, rfl⟩, f3, f4, f5, f6, f7, f8, f9⟩
    · intro hq
      rw [qpTagged_of line (Or.inr (Or.inl h3))] at hq
      cases hq
  simp only [if_neg h3] at h
  by_cases h4 : upperStartsWith line (str "DESCRIPTION:") = true
  · simp only [if_pos h4] at h
    obtain ⟨v, hv, rfl⟩ := fieldDone_next _ _ _ _ _ h
    obtain ⟨i1, i2⟩ := readPossibleMultilineLoop_breaks _ _ _ _ _ hv
    refine ⟨?_, i2⟩
    intro hb hl
    obtain ⟨j1, j2⟩ := i1 hb (SingleLine_drop line _ hl)
    refine ⟨j2, ?_, ?_⟩
    · rintro ⟨f1, f2, f3, f4, f5, f6, f7, f8, f9⟩
      exact ⟨f1, f2, Or.inl j1, f4, f5, f6, f7, f8, f9⟩
    · rintro - ⟨f1, f2, f3, f4, f5, f6, f7, f8, f9⟩
      exact ⟨f1, f2, j1, f4, f5, f6, f7, f8, f9⟩
  simp only [if_neg h4] at h
  by_cases h5 : upperStartsWith line (str "DESCRIPTION;ENCODING=QUOTED-PRINTABLE") = true
  · simp only [if_pos h5] at h
    obtain ⟨v, hv, rfl⟩ := fieldDone_next _ _ _ _ _ h
    obtain ⟨i1, i2⟩ := readEncryptedFieldLoop_breaks _ _ _ _ _ hv
    refine ⟨?_, i2⟩
    intro hb hl
    obtain ⟨⟨u, ju, rfl⟩, j2⟩ := i1 hb (SingleLine_afterColon line hl)
    refine ⟨j2, ?_, ?_⟩
    · rintro ⟨f1, f2, f3, f4, f5, f6, f7, f8, f9⟩
      exact ⟨f1, f2, Or.inr ⟨u, ju, rfl⟩, f4, f5, f6, f7, f8, f9⟩
    · intro hq
      rw [qpTagged_of line (Or.inr (Or.inr h5))] at hq
      cases hq
  simp only [if_neg h5] at h
  by_cases h6 : upperStartsWith line (str "DTSTART:") = true
  · simp only [if_pos h6] at h
    cases h
    refine ⟨?_, fun hq => hq⟩
    intro hb hl
    refine ⟨hb, ?_, ?_⟩
    · rintro ⟨f1, f2, f3, f4, f5, f6, f7, f8, f9⟩
      exact ⟨f1, f2, f3, f4, f5, f6, SingleLine_drop line _ hl, f8, f9⟩
    · rintro - ⟨f1, f2, f3, f4, f5, f6, f7, f8, f9⟩
      exact ⟨f1, f2, f3, f4, f5, f6, SingleLine_drop line _ hl, f8, f9⟩
  simp only [if_neg h6] at h
  by_cases h7 : upperStartsWith line (str "DTEND:") = true
  · simp only [if_pos h7] at h
    cases h
    refine ⟨?_, fun hq => hq⟩
    intro hb hl
    refine ⟨hb, ?_, ?_⟩
    · rintro ⟨f1, f2, f3, f4, f5, f6, f7, f8, f9⟩
      exact ⟨f1, f2, f3, f4, f5, f6, f7, SingleLine_drop line _ hl, f9⟩
    · rintro - ⟨f1, f2, f3, f4, f5, f6, f7, f8, f9⟩
      exact ⟨f1, f2, f3, f4, f5, f6, f7, SingleLine_drop line _ hl, f9⟩
  simp only [if_neg h7] at h
  by_cases h8 : upperStartsWith line (str "DUE:") = true
  · simp only [if_pos h8] at h
    cases h
    refine ⟨?_, fun hq => hq⟩
    intro hb hl
    refine ⟨hb, ?_, ?_⟩
    · rintro ⟨f1, f2, f3, f4, f5, f6, f7, f8, f9⟩
      exact ⟨f1, f2, f3, f4, SingleLine_drop line _ hl, f6, f7, f8, f9⟩
    · rintro - ⟨f1, f2, f3, f4, f5, f6, f7, f8, f9⟩
      exact ⟨f1, f2, f3, f4, SingleLine_drop line _ hl, f6, f7, f8, f9⟩
  simp only [if_neg h8] at h
  by_cases h9 : upperStartsWith line (str "STATUS:") = true
  · simp only [if_pos h9] at h
    cases h
    refine ⟨?_, fun hq => hq⟩
    intro hb hl
    refine ⟨hb, ?_, ?_⟩
    · rintro ⟨f1, f2, f3, f4, f5, f6, f7, f8, f9⟩
      exact ⟨f1, f2, f3, SingleLine_drop line _ hl, f5, f6, f7, f8, f9⟩
    · rintro - ⟨f1, f2, f3, f4, f5, f6, f7, f8, f9⟩
      exact ⟨f1, f2, f3, SingleLine_drop line _ hl, f5, f6, f7, f8, f9⟩
  simp only [if_neg h9] at h
  by_cases h10 : upperStartsWith line (str "SEQUENCE:") = true
  · simp only [if_pos h10] at h
    cases h
    refine ⟨?_, fun hq => hq⟩
    intro hb hl
    refine ⟨hb, ?_, ?_⟩
    · rintro ⟨f1, f2, f3, f4, f5, f6, f7, f8, f9⟩
      exact ⟨f1, f2, f3, f4, f5, SingleLine_drop line _ hl, f7, f8, f9⟩
    · rintro - ⟨f1, f2, f3, f4, f5, f6, f7, f8, f9⟩
      exact ⟨f1, f2, f3, f4, f5, SingleLine_drop line _ hl, f7, f8, f9⟩
  simp only [if_neg h10] at h
  by_cases h11 : upperStartsWith line (str "RRULE:") = true
  · simp only [if_pos h11] at h
    cases h
    refine ⟨?_, fun hq => hq⟩
    intro hb hl
    refine ⟨hb, ?_, ?_⟩
    · rintro ⟨f1, f2, f3, f4, f5, f6, f7, f8, f9⟩
      exact ⟨f1, f2, f3, f4, f5, f6, f7, f8, f9⟩
    · rintro - ⟨f1, f2, f3, f4, f5, f6, f7, f8, f9⟩
      exact ⟨f1, f2, f3, f4, f5, f6, f7, f8, f9⟩
  simp only [if_neg h11] at h
  by_cases h12 : (upperStartsWith line (str "AALARM:")
      || upperStartsWith line (str "AALARM;TYPE=X-EPOCSOUND:")) = true
  · simp only [if_pos h12] at h
    cases ha : alarmValue line with
    | none =>
      rw [ha] at h
      cases h
      exact ⟨fun hb _ => ⟨hb, fun hf => hf, fun _ hp => hp⟩, fun hq => hq⟩
    | some a =>
      rw [ha] at h
      cases h
      exact ⟨fun hb _ => ⟨hb, fun hf => hf, fun _ hp => hp⟩, fun hq => hq⟩
  simp only [if_neg h12] at h
  by_cases h13 : upperStartsWith line (str "LAST-MODIFIED:") = true
  · simp only [if_pos h13] at h
    cases h
    refine ⟨?_, fun hq => hq⟩
    intro hb hl
    refine ⟨hb, ?_, ?_⟩
    · rintro ⟨f1, f2, f3, f4, f5, f6, f7, f8, f9⟩
      exact ⟨f1, f2, f3, f4, f5, f6, f7, f8, SingleLine_drop line _ hl⟩
    · rintro - ⟨f1, f2, f3, f4, f5, f6, f7, f8, f9⟩
      exact ⟨f1, f2, f3, f4, f5, f6, f7, f8, SingleLine_drop line _ hl⟩
  simp only [if_neg h13] at h
  cases h
  exact ⟨fun hb _ => ⟨hb, fun hf => hf, fun _ hp => hp⟩, fun hq => hq⟩

theorem Plain_empty (b : Bool) : (Record.empty b).Plain := by
  unfold Record.Plain Record.empty
  exact ⟨SingleLine_nil, SingleLine_nil, SingleLine_nil, SingleLine_nil, SingleLine_nil,
    SingleLine_nil, SingleLine_nil, SingleLine_nil, SingleLine_nil⟩

theorem FromLines_of_Plain (rec : Record) (h : rec.Plain) : rec.FromLines := by
  obtain ⟨f1, f2, f3, f4, f5, f6, f7, f8, f9⟩ := h
  exact ⟨Or.inl f1, Or.inl f2, Or.inl f3, f4, f5, f6, f7, f8, f9⟩

theorem readRecordLoop_breaks : ∀ (fuel : Nat) (rec : Record) (r : Reader)
    (rec2 : Record) (r2 : Reader),
    readRecordLoop fuel rec r = some (Except.ok (rec2, r2)) → crBeforeLF r.buf = true →
    crBeforeLF r2.buf = true ∧ (rec.FromLines → rec2.FromLines)
      ∧ (noQPLine r.buf = true → noQPLine r2.buf = true ∧ (rec.Plain → rec2.Plain)) := by
  intro fuel
  induction fuel with
  | zero => intro rec r rec2 r2 h; cases h
  | succ fuel ih =>
    intro rec r rec2 r2 h hb
    obtain ⟨buf, broken⟩ := r
    obtain ⟨l1, l2⟩ := crBeforeLF_line buf hb
    simp only [readRecordLoop, Reader.ReadString] at h
    by_cases he : (if buf.contains 10 = true then none
        else some (Reader.endErr ⟨buf, broken⟩)) = some Err.readFailure
    · rw [if_pos he] at h
      cases h
    rw [if_neg he] at h
    by_cases hend : (equalFold (trimRightCRLF (lineOf buf)) (str "END:VEVENT")
        || equalFold (trimRightCRLF (lineOf buf)) (str "END:VTODO")) = true
    · rw [if_pos hend] at h
      cases h
      exact ⟨l2, fun hf => hf, fun hq =>
        ⟨noQPAfterLF_afterLine buf (noQPLine_spec _ hq).2, fun hp => hp⟩⟩
    rw [if_neg hend] at h
    cases hpf : processField (trimRightCRLF (lineOf buf))
        (if buf.contains 10 = true then none else some (Reader.endErr ⟨buf, broken⟩)) rec
        ⟨afterLine buf, broken⟩ with
    | none =>
      rw [hpf] at h
      cases h
    | some fr =>
      rw [hpf] at h
      cases fr with
      | ret e => cases h
      | next rec1 err1 r1 =>
        obtain ⟨p1, p2⟩ := processField_breaks _ _ _ _ _ _ _ hpf
        obtain ⟨q1, q2, q3⟩ := p1 l2 l1
        have step : crBeforeLF r1.buf = true ∧ (rec.FromLines → rec1.FromLines)
            ∧ (noQPLine buf = true → noQPLine r1.buf = true ∧ (rec.Plain → rec1.Plain)) := by
          refine ⟨q1, q2, ?_⟩
          intro hq
          obtain ⟨s1, s2⟩ := noQPLine_spec _ hq
          exact ⟨p2 (noQPAfterLF_afterLine buf s2), q3 (qpTagged_line buf s1)⟩
        by_cases h2 : err1 = some Err.eof
        · simp only [h2, if_true] at h
          cases h
          exact step
        · simp only [h2, if_false] at h
          obtain ⟨t1, t2, t3⟩ := ih rec1 r1 rec2 r2 h step.1
          refine ⟨t1, fun hf => t2 (step.2.1 hf), ?_⟩
          intro hq
          obtain ⟨u1, u2⟩ := step.2.2 hq
          obtain ⟨u3, u4⟩ := t3 u1
          exact ⟨u3, fun hp => u4 (u2 hp)⟩

theorem convertLoop_breaks (clock : Nat → Time) : ∀ (fuel : Nat) (w : ICSWriter)
    (recs : List Record) (r : Reader) (err : Option Err) (w2 : ICSWriter) (recs2 : List Record),
    convertLoop clock fuel w recs r = some (err, w2, recs2) → crBeforeLF r.buf = true →
    ((∀ rec ∈ recs, rec.FromLines) → ∀ rec ∈ recs2, rec.FromLines)
    ∧ (noQPLine r.buf = true → (∀ rec ∈ recs, rec.Plain) → ∀ rec ∈ recs2, rec.Plain) := by
  intro fuel
  induction fuel with
  | zero => intro w recs r err w2 recs2 h; cases h
  | succ fuel ih =>
    intro w recs r err w2 recs2 h hb
    obtain ⟨buf, broken⟩ := r
    obtain ⟨-, l2⟩ := crBeforeLF_line buf hb
    have hq2 : noQPLine buf = true → noQPLine (afterLine buf) = true :=
      fun hq => noQPAfterLF_afterLine buf (noQPLine_spec _ hq).2
    simp only [convertLoop, Reader.ReadString] at h
    by_cases he : (if buf.contains 10 = true then none
        else some (Reader.endErr ⟨buf, broken⟩)) = some Err.readFailure
    · rw [if_pos he] at h
      cases h
      exact ⟨fun hf => hf, fun _ hp => hp⟩
    rw [if_neg he] at h
    by_cases hend : equalFold (trimRightCRLF (lineOf buf)) (str "END:VCALENDAR") = true
    · rw [if_pos hend] at h
      cases h
      exact ⟨fun hf => hf, fun _ hp => hp⟩
    rw [if_neg hend] at h
    by_cases hskip : (!equalFold (trimRightCRLF (lineOf buf)) (str "BEGIN:VTODO")
        && !equalFold (trimRightCRLF (lineOf buf)) (str "BEGIN:VEVENT")) = true
    · rw [if_pos hskip] at h
      by_cases heof : (if buf.contains 10 = true then none
          else some (Reader.endErr ⟨buf, broken⟩)) = some Err.eof
      · rw [if_pos heof] at h
        cases h
        exact ⟨fun hf => hf, fun _ hp => hp⟩
      · rw [if_neg heof] at h
        obtain ⟨i1, i2⟩ := ih _ _ _ _ _ _ h l2
        exact ⟨i1, fun hq => i2 (hq2 hq)⟩
    · rw [if_neg hskip] at h
      cases hrr : readRecordLoop ((afterLine buf).length + 1)
          (Record.empty (equalFold (trimRightCRLF (lineOf buf)) (str "BEGIN:VEVENT")))
          ⟨afterLine buf, broken⟩ with
      | none =>
        simp only [hrr] at h
        cases h
      | some res =>
        simp only [hrr] at h
        cases res with
        | error e =>
          cases h
          exact ⟨fun hf => hf, fun _ hp => hp⟩
        | ok p =>
          obtain ⟨rec, r2⟩ := p
          obtain ⟨t1, t2, t3⟩ := readRecordLoop_breaks _ _ _ _ _ hrr l2
          have hF : (∀ x ∈ recs, x.FromLines) → ∀ x ∈ recs ++ [rec], x.FromLines := by
            intro hf x hx
            rcases List.mem_append.1 hx with hx | hx
            · exact hf x hx
            · rw [List.mem_singleton] at hx
              subst hx
              exact t2 (FromLines_of_Plain _ (Plain_empty _))
          have hP : noQPLine buf = true → (∀ x ∈ recs, x.Plain) →
              ∀ x ∈ recs ++ [rec], x.Plain := by
            intro hq hp x hx
            rcases List.mem_append.1 hx with hx | hx
            · exact hp x hx
            · rw [List.mem_singleton] at hx
              subst hx
              exact (t3 (hq2 hq)).2 (Plain_empty _)
          simp only at h
          rcases hadd : w.addRecord (clock recs.length) rec with ⟨w3, e⟩
          rw [hadd] at h
          cases e with
          | some e =>
            cases h
            exact ⟨hF, hP⟩
          | none =>
            simp only at h
            obtain ⟨i1, i2⟩ := ih _ _ _ _ _ _ h t1
            exact ⟨fun hf => i1 (hF hf), fun hq hp => i2 (t3 (hq2 hq)).1 (hP hq hp)⟩

/-! ## Line breaks: from the values of a record to the output -/

theorem noBareBreak_append : ∀ (n : Nat) (a b : GoString), a.length ≤ n →
    noBareBreak a = true → noBareBreak b = true → noBareBreak (a ++ b) = true := by
  intro n
  induction n with
  | zero =>
    intro a b hn _ hb
    have : a = [] := List.length_eq_zero.1 (by omega)
    subst this
    exact hb
  | succ n ih =>
    intro a b hn ha hb
    cases a with
    | nil => exact hb
    | cons c r =>
      cases r with
      | nil =>
        have hc : c ≠ 13 ∧ c ≠ 10 := by simpa [noBareBreak] using ha
        cases b with
        | nil => exact ha
        | cons d b2 =>
          show noBareBreak (c :: d :: b2) = true
          rw [noBareBreak, if_neg hc.1]
          simp [hc.2, hb]
      | cons d r2 =>
        show noBareBreak (c :: d :: (r2 ++ b)) = true
        rw [noBareBreak] at ha ⊢
        by_cases hc : c = 13
        · rw [if_pos hc] at ha ⊢
          simp only [Bool.and_eq_true] at ha ⊢
          exact ⟨ha.1, ih r2 b (by simp at hn; omega) ha.2 hb⟩
        · rw [if_neg hc] at ha ⊢
          simp only [Bool.and_eq_true] at ha ⊢
          exact ⟨ha.1, ih (d :: r2) b (by simp at hn ⊢; omega) ha.2 hb⟩

theorem noBareBreak_add (a b : GoString) (ha : noBareBreak a = true)
    (hb : noBareBreak b = true) : noBareBreak (a ++ b) = true :=
  noBareBreak_append a.length a b (le_refl _) ha hb

theorem noBareBreak_CRLFText (t : GoString) (h : CRLFText t) : noBareBreak t = true := by
  obtain ⟨lines, hl, rfl⟩ := h
  have := noBareBreak_crlfLines [] lines hl
  simpa using this

theorem noBareBreak_single (l : GoString) (h : SingleLine l) : noBareBreak l = true := by
  induction l with
  | nil => rfl
  | cons c r ih =>
    obtain ⟨⟨h13, h10⟩, hr⟩ := (SingleLine_cons_iff c r).1 h
    have := ih hr
    cases r with
    | nil => simp [noBareBreak, h13, h10]
    | cons d r2 =>
      rw [noBareBreak, if_neg h13]
      simp [h10, this]

theorem noBareBreak_tagged (tag v : GoString) (ht : SingleLine tag)
    (hv : noBareBreak v = true) : noBareBreak (tag ++ v ++ str "\r\n") = true :=
  noBareBreak_add _ _ (noBareBreak_add _ _ (noBareBreak_single tag ht) hv) (by decide)

theorem noBareBreak_optLine (tag v : GoString) (ht : SingleLine tag)
    (hv : noBareBreak v = true) : noBareBreak (optLine tag v) = true := by
  unfold optLine
  split
  · rfl
  · exact noBareBreak_tagged tag v ht hv

theorem noBareBreak_eventHead (email summary description location rrule : GoString)
    (h1 : SingleLine email) (h2 : noBareBreak summary = true)
    (h3 : noBareBreak description = true) (h4 : noBareBreak location = true) :
    noBareBreak (eventHead email summary description location rrule) = true := by
  unfold eventHead
  refine noBareBreak_add _ _ (noBareBreak_add _ _ (noBareBreak_add _ _ (noBareBreak_add _ _
    (noBareBreak_add _ _ (by decide) ?_) ?_) ?_) ?_)
    (noBareBreak_CRLFText _ (CRLFText_rruleLine rrule))
  · exact noBareBreak_optLine _ _ (by unfold SingleLine; decide) (noBareBreak_single _ h1)
  · exact noBareBreak_optLine _ _ (by unfold SingleLine; decide) h2
  · exact noBareBreak_optLine _ _ (by unfold SingleLine; decide) h3
  · exact noBareBreak_optLine _ _ (by unfold SingleLine; decide) h4

theorem noBareBreak_startEndLines (dtStart dtEnd : GoString)
    (h1 : noBareBreak dtStart = true) (h2 : noBareBreak dtEnd = true) :
    noBareBreak (startEndLines dtStart dtEnd) = true := by
  have hs : SingleLine (str "DTSTART:") := by unfold SingleLine; decide
  have hv : SingleLine (str "DTSTART;VALUE=DATE:") := by unfold SingleLine; decide
  have he : SingleLine (str "DTEND:") := by unfold SingleLine; decide
  have plain : noBareBreak (str "DTSTART:" ++ dtStart ++ str "\r\n") = true :=
    noBareBreak_tagged _ _ hs h1
  unfold startEndLines
  split
  · split
    · split
      · exact noBareBreak_tagged _ _ hv
          (noBareBreak_single _ (SingleLine_FormatTimeForDayEvent _))
      · exact plain
    · exact plain
  · exact noBareBreak_add _ _ plain (noBareBreak_optLine _ _ he h2)

theorem noBareBreak_stampLine (now : Time) (dtStamp : GoString)
    (h : noBareBreak dtStamp = true) : noBareBreak (stampLine now dtStamp) = true := by
  have hs : SingleLine (str "DTSTAMP:") := by unfold SingleLine; decide
  unfold stampLine
  refine noBareBreak_tagged _ _ hs ?_
  split
  · exact noBareBreak_single _ (SingleLine_FormatDate now)
  · exact h

theorem noBareBreak_ToICS (a : Alarm) (summary : GoString) (h : noBareBreak summary = true) :
    noBareBreak (a.ToICS summary ++ str "\r\n") = true := by
  have e : a.ToICS summary ++ str "\r\n"
      = str "BEGIN:VALARM\r\n" ++ str "ACTION:DISPLAY\r\n"
        ++ (str "DESCRIPTION:" ++ summary ++ str "\r\n")
        ++ (str "TRIGGER:" ++ a.parseDuration ++ str "\r\n") ++ str "END:VALARM\r\n" := by
    have e1 : str "BEGIN:VALARM\r\n" = str "BEGIN:VALARM" ++ newLine := by decide
    have e2 : str "ACTION:DISPLAY\r\n" = str "ACTION:DISPLAY" ++ newLine := by decide
    have e3 : str "\r\n" = newLine := by decide
    have e4 : str "END:VALARM\r\n" = str "END:VALARM" ++ newLine := by decide
    simp only [Alarm.ToICS, e1, e2, e3, e4, List.append_assoc]
  rw [e]
  refine noBareBreak_add _ _ (noBareBreak_add _ _ (noBareBreak_add _ _ (by decide) ?_) ?_)
    (by decide)
  · exact noBareBreak_tagged _ _ (by unfold SingleLine; decide) h
  · exact noBareBreak_tagged _ _ (by unfold SingleLine; decide)
      (noBareBreak_single _ (SingleLine_parseDuration a))

theorem noBareBreak_alarmBlock (summary dtStart alarm : GoString)
    (h : noBareBreak summary = true) : noBareBreak (alarmBlock summary dtStart alarm) = true := by
  unfold alarmBlock
  split
  · rfl
  · split
    · exact noBareBreak_ToICS _ summary h
    · rfl

theorem noBareBreak_todoBlock (email : GoString) (now : Time)
    (summary dtStamp sequence due status : GoString)
    (h0 : SingleLine email) (h1 : noBareBreak summary = true) (h2 : noBareBreak dtStamp = true)
    (h3 : noBareBreak sequence = true) (h4 : noBareBreak due = true)
    (h5 : noBareBreak status = true) :
    noBareBreak (todoBlock email now summary dtStamp sequence due status) = true := by
  have e : todoBlock email now summary dtStamp sequence due status
      = str "BEGIN:VTODO\r\n" ++ stampLine now dtStamp
        ++ (str "SEQUENCE:" ++ (if sequence = [] then str "0" else sequence) ++ str "\r\n")
        ++ optLine (str "ORGANIZER:") email ++ optLine (str "DUE:") due
        ++ optLine (str "STATUS:") status ++ optLine (str "SUMMARY:") summary
        ++ str "END:VTODO\r\n" := by
    simp only [todoBlock, List.append_assoc]
  rw [e]
  refine noBareBreak_add _ _ (noBareBreak_add _ _ (noBareBreak_add _ _ (noBareBreak_add _ _
    (noBareBreak_add _ _ (noBareBreak_add _ _ (noBareBreak_add _ _ (by decide)
      (noBareBreak_stampLine now dtStamp h2)) ?_) ?_) ?_) ?_) ?_) (by decide)
  · refine noBareBreak_tagged _ _ (by unfold SingleLine; decide) ?_
    split
    · decide
    · exact h3
  · exact noBareBreak_optLine _ _ (by unfold SingleLine; decide) (noBareBreak_single _ h0)
  · exact noBareBreak_optLine _ _ (by unfold SingleLine; decide) h4
  · exact noBareBreak_optLine _ _ (by unfold SingleLine; decide) h5
  · exact noBareBreak_optLine _ _ (by unfold SingleLine; decide) h1

theorem noBareBreak_recordBlock (email : GoString) (now : Time) (rec : Record)
    (he : SingleLine email) (hp : rec.BreakFree) :
    noBareBreak ((recordBlock email now rec).getD []) = true := by
  obtain ⟨p1, p2, p3, p4, p5, p6, p7, p8, p9⟩ := hp
  unfold recordBlock
  split
  · split
    · rfl
    · simp only [Option.getD_some]
      refine noBareBreak_add _ _ (noBareBreak_add _ _
        (noBareBreak_eventHead _ _ _ _ _ he p1 p3 p2) (noBareBreak_startEndLines _ _ p7 p8)) ?_
      unfold eventTail
      exact noBareBreak_add _ _ (noBareBreak_add _ _ (noBareBreak_stampLine _ _ p9)
        (noBareBreak_alarmBlock _ _ _ p1)) (by decide)
  · simp only [Option.getD_some]
    exact noBareBreak_todoBlock _ _ _ _ _ _ _ he p1 p9 p6 p5 p4

theorem noBareBreak_blocksFrom (email : GoString) (clock : Nat → Time) (he : SingleLine email) :
    ∀ (recs : List Record) (k : Nat), (∀ rec ∈ recs, rec.BreakFree) →
      noBareBreak (blocksFrom email clock k recs) = true := by
  intro recs
  induction recs with
  | nil => intro k _; rfl
  | cons rec rest ih =>
    intro k h
    unfold blocksFrom
    exact noBareBreak_add _ _ (noBareBreak_recordBlock email _ rec he (h rec (by simp)))
      (ih (k + 1) (fun r hr => h r (by simp [hr])))

/-- C19 (amended): over a sink whose writes succeed, for every input stream
and every email without CR or LF, `Convert` returns, with or without an
error, and what it has sent is the header, the blocks of the records it
handed to `AddEvent` and `END:VCALENDAR`.  When every CR of the input is
immediately followed by an LF, each value of these records that is written as
it stands holds no CR and no LF, except that a summary, location or
description may be the decoding of a quoted-printable text without CR and LF.
When moreover no line of the input starts with a quoted-printable tag, no
value holds a CR or LF and the output is a sequence of lines without CR or LF
inside, each ended by CR LF, followed by `END:VCALENDAR` without a
terminator, so that every CR is immediately followed by an LF and every LF
immediately preceded by a CR.  For every input, the output has that last
property whenever each written value has it. -/
theorem C19_crlf_lines (input : Reader) (out : Sink) (email : GoString) (clock : Nat → Time)
    (hrel : out.Reliable) (he : SingleLine email) :
    ∃ res, Convert input out email clock = some res
      ∧ res.out.written = out.written ++ (calendarHeader email
          ++ blocksFrom email clock 0 res.records ++ str "END:VCALENDAR")
      ∧ (crBeforeLF input.buf = true →
          (∀ rec ∈ res.records, rec.FromLines)
          ∧ (noQPLine input.buf = true →
              (∀ rec ∈ res.records, rec.Plain)
              ∧ ∃ lines : List GoString, (∀ l ∈ lines, SingleLine l)
                ∧ res.out.written = out.written ++ crlfLines lines ++ str "END:VCALENDAR"
                ∧ noBareBreak (crlfLines lines ++ str "END:VCALENDAR") = true))
      ∧ ((∀ rec ∈ res.records, rec.BreakFree) →
          noBareBreak (calendarHeader email ++ blocksFrom email clock 0 res.records
            ++ str "END:VCALENDAR") = true) := by
  obtain ⟨res, h1, h2⟩ := Convert_written input out email clock hrel
  have hloop : ∃ err w, convertLoop clock (input.buf.length + 1) (NewICSWriter email out) []
      input = some (err, w, res.records) := by
    unfold Convert at h1
    cases hc : convertLoop clock (input.buf.length + 1) (NewICSWriter email out) [] input with
    | none =>
      rw [hc] at h1
      cases h1
    | some p =>
      obtain ⟨err, w, recs⟩ := p
      rw [hc] at h1
      cases h1
      exact ⟨err, w, rfl⟩
  obtain ⟨err, w, hloop⟩ := hloop
  refine ⟨res, h1, ?_, ?_, ?_⟩
  · rw [h2]
    simp only [List.append_assoc]
  · intro hb
    obtain ⟨i1, i2⟩ := convertLoop_breaks clock _ _ _ _ _ _ _ hloop hb
    refine ⟨i1 (by intro x hx; cases hx), ?_⟩
    intro hq
    have hp := i2 hq (by intro x hx; cases hx)
    refine ⟨hp, ?_⟩
    obtain ⟨lines, hl, e⟩ := CRLFText_append _ _ (CRLFText_calendarHeader email he)
      (CRLFText_blocksFrom email clock he res.records 0 hp)
    refine ⟨lines, hl, ?_, ?_⟩
    · rw [h2, ← e]
      simp only [List.append_assoc]
    · rw [noBareBreak_crlfLines _ lines hl]
      decide
  · intro hv
    exact noBareBreak_add _ _ (noBareBreak_add _ _
      (noBareBreak_CRLFText _ (CRLFText_calendarHeader email he))
      (noBareBreak_blocksFrom email clock he res.records 0 hv)) (by decide)

set_option maxRecDepth 100000 in
theorem C19_crlf_lines_witness :
    (crBeforeLF (str "BEGIN:VCALENDAR\r\nVERSION:1.0\r\nBEGIN:VEVENT\r\nSUMMARY:Team\r\n  meeting\r\nDTSTART:20250601T090000Z\r\nAALARM;TYPE=X-EPOCSOUND:20250601T084500Z;;0;\r\nLAST-MODIFIED:20250101T000000Z\r\nEND:VEVENT\r\nEND:VCALENDAR\r\n") = true
      ∧ noQPLine (str "BEGIN:VCALENDAR\r\nVERSION:1.0\r\nBEGIN:VEVENT\r\nSUMMARY:Team\r\n  meeting\r\nDTSTART:20250601T090000Z\r\nAALARM;TYPE=X-EPOCSOUND:20250601T084500Z;;0;\r\nLAST-MODIFIED:20250101T000000Z\r\nEND:VEVENT\r\nEND:VCALENDAR\r\n") = true
      ∧ ∃ res lines, Convert ⟨str "BEGIN:VCALENDAR\r\nVERSION:1.0\r\nBEGIN:VEVENT\r\nSUMMARY:Team\r\n  meeting\r\nDTSTART:20250601T090000Z\r\nAALARM;TYPE=X-EPOCSOUND:20250601T084500Z;;0;\r\nLAST-MODIFIED:20250101T000000Z\r\nEND:VEVENT\r\nEND:VCALENDAR\r\n", false⟩
            ⟨[], [], none⟩ (str "a@b.com") (fun _ => ⟨2025, 11, 4, 9, 30, 0, 0⟩) = some res
          ∧ (∀ rec ∈ res.records, rec.Plain) ∧ (∀ l ∈ lines, SingleLine l)
          ∧ res.out.written = ([] : GoString) ++ crlfLines lines ++ str "END:VCALENDAR")
    ∧ (Convert ⟨str "BEGIN:VCALENDAR\r\nVERSION:1.0\r\nBEGIN:VEVENT\r\nSUMMARY:Team\r\n  meeting\r\nDTSTART:20250601T090000Z\r\nAALARM;TYPE=X-EPOCSOUND:20250601T084500Z;;0;\r\nLAST-MODIFIED:20250101T000000Z\r\nEND:VEVENT\r\nEND:VCALENDAR\r\n", false⟩
          ⟨[], [], none⟩ (str "a@b.com") (fun _ => ⟨2025, 11, 4, 9, 30, 0, 0⟩)).map
          (fun res => (res.err, res.out.written))
      = some (none, str "BEGIN:VCALENDAR\r\nPRODID:a@b.com\r\nVERSION:2.0\r\nBEGIN:VEVENT\r\nORGANIZER:a@b.com\r\nSUMMARY:Team meeting\r\nDTSTART:20250601T090000Z\r\nDTSTAMP:20250101T000000Z\r\nBEGIN:VALARM\r\nACTION:DISPLAY\r\nDESCRIPTION:Team meeting\r\nTRIGGER:-PT15M\r\nEND:VALARM\r\nEND:VEVENT\r\nEND:VCALENDAR")
    ∧ (∃ res, Convert ⟨str "BEGIN:VEVENT\nSUMMARY;ENCODING=QUOTED-PRINTABLE:a=0d=0ab=0D=0Ac\nDTSTART:20250601T090000Z\nLAST-MODIFIED:20250101T000000Z\nEND:VEVENT\n", false⟩
          ⟨[], [], none⟩ [] (fun _ => ⟨2025, 11, 4, 9, 30, 0, 0⟩) = some res
        ∧ res.records.map (fun rec => rec.summary) = [str "a\r\nb\\nc"]
        ∧ res.out.written = str "BEGIN:VCALENDAR\r\nPRODID:\r\nVERSION:2.0\r\nBEGIN:VEVENT\r\nSUMMARY:a\r\nb\\nc\r\nDTSTART:20250601T090000Z\r\nDTSTAMP:20250101T000000Z\r\nEND:VEVENT\r\nEND:VCALENDAR"
        ∧ noBareBreak res.out.written = true) := by
  have hrel : (⟨[], [], none⟩ : Sink).Reliable := by intro v hv; cases hv
  obtain ⟨res, hres, -, h1, -⟩ := C19_crlf_lines
    ⟨str "BEGIN:VCALENDAR\r\nVERSION:1.0\r\nBEGIN:VEVENT\r\nSUMMARY:Team\r\n  meeting\r\nDTSTART:20250601T090000Z\r\nAALARM;TYPE=X-EPOCSOUND:20250601T084500Z;;0;\r\nLAST-MODIFIED:20250101T000000Z\r\nEND:VEVENT\r\nEND:VCALENDAR\r\n", false⟩
    ⟨[], [], none⟩ (str "a@b.com") (fun _ => ⟨2025, 11, 4, 9, 30, 0, 0⟩) hrel
    (by unfold SingleLine; decide)
  obtain ⟨hp, lines, hl, hw, -⟩ := (h1 (by decide)).2 (by decide)
  obtain ⟨res2, hres2, hw2, -, h3⟩ := C19_crlf_lines
    ⟨str "BEGIN:VEVENT\nSUMMARY;ENCODING=QUOTED-PRINTABLE:a=0d=0ab=0D=0Ac\nDTSTART:20250601T090000Z\nLAST-MODIFIED:20250101T000000Z\nEND:VEVENT\n", false⟩
    ⟨[], [], none⟩ [] (fun _ => ⟨2025, 11, 4, 9, 30, 0, 0⟩) hrel (by unfold SingleLine; decide)
  have e2 : (Convert ⟨str "BEGIN:VEVENT\nSUMMARY;ENCODING=QUOTED-PRINTABLE:a=0d=0ab=0D=0Ac\nDTSTART:20250601T090000Z\nLAST-MODIFIED:20250101T000000Z\nEND:VEVENT\n", false⟩
      ⟨[], [], none⟩ [] (fun _ => ⟨2025, 11, 4, 9, 30, 0, 0⟩)).map
        (fun res => (res.records, res.out.written))
      = some ([⟨true, str "a\r\nb\\nc", [], [], [], [], [], str "20250601T090000Z", [],
          str "20250101T000000Z", [], []⟩],
        str "BEGIN:VCALENDAR\r\nPRODID:\r\nVERSION:2.0\r\nBEGIN:VEVENT\r\nSUMMARY:a\r\nb\\nc\r\nDTSTART:20250601T090000Z\r\nDTSTAMP:20250101T000000Z\r\nEND:VEVENT\r\nEND:VCALENDAR") := by
    decide
  rw [hres2] at e2
  simp only [Option.map_some', Option.some.injEq, Prod.mk.injEq] at e2
  obtain ⟨e3, e4⟩ := e2
  have hbf : ∀ rec ∈ res2.records, rec.BreakFree := by
    intro rec hrec
    rw [e3, List.mem_singleton] at hrec
    subst hrec
    unfold Record.BreakFree
    decide
  have hnb := h3 hbf
  refine ⟨⟨by decide, by decide, res, lines, hres, hp, hl, hw⟩, by decide,
    ⟨res2, hres2, by rw [e3]; rfl, e4, ?_⟩⟩
  rw [hw2]
  exact hnb

set_option maxRecDepth 100000 in
/-- C19 (counterexamples): the quoted-printable summary `a=0Ab` decodes to a
value with an LF inside; `Convert` succeeds and the output holds the line
`SUMMARY:a`, a bare LF, and `b`.  And a CR inside an input line stays in the
value: for `SUMMARY:a`, CR, `b` the output holds a CR followed by `b`. -/
theorem C19_counterexample :
    (Convert ⟨str "BEGIN:VEVENT\nSUMMARY;ENCODING=QUOTED-PRINTABLE:a=0Ab\nDTSTART:20250601T090000Z\nLAST-MODIFIED:20250101T000000Z\nEND:VEVENT\n", false⟩
        ⟨[], [], none⟩ [] (fun _ => ⟨2025, 11, 4, 9, 30, 0, 0⟩)).map
          (fun res => (res.err, res.out.written, noBareBreak res.out.written))
      = some (none,
          str "BEGIN:VCALENDAR\r\nPRODID:\r\nVERSION:2.0\r\nBEGIN:VEVENT\r\nSUMMARY:a\nb\r\nDTSTART:20250601T090000Z\r\nDTSTAMP:20250101T000000Z\r\nEND:VEVENT\r\nEND:VCALENDAR",
          false)
    ∧ (Convert ⟨str "BEGIN:VEVENT\nSUMMARY:a\rb\nDTSTART:20250601T090000Z\nLAST-MODIFIED:20250101T000000Z\nEND:VEVENT\n", false⟩
        ⟨[], [], none⟩ [] (fun _ => ⟨2025, 11, 4, 9, 30, 0, 0⟩)).map
          (fun res => (res.err, res.out.written, noBareBreak res.out.written))
      = some (none,
          str "BEGIN:VCALENDAR\r\nPRODID:\r\nVERSION:2.0\r\nBEGIN:VEVENT\r\nSUMMARY:a\rb\r\nDTSTART:20250601T090000Z\r\nDTSTAMP:20250101T000000Z\r\nEND:VEVENT\r\nEND:VCALENDAR",
          false) := by
  refine ⟨by decide, by decide⟩
end VcsToIcs
